import Mathlib

/-!
# Flash: the firmware package, the update job, the devices and the orchestrator

A shallow embedding of `src/core/firmwarepackage.cpp`, `src/core/updatejob.cpp`,
`src/plugins/serial/serialdevice.cpp`, `src/plugins/network/networkdevice.cpp`
and `src/core/flashupcore.cpp`, and of the library routines they call, followed
by the properties that are established about them.

Conventions of the embedding.

* A byte is a natural number below 256 and a `QByteArray` is a list of bytes.
* `QString` is `String`; `QMap<QString, QString>` is a key-sorted association
  list with unique keys.
* `qint64`, `int` and `quint32` values are integers; each C++ operation that can
  leave the range of its type is followed by the reduction into that range
  (`toQint64`, `toInt`, `toQuint32`).
* A thrown `std::runtime_error` is the `Except.error` of the value naming its
  message.
* Three things the code depends on lie outside the repository and are gathered
  in `Env`: whether plain `char` is a signed type on the build platform, the
  JSON parser `QJsonDocument::fromJson` and the digest
  `QCryptographicHash::hash(_, Sha256).toHex()`.  General statements hold for
  every `Env`; closed statements are evaluated in `desktop`, which has a signed
  `char` (x86, x86-64 and Apple ABIs), the SHA-256 of FIPS 180-4 and a reader
  for flat JSON objects.
* A `QObject` is the record of its member variables; a member function takes
  the record and returns the record after it.  The signals that an update job
  emits and the calls it makes on its device are collected, in order, in a list
  of `Effect`.
* A single-shot `QTimer` is the pair of its running flag and its interval; the
  event loop is the sequence of inputs: a timeout is an input, and acts only
  while the timer runs.
* The device of an update job is abstract in the source (`DeviceInterface`).
  A member function of the job stops at its call on the device
  (`UpdateJob.Pending`).  In `UpdateJob.step` the device is given by the answers
  to the calls and its signals arrive between the member functions of the job;
  in `Session` the device is the serial device, connected to the job as the
  constructor of the job connects it, and a signal runs its slot at the point
  where it is emitted, inside the call that emits it.
* The `double` of the progress computation is modelled exactly, with the
  rounding of IEEE 754.
* The network device reads and writes JSON with contents (`JsonValue`); the
  JSON routines of Qt that it calls are gathered in `NetEnv`, and closed
  statements are evaluated in `netDesktop`.  `QByteArray::mid` and `remove` are
  those of Qt 5, whose sizes are `int`.
* The loop of `NetworkDevice::processResponse` need not end: its model returns
  an `Option`, which is `none` when the loop has not ended after the turns it
  is given; the turns that take something from the buffer are fewer than the
  buffer has bytes.
* A device by itself (`Wire`) has its signals connected to a record of them;
  its inputs are the requests to send, the data that arrives and the timeout
  of its timer.
* The orchestrator `FlashUpCore` is the record of its three members together
  with the signals it has emitted.  A shared pointer is an `Option`.  The jobs
  of the orchestrator are jobs whose device is given by its answers; the slots
  that the orchestrator connects to a job run for the signals of each member
  function of the job, in order.  A file is given by its contents at the call
  that names its path.
-/

namespace Flash

/-! ## Machine integers -/

/-- Reduction of an integer into the range of `qint64`. -/
def toQint64 (x : Int) : Int := (x + 9223372036854775808) % 18446744073709551616 - 9223372036854775808

/-- Reduction of an integer into the range of `int` (32 bits), as `static_cast<int>`. -/
def toInt (x : Int) : Int := (x + 2147483648) % 4294967296 - 2147483648

/-- Reduction of a natural number into the range of `quint32`. -/
def toQuint32 (x : Nat) : Nat := x % 4294967296

/-! ## Qt containers -/

/-- A `QByteArray`: a list of bytes. -/
abbrev QByteArray := List Nat

/-- The bytes of an ASCII text. -/
def ascii (s : String) : QByteArray := s.data.map Char.toNat

/-- Order of `QString` keys: lexicographic on the code units. -/
def keyLt (a b : String) : Bool := decide (a.data.map Char.toNat < b.data.map Char.toNat)

/-- A `QMap<QString, QString>`: entries in key order, one per key. -/
abbrev QMap := List (String × String)

namespace QMap

/-- The entry lookup behind `contains`, `value` and a reading `operator[]`. -/
def find (m : QMap) (key : String) : Option String :=
  match m with
  | [] => none
  | (k, v) :: rest => if key = k then some v else find rest key

/-- Model of `QMap::contains`. -/
def contains (m : QMap) (key : String) : Bool := (find m key).isSome

/-- Model of `QMap::value(key, defaultValue)`. -/
def value (m : QMap) (key : String) (defaultValue : String) : String :=
  (find m key).getD defaultValue

/-- Model of reading `m[key]` for a key that may be absent: the default-constructed
(empty) string stands for the freshly inserted entry. -/
def get (m : QMap) (key : String) : String := value m key ""

/-- Model of the assignment `m[key] = v`: replaces the entry of `key` or inserts
it at its place in key order. -/
def insert (m : QMap) (key v : String) : QMap :=
  match m with
  | [] => [(key, v)]
  | (k, w) :: rest =>
    if key = k then (key, v) :: rest
    else if keyLt key k then (key, v) :: (k, w) :: rest
    else (k, w) :: insert rest key v

end QMap

/-- A `QJsonValue` as far as the parser of the package reads it: its type and,
for a string, its text (`toString()` is the only accessor called). -/
inductive QJsonValue where
  | null
  | bool (b : Bool)
  | double
  | string (s : String)
  | array
  | object
deriving DecidableEq, Repr

/-- Model of `QJsonValue::toString()`: the text of a string value, the null
(empty) string for a value of any other type. -/
def QJsonValue.toString : QJsonValue → String
  | .string s => s
  | _ => ""

/-- Model of `QJsonValue::isString()`. -/
def QJsonValue.isString : QJsonValue → Bool
  | .string _ => true
  | _ => false

/-- A `QJsonObject`: its members in iteration order. -/
abbrev QJsonObject := List (String × QJsonValue)

/-- A `QJsonDocument` as returned by `QJsonDocument::fromJson`: null when the
text is not valid JSON, otherwise an array or an object. -/
inductive QJsonDocument where
  | null
  | array
  | object (obj : QJsonObject)
deriving DecidableEq, Repr

/-- Model of `QJsonDocument::isNull()`. -/
def QJsonDocument.isNull : QJsonDocument → Bool
  | .null => true
  | _ => false

/-- Model of `QJsonDocument::isObject()`. -/
def QJsonDocument.isObject : QJsonDocument → Bool
  | .object _ => true
  | _ => false

/-- A `QFile` opened on given contents: the bytes, the read position and the
open flag. -/
structure QFile where
  bytes : QByteArray
  pos : Nat
  isOpen : Bool
deriving DecidableEq, Repr

namespace QFile

/-- Model of `QFile::size()`. -/
def size (f : QFile) : Int := f.bytes.length

/-- Model of `QFile::seek(pos)`: a negative position is refused and leaves the
read position where it was; a position past the end is accepted. -/
def seek (f : QFile) (p : Int) : QFile :=
  if p < 0 then f else { f with pos := p.toNat }

/-- Model of `QIODevice::read(maxSize)`: at most `maxSize` bytes from the read
position, fewer at the end of the file, none for a negative `maxSize`.  The
limit that Qt puts on the size of a single byte array is not modelled. -/
def read (f : QFile) (maxSize : Int) : QByteArray × QFile :=
  if maxSize < 0 then ([], f)
  else
    let r := (f.bytes.drop f.pos).take maxSize.toNat
    (r, { f with pos := f.pos + r.length })

end QFile

/-! ## What lies outside the repository -/

/-- The platform and library parameters of the parser. -/
structure Env where
  /-- Whether plain `char` is a signed type. -/
  charSigned : Bool
  /-- The parser `QJsonDocument::fromJson`. -/
  fromJson : QByteArray → QJsonDocument
  /-- The digest `QCryptographicHash::hash(data, Sha256).toHex()` as a `QString`. -/
  sha256Hex : QByteArray → String

/-- Equality of results is decidable. -/
instance instDecidableEqExcept {ε α : Type} [DecidableEq ε] [DecidableEq α] :
    DecidableEq (Except ε α)
  | .ok a, .ok b =>
    if h : a = b then isTrue (by rw [h]) else isFalse (fun h2 => h (by cases h2; rfl))
  | .error a, .error b =>
    if h : a = b then isTrue (by rw [h]) else isFalse (fun h2 => h (by cases h2; rfl))
  | .ok _, .error _ => isFalse (fun h => by cases h)
  | .error _, .ok _ => isFalse (fun h => by cases h)

/-! ## firmwarepackage.cpp -/

/-- The magic signature `FIRMWARE_MAGIC`, the text FLASHUP. -/
def FIRMWARE_MAGIC : QByteArray := [70, 76, 65, 83, 72, 85, 80]

/-- The exceptions of the constructor, one per message. -/
inductive FirmwareError where
  | IoError
  | InvalidFormat
  | InvalidMetadata
  | MissingField (field : String)
  | EmptyPayload
  | MissingHash
  | ChecksumMismatch
deriving DecidableEq, Repr

/-- The message of the `std::runtime_error` thrown (the reason of an open
failure, appended by the source to the first message, is left out). -/
def FirmwareError.what : FirmwareError → String
  | .IoError => "Failed to open firmware file: "
  | .InvalidFormat => "Invalid firmware file format"
  | .InvalidMetadata => "Invalid metadata format"
  | .MissingField field => "Missing required metadata field: " ++ field
  | .EmptyPayload => "Firmware file contains no data"
  | .MissingHash => "Missing SHA-256 hash in firmware metadata"
  | .ChecksumMismatch => "Firmware validation failed"

/-- The member variables of `FirmwarePackage` (the path is not kept: the file is
given by its contents). -/
structure FirmwarePackage where
  m_file : QFile
  m_metadata : QMap
  m_sha256 : String
  m_signature : String
  m_dataOffset : Int
  m_dataSize : Int
deriving DecidableEq, Repr

/-- The conversion `static_cast<quint32>(c)` of a `char` holding the byte `b`
(its eight low bits): a signed `char` of 128 or more is negative and is
sign-extended. -/
def charToQuint32 (charSigned : Bool) (b : Nat) : Nat :=
  if charSigned && decide (128 ≤ b % 256) then b % 256 + 4294967040 else b % 256

/-- The expression of lines 135-138 of `parseMetadata` on the four size bytes. -/
def decodeMetadataSize (charSigned : Bool) (b0 b1 b2 b3 : Nat) : Nat :=
  charToQuint32 charSigned b0 |||
  toQuint32 (charToQuint32 charSigned b1 <<< 8) |||
  toQuint32 (charToQuint32 charSigned b2 <<< 16) |||
  toQuint32 (charToQuint32 charSigned b3 <<< 24)

/-- The loop of lines 155-157: every member of the object is stored under its
key with `toString()` of its value. -/
def extractMetadata (obj : QJsonObject) (m : QMap) : QMap :=
  obj.foldl (fun acc kv => QMap.insert acc kv.1 kv.2.toString) m

/-- The list `requiredFields`. -/
def requiredFields : List String := ["name", "version", "target", "timestamp", "sha256"]

/-- The loop of lines 164-168: the first required field that is absent or empty. -/
def firstMissing (m : QMap) : List String → Option String
  | [] => none
  | field :: rest =>
    if !m.contains field || decide (m.get field = "") then some field
    else firstMissing m rest

namespace FirmwarePackage

/-- Model of `FirmwarePackage::parseMetadata`.  The sum `7 + 4 + metadataSize` is
formed in `quint32`; the difference of the file size and the offset, both
non-negative `qint64`, cannot overflow. -/
def parseMetadata (env : Env) (self : FirmwarePackage) : Except FirmwareError FirmwarePackage :=
  let f := self.m_file.seek 7
  let r := f.read 4
  match r.1 with
  | [b0, b1, b2, b3] =>
    let metadataSize := decodeMetadataSize env.charSigned b0 b1 b2 b3
    let r2 := r.2.read metadataSize
    if (r2.1.length : Int) ≠ toInt metadataSize then .error .InvalidFormat
    else
      let doc := env.fromJson r2.1
      match doc with
      | .object obj =>
        let metadata := extractMetadata obj self.m_metadata
        match firstMissing metadata requiredFields with
        | some field => .error (.MissingField field)
        | none =>
          let dataOffset : Int := toQuint32 (7 + 4 + metadataSize)
          let dataSize : Int := r2.2.size - dataOffset
          if dataSize ≤ 0 then .error .EmptyPayload
          else .ok { m_file := r2.2,
                     m_metadata := metadata,
                     m_sha256 := metadata.get "sha256",
                     m_signature := metadata.value "signature" "",
                     m_dataOffset := dataOffset,
                     m_dataSize := dataSize }
      | _ => .error .InvalidMetadata
  | _ => .error .InvalidFormat

/-- Model of `FirmwarePackage::calculateHash`. -/
def calculateHash (self : FirmwarePackage) : Except FirmwareError Unit :=
  if !self.m_metadata.contains "sha256" || decide (self.m_metadata.get "sha256" = "") then
    .error .MissingHash
  else .ok ()

/-- Model of `FirmwarePackage::data`, with the file after the read. -/
def data (self : FirmwarePackage) : QByteArray × FirmwarePackage :=
  if !self.m_file.isOpen then ([], self)
  else
    let r := (self.m_file.seek self.m_dataOffset).read self.m_dataSize
    (r.1, { self with m_file := r.2 })

/-- Model of `FirmwarePackage::verify`, with the file after the read. -/
def verify (env : Env) (self : FirmwarePackage) : Bool × FirmwarePackage :=
  let r := self.data
  let calculatedHashHex := env.sha256Hex r.1
  (decide (calculatedHashHex = self.m_sha256), r.2)

/-- The members as the constructor initialises them, around the opened file. -/
def initial (file : QFile) : FirmwarePackage :=
  { m_file := file, m_metadata := [], m_sha256 := "", m_signature := "",
    m_dataOffset := 0, m_dataSize := 0 }

/-- Model of the constructor `FirmwarePackage::FirmwarePackage`, on the contents
of the file at the path (`none`: the file cannot be opened). -/
def construct (env : Env) (disk : Option QByteArray) : Except FirmwareError FirmwarePackage :=
  match disk with
  | none => .error .IoError
  | some bytes =>
    let r := ({ bytes := bytes, pos := 0, isOpen := true } : QFile).read 7
    if r.1 ≠ FIRMWARE_MAGIC then .error .InvalidFormat
    else
      match parseMetadata env (initial r.2) with
      | .error e => .error e
      | .ok p =>
        match calculateHash p with
        | .error e => .error e
        | .ok _ =>
          let v := verify env p
          if v.1 then .ok v.2 else .error .ChecksumMismatch

/-- Model of `FirmwarePackage::metadata`. -/
def metadata (self : FirmwarePackage) : QMap := self.m_metadata

/-- Model of `FirmwarePackage::sha256Hash`. -/
def sha256Hash (self : FirmwarePackage) : String := self.m_sha256

/-- Model of `FirmwarePackage::signature`. -/
def signature (self : FirmwarePackage) : String := self.m_signature

/-- Model of `FirmwarePackage::size`. -/
def size (self : FirmwarePackage) : Int := self.m_dataSize

/-- Model of `FirmwarePackage::getChunk`, with the file after the read. -/
def getChunk (self : FirmwarePackage) (offset size : Int) : QByteArray × FirmwarePackage :=
  if !self.m_file.isOpen || decide (offset ≥ self.m_dataSize) then ([], self)
  else
    let size := if toQint64 (offset + size) > self.m_dataSize
                then toQint64 (self.m_dataSize - offset) else size
    let r := (self.m_file.seek (toQint64 (self.m_dataOffset + offset))).read size
    (r.1, { self with m_file := r.2 })

/-- Model of `FirmwarePackage::chunkCount`. -/
def chunkCount (self : FirmwarePackage) (chunkSize : Int) : Int :=
  if chunkSize ≤ 0 then 0
  else toInt (Int.tdiv (toQint64 (toQint64 (self.m_dataSize + chunkSize) - 1)) chunkSize)

/-- The firmware data of a package: the `m_dataSize` bytes of the file from
`m_dataOffset` on, which is what `data()` reads. -/
def payload (self : FirmwarePackage) : QByteArray :=
  (self.m_file.bytes.drop self.m_dataOffset.toNat).take self.m_dataSize.toNat

/-- The class invariant: the file is open, the data range is not empty and ends
at the end of the file, and the file size is a `qint64`.  The constructor
establishes it and no member function breaks it. -/
def Invariant (self : FirmwarePackage) : Prop :=
  self.m_file.isOpen = true ∧ 0 ≤ self.m_dataOffset ∧ 0 < self.m_dataSize ∧
  self.m_dataOffset + self.m_dataSize = self.m_file.size ∧
  self.m_file.size < 9223372036854775808

instance (self : FirmwarePackage) : Decidable self.Invariant := by
  unfold Invariant; infer_instance

end FirmwarePackage

/-! ## The reference environment

The SHA-256 of FIPS 180-4 on byte lists, a reader for flat JSON objects, and
the environment `desktop` built from them.  They serve to evaluate the parser
on concrete files; no general statement depends on them. -/

namespace Sha256

/-- Reduction to 32 bits. -/
def mask32 (x : Nat) : Nat := x % 4294967296

/-- Rotation of a 32-bit word to the right. -/
def rotr (x n : Nat) : Nat := mask32 ((x >>> n) ||| (x <<< (32 - n)))

/-- The function Ch of FIPS 180-4. -/
def ch (x y z : Nat) : Nat := (x &&& y) ^^^ ((4294967295 - x) &&& z)

/-- The function Maj of FIPS 180-4. -/
def maj (x y z : Nat) : Nat := (x &&& y) ^^^ (x &&& z) ^^^ (y &&& z)

/-- The function written as capital sigma, index 0. -/
def bigSigma0 (x : Nat) : Nat := rotr x 2 ^^^ rotr x 13 ^^^ rotr x 22

/-- The function written as capital sigma, index 1. -/
def bigSigma1 (x : Nat) : Nat := rotr x 6 ^^^ rotr x 11 ^^^ rotr x 25

/-- The function written as small sigma, index 0. -/
def smallSigma0 (x : Nat) : Nat := rotr x 7 ^^^ rotr x 18 ^^^ (x >>> 3)

/-- The function written as small sigma, index 1. -/
def smallSigma1 (x : Nat) : Nat := rotr x 17 ^^^ rotr x 19 ^^^ (x >>> 10)

/-- The sixty-four round constants (the fractional parts of the cube roots of
the first sixty-four primes, 32 bits each). -/
def K : List Nat := [
  1116352408, 1899447441, 3049323471, 3921009573, 961987163, 1508970993,
  2453635748, 2870763221, 3624381080, 310598401, 607225278, 1426881987,
  1925078388, 2162078206, 2614888103, 3248222580, 3835390401, 4022224774,
  264347078, 604807628, 770255983, 1249150122, 1555081692, 1996064986,
  2554220882, 2821834349, 2952996808, 3210313671, 3336571891, 3584528711,
  113926993, 338241895, 666307205, 773529912, 1294757372, 1396182291,
  1695183700, 1986661051, 2177026350, 2456956037, 2730485921, 2820302411,
  3259730800, 3345764771, 3516065817, 3600352804, 4094571909, 275423344,
  430227734, 506948616, 659060556, 883997877, 958139571, 1322822218,
  1537002063, 1747873779, 1955562222, 2024104815, 2227730452, 2361852424,
  2428436474, 2756734187, 3204031479, 3329325298]

/-- The initial hash value (the fractional parts of the square roots of the
first eight primes, 32 bits each). -/
def H0 : List Nat :=
  [1779033703, 3144134277, 1013904242, 2773480762,
   1359893119, 2600822924, 528734635, 1541459225]

/-- The `n` low bytes of `x`, most significant first. -/
def beBytes : Nat → Nat → List Nat
  | 0, _ => []
  | n + 1, x => (x >>> (8 * n)) % 256 :: beBytes n x

/-- Padding: the bit 1, zeros up to 56 modulo 64 bytes, the bit length on 8 bytes. -/
def pad (msg : List Nat) : List Nat :=
  msg ++ 128 :: List.replicate ((119 - msg.length % 64) % 64) 0 ++ beBytes 8 (8 * msg.length)

/-- Grouping of bytes into big-endian 32-bit words. -/
def toWords : List Nat → List Nat
  | a :: b :: c :: d :: rest => (a * 16777216 + b * 65536 + c * 256 + d) :: toWords rest
  | _ => []

/-- Extension of the message schedule by `n` words; `ws` holds the words so far,
the most recent first. -/
def extend : Nat → List Nat → List Nat
  | 0, ws => ws
  | n + 1, ws =>
    match ws with
    | _ :: w2 :: _ :: _ :: _ :: _ :: w7 :: _ :: _ :: _ :: _ :: _ :: _ :: _ :: w15 :: w16 :: _ =>
      extend n (mask32 (smallSigma1 w2 + w7 + smallSigma0 w15 + w16) :: ws)
    | _ => ws

/-- One round on the working variables, with the constant and the schedule word. -/
def round (s : List Nat) (kw : Nat × Nat) : List Nat :=
  match s with
  | [a, b, c, d, e, f, g, h] =>
    let t1 := h + bigSigma1 e + ch e f g + kw.1 + kw.2
    let t2 := bigSigma0 a + maj a b c
    [mask32 (t1 + t2), a, b, c, mask32 (d + t1), e, f, g]
  | _ => s

/-- The compression of one 64-byte block into the hash value. -/
def compress (h : List Nat) (block : List Nat) : List Nat :=
  let w := (extend 48 (toWords block).reverse).reverse
  List.zipWith (fun x y => mask32 (x + y)) h ((K.zip w).foldl round h)

/-- The first `n` blocks of 64 bytes. -/
def blocks : Nat → List Nat → List (List Nat)
  | 0, _ => []
  | n + 1, bs => bs.take 64 :: blocks n (bs.drop 64)

/-- The eight words of the digest. -/
def digestWords (msg : List Nat) : List Nat :=
  (blocks ((pad msg).length / 64) (pad msg)).foldl compress H0

/-- A lower-case hexadecimal digit, as `QByteArray::toHex` writes it. -/
def hexDigit (n : Nat) : Char :=
  if n < 10 then Char.ofNat (48 + n) else Char.ofNat (87 + n)

/-- The eight hexadecimal digits of a word. -/
def wordHex (w : Nat) : List Char :=
  (beBytes 4 w).flatMap fun b => [hexDigit (b / 16), hexDigit (b % 16)]

/-- The digest in lower-case hexadecimal. -/
def hex (msg : List Nat) : String := ⟨(digestWords msg).flatMap wordHex⟩

end Sha256

namespace FlatJson

/-- JSON white space. -/
def isWs (b : Nat) : Bool := b = 32 || b = 9 || b = 10 || b = 13

/-- Removal of leading white space. -/
def skipWs : QByteArray → QByteArray
  | [] => []
  | b :: rest => if isWs b then skipWs rest else b :: rest

/-- The characters up to the closing quote; only printable ASCII without
escapes is read. -/
def readChars : QByteArray → List Char → Option (String × QByteArray)
  | [], _ => none
  | b :: rest, acc =>
    if b = 34 then some (⟨acc.reverse⟩, rest)
    else if b = 92 || b < 32 || 127 ≤ b then none
    else readChars rest (Char.ofNat b :: acc)

/-- A quoted string. -/
def readString : QByteArray → Option (String × QByteArray)
  | 34 :: rest => readChars rest []
  | _ => none

/-- Removal of leading decimal digits. -/
def skipDigits : QByteArray → QByteArray
  | [] => []
  | b :: rest => if 48 ≤ b && b ≤ 57 then skipDigits rest else b :: rest

/-- A member value: a string, one of the three literals, or an unsigned decimal
integer without leading zero. -/
def readValue : QByteArray → Option (QJsonValue × QByteArray)
  | 34 :: rest => (readChars rest []).map fun r => (QJsonValue.string r.1, r.2)
  | 116 :: 114 :: 117 :: 101 :: rest => some (QJsonValue.bool true, rest)
  | 102 :: 97 :: 108 :: 115 :: 101 :: rest => some (QJsonValue.bool false, rest)
  | 110 :: 117 :: 108 :: 108 :: rest => some (QJsonValue.null, rest)
  | 48 :: rest => some (QJsonValue.double, rest)
  | b :: rest => if 49 ≤ b && b ≤ 57 then some (QJsonValue.double, skipDigits rest) else none
  | [] => none

/-- The members after the opening brace up to the closing one; a repeated key
is not read. -/
def readMembers : Nat → QByteArray → QJsonObject → Option (QJsonObject × QByteArray)
  | 0, _, _ => none
  | fuel + 1, bs, acc =>
    match readString bs with
    | none => none
    | some (k, r1) =>
      match skipWs r1 with
      | 58 :: r2 =>
        match readValue (skipWs r2) with
        | none => none
        | some (v, r3) =>
          if acc.any (fun kv => decide (kv.1 = k)) then none
          else
            match skipWs r3 with
            | 44 :: r4 => readMembers fuel (skipWs r4) ((k, v) :: acc)
            | 125 :: r4 => some (((k, v) :: acc).reverse, r4)
            | _ => none
      | _ => none

/-- A reader for flat JSON objects: a text that is one object whose members are
strings of printable ASCII without escapes, literals or unsigned integers is
read as that object; every other text is reported as a null document. -/
def fromJson (bs : QByteArray) : QJsonDocument :=
  match skipWs bs with
  | 123 :: r =>
    match skipWs r with
    | 125 :: r2 => if skipWs r2 = [] then .object [] else .null
    | r1 =>
      match readMembers bs.length r1 [] with
      | some (obj, r2) => if skipWs r2 = [] then .object obj else .null
      | none => .null
  | _ => .null

end FlatJson

/-- The reference environment: signed `char`, flat JSON reader, SHA-256. -/
def desktop : Env :=
  { charSigned := true, fromJson := FlatJson.fromJson, sha256Hex := Sha256.hex }

/-- The reference environment on a platform whose `char` is unsigned. -/
def desktopUnsigned : Env :=
  { charSigned := false, fromJson := FlatJson.fromJson, sha256Hex := Sha256.hex }

/-! ## Serialised containers -/

/-- A file laid out as the file comment in `parseMetadata` describes: magic,
four size bytes, metadata, firmware data. -/
def container (b0 b1 b2 b3 : Nat) (metadataJson payload : QByteArray) : QByteArray :=
  FIRMWARE_MAGIC ++ [b0, b1, b2, b3] ++ metadataJson ++ payload

/-- The container written for a metadata text and firmware data: the size bytes
are the length of the metadata, least significant first. -/
def serialize (metadataJson payload : QByteArray) : QByteArray :=
  container (metadataJson.length % 256) (metadataJson.length / 256 % 256)
    (metadataJson.length / 65536 % 256) (metadataJson.length / 16777216 % 256)
    metadataJson payload

/-- A ten-byte firmware image. -/
def samplePayload : QByteArray := [222, 173, 190, 239, 1, 2, 3, 4, 5, 6]

/-- The SHA-256 of `samplePayload`, in lower-case hexadecimal. -/
def sampleDigest : String := "0df5ee8679381c7fd7c547f52d1f9fc6b2cef2741de2994d25c4d6e9bf8f9448"

/-- Compact metadata for `samplePayload`: the five required fields, 165 bytes. -/
def compactJson : QByteArray :=
  ascii ("\x7b\"name\":\"blinky\",\"version\":\"1.0.2\",\"target\":\"stm32f4\"," ++
         "\"timestamp\":\"2024-05-01T12:00:00Z\",\"sha256\":\"" ++ sampleDigest ++ "\"\x7d")

/-- Metadata for `samplePayload` with a description and a numeric member, 285
bytes when the digest has its 64 digits. -/
def longJson (digest : String) : QByteArray :=
  ascii ("\x7b\"name\":\"blinky\",\"version\":\"1.0.2\",\"target\":\"stm32f4\"," ++
         "\"timestamp\":\"2024-05-01T12:00:00Z\",\"sha256\":\"" ++ digest ++ "\"," ++
         "\"description\":\"LED blinker for the evaluation board, release build with " ++
         "the watchdog enabled and logging off\",\"build\":7\x7d")

/-- The metadata map read from `longJson sampleDigest`. -/
def sampleMetadata (digest : String) : QMap :=
  [("build", ""),
   ("description", "LED blinker for the evaluation board, release build with " ++
                   "the watchdog enabled and logging off"),
   ("name", "blinky"),
   ("sha256", digest),
   ("target", "stm32f4"),
   ("timestamp", "2024-05-01T12:00:00Z"),
   ("version", "1.0.2")]

/-- Metadata holding the name alone, 17 bytes. -/
def nameOnlyJson : QByteArray := ascii "\x7b\"name\":\"blinky\"\x7d"

/-- The digits of `sampleDigest` with the letters in upper case. -/
def sampleDigestUpper : String := "0DF5EE8679381C7FD7C547F52D1F9FC6B2CEF2741DE2994D25C4D6E9BF8F9448"

/-- Folding of the letters of a text to lower case. -/
def toLower (s : String) : String := ⟨s.data.map Char.toLower⟩

/-- The object that `longJson digest` denotes. -/
def sampleObject (digest : String) : QJsonObject :=
  [("name", .string "blinky"),
   ("version", .string "1.0.2"),
   ("target", .string "stm32f4"),
   ("timestamp", .string "2024-05-01T12:00:00Z"),
   ("sha256", .string digest),
   ("description", .string ("LED blinker for the evaluation board, release build with " ++
                            "the watchdog enabled and logging off")),
   ("build", .double)]

/-- A container with the metadata `longJson sampleDigest`. -/
def sampleFile : QByteArray := serialize (longJson sampleDigest) samplePayload

/-- The package constructed from `sampleFile`. -/
def samplePackage : FirmwarePackage :=
  { m_file := { bytes := sampleFile, pos := 306, isOpen := true },
    m_metadata := sampleMetadata sampleDigest,
    m_sha256 := sampleDigest,
    m_signature := "",
    m_dataOffset := 296,
    m_dataSize := 10 }

/-- A package whose firmware data measures two gibibytes. -/
def largePackage : FirmwarePackage :=
  { m_file := { bytes := List.replicate 2147483948 0, pos := 2147483948, isOpen := true },
    m_metadata := sampleMetadata sampleDigest,
    m_sha256 := sampleDigest,
    m_signature := "",
    m_dataOffset := 300,
    m_dataSize := 2147483648 }

/-! ## Arithmetic in `double`

The progress of an upload is computed in `double`.  The values that occur are
finite and not negative; they are modelled exactly, as a mantissa and a binary
exponent, with the rounding to nearest, ties to even, of IEEE 754. -/

/-- A finite non-negative `double`: the value `mantissa * 2 ^ exponent`. -/
structure Double where
  mantissa : Nat
  exponent : Int
deriving DecidableEq, Repr

namespace Double

/-- The number of binary digits of a number, counted with `fuel` steps at most. -/
def bitLength : Nat → Nat → Nat
  | 0, _ => 0
  | fuel + 1, n => if n = 0 then 0 else bitLength fuel (n / 2) + 1

/-- The `double` nearest to the quotient `num / den` of two natural numbers,
ties going to the even mantissa; the mantissa has 53 binary digits.  Quotients
outside the range of normal numbers do not occur in the computations modelled. -/
def round (num den : Nat) : Double :=
  if num = 0 ∨ den = 0 then ⟨0, 0⟩
  else
    let k : Int := (bitLength 1024 num : Int) - (bitLength 1024 den : Int)
    let below : Bool := if 0 ≤ k then decide (num < den * 2 ^ k.toNat)
                        else decide (num * 2 ^ (-k).toNat < den)
    let p : Int := if below then k - 1 else k
    let e : Int := p - 52
    let n : Nat := if 0 ≤ e then num else num * 2 ^ (-e).toNat
    let d : Nat := if 0 ≤ e then den * 2 ^ e.toNat else den
    let m := n / d
    let r := n % d
    if d < 2 * r ∨ (2 * r = d ∧ m % 2 = 1) then ⟨m + 1, e⟩ else ⟨m, e⟩

/-- Conversion of a non-negative integer to `double`. -/
def ofNat (n : Nat) : Double := round n 1

/-- Division of two `double` values. -/
def div (x y : Double) : Double :=
  let s : Int := x.exponent - y.exponent
  if 0 ≤ s then round (x.mantissa * 2 ^ s.toNat) y.mantissa
  else round x.mantissa (y.mantissa * 2 ^ (-s).toNat)

/-- Multiplication of two `double` values. -/
def mul (x y : Double) : Double :=
  let s : Int := x.exponent + y.exponent
  if 0 ≤ s then round (x.mantissa * y.mantissa * 2 ^ s.toNat) 1
  else round (x.mantissa * y.mantissa) (2 ^ (-s).toNat)

/-- Conversion to an integer by truncation, as `static_cast<int>` does for a
value within the range of `int`. -/
def trunc (x : Double) : Int :=
  if 0 ≤ x.exponent then (x.mantissa * 2 ^ x.exponent.toNat : Nat)
  else (x.mantissa / 2 ^ (-x.exponent).toNat : Nat)

end Double

/-! ## deviceinterface.h -/

/-- The enumeration `DeviceInterface::ConnectionStatus`. -/
inductive ConnectionStatus where
  | Disconnected
  | Connecting
  | Connected
  | Error
deriving DecidableEq, Repr

/-- The value of an enumerator of `ConnectionStatus`. -/
def ConnectionStatus.toInt : ConnectionStatus → Int
  | .Disconnected => 0
  | .Connecting => 1
  | .Connected => 2
  | .Error => 3

/-- The enumeration `DeviceInterface::DeviceState`. -/
inductive DeviceState where
  | Idle
  | Ready
  | Updating
  | Rebooting
deriving DecidableEq, Repr

/-- The value of an enumerator of `DeviceState`. -/
def DeviceState.toInt : DeviceState → Int
  | .Idle => 0
  | .Ready => 1
  | .Updating => 2
  | .Rebooting => 3

/-- The signals of `DeviceInterface`. -/
inductive DeviceSignal where
  | connectionStatusChanged (status : ConnectionStatus)
  | deviceStateChanged (state : DeviceState)
  | logMessage (level : Int) (message : String)
deriving DecidableEq, Repr

/-- The member functions of `DeviceInterface` that an update job calls to act on
the device, with their arguments. -/
inductive DeviceCall where
  | connect
  | beginUpdate
  | sendFirmwareChunk (data : QByteArray) (offset : Int)
  | finalizeUpdate
  | cancelUpdate
deriving DecidableEq, Repr

/-- A single-shot `QTimer`: whether it is running, and the interval in
milliseconds it was last started with. -/
structure QTimer where
  active : Bool
  interval : Int
deriving DecidableEq, Repr

/-- A timer that was never started. -/
def QTimer.idle : QTimer := { active := false, interval := 0 }

/-- Model of `QTimer::start(msec)`. -/
def QTimer.start (_ : QTimer) (msec : Int) : QTimer := { active := true, interval := msec }

/-- Model of `QTimer::stop()`; also the state of a single-shot timer once it has
fired. -/
def QTimer.stop (t : QTimer) : QTimer := { t with active := false }

/-! ## updatejob.cpp -/

/-- The constant `DEFAULT_MAX_RETRIES`. -/
def DEFAULT_MAX_RETRIES : Int := 3

/-- The constant `DEFAULT_RETRY_INTERVAL_MS`. -/
def DEFAULT_RETRY_INTERVAL_MS : Int := 1000

/-- The constant `DEFAULT_CHUNK_INTERVAL_MS`. -/
def DEFAULT_CHUNK_INTERVAL_MS : Int := 10

/-- The enumeration `UpdateJob::State`. -/
inductive UpdateJob.State where
  | Idle
  | Connecting
  | Preparing
  | Uploading
  | Finalizing
  | Complete
  | Failed
  | Canceled
deriving DecidableEq, Repr

/-- What an update job does that can be observed: the signals it emits, and the
calls it makes on its device with the answer it gets. -/
inductive Effect where
  | logMessage (level : Int) (message : String)
  | progressChanged (progress : Int) (status : String)
  | completed (success : Bool) (message : String)
  | call (c : DeviceCall) (answer : Bool)
deriving DecidableEq, Repr

/-- The member variables of `UpdateJob`, the device apart: the device is given
by its answers (`UpdateJob.step`) or is the serial device (`Session`). -/
structure UpdateJob where
  m_firmware : FirmwarePackage
  m_state : UpdateJob.State
  m_progress : Int
  m_currentOffset : Int
  m_chunkSize : Int
  m_retryCount : Int
  m_maxRetries : Int
  m_retryTimer : QTimer
  m_chunkTimer : QTimer
  m_paused : Bool
deriving DecidableEq, Repr

/-- The expression of line 178 of `onUploadNextChunk`: the offset converted to
`double`, divided by the size, multiplied by 100 and truncated. -/
def progressOf (currentOffset size : Int) : Int :=
  (Double.mul (Double.div (Double.ofNat currentOffset.toNat) (Double.ofNat size.toNat))
    (Double.ofNat 100)).trunc

namespace UpdateJob

/-- A member function of the job that has reached a call on the device: the job
and the effects up to the call, the call, and what the function does with the
members as they are when the call returns and with its answer. -/
inductive Pending where
  | done (job : UpdateJob) (effects : List Effect)
  | await (job : UpdateJob) (effects : List Effect) (call : DeviceCall)
      (resume : UpdateJob → Bool → UpdateJob × List Effect)

/-- The outcome of a member function when the device answers the call, if
there is one, with `answer` and emits no signal while it runs. -/
def Pending.resolve (p : Pending) (answer : Bool) : UpdateJob × List Effect :=
  match p with
  | .done job effects => (job, effects)
  | .await job effects call resume =>
    (( resume job answer).1, effects ++ [Effect.call call answer] ++ ( resume job answer).2)

/-- Model of the constructor `UpdateJob::UpdateJob` for a firmware package and
the answer of `optimalChunkSize()`.  Its log message is emitted before any slot
can be connected to the job and is left out. -/
def create (firmware : FirmwarePackage) (optimalChunkSize : Int) : UpdateJob :=
  { m_firmware := firmware,
    m_state := .Idle,
    m_progress := 0,
    m_currentOffset := 0,
    m_chunkSize := if optimalChunkSize ≤ 0 then 4096 else optimalChunkSize,
    m_retryCount := 0,
    m_maxRetries := DEFAULT_MAX_RETRIES,
    m_retryTimer := QTimer.idle,
    m_chunkTimer := QTimer.idle,
    m_paused := false }

/-- The text `stateStr` of `setState`. -/
def stateStr : State → String
  | .Idle => "Idle"
  | .Connecting => "Connecting to device"
  | .Preparing => "Preparing device"
  | .Uploading => "Uploading firmware"
  | .Finalizing => "Finalizing update"
  | .Complete => "Update complete"
  | .Failed => "Update failed"
  | .Canceled => "Update canceled"

/-- The text `stateStr` of `setProgress`. -/
def progressStr (state : State) (progress : Int) : String :=
  match state with
  | .Uploading => "Uploading firmware (" ++ toString progress ++ "%)"
  | other => stateStr other

/-- Model of `UpdateJob::setState`. -/
def setState (self : UpdateJob) (state : State) : UpdateJob × List Effect :=
  if self.m_state ≠ state then
    ({ self with m_state := state },
     [Effect.progressChanged self.m_progress (stateStr state),
      Effect.logMessage 1 ("Update state: " ++ stateStr state)])
  else (self, [])

/-- Model of `UpdateJob::setProgress`. -/
def setProgress (self : UpdateJob) (progress : Int) : UpdateJob × List Effect :=
  if self.m_progress ≠ progress then
    ({ self with m_progress := progress },
     [Effect.progressChanged progress (progressStr self.m_state progress)])
  else (self, [])

/-- Model of `UpdateJob::failUpdate`. -/
def failUpdate (self : UpdateJob) (reason : String) : UpdateJob × List Effect :=
  ((self.setState .Failed).1,
   [Effect.logMessage 3 ("Update failed: " ++ reason)] ++ (self.setState .Failed).2 ++
     [Effect.completed false reason])

/-- Model of `UpdateJob::completeUpdate`. -/
def completeUpdate (self : UpdateJob) : UpdateJob × List Effect :=
  ((self.setState .Complete).1,
   [Effect.logMessage 1 "Update completed successfully"] ++ (self.setState .Complete).2 ++
     [Effect.completed true "Firmware updated successfully"])

/-- Model of `UpdateJob::startUpload`. -/
def startUpload (self : UpdateJob) : UpdateJob × List Effect :=
  let r1 := self.setState .Uploading
  let r2 := r1.1.setProgress 0
  ({ r2.1 with m_currentOffset := 0, m_retryCount := 0, m_paused := false,
               m_chunkTimer := r2.1.m_chunkTimer.start 0 },
   r1.2 ++ r2.2 ++ [Effect.logMessage 1 "Starting firmware upload..."])

/-- Model of `UpdateJob::start`, given the answer of `isConnected()`. -/
def start (self : UpdateJob) (isConnected : Bool) : Pending :=
  if self.m_state ≠ .Idle then
    .done self [Effect.logMessage 2 "Update already in progress"]
  else
    let r1 := self.setState .Connecting
    let r2 := r1.1.setProgress 0
    let before := [Effect.logMessage 1 "Starting update..."] ++ r1.2 ++ r2.2
    if isConnected then
      let r3 := r2.1.setState .Preparing
      .await r3.1 (before ++ r3.2) .beginUpdate fun job ok =>
        if !ok then job.failUpdate "Failed to initialize update on device" else (job, [])
    else
      .await r2.1 before .connect fun job ok =>
        if !ok then job.failUpdate "Failed to connect to device" else (job, [])

/-- Model of `UpdateJob::cancel`, given the answer of `isConnected()`. -/
def cancel (self : UpdateJob) (isConnected : Bool) : Pending :=
  if self.m_state = .Complete ∨ self.m_state = .Failed ∨ self.m_state = .Canceled then
    .done self []
  else
    let stopped := { self with m_retryTimer := self.m_retryTimer.stop,
                               m_chunkTimer := self.m_chunkTimer.stop }
    if isConnected then
      .await stopped [Effect.logMessage 1 "Canceling update..."] .cancelUpdate fun job _ =>
        ((job.setState .Canceled).1,
         (job.setState .Canceled).2 ++ [Effect.completed false "Update canceled"])
    else
      .done (stopped.setState .Canceled).1
        ([Effect.logMessage 1 "Canceling update..."] ++ (stopped.setState .Canceled).2 ++
          [Effect.completed false "Update canceled"])

/-- Model of `UpdateJob::state`. -/
def state (self : UpdateJob) : State := self.m_state

/-- Model of `UpdateJob::progress`. -/
def progress (self : UpdateJob) : Int := self.m_progress

/-- Model of the slot `UpdateJob::onDeviceConnectionStatusChanged`. -/
def onDeviceConnectionStatusChanged (self : UpdateJob) (status : ConnectionStatus) : Pending :=
  let logged := [Effect.logMessage 0 ("Device connection status: " ++ toString status.toInt)]
  if self.m_state = .Connecting then
    if status = .Connected then
      let r := self.setState .Preparing
      .await r.1 (logged ++ r.2) .beginUpdate fun job ok =>
        if !ok then job.failUpdate "Failed to initialize update on device" else (job, [])
    else if status = .Error then
      .done (self.failUpdate "Failed to connect to device").1
        (logged ++ (self.failUpdate "Failed to connect to device").2)
    else .done self logged
  else if status = .Disconnected ∧
      (self.m_state = .Uploading ∨ self.m_state = .Preparing ∨ self.m_state = .Finalizing) then
    .done (self.failUpdate "Device disconnected during update").1
      (logged ++ (self.failUpdate "Device disconnected during update").2)
  else .done self logged

/-- Model of the slot `UpdateJob::onDeviceStateChanged`.  The last comparison of
the source is of the device state with the enumerator `Error` of
`ConnectionStatus`: it compares the values. -/
def onDeviceStateChanged (self : UpdateJob) (state : DeviceState) : UpdateJob × List Effect :=
  let logged := [Effect.logMessage 0 ("Device state: " ++ toString state.toInt)]
  if self.m_state = .Preparing ∧ state = .Ready then
    (({ self with m_currentOffset := 0 }).startUpload.1,
     logged ++ ({ self with m_currentOffset := 0 }).startUpload.2)
  else if self.m_state = .Finalizing ∧ state = .Rebooting then
    (self.completeUpdate.1, logged ++ self.completeUpdate.2)
  else if state.toInt = ConnectionStatus.Error.toInt then
    ((self.failUpdate "Device reported an error").1,
     logged ++ (self.failUpdate "Device reported an error").2)
  else (self, logged)

/-- What `onUploadNextChunk` does when `sendFirmwareChunk` has returned, for the
chunk that was sent. -/
def afterSend (chunk : QByteArray) (job : UpdateJob) (ok : Bool) : UpdateJob × List Effect :=
  if ok then
    let advanced := { job with
      m_currentOffset := toQint64 (job.m_currentOffset + chunk.length), m_retryCount := 0 }
    let r := advanced.setProgress (progressOf advanced.m_currentOffset advanced.m_firmware.size)
    ({ r.1 with m_chunkTimer := r.1.m_chunkTimer.start DEFAULT_CHUNK_INTERVAL_MS }, r.2)
  else if job.m_retryCount < job.m_maxRetries then
    ({ job with m_retryCount := job.m_retryCount + 1,
                m_retryTimer := job.m_retryTimer.start DEFAULT_RETRY_INTERVAL_MS },
     [Effect.logMessage 2 ("Failed to send chunk, retrying (" ++ toString (job.m_retryCount + 1)
        ++ "/" ++ toString job.m_maxRetries ++ ")...")])
  else job.failUpdate "Failed to send firmware chunk after maximum retries"

/-- Model of the slot `UpdateJob::onUploadNextChunk`. -/
def onUploadNextChunk (self : UpdateJob) : Pending :=
  if self.m_state ≠ .Uploading ∨ self.m_paused = true then .done self []
  else if self.m_currentOffset ≥ self.m_firmware.size then
    let r := self.setState .Finalizing
    .await r.1 r.2 .finalizeUpdate fun job ok =>
      if !ok then job.failUpdate "Failed to finalize update" else (job, [])
  else
    let read := self.m_firmware.getChunk self.m_currentOffset self.m_chunkSize
    .await { self with m_firmware := read.2 } []
      (.sendFirmwareChunk read.1 self.m_currentOffset) (afterSend read.1)

/-- Model of the slot `UpdateJob::onRetryTimeout`. -/
def onRetryTimeout (self : UpdateJob) : Pending := self.onUploadNextChunk

/-- What reaches a job whose device is given by its answers: a call of `start`
or `cancel`, a signal of the device, or the timeout of one of the two timers.
Each carries the answers of the device to what the job asks of it. -/
inductive Input where
  | start (isConnected answer : Bool)
  | cancel (isConnected answer : Bool)
  | connectionStatusChanged (status : ConnectionStatus) (answer : Bool)
  | deviceStateChanged (state : DeviceState)
  | logMessage (level : Int) (message : String)
  | chunkTimeout (answer : Bool)
  | retryTimeout (answer : Bool)
deriving DecidableEq, Repr

/-- One step of the job: the member function or slot that the input runs.  The
signal `logMessage` of the device is connected to the signal of the same name of
the job; a timer fires only while it is running, and stops as it fires. -/
def step (self : UpdateJob) (input : Input) : UpdateJob × List Effect :=
  match input with
  | .start isConnected answer => (self.start isConnected).resolve answer
  | .cancel isConnected answer => (self.cancel isConnected).resolve answer
  | .connectionStatusChanged status answer =>
    (self.onDeviceConnectionStatusChanged status).resolve answer
  | .deviceStateChanged state => self.onDeviceStateChanged state
  | .logMessage level message => (self, [Effect.logMessage level message])
  | .chunkTimeout answer =>
    if self.m_chunkTimer.active then
      ({ self with m_chunkTimer := self.m_chunkTimer.stop }).onUploadNextChunk.resolve answer
    else (self, [])
  | .retryTimeout answer =>
    if self.m_retryTimer.active then
      ({ self with m_retryTimer := self.m_retryTimer.stop }).onRetryTimeout.resolve answer
    else (self, [])

/-- The job and the effects after a sequence of inputs. -/
def run (self : UpdateJob) : List Input → UpdateJob × List Effect
  | [] => (self, [])
  | input :: rest =>
    ((run (self.step input).1 rest).1, (self.step input).2 ++ (run (self.step input).1 rest).2)

/-- The terminal states. -/
def State.isTerminal : State → Bool
  | .Complete => true
  | .Failed => true
  | .Canceled => true
  | _ => false

end UpdateJob

/-- The `completed` signals among effects. -/
def Effect.isCompleted : Effect → Bool
  | .completed _ _ => true
  | _ => false

/-- The `logMessage` signals among effects. -/
def Effect.isLog : Effect → Bool
  | .logMessage _ _ => true
  | _ => false

/-- The calls on the device among effects. -/
def Effect.isCall : Effect → Bool
  | .call _ _ => true
  | _ => false

/-- The chunks that the device accepted, with their offsets, in order. -/
def acceptedChunks : List Effect → List (Int × QByteArray)
  | [] => []
  | .call (.sendFirmwareChunk data offset) true :: rest => (offset, data) :: acceptedChunks rest
  | _ :: rest => acceptedChunks rest

/-- The chunks that were offered to the device, with their offsets, in order. -/
def offeredChunks : List Effect → List (Int × QByteArray)
  | [] => []
  | .call (.sendFirmwareChunk data offset) _ :: rest => (offset, data) :: offeredChunks rest
  | _ :: rest => offeredChunks rest

namespace UpdateJob

/-- The invariant of a job for firmware data of size `S`: the package satisfies
its class invariant and has this size, the chunk size is positive and a
`qint64`, the offset lies between 0 and `S`, and it is 0 before the upload. -/
def Invariant (self : UpdateJob) (S : Int) : Prop :=
  self.m_firmware.Invariant ∧ self.m_firmware.size = S ∧
  0 < self.m_chunkSize ∧ self.m_chunkSize < 9223372036854775808 ∧
  0 ≤ self.m_currentOffset ∧ self.m_currentOffset ≤ S ∧
  ((self.m_state = .Idle ∨ self.m_state = .Connecting ∨ self.m_state = .Preparing) →
    self.m_currentOffset = 0)

instance (self : UpdateJob) (S : Int) : Decidable (self.Invariant S) := by
  unfold Invariant
  infer_instance

/-- A job that is uploading the firmware data `P`, at an offset and with a count
of retries. -/
def Uploads (job : UpdateJob) (P : QByteArray) (offset retries : Int) : Prop :=
  job.Invariant P.length ∧ job.m_firmware.payload = P ∧ job.m_state = .Uploading ∧
  job.m_paused = false ∧ job.m_currentOffset = offset ∧ job.m_retryCount = retries

instance (job : UpdateJob) (P : QByteArray) (offset retries : Int) :
    Decidable (job.Uploads P offset retries) := by
  unfold Uploads
  infer_instance

/-- The inputs of an update of two chunks that goes through on a connected
device. -/
def smoothInputs : List Input :=
  [.start true true, .deviceStateChanged .Ready, .chunkTimeout true, .chunkTimeout true,
   .deviceStateChanged .Rebooting]

end UpdateJob

/-- The bytes of firmware data from `offset` on, `chunkSize` of them at most. -/
def chunkAt (payload : QByteArray) (chunkSize offset : Int) : QByteArray :=
  (payload.drop offset.toNat).take (min (offset + chunkSize) payload.length - offset).toNat

/-- The job for the sample package, with chunks of four bytes, as the upload
starts. -/
def uploadingJob : UpdateJob :=
  ((UpdateJob.create samplePackage 4).run [.start true true, .deviceStateChanged .Ready]).1

/-! ## serialdevice.cpp -/

/-- The text of a byte array, `QString::fromUtf8`, for bytes that are ASCII. -/
def fromUtf8 (bytes : QByteArray) : String := ⟨bytes.map Char.ofNat⟩

/-- A `QSerialPort` as the device uses it: whether it is open, whether `open`
will succeed, whether `write` takes the whole of what it is given, the data
written so far (one entry per `write`), and the text of `errorString()`. -/
structure QSerialPort where
  isOpen : Bool
  opens : Bool
  takes : Bool
  written : List QByteArray
  errorString : String
deriving DecidableEq, Repr

/-- Model of `QSerialPort::write`: the number of bytes written, -1 on failure. -/
def QSerialPort.write (port : QSerialPort) (data : QByteArray) : Int × QSerialPort :=
  if port.takes then (data.length, { port with written := port.written ++ [data] })
  else (-1, port)

/-- The constant `TIMEOUT_MS` of the serial device. -/
def SERIAL_TIMEOUT_MS : Int := 3000

/-- The constant `DEFAULT_CHUNK_SIZE` of the serial device. -/
def SERIAL_DEFAULT_CHUNK_SIZE : Int := 1024

/-- The member variables of `SerialDevice`. -/
structure SerialDevice where
  m_portName : String
  m_serialPort : QSerialPort
  m_status : ConnectionStatus
  m_state : DeviceState
  m_buffer : QByteArray
  m_timeoutTimer : QTimer
  m_pendingCommands : List QByteArray
  m_waitingForAck : Bool
deriving DecidableEq, Repr

/-- The slots connected to the signals of a device: what the emission of a
signal does to the device, when a slot calls back into it, and to the rest `W`
of the program.  Signals are delivered as they are emitted. -/
abbrev Receiver (D W : Type) := DeviceSignal → D × W → D × W

/-- Removal of leading white space, as `QByteArray::trimmed` understands it. -/
def trimLeft : QByteArray → QByteArray
  | [] => []
  | b :: rest =>
    if b = 32 ∨ (9 ≤ b ∧ b ≤ 13) then trimLeft rest else b :: rest

/-- Model of `QByteArray::trimmed`. -/
def trimmed (bytes : QByteArray) : QByteArray :=
  (trimLeft (trimLeft bytes).reverse).reverse

/-- Model of `QByteArray::indexOf` for a byte that occurs. -/
def indexOf (bytes : QByteArray) (b : Nat) : Nat := bytes.findIdx (fun x => x = b)

/-- Model of `QByteArray::startsWith`. -/
def startsWith (bytes start : QByteArray) : Bool := start.isPrefixOf bytes

namespace SerialDevice

/-- Model of the constructor `SerialDevice::SerialDevice`, around a port. -/
def create (portName : String) (port : QSerialPort) : SerialDevice :=
  { m_portName := portName,
    m_serialPort := port,
    m_status := .Disconnected,
    m_state := .Idle,
    m_buffer := [],
    m_timeoutTimer := QTimer.idle,
    m_pendingCommands := [],
    m_waitingForAck := false }

/-- Model of `SerialDevice::deviceId`. -/
def deviceId (self : SerialDevice) : String := "serial:" ++ self.m_portName

/-- Model of `SerialDevice::isConnected`. -/
def isConnected (self : SerialDevice) : Bool := self.m_serialPort.isOpen

/-- Model of `SerialDevice::connectionStatus`. -/
def connectionStatus (self : SerialDevice) : ConnectionStatus := self.m_status

/-- Model of `SerialDevice::deviceState`. -/
def deviceState (self : SerialDevice) : DeviceState := self.m_state

/-- Model of `SerialDevice::optimalChunkSize`. -/
def optimalChunkSize (_ : SerialDevice) : Int := SERIAL_DEFAULT_CHUNK_SIZE

/-- Model of `SerialDevice::createCommand`. -/
def createCommand (cmd : String) (data : QByteArray) : QByteArray :=
  ascii cmd ++ ascii ":" ++ (if data.isEmpty then [] else data) ++ ascii "\n"

/-- Model of `SerialDevice::sendCommand`. -/
def sendCommand {W : Type} (emit : Receiver SerialDevice W) (cmd : QByteArray) (s : SerialDevice × W) :
    Bool × (SerialDevice × W) :=
  if !s.1.m_serialPort.isOpen then (false, s)
  else if s.1.m_waitingForAck then
    (true, ({ s.1 with m_pendingCommands := s.1.m_pendingCommands ++ [cmd] }, s.2))
  else
    let w := s.1.m_serialPort.write cmd
    if w.1 ≠ cmd.length then
      (false, emit (.logMessage 3 "Failed to write command to serial port")
        ({ s.1 with m_serialPort := w.2 }, s.2))
    else
      (true, ({ s.1 with m_serialPort := w.2, m_waitingForAck := true,
                         m_timeoutTimer := s.1.m_timeoutTimer.start SERIAL_TIMEOUT_MS }, s.2))

/-- Model of `SerialDevice::sendNextCommand`. -/
def sendNextCommand {W : Type} (emit : Receiver SerialDevice W) (s : SerialDevice × W) : SerialDevice × W :=
  match s.1.m_pendingCommands with
  | [] => s
  | cmd :: rest =>
    if s.1.m_waitingForAck then s
    else
      let w := s.1.m_serialPort.write cmd
      if w.1 ≠ cmd.length then
        emit (.logMessage 3 "Failed to write command to serial port")
          ({ s.1 with m_pendingCommands := rest, m_serialPort := w.2 }, s.2)
      else
        ({ s.1 with m_pendingCommands := rest, m_serialPort := w.2, m_waitingForAck := true,
                    m_timeoutTimer := s.1.m_timeoutTimer.start SERIAL_TIMEOUT_MS }, s.2)

/-- Model of `SerialDevice::connect`. -/
def connect {W : Type} (emit : Receiver SerialDevice W) (s : SerialDevice × W) : Bool × (SerialDevice × W) :=
  if s.1.m_serialPort.isOpen then (true, s)
  else
    let s1 := emit (.logMessage 1 ("Connecting to serial port " ++ s.1.m_portName ++ "...")) s
    let s2 := emit (.connectionStatusChanged .Connecting)
      ({ s1.1 with m_status := .Connecting }, s1.2)
    if s2.1.m_serialPort.opens then
      let s3 := emit (.logMessage 1 "Connected to serial device")
        ({ s2.1 with m_serialPort := { s2.1.m_serialPort with isOpen := true } }, s2.2)
      let s4 := emit (.connectionStatusChanged .Connected)
        ({ s3.1 with m_status := .Connected }, s3.2)
      (true, (sendCommand emit (createCommand "INFO" []) s4).2)
    else
      let s3 := emit (.logMessage 3
        ("Failed to open serial port: " ++ s2.1.m_serialPort.errorString)) s2
      (false, emit (.connectionStatusChanged .Error) ({ s3.1 with m_status := .Error }, s3.2))

/-- Model of `SerialDevice::disconnect`. -/
def disconnect {W : Type} (emit : Receiver SerialDevice W) (s : SerialDevice × W) : SerialDevice × W :=
  let s1 := emit (.connectionStatusChanged .Disconnected)
    ({ s.1 with m_serialPort := { s.1.m_serialPort with isOpen := false },
                m_buffer := [],
                m_pendingCommands := [],
                m_timeoutTimer := s.1.m_timeoutTimer.stop,
                m_waitingForAck := false,
                m_status := .Disconnected }, s.2)
  emit (.logMessage 1 "Disconnected from serial device") s1

/-- Model of `SerialDevice::beginUpdate`. -/
def beginUpdate {W : Type} (emit : Receiver SerialDevice W) (s : SerialDevice × W) :
    Bool × (SerialDevice × W) :=
  if !s.1.isConnected then
    (false, emit (.logMessage 3 "Cannot begin update: device not connected") s)
  else
    let r := sendCommand emit (createCommand "UPDATE_BEGIN" [])
      (emit (.logMessage 1 "Beginning firmware update...") s)
    if !r.1 then (false, emit (.logMessage 3 "Failed to send update begin command") r.2)
    else (true, r.2)

/-- The four bytes `offsetBytes` of `sendFirmwareChunk`. -/
def offsetBytes (offset : Int) : QByteArray :=
  [(offset % 256).toNat, (offset / 256 % 256).toNat, (offset / 65536 % 256).toNat,
   (offset / 16777216 % 256).toNat]

/-- Model of `SerialDevice::sendFirmwareChunk`. -/
def sendFirmwareChunk {W : Type} (emit : Receiver SerialDevice W) (data : QByteArray) (offset : Int)
    (s : SerialDevice × W) : Bool × (SerialDevice × W) :=
  if !s.1.isConnected ∨ s.1.m_state ≠ .Updating then
    (false, emit (.logMessage 3 "Cannot send firmware: device not in update mode") s)
  else
    let r := sendCommand emit (createCommand "CHUNK" (offsetBytes offset ++ data)) s
    if !r.1 then
      (false, emit (.logMessage 3
        ("Failed to send firmware chunk at offset " ++ toString offset)) r.2)
    else (true, r.2)

/-- Model of `SerialDevice::finalizeUpdate`. -/
def finalizeUpdate {W : Type} (emit : Receiver SerialDevice W) (s : SerialDevice × W) :
    Bool × (SerialDevice × W) :=
  if !s.1.isConnected ∨ s.1.m_state ≠ .Updating then
    (false, emit (.logMessage 3 "Cannot finalize update: device not in update mode") s)
  else
    let r := sendCommand emit (createCommand "UPDATE_END" [])
      (emit (.logMessage 1 "Finalizing firmware update...") s)
    if !r.1 then (false, emit (.logMessage 3 "Failed to send update end command") r.2)
    else (true, r.2)

/-- Model of `SerialDevice::cancelUpdate`. -/
def cancelUpdate {W : Type} (emit : Receiver SerialDevice W) (s : SerialDevice × W) :
    Bool × (SerialDevice × W) :=
  if !s.1.isConnected then (false, s)
  else
    let r := sendCommand emit (createCommand "UPDATE_CANCEL" [])
      (emit (.logMessage 1 "Canceling firmware update...") s)
    if !r.1 then (false, emit (.logMessage 3 "Failed to send update cancel command") r.2)
    else (true, emit (.deviceStateChanged .Idle) ({ r.2.1 with m_state := .Idle }, r.2.2))

/-- Model of `SerialDevice::onTimeout`. -/
def onTimeout {W : Type} (emit : Receiver SerialDevice W) (s : SerialDevice × W) : SerialDevice × W :=
  let s1 := emit (.logMessage 2 "Command timeout") s
  if s1.1.m_waitingForAck then
    let s2 : SerialDevice × W := ({ s1.1 with m_waitingForAck := false }, s1.2)
    if !s2.1.m_pendingCommands.isEmpty then sendNextCommand emit s2 else s2
  else s1

/-- The handling of one line by `processResponse`. -/
def processLine {W : Type} (emit : Receiver SerialDevice W) (line : QByteArray) (s : SerialDevice × W) :
    SerialDevice × W :=
  let s1 := emit (.logMessage 0 ("Serial response: " ++ fromUtf8 line)) s
  if startsWith line (ascii "ACK") then
    let s2 : SerialDevice × W :=
      ({ s1.1 with m_timeoutTimer := s1.1.m_timeoutTimer.stop, m_waitingForAck := false }, s1.2)
    if !s2.1.m_pendingCommands.isEmpty then sendNextCommand emit s2 else s2
  else if startsWith line (ascii "INFO:") then
    emit (.logMessage 1 ("Device info: " ++ fromUtf8 (line.drop 5))) s1
  else if startsWith line (ascii "STATE:") then
    let stateStr := line.drop 6
    let state : DeviceState :=
      if stateStr = ascii "IDLE" then .Idle
      else if stateStr = ascii "READY" then .Ready
      else if stateStr = ascii "UPDATING" then .Updating
      else if stateStr = ascii "REBOOTING" then .Rebooting
      else s1.1.m_state
    emit (.deviceStateChanged state) ({ s1.1 with m_state := state }, s1.2)
  else if startsWith line (ascii "ERROR:") then
    emit (.logMessage 3 ("Device error: " ++ fromUtf8 (line.drop 6))) s1
  else s1

/-- Model of `SerialDevice::processResponse`: the loop runs as long as the
buffer holds a line feed, `fuel` times at most. -/
def processResponse {W : Type} (emit : Receiver SerialDevice W) : Nat → SerialDevice × W → SerialDevice × W
  | 0, s => s
  | fuel + 1, s =>
    if s.1.m_buffer.contains 10 then
      let newlinePos := indexOf s.1.m_buffer 10
      let line := trimmed (s.1.m_buffer.take newlinePos)
      processResponse emit fuel
        (processLine emit line ({ s.1 with m_buffer := s.1.m_buffer.drop (newlinePos + 1) }, s.2))
    else s

/-- Model of `SerialDevice::onReadyRead`, for the data that `readAll` returns.
Every turn of the loop of `processResponse` removes a byte at least, so the
length of the buffer bounds the number of turns. -/
def onReadyRead {W : Type} (emit : Receiver SerialDevice W) (data : QByteArray) (s : SerialDevice × W) :
    SerialDevice × W :=
  processResponse emit (s.1.m_buffer.length + data.length)
    ({ s.1 with m_buffer := s.1.m_buffer ++ data }, s.2)

end SerialDevice

/-! ## A job on a serial device -/

/-- What lies outside a serial device in a session: the job connected to its
signals, and the effects of the job so far. -/
structure JobEnd where
  job : UpdateJob
  trace : List Effect
deriving DecidableEq, Repr

/-- A job together with the serial device it is bound to. -/
abbrev Session := SerialDevice × JobEnd

/-- The two directions between the job and the device: the calls of the job on
the device, and the delivery of the signals of the device to the slots of the
job. -/
structure Wiring where
  perform : DeviceCall → Session → Bool × Session
  emit : Receiver SerialDevice JobEnd

/-- The run of a member function of the job on the device: the call it has
reached is performed, the slots run by the signals emitted meanwhile act on the
job, and the function resumes with the members as they are then. -/
def Session.resolve (perform : DeviceCall → Session → Bool × Session)
    (p : UpdateJob.Pending) (s : Session) : Session :=
  match p with
  | .done job effects => (s.1, { job := job, trace := s.2.trace ++ effects })
  | .await job effects call resume =>
    let r := perform call (s.1, { job := job, trace := s.2.trace ++ effects })
    (r.2.1, { job := ( resume r.2.2.job r.1).1,
              trace := r.2.2.trace ++ [Effect.call call r.1] ++ ( resume r.2.2.job r.1).2 })

/-- The wiring that the constructor of the job sets up, calls within calls being
followed to the depth `fuel`: the three signals of the device go to the two
slots and to the signal `logMessage` of the job. -/
def Session.wiring : Nat → Wiring
  | 0 => { perform := fun _ s => (false, s), emit := fun _ s => s }
  | fuel + 1 =>
    { perform := fun call s =>
        match call with
        | .connect => SerialDevice.connect (Session.wiring fuel).emit s
        | .beginUpdate => SerialDevice.beginUpdate (Session.wiring fuel).emit s
        | .sendFirmwareChunk data offset =>
          SerialDevice.sendFirmwareChunk (Session.wiring fuel).emit data offset s
        | .finalizeUpdate => SerialDevice.finalizeUpdate (Session.wiring fuel).emit s
        | .cancelUpdate => SerialDevice.cancelUpdate (Session.wiring fuel).emit s,
      emit := fun signal s =>
        match signal with
        | .logMessage level message =>
          (s.1, { s.2 with trace := s.2.trace ++ [Effect.logMessage level message] })
        | .connectionStatusChanged status =>
          Session.resolve (Session.wiring fuel).perform
            (s.2.job.onDeviceConnectionStatusChanged status) s
        | .deviceStateChanged state =>
          (s.1, { job := (s.2.job.onDeviceStateChanged state).1,
                  trace := s.2.trace ++ (s.2.job.onDeviceStateChanged state).2 }) }

/-- The depth to which calls within calls are followed; the deepest nesting in
the source is `start`, `connect`, the slot of the connection status,
`beginUpdate`, `sendCommand`, the signal `logMessage`. -/
def Session.depth : Nat := 8

/-- What happens to a session: a call from outside, data from the device, or the
timeout of one of the three timers. -/
inductive SessionInput where
  | start
  | cancel
  | connect
  | readyRead (data : QByteArray)
  | chunkTimeout
  | retryTimeout
  | commandTimeout
deriving DecidableEq, Repr

/-- A new session: a serial device on a port, and a job for a firmware package
bound to it. -/
def Session.create (portName : String) (port : QSerialPort) (firmware : FirmwarePackage) :
    Session :=
  (SerialDevice.create portName port,
   { job := UpdateJob.create firmware (SerialDevice.create portName port).optimalChunkSize,
     trace := [] })

/-- One step of a session. -/
def Session.step (s : Session) (input : SessionInput) : Session :=
  match input with
  | .start =>
    Session.resolve (Session.wiring Session.depth).perform (s.2.job.start s.1.isConnected) s
  | .cancel =>
    Session.resolve (Session.wiring Session.depth).perform (s.2.job.cancel s.1.isConnected) s
  | .connect => (SerialDevice.connect (Session.wiring Session.depth).emit s).2
  | .readyRead data => SerialDevice.onReadyRead (Session.wiring Session.depth).emit data s
  | .chunkTimeout =>
    if s.2.job.m_chunkTimer.active then
      Session.resolve (Session.wiring Session.depth).perform
        ({ s.2.job with m_chunkTimer := s.2.job.m_chunkTimer.stop }).onUploadNextChunk s
    else s
  | .retryTimeout =>
    if s.2.job.m_retryTimer.active then
      Session.resolve (Session.wiring Session.depth).perform
        ({ s.2.job with m_retryTimer := s.2.job.m_retryTimer.stop }).onRetryTimeout s
    else s
  | .commandTimeout =>
    if s.1.m_timeoutTimer.active then
      SerialDevice.onTimeout (Session.wiring Session.depth).emit
        ({ s.1 with m_timeoutTimer := s.1.m_timeoutTimer.stop }, s.2)
    else s

/-- A session after a sequence of inputs. -/
def Session.run (s : Session) : List SessionInput → Session
  | [] => s
  | input :: rest => Session.run (s.step input) rest

/-- The device at the other end of the line: what it sends in reply to a
command.  It acknowledges every command; after `UPDATE_BEGIN` it reports the
states in `afterBegin`, after `UPDATE_END` the state REBOOTING. -/
def peerReply (afterBegin : List String) (cmd : QByteArray) : QByteArray :=
  ascii "ACK\n" ++
    (if startsWith cmd (ascii "UPDATE_BEGIN:") then
      (afterBegin.map fun state => ascii ("STATE:" ++ state ++ "\n")).flatten
     else []) ++
    (if startsWith cmd (ascii "UPDATE_END:") then ascii "STATE:REBOOTING\n" else [])

/-- A session played against the device at the other end: each command written
is answered before anything else happens, then the timers of the job fire; the
play ends when nothing is left to happen or after `fuel` steps.  `answered`
counts the commands already answered. -/
def Session.play (afterBegin : List String) : Nat → Nat → Session → Session
  | 0, _, s => s
  | fuel + 1, answered, s =>
    match s.1.m_serialPort.written.drop answered with
    | cmd :: _ =>
      Session.play afterBegin fuel (answered + 1)
        (s.step (.readyRead (peerReply afterBegin cmd)))
    | [] =>
      if s.2.job.m_chunkTimer.active then
        Session.play afterBegin fuel answered (s.step .chunkTimeout)
      else if s.2.job.m_retryTimer.active then
        Session.play afterBegin fuel answered (s.step .retryTimeout)
      else s

/-! ## Sample sessions -/

/-- Firmware data of 10,000 bytes. -/
def uploadPayload : QByteArray := (List.range 10000).map fun i => i % 251

/-- The SHA-256 of `uploadPayload`, in lower-case hexadecimal. -/
def uploadDigest : String := "0cd0bf930677960951dda8588edcb6b293c0c3b26ef3ba72cddff4ddfc6822c7"

/-- The hash value of SHA-256 on `uploadPayload` before the first block, after
every eighth block of the padded data, and after the last, the 157th. -/
def uploadCheckpoints : List (List Nat) :=
  [[1779033703, 3144134277, 1013904242, 2773480762,
    1359893119, 2600822924, 528734635, 1541459225],
   [2688235328, 264871367, 1824992227, 4229820327,
    2239889966, 3858213313, 3726663640, 1091968672],
   [593287895, 1362882418, 4138052016, 1851096040,
    1329006745, 446169578, 1669295762, 2731069393],
   [2995765634, 1074465399, 3248892388, 3652757292,
    2077364692, 2456266491, 1945387724, 1385964065],
   [1494272400, 2137428131, 3442020232, 1239948510,
    2029340817, 1588601121, 1142633555, 1234235463],
   [2833452113, 3937237087, 4171749154, 4125855520,
    3114432399, 793547174, 2883526258, 4266981328],
   [619718302, 950509078, 2668717005, 2892465051,
    3206694029, 1992938679, 2377590190, 3694736714],
   [2290411063, 3453395287, 2183178733, 1413393192,
    2221604054, 2927444479, 1763428450, 512098394],
   [1531260333, 2132871192, 323050414, 127694983,
    868274570, 3735101320, 2875596642, 3719547787],
   [1047886948, 3511214608, 2808119040, 1731168862,
    2442869427, 2022559789, 1190192077, 1806918951],
   [1939446386, 2192776471, 1958849055, 403060592,
    627976957, 2114834232, 255261978, 813672793],
   [1707590713, 1836910517, 2474227604, 824345882,
    2190479584, 2665755847, 3363816440, 101490268],
   [1968845110, 2999241107, 1962251691, 2586604724,
    2969583380, 3492977342, 2148147802, 679089758],
   [2935645938, 2111647562, 1404563740, 1496892597,
    1592158123, 2577106952, 3846735309, 1057129047],
   [1298655658, 598335315, 3283150789, 3881574419,
    2731358607, 2235552754, 4067247815, 2485115096],
   [3331284514, 263979072, 609677216, 2728689570,
    3737648927, 1616015564, 1267094508, 1088580268],
   [3842056878, 4265470868, 3833860413, 3967334178,
    2128245245, 3123678043, 2925767392, 2861981518],
   [3040247375, 3492325714, 2549711208, 2109879378,
    1031731624, 876021598, 2592404185, 2018453692],
   [1130257644, 2640447625, 334864173, 1080892894,
    3679861047, 4269506376, 1892675573, 2889139175],
   [1807378145, 638927657, 2901715395, 531794976,
    3214331522, 875656859, 1785169085, 2547609115],
   [215007123, 108500489, 1373481048, 2396829362,
    2478883762, 1861466738, 3454006493, 4234683079]]

/-- Whether the hash value after the blocks of the padded `uploadPayload` from
`first` on, `count` of them, computed from the checkpoint `i`, is the checkpoint
`i + 1`. -/
def uploadStage (i first count : Nat) : Bool :=
  decide ((Sha256.blocks count
      ((uploadPayload ++ 128 :: List.replicate 39 0 ++ Sha256.beBytes 8 80000).drop
        (64 * first))).foldl Sha256.compress (uploadCheckpoints.getD i []) =
    uploadCheckpoints.getD (i + 1) [])

/-- A container with the metadata `longJson uploadDigest` and the firmware data
`uploadPayload`. -/
def uploadFile : QByteArray := serialize (longJson uploadDigest) uploadPayload

/-- The package that the constructor builds from `uploadFile`. -/
def uploadPackage : FirmwarePackage :=
  { m_file := { bytes := uploadFile, pos := 10296, isOpen := true },
    m_metadata := sampleMetadata uploadDigest,
    m_sha256 := uploadDigest,
    m_signature := "",
    m_dataOffset := 296,
    m_dataSize := 10000 }

/-- A serial port that opens and takes what is written to it. -/
def goodPort : QSerialPort :=
  { isOpen := false, opens := true, takes := true, written := [], errorString := "" }

/-- A serial port that does not open. -/
def deadPort : QSerialPort :=
  { isOpen := false, opens := false, takes := true, written := [],
    errorString := "No such file or directory" }

/-- The update of a firmware package over a serial port that opens, played to
the end against a device that reports the states `afterBegin`. -/
def Session.update (afterBegin : List String) (firmware : FirmwarePackage) : Session :=
  Session.play afterBegin 64 0 ((Session.create "ttyUSB0" goodPort firmware).step .start)

/-- The `CHUNK` commands among the commands written. -/
def chunkCommands (written : List QByteArray) : List QByteArray :=
  written.filter fun cmd => startsWith cmd (ascii "CHUNK:")

/-- The `progressChanged` signals among effects. -/
def Effect.isProgress : Effect → Bool
  | .progressChanged _ _ => true
  | _ => false

/-- The job for the sample package, with chunks of four bytes, when the three
chunks have been accepted. -/
def uploadedJob : UpdateJob :=
  (uploadingJob.run [.chunkTimeout true, .chunkTimeout true, .chunkTimeout true]).1

/-! ## JSON values with their contents -/

/-- A `QJsonValue` with its contents, as the network device builds and reads
it; a number is held by its value when that is an integer. -/
inductive JsonValue where
  | null
  | bool (b : Bool)
  | number (n : Int)
  | string (s : String)
  | array (items : List JsonValue)
  | object (members : List (String × JsonValue))

/-- A `QJsonObject` with its contents: the members in key order, one per key. -/
abbrev JsonObject := List (String × JsonValue)

namespace JsonValue

/-- Model of `QJsonValue::toString()`. -/
def toString : JsonValue → String
  | .string s => s
  | _ => ""

/-- Model of `QJsonValue::toBool()`. -/
def toBool : JsonValue → Bool
  | .bool b => b
  | _ => false

/-- Model of `QJsonValue::toObject()`. -/
def toObject : JsonValue → JsonObject
  | .object members => members
  | _ => []

end JsonValue

namespace JsonObject

/-- The member lookup behind `contains` and `operator[]`. -/
def find (obj : JsonObject) (key : String) : Option JsonValue :=
  match obj with
  | [] => none
  | (k, v) :: rest => if key = k then some v else find rest key

/-- Model of `QJsonObject::contains`. -/
def contains (obj : JsonObject) (key : String) : Bool := (find obj key).isSome

/-- Model of the assignment `obj[key] = v`: replaces the member `key` or inserts
it at its place in key order. -/
def insert (obj : JsonObject) (key : String) (v : JsonValue) : JsonObject :=
  match obj with
  | [] => [(key, v)]
  | (k, w) :: rest =>
    if key = k then (key, v) :: rest
    else if keyLt key k then (key, v) :: (k, w) :: rest
    else (k, w) :: insert rest key v

/-- The value that `obj[key]` reads; on an object that is not `const` the
operator creates the member with a null value when it is absent
(`JsonObject.touch`). -/
def value (obj : JsonObject) (key : String) : JsonValue := (find obj key).getD .null

/-- The object after `obj[key]` has been evaluated on an object that is not
`const`. -/
def touch (obj : JsonObject) (key : String) : JsonObject :=
  if contains obj key then obj else insert obj key .null

end JsonObject

/-- The JSON routines of Qt that the network device calls. -/
structure NetEnv where
  /-- The parser `QJsonDocument::fromJson`: `none` for a null document. -/
  fromJson : QByteArray → Option JsonValue
  /-- The text `QString::fromUtf8(QJsonDocument(obj).toJson())`, indented. -/
  toJson : JsonObject → String
  /-- The bytes `QJsonDocument(obj).toJson(QJsonDocument::Compact)`. -/
  toJsonCompact : JsonObject → QByteArray

/-! ## QByteArray and QTcpSocket -/

/-- Model of `QByteArray::mid(pos, len)` of Qt 5, whose sizes are `int`. -/
def mid (bytes : QByteArray) (pos len : Int) : QByteArray :=
  if pos > bytes.length then []
  else if pos < 0 then
    if len < 0 ∨ len + pos ≥ bytes.length then bytes
    else if len + pos ≤ 0 then []
    else bytes.take (len + pos).toNat
  else if len < 0 ∨ len > bytes.length - pos then bytes.drop pos.toNat
  else (bytes.drop pos.toNat).take len.toNat

/-- Model of `QByteArray::remove(pos, len)` of Qt 5: nothing is removed when
`len` is not positive. -/
def remove (bytes : QByteArray) (pos len : Int) : QByteArray :=
  if len ≤ 0 ∨ pos < 0 ∨ pos ≥ bytes.length then bytes
  else if len ≥ bytes.length - pos then bytes.take pos.toNat
  else bytes.take pos.toNat ++ bytes.drop (pos + len).toNat

/-- A `quint32` written to a `QDataStream` in little-endian byte order. -/
def writeLE32 (n : Nat) : QByteArray :=
  [n % 256, n / 256 % 256, n / 65536 % 256, n / 16777216 % 256]

/-- A `quint32` read from a `QDataStream` over `bytes` in little-endian byte
order; bytes that are missing read as 0. -/
def readLE32 (bytes : QByteArray) : Nat :=
  bytes.getD 0 0 % 256 + bytes.getD 1 0 % 256 * 256 + bytes.getD 2 0 % 256 * 65536 +
    bytes.getD 3 0 % 256 * 16777216

/-- The states of `QAbstractSocket` that a TCP socket goes through. -/
inductive SocketState where
  | UnconnectedState
  | ConnectingState
  | ConnectedState
  | ClosingState
deriving DecidableEq, Repr

/-- A `QTcpSocket` as the device uses it: its state, whether `write` takes the
whole of what it is given, whether a disconnection completes within the wait of
`disconnect()`, the data written so far (one entry per `write`), and the text
of `errorString()`.  The outcome of a connection attempt arrives later, as a
signal of the socket. -/
structure QTcpSocket where
  state : SocketState
  takes : Bool
  closes : Bool
  written : List QByteArray
  errorString : String
deriving DecidableEq, Repr

namespace QTcpSocket

/-- Model of `QTcpSocket::write`: the number of bytes written, -1 on failure. -/
def write (socket : QTcpSocket) (data : QByteArray) : Int × QTcpSocket :=
  if socket.takes then (data.length, { socket with written := socket.written ++ [data] })
  else (-1, socket)

/-- Model of `QTcpSocket::connectToHost`, with whether the signal `error` is
emitted: a socket that is not unconnected refuses the call with an error. -/
def connectToHost (socket : QTcpSocket) : QTcpSocket × Bool :=
  if socket.state = .UnconnectedState then ({ socket with state := .ConnectingState }, false)
  else ({ socket with errorString := "Trying to connect while connection is in progress" }, true)

/-- Model of `disconnectFromHost()` followed by `waitForDisconnected(1000)`, with
whether the signal `disconnected` is emitted: it is when a socket that was
connected or closing reaches the unconnected state. -/
def disconnectFromHost (socket : QTcpSocket) : QTcpSocket × Bool :=
  if socket.closes then
    ({ socket with state := .UnconnectedState },
     decide (socket.state = .ConnectedState ∨ socket.state = .ClosingState))
  else if socket.state = .ConnectedState then ({ socket with state := .ClosingState }, false)
  else (socket, false)

end QTcpSocket

/-! ## networkdevice.cpp -/

/-- The constant `TIMEOUT_MS` of the network device. -/
def NETWORK_TIMEOUT_MS : Int := 5000

/-- The constant `DEFAULT_CHUNK_SIZE` of the network device. -/
def NETWORK_DEFAULT_CHUNK_SIZE : Int := 4096

/-- The member variables of `NetworkDevice`. -/
structure NetworkDevice where
  m_address : String
  m_port : Nat
  m_socket : QTcpSocket
  m_status : ConnectionStatus
  m_state : DeviceState
  m_buffer : QByteArray
  m_timeoutTimer : QTimer
  m_pendingCommands : List QByteArray
  m_waitingForResponse : Bool
deriving DecidableEq, Repr

/-- The value of the `double` that a `qint64` is converted to when it is stored
in a `QJsonValue`. -/
def qint64ToDouble (n : Int) : Int := Int.sign n * (Double.ofNat n.natAbs).trunc

namespace NetworkDevice

/-- Model of the constructor `NetworkDevice::NetworkDevice`, around a socket. -/
def create (address : String) (port : Nat) (socket : QTcpSocket) : NetworkDevice :=
  { m_address := address,
    m_port := port,
    m_socket := socket,
    m_status := .Disconnected,
    m_state := .Idle,
    m_buffer := [],
    m_timeoutTimer := QTimer.idle,
    m_pendingCommands := [],
    m_waitingForResponse := false }

/-- Model of `NetworkDevice::deviceId`.  This text and the two log messages that
name address and port are built with two calls of `arg` in a row; they are given
here for an address without a place marker (a percent sign before a digit),
which the second call would fill as well. -/
def deviceId (self : NetworkDevice) : String :=
  "net:" ++ self.m_address ++ ":" ++ toString self.m_port

/-- Model of `NetworkDevice::isConnected`. -/
def isConnected (self : NetworkDevice) : Bool :=
  decide (self.m_socket.state = .ConnectedState)

/-- Model of `NetworkDevice::connectionStatus`. -/
def connectionStatus (self : NetworkDevice) : ConnectionStatus := self.m_status

/-- Model of `NetworkDevice::deviceState`. -/
def deviceState (self : NetworkDevice) : DeviceState := self.m_state

/-- Model of `NetworkDevice::optimalChunkSize`. -/
def optimalChunkSize (_ : NetworkDevice) : Int := NETWORK_DEFAULT_CHUNK_SIZE

/-- Model of `NetworkDevice::createRequest`. -/
def createRequest (env : NetEnv) (cmd : String) (data : QByteArray) : QByteArray :=
  let header := JsonObject.insert [] "command" (.string cmd)
  let header := if !data.isEmpty then header.insert "data_size" (.number data.length)
                else header
  let headerJson := env.toJsonCompact header
  let messageSize := toQuint32 (headerJson.length + data.length)
  writeLE32 messageSize ++ headerJson ++ (if !data.isEmpty then data else [])

/-- Model of `NetworkDevice::sendRequest`. -/
def sendRequest {W : Type} (emit : Receiver NetworkDevice W) (req : QByteArray)
    (s : NetworkDevice × W) : Bool × (NetworkDevice × W) :=
  if !s.1.isConnected then (false, s)
  else if s.1.m_waitingForResponse then
    (true, ({ s.1 with m_pendingCommands := s.1.m_pendingCommands ++ [req] }, s.2))
  else
    let w := s.1.m_socket.write req
    if w.1 ≠ req.length then
      (false, emit (.logMessage 3 "Failed to write data to socket")
        ({ s.1 with m_socket := w.2 }, s.2))
    else
      (true, ({ s.1 with m_socket := w.2, m_waitingForResponse := true,
                         m_timeoutTimer := s.1.m_timeoutTimer.start NETWORK_TIMEOUT_MS }, s.2))

/-- Model of `NetworkDevice::sendNextRequest`. -/
def sendNextRequest {W : Type} (emit : Receiver NetworkDevice W) (s : NetworkDevice × W) :
    NetworkDevice × W :=
  match s.1.m_pendingCommands with
  | [] => s
  | req :: rest =>
    if s.1.m_waitingForResponse then s
    else
      let w := s.1.m_socket.write req
      if w.1 ≠ req.length then
        emit (.logMessage 3 "Failed to write data to socket")
          ({ s.1 with m_pendingCommands := rest, m_socket := w.2 }, s.2)
      else
        ({ s.1 with m_pendingCommands := rest, m_socket := w.2, m_waitingForResponse := true,
                    m_timeoutTimer := s.1.m_timeoutTimer.start NETWORK_TIMEOUT_MS }, s.2)

/-- Model of the slot `NetworkDevice::onError`. -/
def onError {W : Type} (emit : Receiver NetworkDevice W) (s : NetworkDevice × W) :
    NetworkDevice × W :=
  let s1 := emit (.logMessage 3 ("Socket error: " ++ s.1.m_socket.errorString)) s
  emit (.connectionStatusChanged .Error) ({ s1.1 with m_status := .Error }, s1.2)

/-- Model of the slot `NetworkDevice::onDisconnected`. -/
def onDisconnected {W : Type} (emit : Receiver NetworkDevice W) (s : NetworkDevice × W) :
    NetworkDevice × W :=
  let s1 := emit (.logMessage 1 "Device disconnected") s
  let s2 := emit (.connectionStatusChanged .Disconnected)
    ({ s1.1 with m_status := .Disconnected }, s1.2)
  ({ s2.1 with m_buffer := [],
               m_pendingCommands := [],
               m_timeoutTimer := s2.1.m_timeoutTimer.stop,
               m_waitingForResponse := false }, s2.2)

/-- Model of `NetworkDevice::connect`. -/
def connect {W : Type} (emit : Receiver NetworkDevice W) (s : NetworkDevice × W) :
    Bool × (NetworkDevice × W) :=
  if s.1.m_socket.state = .ConnectedState then (true, s)
  else
    let s1 := emit (.logMessage 1 ("Connecting to device at " ++ s.1.m_address ++ ":" ++
      toString s.1.m_port ++ "...")) s
    let s2 := emit (.connectionStatusChanged .Connecting)
      ({ s1.1 with m_status := .Connecting }, s1.2)
    let c := s2.1.m_socket.connectToHost
    let s3 : NetworkDevice × W := ({ s2.1 with m_socket := c.1 }, s2.2)
    let s4 := if c.2 then onError emit s3 else s3
    (true, ({ s4.1 with m_timeoutTimer := s4.1.m_timeoutTimer.start NETWORK_TIMEOUT_MS }, s4.2))

/-- Model of `NetworkDevice::disconnect`. -/
def disconnect {W : Type} (emit : Receiver NetworkDevice W) (s : NetworkDevice × W) :
    NetworkDevice × W :=
  let s1 :=
    if s.1.m_socket.state ≠ .UnconnectedState then
      let d := s.1.m_socket.disconnectFromHost
      let closed : NetworkDevice × W := ({ s.1 with m_socket := d.1 }, s.2)
      if d.2 then onDisconnected emit closed else closed
    else s
  let s2 := emit (.connectionStatusChanged .Disconnected)
    ({ s1.1 with m_buffer := [],
                 m_pendingCommands := [],
                 m_timeoutTimer := s1.1.m_timeoutTimer.stop,
                 m_waitingForResponse := false,
                 m_status := .Disconnected }, s1.2)
  emit (.logMessage 1 "Disconnected from network device") s2

/-- Model of `NetworkDevice::beginUpdate`. -/
def beginUpdate {W : Type} (env : NetEnv) (emit : Receiver NetworkDevice W)
    (s : NetworkDevice × W) : Bool × (NetworkDevice × W) :=
  if !s.1.isConnected then
    (false, emit (.logMessage 3 "Cannot begin update: device not connected") s)
  else
    let s1 := emit (.logMessage 1 "Beginning firmware update...") s
    let jsonData := env.toJsonCompact (JsonObject.insert [] "action" (.string "begin_update"))
    let r := sendRequest emit (createRequest env "update" jsonData) s1
    if !r.1 then (false, emit (.logMessage 3 "Failed to send update begin request") r.2)
    else (true, r.2)

/-- Model of `NetworkDevice::sendFirmwareChunk`. -/
def sendFirmwareChunk {W : Type} (env : NetEnv) (emit : Receiver NetworkDevice W)
    (data : QByteArray) (offset : Int) (s : NetworkDevice × W) : Bool × (NetworkDevice × W) :=
  if !s.1.isConnected ∨ s.1.m_state ≠ .Updating then
    (false, emit (.logMessage 3 "Cannot send firmware: device not in update mode") s)
  else
    let reqData := JsonObject.insert [] "action" (.string "write_chunk")
    let reqData := reqData.insert "offset" (.number (qint64ToDouble offset))
    let reqData := reqData.insert "size" (.number data.length)
    let jsonData := env.toJsonCompact reqData
    let r := sendRequest emit (createRequest env "update" (jsonData ++ ascii "\n" ++ data)) s
    if !r.1 then
      (false, emit (.logMessage 3
        ("Failed to send firmware chunk at offset " ++ toString offset)) r.2)
    else (true, r.2)

/-- Model of `NetworkDevice::finalizeUpdate`. -/
def finalizeUpdate {W : Type} (env : NetEnv) (emit : Receiver NetworkDevice W)
    (s : NetworkDevice × W) : Bool × (NetworkDevice × W) :=
  if !s.1.isConnected ∨ s.1.m_state ≠ .Updating then
    (false, emit (.logMessage 3 "Cannot finalize update: device not in update mode") s)
  else
    let s1 := emit (.logMessage 1 "Finalizing firmware update...") s
    let jsonData := env.toJsonCompact (JsonObject.insert [] "action" (.string "end_update"))
    let r := sendRequest emit (createRequest env "update" jsonData) s1
    if !r.1 then (false, emit (.logMessage 3 "Failed to send update finalize request") r.2)
    else (true, r.2)

/-- Model of `NetworkDevice::cancelUpdate`. -/
def cancelUpdate {W : Type} (env : NetEnv) (emit : Receiver NetworkDevice W)
    (s : NetworkDevice × W) : Bool × (NetworkDevice × W) :=
  if !s.1.isConnected then (false, s)
  else
    let s1 := emit (.logMessage 1 "Canceling firmware update...") s
    let jsonData := env.toJsonCompact (JsonObject.insert [] "action" (.string "cancel_update"))
    let r := sendRequest emit (createRequest env "update" jsonData) s1
    if !r.1 then (false, emit (.logMessage 3 "Failed to send update cancel request") r.2)
    else (true, emit (.deviceStateChanged .Idle) ({ r.2.1 with m_state := .Idle }, r.2.2))

/-- Model of the slot `NetworkDevice::onConnected`. -/
def onConnected {W : Type} (env : NetEnv) (emit : Receiver NetworkDevice W)
    (s : NetworkDevice × W) : NetworkDevice × W :=
  let s1 := emit (.logMessage 1 ("Connected to device at " ++ s.1.m_address ++ ":" ++
      toString s.1.m_port))
    ({ s.1 with m_timeoutTimer := s.1.m_timeoutTimer.stop }, s.2)
  let s2 := emit (.connectionStatusChanged .Connected)
    ({ s1.1 with m_status := .Connected }, s1.2)
  (sendRequest emit (createRequest env "info" []) s2).2

/-- The socket reports that the connection is made: it is in the connected
state and emits `connected`. -/
def socketConnected {W : Type} (env : NetEnv) (emit : Receiver NetworkDevice W)
    (s : NetworkDevice × W) : NetworkDevice × W :=
  onConnected env emit
    ({ s.1 with m_socket := { s.1.m_socket with state := .ConnectedState } }, s.2)

/-- The socket reports that the connection attempt has failed: it is back in
the unconnected state and emits `error`. -/
def socketError {W : Type} (emit : Receiver NetworkDevice W) (errorString : String)
    (s : NetworkDevice × W) : NetworkDevice × W :=
  onError emit
    ({ s.1 with m_socket := { s.1.m_socket with state := .UnconnectedState,
                                                errorString := errorString } }, s.2)

/-- Model of the slot `NetworkDevice::onTimeout`. -/
def onTimeout {W : Type} (emit : Receiver NetworkDevice W) (s : NetworkDevice × W) :
    NetworkDevice × W :=
  let s1 := emit (.logMessage 2 "Request timeout") s
  if s1.1.m_waitingForResponse then
    let s2 : NetworkDevice × W := ({ s1.1 with m_waitingForResponse := false }, s1.2)
    if !s2.1.m_pendingCommands.isEmpty then sendNextRequest emit s2 else s2
  else s1

/-- The handling by `processResponse` of a response that parses as an object
(lines 299 to 361). -/
def handleResponse {W : Type} (env : NetEnv) (emit : Receiver NetworkDevice W)
    (response : JsonObject) (s : NetworkDevice × W) : NetworkDevice × W :=
  if (response.value "status").toString = "ok" then
    let s1 : NetworkDevice × W :=
      ({ s.1 with m_timeoutTimer := s.1.m_timeoutTimer.stop, m_waitingForResponse := false },
       s.2)
    let response := response.touch "status"
    let s2 :=
      if response.contains "info" then
        let info := (response.value "info").toObject
        let state := (info.value "state").toString
        let info := info.touch "state"
        let deviceState : DeviceState :=
          if state = "idle" then .Idle
          else if state = "ready" then .Ready
          else if state = "updating" then .Updating
          else if state = "rebooting" then .Rebooting
          else s1.1.m_state
        let s3 := emit (.deviceStateChanged deviceState)
          ({ s1.1 with m_state := deviceState }, s1.2)
        emit (.logMessage 1 ("Device info: " ++ env.toJson info)) s3
      else if response.contains "update_status" then
        let updateStatus := (response.value "update_status").toObject
        let action := (updateStatus.value "action").toString
        let updateStatus := updateStatus.touch "action"
        let success := (updateStatus.value "success").toBool
        let updateStatus := updateStatus.touch "success"
        let s3 :=
          if action = "begin_update" ∧ success = true then
            emit (.deviceStateChanged .Updating) ({ s1.1 with m_state := .Updating }, s1.2)
          else if action = "end_update" ∧ success = true then
            emit (.deviceStateChanged .Rebooting) ({ s1.1 with m_state := .Rebooting }, s1.2)
          else s1
        emit (.logMessage 1 ("Update status: " ++ env.toJson updateStatus)) s3
      else s1
    if !s2.1.m_pendingCommands.isEmpty then sendNextRequest emit s2 else s2
  else
    let s1 := emit (.logMessage 3
      ("Request failed: " ++ (response.value "error").toString)) s
    let s2 : NetworkDevice × W :=
      ({ s1.1 with m_timeoutTimer := s1.1.m_timeoutTimer.stop,
                   m_waitingForResponse := false }, s1.2)
    if !s2.1.m_pendingCommands.isEmpty then sendNextRequest emit s2 else s2

/-- The size that the first four bytes of the buffer announce, `messageSize`. -/
def messageSize (self : NetworkDevice) : Nat := readLE32 self.m_buffer

/-- Whether the loop of `processResponse` ends at the top of a turn: the buffer
has fewer than four bytes, or fewer than `static_cast<int>(4 + messageSize)`. -/
def loopEnds (self : NetworkDevice) : Bool :=
  decide (self.m_buffer.length < 4) ||
    decide ((self.m_buffer.length : Int) < toInt (toQuint32 (4 + self.messageSize)))

/-- The parsing by `processResponse` of the JSON of a frame (lines 292 to 299)
and the handling of the response. -/
def handleFrame {W : Type} (env : NetEnv) (emit : Receiver NetworkDevice W)
    (jsonData : QByteArray) (s : NetworkDevice × W) : NetworkDevice × W :=
  match env.fromJson jsonData with
  | some (.object response) => handleResponse env emit response s
  | _ => emit (.logMessage 3 "Received invalid JSON response") s

/-- One turn of the loop of `processResponse` past the two tests. -/
def turn {W : Type} (env : NetEnv) (emit : Receiver NetworkDevice W) (s : NetworkDevice × W) :
    NetworkDevice × W :=
  let jsonData := mid s.1.m_buffer 4 (toInt s.1.messageSize)
  handleFrame env emit jsonData
    ({ s.1 with m_buffer := remove s.1.m_buffer 0 (toInt (toQuint32 (4 + s.1.messageSize))) },
     s.2)

/-- Model of `NetworkDevice::processResponse`: the state when the loop has
ended, `none` when it has not ended after `fuel` turns. -/
def processResponse {W : Type} (env : NetEnv) (emit : Receiver NetworkDevice W) :
    Nat → NetworkDevice × W → Option (NetworkDevice × W)
  | 0, s => if s.1.loopEnds then some s else none
  | fuel + 1, s =>
    if s.1.loopEnds then some s else processResponse env emit fuel (turn env emit s)

/-- Model of the slot `NetworkDevice::onReadyRead`, for the data that `readAll`
returns.  A turn of the loop that removes nothing from the buffer is followed by
turns without end; the turns that remove something are fewer than the buffer
has bytes. -/
def onReadyRead {W : Type} (env : NetEnv) (emit : Receiver NetworkDevice W)
    (data : QByteArray) (s : NetworkDevice × W) : Option (NetworkDevice × W) :=
  processResponse env emit (s.1.m_buffer.length + data.length)
    ({ s.1 with m_buffer := s.1.m_buffer ++ data }, s.2)

end NetworkDevice

/-! ## A transport by itself -/

/-- The slots of a device whose signals are connected to a record of them and
to nothing else. -/
def record {D : Type} : Receiver D (List DeviceSignal) :=
  fun signal s => (s.1, s.2 ++ [signal])

/-- What reaches a transport whose connection is open: a request to send, data
from the device, or the timeout of its timer. -/
inductive WireInput where
  | send (request : QByteArray)
  | readyRead (data : QByteArray)
  | timeout
deriving DecidableEq, Repr

/-- A transport by itself: the device, the signals it has emitted, and the
requests that `sendCommand` or `sendRequest` has accepted, in order. -/
structure Wire (D : Type) where
  device : D
  signals : List DeviceSignal
  accepted : List QByteArray

/-- One step of a serial device by itself. -/
def SerialDevice.drive (w : Wire SerialDevice) : WireInput → Wire SerialDevice
  | .send request =>
    let r := SerialDevice.sendCommand record request (w.device, w.signals)
    { device := r.2.1, signals := r.2.2,
      accepted := if r.1 then w.accepted ++ [request] else w.accepted }
  | .readyRead data =>
    let r := SerialDevice.onReadyRead record data (w.device, w.signals)
    { device := r.1, signals := r.2, accepted := w.accepted }
  | .timeout =>
    if w.device.m_timeoutTimer.active then
      let r := SerialDevice.onTimeout record
        ({ w.device with m_timeoutTimer := w.device.m_timeoutTimer.stop }, w.signals)
      { device := r.1, signals := r.2, accepted := w.accepted }
    else w

/-- A serial device by itself after a sequence of inputs. -/
def SerialDevice.driveAll (w : Wire SerialDevice) : List WireInput → Wire SerialDevice
  | [] => w
  | input :: rest => SerialDevice.driveAll (SerialDevice.drive w input) rest

/-- One step of a network device by itself; `none` when `processResponse` does
not return. -/
def NetworkDevice.drive (env : NetEnv) (w : Wire NetworkDevice) :
    WireInput → Option (Wire NetworkDevice)
  | .send request =>
    let r := NetworkDevice.sendRequest record request (w.device, w.signals)
    some { device := r.2.1, signals := r.2.2,
           accepted := if r.1 then w.accepted ++ [request] else w.accepted }
  | .readyRead data =>
    (NetworkDevice.onReadyRead env record data (w.device, w.signals)).map fun r =>
      { device := r.1, signals := r.2, accepted := w.accepted }
  | .timeout =>
    if w.device.m_timeoutTimer.active then
      let r := NetworkDevice.onTimeout record
        ({ w.device with m_timeoutTimer := w.device.m_timeoutTimer.stop }, w.signals)
      some { device := r.1, signals := r.2, accepted := w.accepted }
    else some w

/-- A network device by itself after a sequence of inputs. -/
def NetworkDevice.driveAll (env : NetEnv) (w : Wire NetworkDevice) :
    List WireInput → Option (Wire NetworkDevice)
  | [] => some w
  | input :: rest =>
    match NetworkDevice.drive env w input with
    | none => none
    | some next => NetworkDevice.driveAll env next rest

/-! ## Sample transports -/

/-- A serial device with an open port that waits for the acknowledgement of
`UPDATE_BEGIN`, with two commands in its queue and half a line in its buffer. -/
def busySerial : SerialDevice :=
  { m_portName := "ttyUSB0",
    m_serialPort := { isOpen := true, opens := true, takes := true,
                      written := [ascii "INFO:\n", ascii "UPDATE_BEGIN:\n"],
                      errorString := "" },
    m_status := .Connected,
    m_state := .Idle,
    m_buffer := ascii "AC",
    m_timeoutTimer := { active := true, interval := 3000 },
    m_pendingCommands := [ascii "UPDATE_END:\n", ascii "UPDATE_CANCEL:\n"],
    m_waitingForAck := true }

/-- A socket that is connected, takes what is written to it and closes when it
is asked to. -/
def goodSocket : QTcpSocket :=
  { state := .ConnectedState, takes := true, closes := true, written := [], errorString := "" }

/-- A socket that is not connected. -/
def freshSocket : QTcpSocket :=
  { state := .UnconnectedState, takes := true, closes := true, written := [],
    errorString := "" }

/-- A network device on a connected socket that waits for the response to a
request, with two requests in its queue and two bytes in its buffer. -/
def busyNetwork : NetworkDevice :=
  { m_address := "192.168.1.100",
    m_port := 8266,
    m_socket := { goodSocket with written := [[1, 0, 0, 0, 65]] },
    m_status := .Connected,
    m_state := .Idle,
    m_buffer := [16, 0],
    m_timeoutTimer := { active := true, interval := 5000 },
    m_pendingCommands := [[1, 0, 0, 0, 66], [1, 0, 0, 0, 67]],
    m_waitingForResponse := true }

/-- The order of the requests of a serial device whose port is open and takes
what is written to it, for the list of the accepted requests: those written to
the port followed by those in the queue are the accepted ones, and the queue is
empty unless a request is in flight. -/
def SerialDevice.Ordered (d : SerialDevice) (accepted : List QByteArray) : Prop :=
  d.m_serialPort.isOpen = true ∧ d.m_serialPort.takes = true ∧
  (d.m_waitingForAck = false → d.m_pendingCommands = []) ∧
  d.m_serialPort.written ++ d.m_pendingCommands = accepted

/-- The order of the requests of a network device whose socket is connected and
takes what is written to it, for the list of the accepted requests. -/
def NetworkDevice.Ordered (d : NetworkDevice) (accepted : List QByteArray) : Prop :=
  d.m_socket.state = .ConnectedState ∧ d.m_socket.takes = true ∧
  (d.m_waitingForResponse = false → d.m_pendingCommands = []) ∧
  d.m_socket.written ++ d.m_pendingCommands = accepted

/-- A serial device by itself whose port is open and takes what is written to
it, and whose requests are in order: those written to the port followed by
those in the queue are the accepted ones in the order of their acceptance, and
the queue is empty unless a request is in flight. -/
def SerialDevice.InOrder (w : Wire SerialDevice) : Prop :=
  w.device.m_serialPort.isOpen = true ∧ w.device.m_serialPort.takes = true ∧
  (w.device.m_waitingForAck = false → w.device.m_pendingCommands = []) ∧
  w.device.m_serialPort.written ++ w.device.m_pendingCommands = w.accepted

instance (w : Wire SerialDevice) : Decidable (SerialDevice.InOrder w) := by
  unfold SerialDevice.InOrder
  infer_instance

/-- A network device by itself whose socket is connected and takes what is
written to it, and whose requests are in order. -/
def NetworkDevice.InOrder (w : Wire NetworkDevice) : Prop :=
  w.device.m_socket.state = .ConnectedState ∧ w.device.m_socket.takes = true ∧
  (w.device.m_waitingForResponse = false → w.device.m_pendingCommands = []) ∧
  w.device.m_socket.written ++ w.device.m_pendingCommands = w.accepted

instance (w : Wire NetworkDevice) : Decidable (NetworkDevice.InOrder w) := by
  unfold NetworkDevice.InOrder
  infer_instance

/-! ## A reference for the JSON routines -/

namespace NetJson

/-- The bytes of a JSON string: the text between quotes, a quote or a backslash
within it preceded by a backslash. -/
def writeString (s : String) : QByteArray :=
  34 :: (s.data.map fun c =>
    if c.toNat = 34 ∨ c.toNat = 92 then [92, c.toNat] else [c.toNat]).flatten ++ [34]

mutual

/-- The bytes that `toJson` writes for a value at a depth of nesting, compact or
indented by four spaces for each level. -/
def writeValue (compact : Bool) (indent : Nat) : JsonValue → QByteArray
  | .null => ascii "null"
  | .bool b => if b then ascii "true" else ascii "false"
  | .number n => ascii (toString n)
  | .string s => writeString s
  | .array items =>
    (if compact then [91] else [91, 10]) ++
      writeItems compact (if compact then 0 else indent + 1) items ++
      List.replicate (4 * indent) 32 ++ [93]
  | .object members =>
    (if compact then [123] else [123, 10]) ++
      writeMembers compact (if compact then 0 else indent + 1) members ++
      List.replicate (4 * indent) 32 ++ [125]

/-- The items of an array, one to a line unless compact. -/
def writeItems (compact : Bool) (indent : Nat) : List JsonValue → QByteArray
  | [] => []
  | [item] =>
    List.replicate (4 * indent) 32 ++ writeValue compact indent item ++
      (if compact then [] else [10])
  | item :: rest =>
    List.replicate (4 * indent) 32 ++ writeValue compact indent item ++
      (if compact then [44] else [44, 10]) ++ writeItems compact indent rest

/-- The members of an object, one to a line unless compact. -/
def writeMembers (compact : Bool) (indent : Nat) : List (String × JsonValue) → QByteArray
  | [] => []
  | [(key, v)] =>
    List.replicate (4 * indent) 32 ++ writeString key ++
      (if compact then [58] else [58, 32]) ++ writeValue compact indent v ++
      (if compact then [] else [10])
  | (key, v) :: rest =>
    List.replicate (4 * indent) 32 ++ writeString key ++
      (if compact then [58] else [58, 32]) ++ writeValue compact indent v ++
      (if compact then [44] else [44, 10]) ++ writeMembers compact indent rest

end

/-- The bytes of `QJsonDocument(obj).toJson(format)`. -/
def toJson (compact : Bool) (obj : JsonObject) : QByteArray :=
  (if compact then [123] else [123, 10]) ++
    writeMembers compact (if compact then 0 else 1) obj ++
    (if compact then [125] else [125, 10])

/-- The value of leading decimal digits, and what follows them. -/
def readDigits : QByteArray → Nat → Nat × QByteArray
  | [], acc => (acc, [])
  | b :: rest, acc =>
    if 48 ≤ b ∧ b ≤ 57 then readDigits rest (acc * 10 + (b - 48)) else (acc, b :: rest)

mutual

/-- A value: a string, an object, one of the three literals, or a decimal
integer; arrays, fractions and exponents are not read. -/
def readValue : Nat → QByteArray → Option (JsonValue × QByteArray)
  | 0, _ => none
  | fuel + 1, bs =>
    match bs with
    | 34 :: rest => (FlatJson.readChars rest []).map fun r => (JsonValue.string r.1, r.2)
    | 123 :: rest =>
      match FlatJson.skipWs rest with
      | 125 :: r2 => some (JsonValue.object [], r2)
      | r1 => (readMembers fuel r1 []).map fun r => (JsonValue.object r.1, r.2)
    | 116 :: 114 :: 117 :: 101 :: rest => some (JsonValue.bool true, rest)
    | 102 :: 97 :: 108 :: 115 :: 101 :: rest => some (JsonValue.bool false, rest)
    | 110 :: 117 :: 108 :: 108 :: rest => some (JsonValue.null, rest)
    | 45 :: b :: rest =>
      if 48 ≤ b ∧ b ≤ 57 then
        some (JsonValue.number (-((readDigits (b :: rest) 0).1 : Int)),
              (readDigits (b :: rest) 0).2)
      else none
    | b :: rest =>
      if 48 ≤ b ∧ b ≤ 57 then
        some (JsonValue.number (readDigits (b :: rest) 0).1, (readDigits (b :: rest) 0).2)
      else none
    | [] => none

/-- The members after the opening brace up to the closing one, in key order. -/
def readMembers : Nat → QByteArray → JsonObject → Option (JsonObject × QByteArray)
  | 0, _, _ => none
  | fuel + 1, bs, acc =>
    match FlatJson.readString bs with
    | none => none
    | some (k, r1) =>
      match FlatJson.skipWs r1 with
      | 58 :: r2 =>
        match readValue fuel (FlatJson.skipWs r2) with
        | none => none
        | some (v, r3) =>
          match FlatJson.skipWs r3 with
          | 44 :: r4 => readMembers fuel (FlatJson.skipWs r4) (JsonObject.insert acc k v)
          | 125 :: r4 => some (JsonObject.insert acc k v, r4)
          | _ => none
      | _ => none

end

/-- A reader for JSON objects: a text that is one object whose member values
are strings of printable ASCII without escapes, literals, integers or such
objects is read as that object; every other text is reported as a null
document. -/
def fromJson (bs : QByteArray) : Option JsonValue :=
  match FlatJson.skipWs bs with
  | 123 :: r =>
    match readValue (bs.length + 1) (123 :: r) with
    | some (v, r2) => if FlatJson.skipWs r2 = [] then some v else none
    | none => none
  | _ => none

end NetJson

/-- The reference for the JSON routines of Qt. -/
def netDesktop : NetEnv :=
  { fromJson := NetJson.fromJson,
    toJson := fun obj => fromUtf8 (NetJson.toJson false obj),
    toJsonCompact := NetJson.toJson true }

/-- The serial device `busySerial` by itself, its requests so far accepted in
the order in which they stand in the port and in the queue. -/
def busySerialWire : Wire SerialDevice :=
  { device := busySerial, signals := [],
    accepted := [ascii "INFO:\n", ascii "UPDATE_BEGIN:\n", ascii "UPDATE_END:\n",
                 ascii "UPDATE_CANCEL:\n"] }

/-- A request, the end of an acknowledgement, a timeout, a second request and
two acknowledgements in one piece of data. -/
def serialTraffic : List WireInput :=
  [.send (ascii "X:\n"), .readyRead (ascii "K\n"), .timeout, .send (ascii "Y:\n"),
   .readyRead (ascii "ACK\nACK\n")]

/-- The network device `busyNetwork` by itself, its requests so far accepted in
the order in which they stand in the socket and in the queue. -/
def busyNetworkWire : Wire NetworkDevice :=
  { device := busyNetwork, signals := [],
    accepted := [[1, 0, 0, 0, 65], [1, 0, 0, 0, 66], [1, 0, 0, 0, 67]] }

/-- A request, the rest of a response of 16 bytes, a timeout, a second
request, a frame that is not JSON and a response that reports an error. -/
def networkTraffic : List WireInput :=
  [.send [1, 0, 0, 0, 68], .readyRead ([0, 0] ++ ascii "\x7b\"status\": \"ok\"\x7d"), .timeout,
   .send [1, 0, 0, 0, 69], .readyRead (writeLE32 5 ++ ascii "hello"),
   .readyRead (writeLE32 18 ++ ascii "\x7b\"status\":\"error\"\x7d")]

/-- The request of a firmware chunk as the specification gives it: the text
`CHUNK:`, the four bytes of the offset in little-endian order, byte i being
`(offset >> 8i) & 0xFF`, the bytes of the data, and a line feed. -/
def chunkRequest (data : QByteArray) (offset : Int) : QByteArray :=
  ascii "CHUNK:" ++ (List.range 4).map (fun i => (Int.land (Int.shiftRight offset (8 * i)) 255).toNat) ++
    data ++ [10]

/-- Whether chunks, given with their offsets in the order in which they were
sent, lie one after the other from the offset `start` on: each offset is the
sum of `start` and of the lengths of the chunks before. -/
def contiguous : Int → List (Int × QByteArray) → Bool
  | _, [] => true
  | start, (offset, chunk) :: rest =>
    decide (offset = start) && contiguous (start + chunk.length) rest

/-- The relation of a job to the chunks that its device has accepted so far, for
the firmware data `P`: the job satisfies its invariant, the chunks lie one
after the other from offset 0 on and make up the data below the offset of the
job, and the offset is the size of the data in `Finalizing` and `Complete`. -/
def UpdateJob.Sent (job : UpdateJob) (P : QByteArray) (sent : List (Int × QByteArray)) :
    Prop :=
  job.Invariant P.length ∧ job.m_firmware.payload = P ∧ contiguous 0 sent = true ∧
  (sent.map Prod.snd).flatten = P.take job.m_currentOffset.toNat ∧
  ((job.m_state = .Finalizing ∨ job.m_state = .Complete) → job.m_currentOffset = P.length)

/-- The chunks `getChunk(i * c, c)`, `getChunk((i + 1) * c, c)`, ... read one
after the other from a package, `n` of them. -/
def chunkSequence (pkg : FirmwarePackage) (c : Int) : Nat → Nat → List QByteArray
  | 0, _ => []
  | n + 1, i =>
    (pkg.getChunk (i * c) c).1 :: chunkSequence (pkg.getChunk (i * c) c).2 c n (i + 1)

/-- The chunks `getChunk(i * c, c)` for i from 0 to `chunkCount(c) - 1`. -/
def allChunks (pkg : FirmwarePackage) (c : Int) : List QByteArray :=
  chunkSequence pkg c (pkg.chunkCount c).toNat 0

/-- The header object of a request as the specification gives it: the member
`command`, and the member `data_size` with the length of the binary tail when
there is a tail. -/
def requestHeader (cmd : String) (data : QByteArray) : JsonObject :=
  if data = [] then [("command", JsonValue.string cmd)]
  else [("command", JsonValue.string cmd), ("data_size", JsonValue.number data.length)]

/-- A serial device with an open port in the device state `Updating`, with no
command in flight. -/
def updatingSerial : SerialDevice :=
  { m_portName := "ttyUSB0",
    m_serialPort := { goodPort with isOpen := true },
    m_status := .Connected,
    m_state := .Updating,
    m_buffer := [],
    m_timeoutTimer := QTimer.idle,
    m_pendingCommands := [],
    m_waitingForAck := false }

/-! ## flashupcore.cpp -/

/-- A `QMap<QString, T>`: entries in key order, one per key. -/
abbrev QMapOf (T : Type) := List (String × T)

namespace QMapOf

/-- The entry of a key. -/
def find {T : Type} (m : QMapOf T) (key : String) : Option T :=
  match m with
  | [] => none
  | (k, v) :: rest => if key = k then some v else find rest key

/-- Model of `QMap::contains`. -/
def contains {T : Type} (m : QMapOf T) (key : String) : Bool := (find m key).isSome

/-- Model of the assignment `m[key] = v`. -/
def insert {T : Type} (m : QMapOf T) (key : String) (v : T) : QMapOf T :=
  match m with
  | [] => [(key, v)]
  | (k, w) :: rest =>
    if key = k then (key, v) :: rest
    else if keyLt key k then (key, v) :: (k, w) :: rest
    else (k, w) :: insert rest key v

/-- Model of `QMap::remove`. -/
def remove {T : Type} (m : QMapOf T) (key : String) : QMapOf T :=
  m.filter fun entry => decide (entry.1 ≠ key)

/-- Model of `QMap::keys`. -/
def keys {T : Type} (m : QMapOf T) : List String := m.map Prod.fst

end QMapOf

/-- The signals of `FlashUpCore`. -/
inductive CoreSignal where
  | deviceDiscovered (deviceId : String) (info : QMap)
  | deviceLost (deviceId : String)
  | updateProgress (deviceId : String) (progress : Int) (status : String)
  | updateComplete (deviceId : String) (success : Bool) (message : String)
  | logMessage (level : Int) (message : String)
deriving DecidableEq, Repr

/-- A device as the orchestrator holds it: what `deviceInfo()` and
`optimalChunkSize()` return.  What the device does during an update is given by
its answers to the calls of the job. -/
structure DeviceHandle where
  deviceInfo : QMap
  optimalChunkSize : Int
deriving DecidableEq, Repr

/-- The member variables of `FlashUpCore`; a shared pointer is an `Option`,
`none` being the null pointer.  The destructor, which cancels the active jobs,
is not part of the model. -/
structure FlashUpCore where
  m_devices : QMapOf (Option DeviceHandle)
  m_currentFirmware : Option FirmwarePackage
  m_activeJobs : QMapOf (Option UpdateJob)
deriving DecidableEq, Repr

/-- The `updateComplete` signals among the signals of the orchestrator. -/
def CoreSignal.isComplete : CoreSignal → Bool
  | .updateComplete _ _ _ => true
  | _ => false

namespace FlashUpCore

/-- The emission of a signal of the orchestrator, recorded after those emitted
before. -/
def emit (signal : CoreSignal) (s : FlashUpCore × List CoreSignal) :
    FlashUpCore × List CoreSignal :=
  (s.1, s.2 ++ [signal])

/-- Model of the constructor `FlashUpCore::FlashUpCore`.  Its log messages, and
those of `registerPlugins`, which registers nothing, are emitted before any slot
can be connected and are left out. -/
def create : FlashUpCore :=
  { m_devices := [], m_currentFirmware := none, m_activeJobs := [] }

/-- The map `usbDevInfo` of `discoverDevices`. -/
def usbDevInfo : QMap :=
  QMap.insert (QMap.insert (QMap.insert (QMap.insert [] "type" "USB-CDC") "port" "/dev/ttyUSB0")
    "description" "ESP32 Development Board") "protocol" "ESP-IDF"

/-- The map `wifiDevInfo` of `discoverDevices`. -/
def wifiDevInfo : QMap :=
  QMap.insert (QMap.insert (QMap.insert (QMap.insert [] "type" "WiFi") "ip" "192.168.1.100")
    "hostname" "esp32-ota") "protocol" "ESP-OTA"

/-- Model of `FlashUpCore::discoverDevices`. -/
def discoverDevices (s : FlashUpCore × List CoreSignal) : FlashUpCore × List CoreSignal :=
  let s1 := emit (.logMessage 1 "Starting device discovery...") s
  let s2 : FlashUpCore × List CoreSignal := ({ s1.1 with m_devices := [] }, s1.2)
  let s3 := emit (.deviceDiscovered "usb:ttyUSB0" usbDevInfo) s2
  let s4 := emit (.deviceDiscovered "net:192.168.1.100" wifiDevInfo) s3
  emit (.logMessage 1 ("Found " ++ toString s4.1.m_devices.length ++ " devices")) s4

/-- Model of `FlashUpCore::availableDevices`. -/
def availableDevices (self : FlashUpCore) : List String := self.m_devices.keys

/-- Model of `FlashUpCore::deviceInfo`. -/
def deviceInfo (self : FlashUpCore) (deviceId : String) : QMap :=
  match self.m_devices.find deviceId with
  | some (some device) => device.deviceInfo
  | _ => []

/-- Model of `FlashUpCore::loadFirmware`, for the contents `disk` of the file
at the path (`none`: the file cannot be opened). -/
def loadFirmware (env : Env) (disk : Option QByteArray) (filePath : String)
    (s : FlashUpCore × List CoreSignal) : Bool × (FlashUpCore × List CoreSignal) :=
  let s1 := emit (.logMessage 1 ("Loading firmware from " ++ filePath)) s
  match FirmwarePackage.construct env disk with
  | .ok firmware =>
    (true, emit (.logMessage 1 ("Loaded firmware: " ++
        firmware.metadata.value "name" "Unknown" ++ " v" ++
        firmware.metadata.value "version" "0.0.0"))
      ({ s1.1 with m_currentFirmware := some firmware }, s1.2))
  | .error e =>
    let s2 := emit (.logMessage 3 ("Failed to load firmware: " ++ e.what)) s1
    (false, ({ s2.1 with m_currentFirmware := none }, s2.2))

/-- Model of `FlashUpCore::firmwareInfo`. -/
def firmwareInfo (self : FlashUpCore) : QMap :=
  match self.m_currentFirmware with
  | some firmware => firmware.metadata
  | none => []

/-- The three slots that `updateFirmware` connects to the signals of the job of
a device: `progressChanged` and `logMessage` are passed on, `completed` is
passed on and the job is taken out of the active jobs.  A call of the job on
its device is no signal. -/
def forward (deviceId : String) (s : FlashUpCore × List CoreSignal) :
    Effect → FlashUpCore × List CoreSignal
  | .progressChanged progress status => emit (.updateProgress deviceId progress status) s
  | .completed success message =>
    let s1 := emit (.updateComplete deviceId success message) s
    ({ s1.1 with m_activeJobs := s1.1.m_activeJobs.remove deviceId }, s1.2)
  | .logMessage level message => emit (.logMessage level message) s
  | .call _ _ => s

/-- The signal of the orchestrator that answers a signal of the job of a
device. -/
def forwarded (deviceId : String) : Effect → Option CoreSignal
  | .progressChanged progress status => some (.updateProgress deviceId progress status)
  | .completed success message => some (.updateComplete deviceId success message)
  | .logMessage level message => some (.logMessage level message)
  | .call _ _ => none

/-- The slots run for the effects of a member function of the job, in order. -/
def forwardAll (deviceId : String) (s : FlashUpCore × List CoreSignal)
    (effects : List Effect) : FlashUpCore × List CoreSignal :=
  effects.foldl (forward deviceId) s

/-- A member function of the job of a device has run: the job is as the
function leaves it, unless a slot has taken it out of the active jobs. -/
def ran (deviceId : String) (r : UpdateJob × List Effect)
    (s : FlashUpCore × List CoreSignal) : FlashUpCore × List CoreSignal :=
  forwardAll deviceId
    ({ s.1 with m_activeJobs := s.1.m_activeJobs.insert deviceId (some r.1) }, s.2) r.2

/-- Model of `FlashUpCore::cancelUpdate`, given the answers of the device to
`isConnected()` and `cancelUpdate()`. -/
def cancelUpdate (deviceId : String) (isConnected answer : Bool)
    (s : FlashUpCore × List CoreSignal) : Bool × (FlashUpCore × List CoreSignal) :=
  match s.1.m_activeJobs.find deviceId with
  | some (some job) =>
    let s1 := emit (.logMessage 1 ("Canceling update for device " ++ deviceId)) s
    let s2 := ran deviceId ((job.cancel isConnected).resolve answer) s1
    let s3 : FlashUpCore × List CoreSignal :=
      ({ s2.1 with m_activeJobs := s2.1.m_activeJobs.remove deviceId }, s2.2)
    (true, emit (.updateComplete deviceId false "Update canceled by user") s3)
  | _ =>
    (false, emit (.logMessage 2 ("No active update job for device " ++ deviceId)) s)

/-- Model of `FlashUpCore::updateFirmware`, given the contents of the file at
the firmware path and the answers of the device: to `isConnected()` and
`cancelUpdate()` for a job that is canceled first, and to `isConnected()` and to
`beginUpdate()` or `connect()` for the job that is started. -/
def updateFirmware (env : Env) (disk : Option QByteArray) (deviceId firmwarePath : String)
    (cancelConnected cancelAnswer startConnected startAnswer : Bool)
    (s : FlashUpCore × List CoreSignal) : Bool × (FlashUpCore × List CoreSignal) :=
  let s1 :=
    if s.1.m_activeJobs.contains deviceId then
      (cancelUpdate deviceId cancelConnected cancelAnswer s).2
    else s
  let loaded := if firmwarePath ≠ "" then loadFirmware env disk firmwarePath s1 else (true, s1)
  if firmwarePath ≠ "" ∧ loaded.1 = false then
    (false, emit (.logMessage 3 "Failed to load firmware file") loaded.2)
  else
    match loaded.2.1.m_currentFirmware with
    | none => (false, emit (.logMessage 3 "No firmware loaded") loaded.2)
    | some firmware =>
      match loaded.2.1.m_devices.find deviceId with
      | some (some device) =>
        let job := UpdateJob.create firmware device.optimalChunkSize
        let s2 : FlashUpCore × List CoreSignal :=
          ({ loaded.2.1 with
              m_activeJobs := loaded.2.1.m_activeJobs.insert deviceId (some job) }, loaded.2.2)
        let s3 := ran deviceId ((job.start startConnected).resolve startAnswer) s2
        (true, emit (.logMessage 1 ("Started firmware update for device " ++ deviceId)) s3)
      | _ => (false, emit (.logMessage 3 ("Unknown device: " ++ deviceId)) loaded.2)

/-- A signal of its device or the timeout of one of its timers reaches the job
of a device, if the device has an active job. -/
def deliver (deviceId : String) (input : UpdateJob.Input)
    (s : FlashUpCore × List CoreSignal) : FlashUpCore × List CoreSignal :=
  match s.1.m_activeJobs.find deviceId with
  | some (some job) => ran deviceId (job.step input) s
  | _ => s

/-- What reaches the orchestrator: a call of one of its member functions, with
the contents of the file named and the answers of the device where the function
uses them, or an event for the job of a device. -/
inductive Input where
  | discoverDevices
  | loadFirmware (filePath : String) (disk : Option QByteArray)
  | updateFirmware (deviceId firmwarePath : String) (disk : Option QByteArray)
      (cancelConnected cancelAnswer startConnected startAnswer : Bool)
  | cancelUpdate (deviceId : String) (isConnected answer : Bool)
  | jobEvent (deviceId : String) (input : UpdateJob.Input)
deriving DecidableEq, Repr

/-- One step of the orchestrator. -/
def step (env : Env) (s : FlashUpCore × List CoreSignal) :
    Input → FlashUpCore × List CoreSignal
  | .discoverDevices => discoverDevices s
  | .loadFirmware filePath disk => (loadFirmware env disk filePath s).2
  | .updateFirmware deviceId firmwarePath disk cancelConnected cancelAnswer startConnected
      startAnswer =>
    (updateFirmware env disk deviceId firmwarePath cancelConnected cancelAnswer startConnected
      startAnswer s).2
  | .cancelUpdate deviceId isConnected answer => (cancelUpdate deviceId isConnected answer s).2
  | .jobEvent deviceId input => deliver deviceId input s

/-- The orchestrator and its signals after a sequence of inputs. -/
def run (env : Env) (s : FlashUpCore × List CoreSignal) :
    List Input → FlashUpCore × List CoreSignal
  | [] => s
  | input :: rest => run env (step env s input) rest

end FlashUpCore

open FirmwarePackage

/-! # Properties

## Auxiliary facts -/

theorem read_fresh (bytes : QByteArray) :
    (({ bytes := bytes, pos := 0, isOpen := true } : QFile).read 7) =
      (bytes.take 7, { bytes := bytes, pos := (bytes.take 7).length, isOpen := true }) := by
  simp [QFile.read]

theorem QFile.read_natCast (f : QFile) (n : Nat) :
    f.read (n : Int) = ((f.bytes.drop f.pos).take n,
      { f with pos := f.pos + ((f.bytes.drop f.pos).take n).length }) := by
  simp [QFile.read]

theorem QFile.seek_natCast (f : QFile) (n : Nat) : f.seek (n : Int) = { f with pos := n } := by
  simp [QFile.seek]

theorem seek_seven (bytes : QByteArray) (p : Nat) :
    ({ bytes := bytes, pos := p, isOpen := true } : QFile).seek 7
      = { bytes := bytes, pos := 7, isOpen := true } := by
  simp [QFile.seek]

theorem read_four (bytes : QByteArray) :
    ({ bytes := bytes, pos := 7, isOpen := true } : QFile).read 4
      = ((bytes.drop 7).take 4,
         { bytes := bytes, pos := 7 + ((bytes.drop 7).take 4).length, isOpen := true }) := by
  simpa using QFile.read_natCast { bytes := bytes, pos := 7, isOpen := true } 4

section stages
variable (env : Env) (bytes : QByteArray) (p : Nat) (b0 b1 b2 b3 M : Nat) (mj : QByteArray)
  (obj : QJsonObject)

theorem parseMetadata_short (h : ((bytes.drop 7).take 4).length ≠ 4) :
    parseMetadata env (initial { bytes := bytes, pos := p, isOpen := true })
      = .error .InvalidFormat := by
  unfold parseMetadata
  simp only [initial, seek_seven, read_four]
  split
  · rename_i heq
    rw [heq] at h
    simp at h
  · rfl

theorem parseMetadata_truncated (h : (bytes.drop 7).take 4 = [b0, b1, b2, b3])
    (hM : M = decodeMetadataSize env.charSigned b0 b1 b2 b3)
    (hmj : mj = (bytes.drop 11).take M) (hlen : (mj.length : Int) ≠ toInt M) :
    parseMetadata env (initial { bytes := bytes, pos := p, isOpen := true })
      = .error .InvalidFormat := by
  subst hM hmj
  unfold parseMetadata
  simp only [initial, seek_seven, read_four, h, QFile.read_natCast, QFile.size]
  simp only [List.length_cons, List.length_nil, Nat.reduceAdd] at hlen ⊢
  rw [if_pos hlen]

theorem parseMetadata_not_object (h : (bytes.drop 7).take 4 = [b0, b1, b2, b3])
    (hM : M = decodeMetadataSize env.charSigned b0 b1 b2 b3)
    (hmj : mj = (bytes.drop 11).take M) (hlen : (mj.length : Int) = toInt M)
    (hdoc : (env.fromJson mj).isObject = false) :
    parseMetadata env (initial { bytes := bytes, pos := p, isOpen := true })
      = .error .InvalidMetadata := by
  subst hM hmj
  unfold parseMetadata
  simp only [initial, seek_seven, read_four, h, QFile.read_natCast, QFile.size]
  simp only [List.length_cons, List.length_nil] at hlen ⊢
  simp only [Nat.reduceAdd, hlen, ne_eq, not_true_eq_false, ↓reduceIte]
  split
  · rename_i heq
    rw [heq] at hdoc
    simp [QJsonDocument.isObject] at hdoc
  · rfl

theorem parseMetadata_missing (h : (bytes.drop 7).take 4 = [b0, b1, b2, b3])
    (hM : M = decodeMetadataSize env.charSigned b0 b1 b2 b3)
    (hmj : mj = (bytes.drop 11).take M) (hlen : (mj.length : Int) = toInt M)
    (hdoc : env.fromJson mj = .object obj) (field : String)
    (hreq : firstMissing (extractMetadata obj []) requiredFields = some field) :
    parseMetadata env (initial { bytes := bytes, pos := p, isOpen := true })
      = .error (.MissingField field) := by
  subst hM hmj
  unfold parseMetadata
  simp only [initial, seek_seven, read_four, h, QFile.read_natCast, QFile.size]
  simp only [List.length_cons, List.length_nil] at hlen ⊢
  simp only [Nat.reduceAdd, hlen, ne_eq, not_true_eq_false, ↓reduceIte, hdoc, hreq]

theorem parseMetadata_empty (h : (bytes.drop 7).take 4 = [b0, b1, b2, b3])
    (hM : M = decodeMetadataSize env.charSigned b0 b1 b2 b3)
    (hmj : mj = (bytes.drop 11).take M) (hlen : (mj.length : Int) = toInt M)
    (hdoc : env.fromJson mj = .object obj)
    (hreq : firstMissing (extractMetadata obj []) requiredFields = none)
    (hsize : (bytes.length : Int) - toQuint32 (7 + 4 + M) ≤ 0) :
    parseMetadata env (initial { bytes := bytes, pos := p, isOpen := true })
      = .error .EmptyPayload := by
  subst hM hmj
  unfold parseMetadata
  simp only [initial, seek_seven, read_four, h, QFile.read_natCast, QFile.size]
  simp only [List.length_cons, List.length_nil] at hlen ⊢
  simp only [Nat.reduceAdd, hlen, ne_eq, not_true_eq_false, ↓reduceIte, hdoc, hreq]
  simp only [Nat.reduceAdd] at hsize
  rw [if_pos hsize]

theorem parseMetadata_ok (h : (bytes.drop 7).take 4 = [b0, b1, b2, b3])
    (hM : M = decodeMetadataSize env.charSigned b0 b1 b2 b3)
    (hmj : mj = (bytes.drop 11).take M) (hlen : (mj.length : Int) = toInt M)
    (hdoc : env.fromJson mj = .object obj)
    (hreq : firstMissing (extractMetadata obj []) requiredFields = none)
    (hsize : 0 < (bytes.length : Int) - toQuint32 (7 + 4 + M)) :
    parseMetadata env (initial { bytes := bytes, pos := p, isOpen := true })
      = .ok { m_file := { bytes := bytes, pos := 11 + mj.length, isOpen := true },
              m_metadata := extractMetadata obj [],
              m_sha256 := (extractMetadata obj []).get "sha256",
              m_signature := (extractMetadata obj []).value "signature" "",
              m_dataOffset := toQuint32 (7 + 4 + M),
              m_dataSize := (bytes.length : Int) - toQuint32 (7 + 4 + M) } := by
  subst hM hmj
  unfold parseMetadata
  simp only [initial, seek_seven, read_four, h, QFile.read_natCast, QFile.size]
  simp only [List.length_cons, List.length_nil] at hlen ⊢
  simp only [Nat.reduceAdd, hlen, ne_eq, not_true_eq_false, ↓reduceIte, hdoc, hreq]
  simp only [Nat.reduceAdd] at hsize
  rw [if_neg (not_le.mpr hsize)]

end stages

/-! ### The range of the decoded size -/

theorem charToQuint32_lt (charSigned : Bool) (b : Nat) :
    charToQuint32 charSigned b < 2 ^ 32 := by
  unfold charToQuint32
  have := Nat.mod_lt b (show 0 < 256 by decide)
  split <;> omega

theorem decodeMetadataSize_lt (charSigned : Bool) (b0 b1 b2 b3 : Nat) :
    decodeMetadataSize charSigned b0 b1 b2 b3 < 2 ^ 32 := by
  unfold decodeMetadataSize toQuint32
  have h : ∀ x : Nat, x % 4294967296 < 2 ^ 32 := fun x => Nat.mod_lt x (by decide)
  exact Nat.or_lt_two_pow (Nat.or_lt_two_pow (Nat.or_lt_two_pow
    (charToQuint32_lt charSigned b0) (h _)) (h _)) (h _)

theorem toInt_eq_length {M n : Nat} (hM : M < 2 ^ 32) (h : (n : Int) = toInt M) :
    M < 2 ^ 31 ∧ n = M := by
  unfold toInt at h
  omega

theorem toInt_of_lt {M : Nat} (hM : M < 2 ^ 31) : toInt M = M := by
  unfold toInt
  omega

/-! ### The layout of a container -/

section layout
variable (b0 b1 b2 b3 : Nat) (mj payload : QByteArray)

theorem container_eq :
    container b0 b1 b2 b3 mj payload
      = 70 :: 76 :: 65 :: 83 :: 72 :: 85 :: 80 :: b0 :: b1 :: b2 :: b3 :: (mj ++ payload) := by
  simp [container, FIRMWARE_MAGIC]

theorem container_take_magic : (container b0 b1 b2 b3 mj payload).take 7 = FIRMWARE_MAGIC := by
  simp [container_eq, FIRMWARE_MAGIC]

theorem container_size_bytes :
    ((container b0 b1 b2 b3 mj payload).drop 7).take 4 = [b0, b1, b2, b3] := by
  simp [container_eq]

theorem container_drop_header : (container b0 b1 b2 b3 mj payload).drop 11 = mj ++ payload := by
  simp [container_eq]

theorem container_length :
    (container b0 b1 b2 b3 mj payload).length = 11 + mj.length + payload.length := by
  simp [container_eq]; omega

theorem container_metadata :
    ((container b0 b1 b2 b3 mj payload).drop 11).take mj.length = mj := by
  simp [container_drop_header]

theorem container_payload :
    (container b0 b1 b2 b3 mj payload).drop (11 + mj.length) = payload := by
  rw [← List.drop_drop, container_drop_header]
  simp

end layout

/-- Every file is laid out as a container with size bytes, or is shorter than
eleven bytes, or does not start with the magic. -/
theorem exists_container (bytes : QByteArray) (hm : bytes.take 7 = FIRMWARE_MAGIC)
    (h11 : 11 ≤ bytes.length) :
    ∃ b0 b1 b2 b3 rest, bytes = container b0 b1 b2 b3 rest [] := by
  match bytes, h11 with
  | a0 :: a1 :: a2 :: a3 :: a4 :: a5 :: a6 :: b0 :: b1 :: b2 :: b3 :: rest, _ =>
    refine ⟨b0, b1, b2, b3, rest, ?_⟩
    simp only [List.take, FIRMWARE_MAGIC, List.cons.injEq, and_true] at hm
    obtain ⟨h0, h1, h2, h3, h4, h5, h6⟩ := hm
    subst h0 h1 h2 h3 h4 h5 h6
    simp [container_eq]


/-! ### The constructor, stage by stage -/

theorem construct_bad_magic (env : Env) (bytes : QByteArray)
    (h : bytes.take 7 ≠ FIRMWARE_MAGIC) :
    construct env (some bytes) = .error .InvalidFormat := by
  simp [construct, read_fresh, h]

theorem construct_parse_error (env : Env) (bytes : QByteArray) (e : FirmwareError)
    (hm : bytes.take 7 = FIRMWARE_MAGIC)
    (hp : parseMetadata env (initial { bytes := bytes, pos := (bytes.take 7).length, isOpen := true })
      = .error e) :
    construct env (some bytes) = .error e := by
  simp only [construct, read_fresh, hm, ne_eq, not_true_eq_false, ↓reduceIte]
  rw [hm] at hp
  rw [hp]

theorem construct_of_parsed (env : Env) (bytes : QByteArray) (q : FirmwarePackage)
    (hm : bytes.take 7 = FIRMWARE_MAGIC)
    (hq : parseMetadata env (initial { bytes := bytes, pos := (bytes.take 7).length, isOpen := true })
      = .ok q)
    (hc : q.calculateHash = .ok ()) :
    construct env (some bytes) =
      if (verify env q).1 = true then .ok (verify env q).2 else .error .ChecksumMismatch := by
  simp only [construct, read_fresh, hm, ne_eq, not_true_eq_false, ↓reduceIte]
  rw [hm] at hq
  rw [hq]
  dsimp only
  rw [hc]

theorem firstMissing_eq_none {m : QMap} {fields : List String} :
    firstMissing m fields = none ↔
      ∀ field ∈ fields, m.contains field = true ∧ m.get field ≠ "" := by
  induction fields with
  | nil => simp [firstMissing]
  | cons f rest ih =>
    unfold firstMissing
    by_cases hc : (!m.contains f || decide (m.get f = "")) = true
    · simp only [hc, ↓reduceIte, List.mem_cons, forall_eq_or_imp, false_iff, not_and, reduceCtorEq]
      intro h
      simp only [Bool.or_eq_true, Bool.not_eq_true', decide_eq_true_eq] at hc
      rcases hc with hc | hc
      · rw [hc] at h; exact absurd h.1 (by simp)
      · exact absurd hc h.2
    · simp only [hc, ↓reduceIte, List.mem_cons, forall_eq_or_imp, Bool.false_eq_true, ih]
      simp only [Bool.or_eq_true, Bool.not_eq_true', decide_eq_true_eq, not_or,
        Bool.not_eq_false] at hc
      simp [hc.1, hc.2]

theorem firstMissing_eq_some {m : QMap} {fields : List String} {field : String}
    (h : firstMissing m fields = some field) :
    field ∈ fields ∧ (m.contains field = false ∨ m.get field = "") := by
  induction fields with
  | nil => simp [firstMissing] at h
  | cons f rest ih =>
    unfold firstMissing at h
    by_cases hc : (!m.contains f || decide (m.get f = "")) = true
    · simp only [hc, ↓reduceIte, Option.some.injEq] at h
      subst h
      simp only [Bool.or_eq_true, Bool.not_eq_true', decide_eq_true_eq] at hc
      exact ⟨List.mem_cons_self _ _, hc⟩
    · simp only [hc, ↓reduceIte, Bool.false_eq_true] at h
      exact ⟨List.mem_cons_of_mem _ (ih h).1, (ih h).2⟩

theorem firstMissing_none {m : QMap} (h : firstMissing m requiredFields = none) :
    ∀ field ∈ requiredFields, m.contains field = true ∧ m.get field ≠ "" :=
  firstMissing_eq_none.mp h

theorem calculateHash_ok {q : FirmwarePackage}
    (h : firstMissing q.m_metadata requiredFields = none) : q.calculateHash = .ok () := by
  have := firstMissing_none h "sha256" (by simp [requiredFields])
  unfold calculateHash
  simp [this.1, this.2]

theorem data_of_open (q : FirmwarePackage) (off sz : Nat)
    (ho : q.m_file.isOpen = true) (hoff : q.m_dataOffset = off) (hsz : q.m_dataSize = sz) :
    q.data = ((q.m_file.bytes.drop off).take sz,
      { q with m_file := { q.m_file with pos := off + ((q.m_file.bytes.drop off).take sz).length } }) := by
  unfold data
  simp [ho, hoff, hsz, QFile.seek_natCast, QFile.read_natCast]


section container_stages
variable (env : Env) (b0 b1 b2 b3 : Nat) (mj payload : QByteArray) (obj : QJsonObject)

/-- A size field that promises more metadata than the file holds, or 2^31 bytes
and more: the format is refused. -/
theorem construct_truncated (rest : QByteArray)
    (h : rest.length < decodeMetadataSize env.charSigned b0 b1 b2 b3 ∨
         2 ^ 31 ≤ decodeMetadataSize env.charSigned b0 b1 b2 b3) :
    construct env (some (container b0 b1 b2 b3 rest [])) = .error .InvalidFormat := by
  apply construct_parse_error env _ _ (container_take_magic ..)
  apply parseMetadata_truncated env _ _ b0 b1 b2 b3 _ _ (container_size_bytes ..) rfl rfl
  intro hlen
  have := toInt_eq_length (decodeMetadataSize_lt _ _ _ _ _) hlen
  simp only [container_drop_header, List.append_nil, List.length_take] at this
  omega

variable (hM : decodeMetadataSize env.charSigned b0 b1 b2 b3 = mj.length)
  (h31 : mj.length < 2 ^ 31)
include hM h31

theorem construct_not_object (hdoc : (env.fromJson mj).isObject = false) :
    construct env (some (container b0 b1 b2 b3 mj payload)) = .error .InvalidMetadata := by
  apply construct_parse_error env _ _ (container_take_magic ..)
  exact parseMetadata_not_object env _ _ b0 b1 b2 b3 mj.length mj (container_size_bytes ..)
    hM.symm (container_metadata ..).symm (toInt_of_lt h31).symm hdoc

theorem construct_missing (hdoc : env.fromJson mj = .object obj) (field : String)
    (hreq : firstMissing (extractMetadata obj []) requiredFields = some field) :
    construct env (some (container b0 b1 b2 b3 mj payload)) = .error (.MissingField field) := by
  apply construct_parse_error env _ _ (container_take_magic ..)
  exact parseMetadata_missing env _ _ b0 b1 b2 b3 mj.length mj obj (container_size_bytes ..)
    hM.symm (container_metadata ..).symm (toInt_of_lt h31).symm hdoc field hreq

theorem construct_empty (hdoc : env.fromJson mj = .object obj)
    (hreq : firstMissing (extractMetadata obj []) requiredFields = none)
    (hp : payload = []) :
    construct env (some (container b0 b1 b2 b3 mj payload)) = .error .EmptyPayload := by
  apply construct_parse_error env _ _ (container_take_magic ..)
  apply parseMetadata_empty env _ _ b0 b1 b2 b3 mj.length mj obj (container_size_bytes ..)
    hM.symm (container_metadata ..).symm (toInt_of_lt h31).symm hdoc hreq
  subst hp
  simp only [container_length, toQuint32, List.length_nil]
  omega

theorem parseMetadata_container (hdoc : env.fromJson mj = .object obj)
    (hreq : firstMissing (extractMetadata obj []) requiredFields = none)
    (hp : payload ≠ []) (p : Nat) :
    parseMetadata env (initial { bytes := container b0 b1 b2 b3 mj payload, pos := p, isOpen := true })
      = .ok { m_file := { bytes := container b0 b1 b2 b3 mj payload,
                          pos := 11 + mj.length, isOpen := true },
              m_metadata := extractMetadata obj [],
              m_sha256 := (extractMetadata obj []).get "sha256",
              m_signature := (extractMetadata obj []).value "signature" "",
              m_dataOffset := ((11 + mj.length : Nat) : Int),
              m_dataSize := (payload.length : Int) } := by
  have hpos : 0 < payload.length := List.length_pos.mpr hp
  have hq : toQuint32 (7 + 4 + mj.length) = 11 + mj.length := by
    simp only [toQuint32]; omega
  rw [parseMetadata_ok env _ p b0 b1 b2 b3 mj.length mj obj (container_size_bytes ..)
    hM.symm (container_metadata ..).symm (toInt_of_lt h31).symm hdoc hreq
    (by rw [hq, container_length]; omega)]
  rw [hq, container_length]
  congr 2
  omega

theorem construct_mismatch (hdoc : env.fromJson mj = .object obj)
    (hreq : firstMissing (extractMetadata obj []) requiredFields = none)
    (hp : payload ≠ [])
    (hsha : env.sha256Hex payload ≠ (extractMetadata obj []).get "sha256") :
    construct env (some (container b0 b1 b2 b3 mj payload)) = .error .ChecksumMismatch := by
  have hq := parseMetadata_container env b0 b1 b2 b3 mj payload obj hM h31 hdoc hreq hp
    ((container b0 b1 b2 b3 mj payload).take 7).length
  rw [construct_of_parsed env _ _ (container_take_magic ..) hq (calculateHash_ok (by exact hreq))]
  simp only [verify]
  rw [data_of_open _ (11 + mj.length) payload.length rfl rfl rfl]
  simp only [container_payload, List.take_length, decide_eq_true_eq]
  rw [if_neg hsha]

theorem construct_accepted (hdoc : env.fromJson mj = .object obj)
    (hreq : firstMissing (extractMetadata obj []) requiredFields = none)
    (hp : payload ≠ [])
    (hsha : env.sha256Hex payload = (extractMetadata obj []).get "sha256") :
    construct env (some (container b0 b1 b2 b3 mj payload))
      = .ok { m_file := { bytes := container b0 b1 b2 b3 mj payload,
                          pos := 11 + mj.length + payload.length, isOpen := true },
              m_metadata := extractMetadata obj [],
              m_sha256 := (extractMetadata obj []).get "sha256",
              m_signature := (extractMetadata obj []).value "signature" "",
              m_dataOffset := ((11 + mj.length : Nat) : Int),
              m_dataSize := (payload.length : Int) } := by
  have hq := parseMetadata_container env b0 b1 b2 b3 mj payload obj hM h31 hdoc hreq hp
    ((container b0 b1 b2 b3 mj payload).take 7).length
  rw [construct_of_parsed env _ _ (container_take_magic ..) hq (calculateHash_ok (by exact hreq))]
  simp only [verify]
  rw [data_of_open _ (11 + mj.length) payload.length rfl rfl rfl]
  simp only [container_payload, List.take_length, decide_eq_true_eq]
  rw [if_pos hsha]

end container_stages


theorem construct_short (env : Env) (bytes : QByteArray) (h : bytes.length < 11) :
    construct env (some bytes) = .error .InvalidFormat := by
  by_cases hm : bytes.take 7 = FIRMWARE_MAGIC
  · apply construct_parse_error env _ _ hm
    apply parseMetadata_short
    simp only [List.length_take, List.length_drop]
    omega
  · exact construct_bad_magic env bytes hm

theorem container_split (b0 b1 b2 b3 n : Nat) (rest : QByteArray) :
    container b0 b1 b2 b3 rest [] = container b0 b1 b2 b3 (rest.take n) (rest.drop n) := by
  simp [container_eq]

/-- What a successful construction says about the file and the package. -/
theorem construct_ok_inv (env : Env) (bytes : QByteArray) (pkg : FirmwarePackage)
    (h : construct env (some bytes) = .ok pkg) :
    ∃ b0 b1 b2 b3 mj payload obj,
      bytes = container b0 b1 b2 b3 mj payload ∧
      decodeMetadataSize env.charSigned b0 b1 b2 b3 = mj.length ∧
      mj.length < 2 ^ 31 ∧
      env.fromJson mj = .object obj ∧
      firstMissing (extractMetadata obj []) requiredFields = none ∧
      payload ≠ [] ∧
      env.sha256Hex payload = (extractMetadata obj []).get "sha256" ∧
      pkg = { m_file := { bytes := bytes, pos := 11 + mj.length + payload.length, isOpen := true },
              m_metadata := extractMetadata obj [],
              m_sha256 := (extractMetadata obj []).get "sha256",
              m_signature := (extractMetadata obj []).value "signature" "",
              m_dataOffset := ((11 + mj.length : Nat) : Int),
              m_dataSize := (payload.length : Int) } := by
  by_cases hm : bytes.take 7 = FIRMWARE_MAGIC
  swap
  · rw [construct_bad_magic env bytes hm] at h; cases h
  by_cases h11 : 11 ≤ bytes.length
  swap
  · rw [construct_short env bytes (by omega)] at h; cases h
  obtain ⟨b0, b1, b2, b3, rest, rfl⟩ := exists_container bytes hm h11
  by_cases hfit : decodeMetadataSize env.charSigned b0 b1 b2 b3 ≤ rest.length ∧
      decodeMetadataSize env.charSigned b0 b1 b2 b3 < 2 ^ 31
  swap
  · rw [construct_truncated env b0 b1 b2 b3 rest (by omega)] at h; cases h
  have hM : decodeMetadataSize env.charSigned b0 b1 b2 b3
      = (rest.take (decodeMetadataSize env.charSigned b0 b1 b2 b3)).length := by
    rw [List.length_take]; omega
  have h31 : (rest.take (decodeMetadataSize env.charSigned b0 b1 b2 b3)).length < 2 ^ 31 := by
    rw [← hM]; exact hfit.2
  rw [container_split b0 b1 b2 b3 (decodeMetadataSize env.charSigned b0 b1 b2 b3) rest] at h ⊢
  generalize rest.take (decodeMetadataSize env.charSigned b0 b1 b2 b3) = mj at hM h31 h ⊢
  generalize rest.drop (decodeMetadataSize env.charSigned b0 b1 b2 b3) = payload at h ⊢
  cases hdoc : env.fromJson mj with
  | null =>
    rw [construct_not_object env b0 b1 b2 b3 mj payload hM h31 (by rw [hdoc]; rfl)] at h; cases h
  | array =>
    rw [construct_not_object env b0 b1 b2 b3 mj payload hM h31 (by rw [hdoc]; rfl)] at h; cases h
  | object obj =>
    cases hreq : firstMissing (extractMetadata obj []) requiredFields with
    | some field =>
      rw [construct_missing env b0 b1 b2 b3 mj payload obj hM h31 hdoc field hreq] at h; cases h
    | none =>
      by_cases hp : payload = []
      · rw [construct_empty env b0 b1 b2 b3 mj payload obj hM h31 hdoc hreq hp] at h; cases h
      by_cases hsha : env.sha256Hex payload = (extractMetadata obj []).get "sha256"
      swap
      · rw [construct_mismatch env b0 b1 b2 b3 mj payload obj hM h31 hdoc hreq hp hsha] at h
        cases h
      rw [construct_accepted env b0 b1 b2 b3 mj payload obj hM h31 hdoc hreq hp hsha] at h
      injection h with h
      exact ⟨b0, b1, b2, b3, mj, payload, obj, rfl, hM, h31, hdoc, hreq, hp, hsha, h.symm⟩

/-! ### The metadata map -/

theorem QMap.find_insert (m : QMap) (k v key : String) :
    QMap.find (QMap.insert m k v) key = if key = k then some v else QMap.find m key := by
  induction m with
  | nil => simp [QMap.insert, QMap.find]
  | cons e rest ih =>
    obtain ⟨k', w⟩ := e
    unfold QMap.insert
    by_cases h1 : k = k'
    · subst h1
      simp only [↓reduceIte, QMap.find]
      split <;> rfl
    · simp only [h1, ↓reduceIte]
      by_cases h2 : keyLt k k' = true
      · simp only [h2, ↓reduceIte, QMap.find]
      · simp only [h2, Bool.false_eq_true, ↓reduceIte, QMap.find, ih]
        by_cases h3 : key = k'
        · have : key ≠ k := fun h => h1 (h ▸ h3)
          simp [h3, this, Ne.symm h1]
        · simp [h3]

theorem find_extractMetadata_absent (obj : QJsonObject) (m : QMap) (key : String)
    (h : ∀ v, (key, v) ∉ obj) :
    QMap.find (extractMetadata obj m) key = QMap.find m key := by
  induction obj generalizing m with
  | nil => rfl
  | cons e rest ih =>
    obtain ⟨k', v'⟩ := e
    have hne : key ≠ k' := fun hk => h v' (by simp [hk])
    have hrest : ∀ v, (key, v) ∉ rest := fun v hv => h v (List.mem_cons_of_mem _ hv)
    simp only [extractMetadata, List.foldl_cons] at ih ⊢
    rw [ih _ hrest, QMap.find_insert, if_neg hne]

theorem find_extractMetadata_member (obj : QJsonObject) (m : QMap) (key : String) (v : QJsonValue)
    (hnd : (obj.map Prod.fst).Nodup) (h : (key, v) ∈ obj) :
    QMap.find (extractMetadata obj m) key = some v.toString := by
  induction obj generalizing m with
  | nil => simp at h
  | cons e rest ih =>
    obtain ⟨k', v'⟩ := e
    simp only [List.map_cons, List.nodup_cons, List.mem_map, Prod.exists, exists_and_right,
      exists_eq_right, not_exists] at hnd
    simp only [extractMetadata, List.foldl_cons] at ih ⊢
    rcases List.mem_cons.mp h with heq | hmem
    · injection heq with hk hv
      subst hk hv
      have := find_extractMetadata_absent rest (QMap.insert m key v.toString) key hnd.1
      simp only [extractMetadata] at this
      rw [this, QMap.find_insert, if_pos rfl]
    · exact ih _ hnd.2 hmem

theorem QMap.contains_iff_find (m : QMap) (key : String) :
    QMap.contains m key = true ↔ ∃ v, QMap.find m key = some v := by
  unfold QMap.contains
  cases QMap.find m key <;> simp

theorem QMap.get_of_find {m : QMap} {key v : String} (h : QMap.find m key = some v) :
    QMap.get m key = v := by
  simp [QMap.get, QMap.value, h]

theorem QMap.find_of_contains {m : QMap} {key : String} (h : QMap.contains m key = true) :
    QMap.find m key = some (QMap.get m key) := by
  obtain ⟨v, hv⟩ := (QMap.contains_iff_find m key).mp h
  rw [hv, QMap.get_of_find hv]

/-- What the metadata map holds under a key, in terms of the object read. -/
theorem find_extractMetadata_cases (obj : QJsonObject) (key : String)
    (hnd : (obj.map Prod.fst).Nodup) :
    (QMap.find (extractMetadata obj []) key = none ∧ ∀ v, (key, v) ∉ obj) ∨
    ∃ v, (key, v) ∈ obj ∧ QMap.find (extractMetadata obj []) key = some v.toString := by
  by_cases h : ∃ v, (key, v) ∈ obj
  · obtain ⟨v, hv⟩ := h
    exact Or.inr ⟨v, hv, find_extractMetadata_member obj [] key v hnd hv⟩
  · have h2 : ∀ v, (key, v) ∉ obj := fun v hv => h ⟨v, hv⟩
    exact Or.inl ⟨by rw [find_extractMetadata_absent obj [] key h2]; rfl, h2⟩


theorem QMap.mem_of_find {m : QMap} {key s : String} (h : QMap.find m key = some s) :
    (key, s) ∈ m := by
  induction m with
  | nil => simp [QMap.find] at h
  | cons e rest ih =>
    obtain ⟨k, v⟩ := e
    unfold QMap.find at h
    by_cases hk : key = k
    · simp only [hk, ↓reduceIte, Option.some.injEq] at h
      simp [hk, h]
    · simp only [hk, ↓reduceIte] at h
      exact List.mem_cons_of_mem _ (ih h)

theorem QMap.find_of_mem {m : QMap} {key s : String} (hnd : (m.map Prod.fst).Nodup)
    (h : (key, s) ∈ m) : QMap.find m key = some s := by
  induction m with
  | nil => simp at h
  | cons e rest ih =>
    obtain ⟨k, v⟩ := e
    simp only [List.map_cons, List.nodup_cons, List.mem_map, Prod.exists, exists_and_right,
      exists_eq_right, not_exists] at hnd
    unfold QMap.find
    rcases List.mem_cons.mp h with heq | hmem
    · injection heq with hk hv
      simp [hk, hv]
    · have hne : key ≠ k := fun hk => hnd.1 s (hk ▸ hmem)
      simp only [hne, ↓reduceIte]
      exact ih hnd.2 hmem

/-- The map read back from the object written for a map has the entries of
that map. -/
theorem find_extractMetadata_strings (m : QMap) (hnd : (m.map Prod.fst).Nodup) (key : String) :
    QMap.find (extractMetadata (m.map fun kv => (kv.1, QJsonValue.string kv.2)) []) key
      = QMap.find m key := by
  have hnd2 : ((m.map fun kv => (kv.1, QJsonValue.string kv.2)).map Prod.fst).Nodup := by
    rw [List.map_map]; exact hnd
  rcases find_extractMetadata_cases _ key hnd2 with ⟨hnone, habs⟩ | ⟨v, hv, hfind⟩
  · rw [hnone]
    cases hm : QMap.find m key with
    | none => rfl
    | some s =>
      exact absurd (List.mem_map.mpr ⟨(key, s), QMap.mem_of_find hm, rfl⟩) (habs _)
  · obtain ⟨⟨k, s⟩, hmem, heq⟩ := List.mem_map.mp hv
    injection heq with hk hs
    subst hk hs
    rw [hfind, QMap.find_of_mem hnd hmem]
    rfl


/-! ## Evaluations on the sample files -/

/-- The test vectors of FIPS 180-4 for the empty message and for the message abc. -/
theorem sha256_test_vectors :
    Sha256.hex [] = "e3b0c44298fc1c149afbf4c8996fb92427ae41e4649b934ca495991b7852b855" ∧
    Sha256.hex (ascii "abc")
      = "ba7816bf8f01cfea414140de5dae2223b00361a396177a9cb410ff61f20015ad" := by
  decide

set_option maxRecDepth 100000 in
theorem sample_constructed : construct desktop (some sampleFile) = .ok samplePackage := by
  decide

/-- The outcomes left once the metadata has been read as an object. -/
theorem construct_object_cases (env : Env) (b0 b1 b2 b3 : Nat) (mj payload : QByteArray)
    (obj : QJsonObject)
    (hM : decodeMetadataSize env.charSigned b0 b1 b2 b3 = mj.length)
    (h31 : mj.length < 2 ^ 31)
    (hdoc : env.fromJson mj = .object obj) :
    (∃ field, firstMissing (extractMetadata obj []) requiredFields = some field ∧
      construct env (some (container b0 b1 b2 b3 mj payload)) = .error (.MissingField field)) ∨
    construct env (some (container b0 b1 b2 b3 mj payload)) = .error .EmptyPayload ∨
    construct env (some (container b0 b1 b2 b3 mj payload)) = .error .ChecksumMismatch ∨
    (firstMissing (extractMetadata obj []) requiredFields = none ∧ payload ≠ [] ∧
      ∃ pkg, construct env (some (container b0 b1 b2 b3 mj payload)) = .ok pkg ∧
        pkg.m_metadata = extractMetadata obj [] ∧
        pkg.m_dataOffset = ((11 + mj.length : Nat) : Int) ∧
        pkg.m_dataSize = (payload.length : Int)) := by
  cases hreq : firstMissing (extractMetadata obj []) requiredFields with
  | some field =>
    exact Or.inl ⟨field, rfl, construct_missing env b0 b1 b2 b3 mj payload obj hM h31 hdoc field hreq⟩
  | none =>
    by_cases hp : payload = []
    · exact Or.inr (Or.inl (construct_empty env b0 b1 b2 b3 mj payload obj hM h31 hdoc hreq hp))
    by_cases hsha : env.sha256Hex payload = (extractMetadata obj []).get "sha256"
    · exact Or.inr (Or.inr (Or.inr ⟨rfl, hp, _,
        construct_accepted env b0 b1 b2 b3 mj payload obj hM h31 hdoc hreq hp hsha, rfl, rfl, rfl⟩))
    · exact Or.inr (Or.inr (Or.inl
        (construct_mismatch env b0 b1 b2 b3 mj payload obj hM h31 hdoc hreq hp hsha)))


/-! ## Integrity -/

/-- C1: after a successful construction the firmware data is the part of the
file from the payload offset to its end, `data()` returns it, and its SHA-256
in hexadecimal is the value stored under the metadata key `sha256`. -/
theorem constructed_digest_matches (env : Env) (bytes : QByteArray) (pkg : FirmwarePackage)
    (h : construct env (some bytes) = .ok pkg) :
    pkg.payload = bytes.drop pkg.m_dataOffset.toNat ∧
    pkg.data.1 = pkg.payload ∧
    QMap.find pkg.metadata "sha256" = some (env.sha256Hex pkg.payload) := by
  obtain ⟨b0, b1, b2, b3, mj, payload, obj, rfl, -, -, -, hreq, -, hsha, rfl⟩ :=
    construct_ok_inv env bytes pkg h
  have hpay : (container b0 b1 b2 b3 mj payload).drop (11 + mj.length) = payload :=
    container_payload ..
  refine ⟨?_, ?_, ?_⟩
  · simp only [FirmwarePackage.payload, Int.toNat_ofNat, hpay, List.take_length]
  · rw [data_of_open _ (11 + mj.length) payload.length rfl rfl rfl]
    simp only [FirmwarePackage.payload, Int.toNat_ofNat]
  · simp only [FirmwarePackage.payload, FirmwarePackage.metadata, Int.toNat_ofNat, hpay,
      List.take_length, hsha]
    exact QMap.find_of_contains (firstMissing_none hreq "sha256" (by simp [requiredFields])).1

/-- Instance of C1 on the sample container. -/
theorem constructed_digest_matches_witness :
    construct desktop (some sampleFile) = .ok samplePackage ∧
    samplePackage.payload = sampleFile.drop samplePackage.m_dataOffset.toNat ∧
    samplePackage.data.1 = samplePackage.payload ∧
    QMap.find samplePackage.metadata "sha256" = some (desktop.sha256Hex samplePackage.payload) :=
  ⟨sample_constructed,
   constructed_digest_matches desktop sampleFile samplePackage sample_constructed⟩


/-! ## The size field -/

/-- With an unsigned `char` the size bytes are decoded least significant first. -/
theorem decodeMetadataSize_unsigned (b0 b1 b2 b3 : Nat)
    (h0 : b0 < 256) (h1 : b1 < 256) (h2 : b2 < 256) (h3 : b3 < 256) :
    decodeMetadataSize false b0 b1 b2 b3 = b0 + 256 * b1 + 65536 * b2 + 16777216 * b3 := by
  simp only [decodeMetadataSize, charToQuint32, Bool.false_and, Bool.false_eq_true, ↓reduceIte,
    toQuint32, Nat.shiftLeft_eq, Nat.mod_eq_of_lt h0, Nat.mod_eq_of_lt h1, Nat.mod_eq_of_lt h2,
    Nat.mod_eq_of_lt h3]
  rw [Nat.mod_eq_of_lt (by omega), Nat.mod_eq_of_lt (by omega), Nat.mod_eq_of_lt (by omega)]
  have e1 : b0 ||| b1 * 2 ^ 8 = 2 ^ 8 * b1 + b0 := by
    rw [Nat.lor_comm, Nat.mul_comm]
    exact (Nat.mul_add_lt_is_or (show b0 < 2 ^ 8 by omega) b1).symm
  have e2 : (2 ^ 8 * b1 + b0) ||| b2 * 2 ^ 16 = 2 ^ 16 * b2 + (2 ^ 8 * b1 + b0) := by
    rw [Nat.lor_comm, Nat.mul_comm]
    exact (Nat.mul_add_lt_is_or (show 2 ^ 8 * b1 + b0 < 2 ^ 16 by omega) b2).symm
  have e3 : (2 ^ 16 * b2 + (2 ^ 8 * b1 + b0)) ||| b3 * 2 ^ 24
      = 2 ^ 24 * b3 + (2 ^ 16 * b2 + (2 ^ 8 * b1 + b0)) := by
    rw [Nat.lor_comm, Nat.mul_comm]
    exact (Nat.mul_add_lt_is_or (show 2 ^ 16 * b2 + (2 ^ 8 * b1 + b0) < 2 ^ 24 by omega) b3).symm
  rw [e1, e2, e3]
  omega

/-- With a signed `char` the decoding is the same as long as none of the three
low bytes reaches 128. -/
theorem decodeMetadataSize_small (charSigned : Bool) (b0 b1 b2 b3 : Nat)
    (h0 : b0 < 128) (h1 : b1 < 128) (h2 : b2 < 128) (h3 : b3 < 128) :
    decodeMetadataSize charSigned b0 b1 b2 b3 = b0 + 256 * b1 + 65536 * b2 + 16777216 * b3 := by
  rw [← decodeMetadataSize_unsigned b0 b1 b2 b3 (by omega) (by omega) (by omega) (by omega)]
  have h : ∀ b, b < 128 → charToQuint32 charSigned b = charToQuint32 false b := by
    intro b hb
    simp only [charToQuint32, Nat.mod_eq_of_lt (show b < 256 by omega), Bool.and_eq_true,
      decide_eq_true_eq, Bool.false_and, Bool.false_eq_true, ↓reduceIte, ite_eq_right_iff,
      and_imp]
    intro _ h128
    omega
  simp only [decodeMetadataSize, h b0 h0, h b1 h1, h b2 h2, h b3 h3]

/-- C3, evaluated where it fails: with a signed `char` the size bytes
165, 0, 0, 0 are decoded as 4294967205, whereas their little-endian value,
which an unsigned `char` yields, is 165. -/
theorem decodeMetadataSize_sign_extends :
    decodeMetadataSize true 165 0 0 0 = 4294967205 ∧
    decodeMetadataSize false 165 0 0 0 = 165 ∧
    165 + 256 * 0 + 65536 * 0 + 16777216 * 0 = 165 := by
  decide

/-! ## The round trip -/

/-- The round trip, for the containers whose size field the parser decodes to the
length of the metadata: the container written for a map with the five required
fields filled, the right digest and firmware data is constructed and gives back
the entries of the map, the size and the firmware data. -/
theorem serialize_roundtrip (env : Env) (m : QMap) (mj payload : QByteArray)
    (hdec : decodeMetadataSize env.charSigned (mj.length % 256) (mj.length / 256 % 256)
      (mj.length / 65536 % 256) (mj.length / 16777216 % 256) = mj.length)
    (h31 : mj.length < 2 ^ 31)
    (hdoc : env.fromJson mj = .object (m.map fun kv => (kv.1, QJsonValue.string kv.2)))
    (hkeys : (m.map Prod.fst).Nodup)
    (hreq : ∀ field ∈ requiredFields, ∃ v, QMap.find m field = some v ∧ v ≠ "")
    (hsha : QMap.find m "sha256" = some (env.sha256Hex payload))
    (hp : payload ≠ []) :
    ∃ pkg, construct env (some (serialize mj payload)) = .ok pkg ∧
      (∀ key, QMap.find pkg.metadata key = QMap.find m key) ∧
      pkg.size = payload.length ∧
      pkg.data.1 = payload := by
  have hfind := find_extractMetadata_strings m hkeys
  have hmissing : firstMissing
      (extractMetadata (m.map fun kv => (kv.1, QJsonValue.string kv.2)) []) requiredFields
      = none := by
    rw [firstMissing_eq_none]
    intro field hf
    obtain ⟨v, hv, hne⟩ := hreq field hf
    have h1 := (hfind field).trans hv
    exact ⟨(QMap.contains_iff_find _ _).mpr ⟨v, h1⟩, by rw [QMap.get_of_find h1]; exact hne⟩
  have hdigest : env.sha256Hex payload =
      QMap.get (extractMetadata (m.map fun kv => (kv.1, QJsonValue.string kv.2)) []) "sha256" :=
    (QMap.get_of_find ((hfind "sha256").trans hsha)).symm
  refine ⟨_, construct_accepted env _ _ _ _ mj payload _ hdec h31 hdoc hmissing hp hdigest,
    hfind, rfl, ?_⟩
  rw [data_of_open _ (11 + mj.length) payload.length rfl rfl rfl]
  simp only [container_payload, List.take_length]

/-- The size field of a container written for less than 2^31 bytes of metadata is
decoded to that length where `char` is unsigned. -/
theorem decode_serialized_unsigned (n : Nat) (h : n < 2 ^ 32) :
    decodeMetadataSize false (n % 256) (n / 256 % 256) (n / 65536 % 256) (n / 16777216 % 256)
      = n := by
  rw [decodeMetadataSize_unsigned _ _ _ _ (Nat.mod_lt _ (by decide)) (Nat.mod_lt _ (by decide))
    (Nat.mod_lt _ (by decide)) (Nat.mod_lt _ (by decide))]
  omega

set_option maxRecDepth 100000 in
/-- C2, evaluated where it fails: the container serialised from the five
required fields (165 bytes of metadata) and ten bytes of firmware is refused as
an invalid format where `char` is signed; where `char` is unsigned it is
accepted and gives back the metadata, the size and the firmware data. -/
theorem compact_container_refused :
    construct desktop (some (serialize compactJson samplePayload)) = .error .InvalidFormat ∧
    (construct desktopUnsigned (some (serialize compactJson samplePayload))).toOption.map
        (fun pkg => (pkg.metadata, pkg.size, pkg.data.1)) =
      some ([("name", "blinky"), ("sha256", sampleDigest), ("target", "stm32f4"),
             ("timestamp", "2024-05-01T12:00:00Z"), ("version", "1.0.2")],
            10, samplePayload) := by
  decide

/-! ## The comparison of digests -/

set_option maxRecDepth 100000 in
/-- C4 refuted as stated: the digest of the sample firmware written in upper
case equals the computed digest up to letter case, the container holding it is
valid in everything else (with the lower-case digits it is accepted), and it is
refused with the checksum error. -/
theorem uppercase_digest_refused :
    toLower sampleDigestUpper = desktop.sha256Hex samplePayload ∧
    construct desktop (some (serialize (longJson sampleDigest) samplePayload))
      = .ok samplePackage ∧
    construct desktop (some (serialize (longJson sampleDigestUpper) samplePayload))
      = .error .ChecksumMismatch := by
  decide

/-- C4 as amended: for a container whose magic, size field, metadata and payload
size pass the parser, the stored `sha256` value is compared character by
character with the hexadecimal digest of the payload; the package is
constructed when they are equal and the construction fails with the checksum
error when they differ in any way. -/
theorem digest_compared_exactly (env : Env) (b0 b1 b2 b3 : Nat) (mj payload : QByteArray)
    (obj : QJsonObject)
    (hM : decodeMetadataSize env.charSigned b0 b1 b2 b3 = mj.length)
    (h31 : mj.length < 2 ^ 31)
    (hdoc : env.fromJson mj = .object obj)
    (hreq : firstMissing (extractMetadata obj []) requiredFields = none)
    (hp : payload ≠ []) :
    (env.sha256Hex payload = (extractMetadata obj []).get "sha256" →
      ∃ pkg, construct env (some (container b0 b1 b2 b3 mj payload)) = .ok pkg ∧
        pkg.sha256Hash = env.sha256Hex payload) ∧
    (env.sha256Hex payload ≠ (extractMetadata obj []).get "sha256" →
      construct env (some (container b0 b1 b2 b3 mj payload)) = .error .ChecksumMismatch) := by
  constructor
  · intro hsha
    exact ⟨_, construct_accepted env b0 b1 b2 b3 mj payload obj hM h31 hdoc hreq hp hsha,
      hsha.symm⟩
  · exact construct_mismatch env b0 b1 b2 b3 mj payload obj hM h31 hdoc hreq hp

set_option maxRecDepth 100000 in
/-- Instance of C4 as amended: the sample container with the digest in lower
case is constructed, and with the same digits in upper case it fails with the
checksum error. -/
theorem digest_compared_exactly_witness :
    (∃ pkg, construct desktop (some (container 29 1 0 0 (longJson sampleDigest) samplePayload))
        = .ok pkg ∧ pkg.sha256Hash = desktop.sha256Hex samplePayload) ∧
    construct desktop (some (container 29 1 0 0 (longJson sampleDigestUpper) samplePayload))
      = .error .ChecksumMismatch :=
  ⟨(digest_compared_exactly desktop 29 1 0 0 (longJson sampleDigest) samplePayload
      (sampleObject sampleDigest) (by decide) (by decide) (by decide) (by decide)
      (by decide)).1 (by decide),
   (digest_compared_exactly desktop 29 1 0 0 (longJson sampleDigestUpper) samplePayload
      (sampleObject sampleDigestUpper) (by decide) (by decide) (by decide) (by decide)
      (by decide)).2 (by decide)⟩

/-! ## Malformed files -/

/-- C5: a file shorter than eleven bytes, the empty file included, or a file
whose first seven bytes are not the magic FLASHUP is refused with the
invalid-format error. -/
theorem short_or_unmarked_file_refused (env : Env) (bytes : QByteArray)
    (h : bytes.length < 11 ∨ bytes.take 7 ≠ FIRMWARE_MAGIC) :
    construct env (some bytes) = .error .InvalidFormat := by
  rcases h with h | h
  · exact construct_short env bytes h
  · exact construct_bad_magic env bytes h

/-- Instances of C5: the empty file, the bare magic, and a file of twenty bytes
that starts with other bytes. -/
theorem short_or_unmarked_file_refused_witness :
    construct desktop (some []) = .error .InvalidFormat ∧
    construct desktop (some FIRMWARE_MAGIC) = .error .InvalidFormat ∧
    construct desktop (some (List.replicate 20 70)) = .error .InvalidFormat :=
  ⟨short_or_unmarked_file_refused desktop [] (Or.inl (by decide)),
   short_or_unmarked_file_refused desktop FIRMWARE_MAGIC (Or.inl (by decide)),
   short_or_unmarked_file_refused desktop (List.replicate 20 70) (Or.inr (by decide))⟩

/-! ## Metadata that is not an object of strings -/

set_option maxRecDepth 100000 in
/-- C6 refuted as stated: the metadata of the sample container is an object
with the member `build` of numeric type, and the container is accepted; the
member is kept as the empty string. -/
theorem numeric_member_accepted :
    desktop.fromJson (longJson sampleDigest) = .object (sampleObject sampleDigest) ∧
    ("build", QJsonValue.double) ∈ sampleObject sampleDigest ∧
    QJsonValue.double.isString = false ∧
    construct desktop (some (container 29 1 0 0 (longJson sampleDigest) samplePayload))
      = .ok samplePackage ∧
    QMap.find samplePackage.metadata "build" = some "" := by
  decide

/-- C6 as amended: when the metadata bytes are not read as a JSON object, the
construction fails with the invalid-metadata error; when they are read as an
object, it never fails with that error, whatever the types of the values, and
a package that is constructed holds each member under its key as
`toString()` gives it, the empty string for a value that is not a string. -/
theorem non_object_metadata_refused (env : Env) (b0 b1 b2 b3 : Nat) (mj payload : QByteArray)
    (hM : decodeMetadataSize env.charSigned b0 b1 b2 b3 = mj.length)
    (h31 : mj.length < 2 ^ 31) :
    ((env.fromJson mj).isObject = false →
      construct env (some (container b0 b1 b2 b3 mj payload)) = .error .InvalidMetadata) ∧
    (∀ obj, env.fromJson mj = .object obj →
      construct env (some (container b0 b1 b2 b3 mj payload)) ≠ .error .InvalidMetadata ∧
      ∀ pkg, construct env (some (container b0 b1 b2 b3 mj payload)) = .ok pkg →
        pkg.metadata = extractMetadata obj [] ∧
        ∀ key v, (obj.map Prod.fst).Nodup → (key, v) ∈ obj →
          QMap.find pkg.metadata key = some v.toString) := by
  refine ⟨construct_not_object env b0 b1 b2 b3 mj payload hM h31, ?_⟩
  intro obj hdoc
  rcases construct_object_cases env b0 b1 b2 b3 mj payload obj hM h31 hdoc with
    ⟨field, -, h⟩ | h | h | ⟨-, -, pkg, h, hmeta, -, -⟩
  · rw [h]; exact ⟨by simp, fun pkg hp => by cases hp⟩
  · rw [h]; exact ⟨by simp, fun pkg hp => by cases hp⟩
  · rw [h]; exact ⟨by simp, fun pkg hp => by cases hp⟩
  · rw [h]
    refine ⟨by simp, fun pkg2 hp => ?_⟩
    injection hp with hp
    subst hp
    refine ⟨hmeta, fun key v hnd hmem => ?_⟩
    rw [FirmwarePackage.metadata, hmeta]
    exact find_extractMetadata_member obj [] key v hnd hmem

set_option maxRecDepth 100000 in
/-- Instance of C6 as amended: a size field of zero leaves no metadata, the
empty text is not a JSON object, and the file is refused as invalid metadata;
the sample container, whose metadata is an object, is constructed and holds
the target under its key. -/
theorem non_object_metadata_refused_witness :
    construct desktop (some (container 0 0 0 0 [] samplePayload)) = .error .InvalidMetadata ∧
    QMap.find samplePackage.metadata "target" = some (QJsonValue.string "stm32f4").toString :=
  ⟨(non_object_metadata_refused desktop 0 0 0 0 [] samplePayload (by decide) (by decide)).1
     (by decide),
   ((non_object_metadata_refused desktop 29 1 0 0 (longJson sampleDigest) samplePayload
      (by decide) (by decide)).2 (sampleObject sampleDigest) (by decide)).2 samplePackage
      (by decide) |>.2 "target" (.string "stm32f4") (by decide) (by decide)⟩

/-! ## Required fields -/

/-- C7: when the metadata object lacks one of the five required keys or maps
one to the empty string, the construction fails with a missing-field error,
and the field it names is a required one that the object lacks or whose value
reads as the empty string; and every package that is constructed has the five
keys in `metadata()`, each with a value that is not empty. -/
theorem required_fields_enforced :
    (∀ (env : Env) (b0 b1 b2 b3 : Nat) (mj payload : QByteArray) (obj : QJsonObject)
        (field : String),
      decodeMetadataSize env.charSigned b0 b1 b2 b3 = mj.length →
      mj.length < 2 ^ 31 →
      env.fromJson mj = .object obj →
      (obj.map Prod.fst).Nodup →
      field ∈ requiredFields →
      ((∀ v, (field, v) ∉ obj) ∨ (field, QJsonValue.string "") ∈ obj) →
      ∃ named, named ∈ requiredFields ∧
        construct env (some (container b0 b1 b2 b3 mj payload)) = .error (.MissingField named) ∧
        ((∀ v, (named, v) ∉ obj) ∨ ∃ v, (named, v) ∈ obj ∧ v.toString = "")) ∧
    (∀ (env : Env) (bytes : QByteArray) (pkg : FirmwarePackage),
      construct env (some bytes) = .ok pkg →
      ∀ field ∈ requiredFields,
        pkg.metadata.contains field = true ∧ pkg.metadata.get field ≠ "") := by
  constructor
  · intro env b0 b1 b2 b3 mj payload obj field hM h31 hdoc hnd hfield hbad
    -- the map read from the object has the field absent or empty
    have hmap : QMap.contains (extractMetadata obj []) field = false ∨
        QMap.get (extractMetadata obj []) field = "" := by
      rcases hbad with habs | hemp
      · left
        have := find_extractMetadata_absent obj [] field habs
        simp only [QMap.contains, this, QMap.find, Option.isSome_none]
      · right
        exact QMap.get_of_find (find_extractMetadata_member obj [] field _ hnd hemp)
    -- hence the loop over the required fields stops at some field
    cases hreq : firstMissing (extractMetadata obj []) requiredFields with
    | none =>
      have h := firstMissing_none hreq field hfield
      rcases hmap with hc | hg
      · rw [hc] at h; exact absurd h.1 (by simp)
      · exact absurd hg h.2
    | some named =>
      obtain ⟨hmem, hwhy⟩ := firstMissing_eq_some hreq
      refine ⟨named, hmem,
        construct_missing env b0 b1 b2 b3 mj payload obj hM h31 hdoc named hreq, ?_⟩
      rcases find_extractMetadata_cases obj named hnd with ⟨-, habs⟩ | ⟨v, hv, hfind⟩
      · exact Or.inl habs
      · right
        refine ⟨v, hv, ?_⟩
        rcases hwhy with hc | hg
        · simp only [QMap.contains, hfind, Option.isSome_some, Bool.true_eq_false] at hc
        · rw [QMap.get_of_find hfind] at hg
          exact hg
  · intro env bytes pkg h
    obtain ⟨b0, b1, b2, b3, mj, payload, obj, -, -, -, -, hreq, -, -, rfl⟩ :=
      construct_ok_inv env bytes pkg h
    exact firstMissing_none hreq

set_option maxRecDepth 100000 in
/-- Instance of C7: metadata holding only the name is refused for a missing
field, and the sample package has its five fields. -/
theorem required_fields_enforced_witness :
    (∃ named, named ∈ requiredFields ∧
      construct desktop (some (container 17 0 0 0 nameOnlyJson samplePayload))
        = .error (.MissingField named) ∧
      ((∀ v, (named, v) ∉ [("name", QJsonValue.string "blinky")]) ∨
        ∃ v, (named, v) ∈ [("name", QJsonValue.string "blinky")] ∧ v.toString = "")) ∧
    (∀ field ∈ requiredFields,
      samplePackage.metadata.contains field = true ∧ samplePackage.metadata.get field ≠ "") :=
  ⟨required_fields_enforced.1 desktop 17 0 0 0 nameOnlyJson samplePayload
      [("name", .string "blinky")] "version" (by decide) (by decide) (by decide) (by decide)
      (by decide) (Or.inl (by intro v hv; simp at hv)),
   required_fields_enforced.2 desktop sampleFile samplePackage sample_constructed⟩

/-! ## Offset and size of the firmware data -/

/-- C8: in a file with the magic and with metadata of length M that passes the
checks, `parseMetadata` sets the payload offset to 11 + M and the size to the
file length less 11 + M; when that difference is not positive the construction
fails with the empty-payload error; and `size()` of every package that is
constructed is positive. -/
theorem payload_offset_and_size :
    (∀ (env : Env) (b0 b1 b2 b3 : Nat) (mj payload : QByteArray) (obj : QJsonObject),
      decodeMetadataSize env.charSigned b0 b1 b2 b3 = mj.length →
      mj.length < 2 ^ 31 →
      env.fromJson mj = .object obj →
      firstMissing (extractMetadata obj []) requiredFields = none →
      (((container b0 b1 b2 b3 mj payload).length : Int) - (11 + mj.length) ≤ 0 →
        construct env (some (container b0 b1 b2 b3 mj payload)) = .error .EmptyPayload) ∧
      (0 < ((container b0 b1 b2 b3 mj payload).length : Int) - (11 + mj.length) →
        ∃ q, parseMetadata env (initial
              { bytes := container b0 b1 b2 b3 mj payload, pos := 7, isOpen := true }) = .ok q ∧
          q.m_dataOffset = 11 + mj.length ∧
          q.size = ((container b0 b1 b2 b3 mj payload).length : Int) - (11 + mj.length)) ∧
      (∀ pkg, construct env (some (container b0 b1 b2 b3 mj payload)) = .ok pkg →
        pkg.m_dataOffset = 11 + mj.length ∧
        pkg.size = ((container b0 b1 b2 b3 mj payload).length : Int) - (11 + mj.length))) ∧
    (∀ (env : Env) (bytes : QByteArray) (pkg : FirmwarePackage),
      construct env (some bytes) = .ok pkg → 0 < pkg.size) := by
  constructor
  · intro env b0 b1 b2 b3 mj payload obj hM h31 hdoc hreq
    have hlen := container_length b0 b1 b2 b3 mj payload
    refine ⟨fun hle => ?_, fun hpos => ?_, fun pkg h => ?_⟩
    · apply construct_empty env b0 b1 b2 b3 mj payload obj hM h31 hdoc hreq
      apply List.eq_nil_of_length_eq_zero
      omega
    · have hp : payload ≠ [] := by
        intro hnil
        rw [hlen, hnil] at hpos
        simp only [List.length_nil] at hpos
        omega
      refine ⟨_, parseMetadata_container env b0 b1 b2 b3 mj payload obj hM h31 hdoc hreq hp 7,
        ?_, ?_⟩
      · simp
      · simp only [FirmwarePackage.size]; omega
    · rcases construct_object_cases env b0 b1 b2 b3 mj payload obj hM h31 hdoc with
        ⟨field, -, h2⟩ | h2 | h2 | ⟨-, -, pkg2, h2, -, hoff, hsz⟩
      · rw [h2] at h; cases h
      · rw [h2] at h; cases h
      · rw [h2] at h; cases h
      · rw [h2] at h
        injection h with h
        subst h
        refine ⟨by rw [hoff]; simp, ?_⟩
        simp only [FirmwarePackage.size, hsz]; omega
  · intro env bytes pkg h
    obtain ⟨b0, b1, b2, b3, mj, payload, obj, -, -, -, -, -, hp, -, rfl⟩ :=
      construct_ok_inv env bytes pkg h
    simp only [FirmwarePackage.size]
    have := List.length_pos.mpr hp
    omega

set_option maxRecDepth 100000 in
/-- Instance of C8: the sample metadata followed by no firmware data is refused as
an empty payload, and the sample package has offset 296 and size 10. -/
theorem payload_offset_and_size_witness :
    construct desktop (some (container 29 1 0 0 (longJson sampleDigest) []))
      = .error .EmptyPayload ∧
    (samplePackage.m_dataOffset = 11 + (longJson sampleDigest).length ∧
      samplePackage.size = ((container 29 1 0 0 (longJson sampleDigest) samplePayload).length : Int)
        - (11 + (longJson sampleDigest).length)) ∧
    0 < samplePackage.size :=
  ⟨(payload_offset_and_size.1 desktop 29 1 0 0 (longJson sampleDigest) []
      (sampleObject sampleDigest) (by decide) (by decide) (by decide) (by decide)).1 (by decide),
   (payload_offset_and_size.1 desktop 29 1 0 0 (longJson sampleDigest) samplePayload
      (sampleObject sampleDigest) (by decide) (by decide) (by decide) (by decide)).2.2
      samplePackage (by decide),
   payload_offset_and_size.2 desktop sampleFile samplePackage sample_constructed⟩

/-! ## Chunks -/

theorem toQint64_of_range {x : Int} (h0 : -9223372036854775808 ≤ x) (h1 : x < 9223372036854775808) :
    toQint64 x = x := by
  unfold toQint64; omega

theorem toQint64_of_overflow {x : Int} (h0 : 9223372036854775808 ≤ x)
    (h1 : x < 18446744073709551616) : toQint64 x = x - 18446744073709551616 := by
  unfold toQint64; omega

/-- A range of the firmware data read from the file. -/
theorem take_drop_payload (bytes : QByteArray) (off S o k : Nat) (ho : o < S) (hk : o + k ≤ S) :
    (bytes.drop (off + o)).take k = (((bytes.drop off).take S).drop o).take k := by
  rw [List.drop_take, List.take_take, List.drop_drop]
  congr 1
  omega

theorem payload_length (pkg : FirmwarePackage) (hinv : pkg.Invariant) :
    (pkg.payload.length : Int) = pkg.size := by
  obtain ⟨-, hoff, hsz, hfile, -⟩ := hinv
  simp only [FirmwarePackage.payload, FirmwarePackage.size, QFile.size, List.length_take,
    List.length_drop] at *
  omega

theorem getChunk_beyond (pkg : FirmwarePackage) (offset n : Int) (h : pkg.size ≤ offset) :
    (pkg.getChunk offset n).1 = [] := by
  unfold getChunk
  simp only [FirmwarePackage.size] at h
  simp [h]

theorem getChunk_within (pkg : FirmwarePackage) (hinv : pkg.Invariant) (offset n : Int)
    (ho : 0 ≤ offset) (hn : 0 ≤ n) (hnq : n < 9223372036854775808) (hlt : offset < pkg.size) :
    (pkg.getChunk offset n).1 =
      (pkg.payload.drop offset.toNat).take (min (offset + n) pkg.size - offset).toNat := by
  obtain ⟨⟨bytes, pos, isOpen⟩, md, sha, sig, doff, dsz⟩ := pkg
  obtain ⟨hopen, hoff, hsz, hfile, hq⟩ := hinv
  simp only [QFile.size] at hopen hoff hsz hfile hq
  subst hopen
  simp only [FirmwarePackage.size] at hlt ⊢
  lift offset to ℕ using ho with o
  lift n to ℕ using hn with k
  obtain ⟨off, hoffeq⟩ := Int.eq_ofNat_of_zero_le hoff
  obtain ⟨S, hSeq⟩ := Int.eq_ofNat_of_zero_le (le_of_lt hsz)
  have hfileN : off + S = bytes.length := by omega
  have hoS : o < S := by omega
  unfold getChunk
  subst hoffeq hSeq
  simp only [FirmwarePackage.payload, Bool.not_true, Bool.false_or, ge_iff_le,
    decide_eq_true_eq, Int.toNat_ofNat]
  rw [if_neg (by omega)]
  have hseek : toQint64 ((off : Int) + (o : Int)) = ((off + o : Nat) : Int) := by
    rw [toQint64_of_range (by omega) (by omega)]; omega
  rw [hseek, QFile.seek_natCast]
  by_cases hov : (o : Int) + (k : Int) < 9223372036854775808
  · rw [toQint64_of_range (by omega) hov]
    by_cases hbig : (S : Int) < (o : Int) + (k : Int)
    · rw [if_pos (by omega), toQint64_of_range (by omega) (by omega)]
      have e1 : ((S : Int) - (o : Int)) = ((S - o : Nat) : Int) := by omega
      have e2 : (min ((o : Int) + (k : Int)) (S : Int) - (o : Int)).toNat = S - o := by omega
      rw [e1, QFile.read_natCast, e2]
      exact take_drop_payload bytes off S o (S - o) hoS (by omega)
    · rw [if_neg (by omega)]
      have e2 : (min ((o : Int) + (k : Int)) (S : Int) - (o : Int)).toNat = k := by omega
      rw [QFile.read_natCast, e2]
      exact take_drop_payload bytes off S o k hoS (by omega)
  · rw [toQint64_of_overflow (by omega) (by omega), if_neg (by omega)]
    have e2 : (min ((o : Int) + (k : Int)) (S : Int) - (o : Int)).toNat = S - o := by omega
    rw [QFile.read_natCast, e2]
    show (bytes.drop (off + o)).take k = _
    rw [← take_drop_payload bytes off S o (S - o) hoS (by omega)]
    rw [List.take_of_length_le (by rw [List.length_drop]; omega),
      List.take_of_length_le (by rw [List.length_drop]; omega)]


/-- The constructor establishes the class invariant on every file whose size is
a `qint64`. -/
theorem construct_invariant (env : Env) (bytes : QByteArray) (pkg : FirmwarePackage)
    (hL : (bytes.length : Int) < 9223372036854775808)
    (h : construct env (some bytes) = .ok pkg) : pkg.Invariant := by
  obtain ⟨b0, b1, b2, b3, mj, payload, obj, rfl, -, -, -, -, hp, -, rfl⟩ :=
    construct_ok_inv env bytes pkg h
  have := List.length_pos.mpr hp
  have hlen := container_length b0 b1 b2 b3 mj payload
  refine ⟨rfl, by simp only; omega, by simp only; omega, ?_, hL⟩
  simp only [QFile.size, hlen]
  omega

theorem QFile.seek_bytes (f : QFile) (p : Int) : (f.seek p).bytes = f.bytes := by
  unfold QFile.seek; split <;> rfl

theorem QFile.seek_isOpen (f : QFile) (p : Int) : (f.seek p).isOpen = f.isOpen := by
  unfold QFile.seek; split <;> rfl

theorem QFile.read_bytes (f : QFile) (n : Int) : (f.read n).2.bytes = f.bytes := by
  unfold QFile.read; split <;> rfl

theorem QFile.read_isOpen (f : QFile) (n : Int) : (f.read n).2.isOpen = f.isOpen := by
  unfold QFile.read; split <;> rfl

/-- Reading a chunk keeps the class invariant. -/
theorem getChunk_invariant (pkg : FirmwarePackage) (hinv : pkg.Invariant) (offset n : Int) :
    (pkg.getChunk offset n).2.Invariant := by
  unfold getChunk
  split
  · exact hinv
  · obtain ⟨hopen, hoff, hsz, hfile, hq⟩ := hinv
    refine ⟨?_, hoff, hsz, ?_, ?_⟩
    · simp only [QFile.read_isOpen, QFile.seek_isOpen]
      exact hopen
    · simp only [QFile.size, QFile.read_bytes, QFile.seek_bytes] at hfile ⊢
      exact hfile
    · simp only [QFile.size, QFile.read_bytes, QFile.seek_bytes] at hq ⊢
      exact hq

/-- C9: for a package with firmware data P, of length S, an offset that is not
negative and a chunk size n that is not negative, `getChunk(offset, n)` is the
range of P from `offset` up to, not including, the lesser of `offset + n` and
S when `offset` is below S, and is empty otherwise; `getChunk(S, n)` is empty
and `getChunk(S - 1, 4096)` has exactly one byte. -/
theorem getChunk_range (pkg : FirmwarePackage) (hinv : pkg.Invariant) (offset n : Int)
    (ho : 0 ≤ offset) (hn : 0 ≤ n) (hnq : n < 9223372036854775808) :
    (pkg.payload.length : Int) = pkg.size ∧
    (pkg.getChunk offset n).1 =
      (if offset < pkg.size then
        (pkg.payload.drop offset.toNat).take (min (offset + n) pkg.size - offset).toNat
       else []) ∧
    (pkg.getChunk pkg.size n).1 = [] ∧
    (pkg.getChunk (pkg.size - 1) 4096).1.length = 1 := by
  refine ⟨payload_length pkg hinv, ?_, getChunk_beyond pkg _ n (le_refl _), ?_⟩
  · by_cases hlt : offset < pkg.size
    · rw [if_pos hlt]
      exact getChunk_within pkg hinv offset n ho hn hnq hlt
    · rw [if_neg hlt]
      exact getChunk_beyond pkg offset n (not_lt.mp hlt)
  · have hS : 0 < pkg.size := hinv.2.2.1
    have hlen := payload_length pkg hinv
    rw [getChunk_within pkg hinv (pkg.size - 1) 4096 (by omega) (by decide) (by decide) (by omega)]
    simp only [List.length_take, List.length_drop]
    omega

set_option maxRecDepth 100000 in
/-- Instance of C9 on the sample package, whose firmware data has ten bytes: the
chunk of four bytes at offset 8 is the last two bytes. -/
theorem getChunk_range_witness :
    samplePackage.Invariant ∧
    (samplePackage.getChunk 8 4).1 = [5, 6] ∧
    (samplePackage.getChunk samplePackage.size 4).1 = [] ∧
    (samplePackage.getChunk (samplePackage.size - 1) 4096).1.length = 1 :=
  ⟨by decide,
   (getChunk_range samplePackage (by decide) 8 4 (by decide) (by decide) (by decide)).2.1.trans
     (by decide),
   (getChunk_range samplePackage (by decide) 8 4 (by decide) (by decide) (by decide)).2.2⟩

/-! ## The number of chunks -/

theorem toInt_of_range {x : Int} (h0 : -2147483648 ≤ x) (h1 : x < 2147483648) : toInt x = x := by
  unfold toInt; omega

/-- The quotient rounded up, as the ceiling of the rational quotient. -/
theorem ceil_div_eq (S c : Int) (hc : 0 < c) :
    ⌈(S : ℚ) / (c : ℚ)⌉ = (S + c - 1) / c := by
  rw [Int.ceil_eq_iff]
  have hcq : (0 : ℚ) < (c : ℚ) := by exact_mod_cast hc
  have h1 : c * ((S + c - 1) / c) ≤ S + c - 1 := Int.mul_ediv_self_le (ne_of_gt hc)
  have h2 : S + c - 1 < c * ((S + c - 1) / c) + c := Int.lt_mul_ediv_self_add hc
  constructor
  · rw [lt_div_iff₀ hcq]
    have : (((S + c - 1) / c - 1) * c : Int) < S := by nlinarith
    exact_mod_cast this
  · rw [div_le_iff₀ hcq]
    have : S ≤ ((S + c - 1) / c) * c := by nlinarith
    exact_mod_cast this

set_option maxRecDepth 100000 in
/-- C10 refuted as stated: on the package constructed from the sample file (ten
bytes of firmware) the chunk size
2^63 - 1 gives 0 chunks where the ceiling is 1, the sum of size and chunk size
leaving the range of `qint64`; on a package of two gibibytes the chunk size 1
gives -2^31 where the ceiling is 2^31, the count leaving the range of `int`. -/
theorem chunkCount_out_of_range :
    (construct desktop (some sampleFile) = .ok samplePackage ∧
      samplePackage.Invariant ∧
      samplePackage.chunkCount 9223372036854775807 = 0 ∧
      ⌈(samplePackage.size : ℚ) / ((9223372036854775807 : Int) : ℚ)⌉ = 1) ∧
    (largePackage.Invariant ∧
      largePackage.chunkCount 1 = -2147483648 ∧
      ⌈(largePackage.size : ℚ) / ((1 : Int) : ℚ)⌉ = 2147483648) := by
  refine ⟨⟨sample_constructed, by decide, by decide, ?_⟩, ⟨?_, ?_, ?_⟩⟩
  · rw [ceil_div_eq _ _ (by decide)]; decide
  · simp only [Invariant, largePackage, QFile.size, List.length_replicate]
    decide
  · simp only [chunkCount, largePackage]
    decide
  · rw [ceil_div_eq _ _ (by decide)]
    simp only [FirmwarePackage.size, largePackage]
    decide

/-- C10 as amended: `chunkCount(c)` is 0 when c is not positive; when c is
positive, the sum of the payload size S and c stays within `qint64` and the
ceiling of S / c stays within `int`, `chunkCount(c)` is that ceiling. -/
theorem chunkCount_ceiling (pkg : FirmwarePackage) (hinv : pkg.Invariant) (c : Int) :
    (c ≤ 0 → pkg.chunkCount c = 0) ∧
    (0 < c → pkg.size + c ≤ 9223372036854775807 →
      ⌈(pkg.size : ℚ) / (c : ℚ)⌉ ≤ 2147483647 →
      pkg.chunkCount c = ⌈(pkg.size : ℚ) / (c : ℚ)⌉) := by
  constructor
  · intro hc
    simp [chunkCount, hc]
  · intro hc hsum hceil
    have hS : 0 < pkg.size := hinv.2.2.1
    rw [ceil_div_eq _ _ hc] at hceil ⊢
    simp only [FirmwarePackage.size] at hS hsum hceil ⊢
    have hq : 0 ≤ (pkg.m_dataSize + c - 1) / c := Int.ediv_nonneg (by omega) (le_of_lt hc)
    unfold chunkCount
    have e1 : toQint64 (pkg.m_dataSize + c) = pkg.m_dataSize + c :=
      toQint64_of_range (by omega) (by omega)
    have e2 : toQint64 (pkg.m_dataSize + c - 1) = pkg.m_dataSize + c - 1 :=
      toQint64_of_range (by omega) (by omega)
    rw [if_neg (by omega), e1, e2, Int.tdiv_eq_ediv (by omega) (le_of_lt hc),
      toInt_of_range (by omega) (by omega)]

set_option maxRecDepth 100000 in
/-- Instance of C10 as amended on the sample package: three chunks of four bytes
for ten bytes, and none for a chunk size of zero. -/
theorem chunkCount_ceiling_witness :
    samplePackage.chunkCount 0 = 0 ∧
    samplePackage.chunkCount 4 = ⌈(samplePackage.size : ℚ) / ((4 : Int) : ℚ)⌉ ∧
    samplePackage.chunkCount 4 = 3 :=
  ⟨(chunkCount_ceiling samplePackage (by decide) 0).1 (by decide),
   (chunkCount_ceiling samplePackage (by decide) 4).2 (by decide) (by decide)
     (by rw [ceil_div_eq _ _ (by decide)]; decide),
   by decide⟩

/-! ## The update job: auxiliary facts -/

namespace Double

/-- The fuel of `bitLength` is enough for the numbers below `2 ^ fuel`: the
result is the number of binary digits. -/
theorem bitLength_spec (fuel n : Nat) (h : n < 2 ^ fuel) :
    n < 2 ^ bitLength fuel n ∧ (n ≠ 0 → 2 ^ (bitLength fuel n - 1) ≤ n) := by
  induction fuel generalizing n with
  | zero =>
    have : n = 0 := by simpa using h
    subst this
    simp [bitLength]
  | succ fuel ih =>
    unfold bitLength
    split
    · rename_i h0
      subst h0
      simp
    · rename_i h0
      have hhalf : n / 2 < 2 ^ fuel := by
        rw [pow_succ] at h
        omega
      obtain ⟨h1, h2⟩ := ih (n / 2) hhalf
      constructor
      · rw [pow_succ]
        omega
      · intro _
        simp only [Nat.add_sub_cancel]
        by_cases hz : n / 2 = 0
        · rw [hz] at h1 ⊢
          have : bitLength fuel 0 = 0 := by cases fuel <;> simp [bitLength]
          rw [this]
          simp
          omega
        · have h3 := h2 hz
          have hpos : 0 < bitLength fuel (n / 2) := by
            by_contra hc
            have : bitLength fuel (n / 2) = 0 := by omega
            rw [this] at h1
            simp at h1
            exact hz h1
          have : 2 ^ bitLength fuel (n / 2) = 2 ^ (bitLength fuel (n / 2) - 1) * 2 := by
            rw [← pow_succ]
            congr 1
            omega
          rw [this]
          omega

end Double

namespace UpdateJob

@[simp] theorem setState_fst (self : UpdateJob) (s : State) :
    (self.setState s).1 = { self with m_state := s } := by
  unfold setState
  split
  · rfl
  · rename_i h
    simp only [ne_eq, not_not] at h
    cases self
    simp_all

@[simp] theorem setProgress_fst (self : UpdateJob) (p : Int) :
    (self.setProgress p).1 = { self with m_progress := p } := by
  unfold setProgress
  split
  · rfl
  · rename_i h
    simp only [ne_eq, not_not] at h
    cases self
    simp_all

@[simp] theorem failUpdate_fst (self : UpdateJob) (reason : String) :
    (self.failUpdate reason).1 = { self with m_state := .Failed } := by
  simp [failUpdate]

@[simp] theorem completeUpdate_fst (self : UpdateJob) :
    self.completeUpdate.1 = { self with m_state := .Complete } := by
  simp [completeUpdate]

@[simp] theorem startUpload_fst (self : UpdateJob) :
    self.startUpload.1 =
      { self with m_state := .Uploading, m_progress := 0, m_currentOffset := 0,
                  m_retryCount := 0, m_paused := false,
                  m_chunkTimer := self.m_chunkTimer.start 0 } := by
  simp [startUpload]


end UpdateJob

/-- The length of a chunk read inside the firmware data. -/
theorem getChunk_length (pkg : FirmwarePackage) (hinv : pkg.Invariant) (offset n : Int)
    (ho : 0 ≤ offset) (hn : 0 ≤ n) (hnq : n < 9223372036854775808) (hlt : offset < pkg.size) :
    ((pkg.getChunk offset n).1.length : Int) = min (offset + n) pkg.size - offset := by
  have hlen := payload_length pkg hinv
  rw [getChunk_within pkg hinv offset n ho hn hnq hlt]
  simp only [List.length_take, List.length_drop]
  omega

/-- Reading a chunk leaves the size of the firmware data as it is. -/
theorem getChunk_size (pkg : FirmwarePackage) (offset n : Int) :
    (pkg.getChunk offset n).2.size = pkg.size := by
  unfold getChunk FirmwarePackage.size
  split <;> rfl

namespace UpdateJob

theorem afterSend_fst_true (chunk : QByteArray) (job : UpdateJob) :
    (afterSend chunk job true).1 =
      { job with m_currentOffset := toQint64 (job.m_currentOffset + chunk.length),
                 m_retryCount := 0,
                 m_progress := progressOf (toQint64 (job.m_currentOffset + chunk.length))
                                 job.m_firmware.size,
                 m_chunkTimer := job.m_chunkTimer.start DEFAULT_CHUNK_INTERVAL_MS } := by
  simp [afterSend]

theorem afterSend_fst_false (chunk : QByteArray) (job : UpdateJob) :
    (afterSend chunk job false).1 =
      if job.m_retryCount < job.m_maxRetries then
        { job with m_retryCount := job.m_retryCount + 1,
                   m_retryTimer := job.m_retryTimer.start DEFAULT_RETRY_INTERVAL_MS }
      else { job with m_state := .Failed } := by
  simp only [afterSend, Bool.false_eq_true, ↓reduceIte]
  split <;> simp

/-- The job after `onUploadNextChunk`, whatever the device answers. -/
theorem onUploadNextChunk_invariant (job : UpdateJob) (S : Int) (h : job.Invariant S)
    (answer : Bool) :
    (job.onUploadNextChunk.resolve answer).1.Invariant S ∧
      job.m_currentOffset ≤ (job.onUploadNextChunk.resolve answer).1.m_currentOffset := by
  obtain ⟨hfw, hS, hc0, hc1, ho0, ho1, hearly⟩ := h
  unfold onUploadNextChunk
  by_cases hg : job.m_state ≠ .Uploading ∨ job.m_paused = true
  · rw [if_pos hg]
    exact ⟨⟨hfw, hS, hc0, hc1, ho0, ho1, hearly⟩, le_refl _⟩
  rw [if_neg hg]
  by_cases hdone : job.m_currentOffset ≥ job.m_firmware.size
  · rw [if_pos hdone]
    simp only [Pending.resolve, setState_fst]
    cases answer
    · simp only [Bool.not_false, ↓reduceIte, failUpdate_fst]
      exact ⟨⟨hfw, hS, hc0, hc1, ho0, ho1, by simp⟩, le_refl _⟩
    · simp only [Bool.not_true, Bool.false_eq_true, ↓reduceIte]
      exact ⟨⟨hfw, hS, hc0, hc1, ho0, ho1, by simp⟩, le_refl _⟩
  rw [if_neg hdone]
  have hlt : job.m_currentOffset < job.m_firmware.size := not_le.mp hdone
  have hlen := getChunk_length job.m_firmware hfw job.m_currentOffset job.m_chunkSize ho0
    (le_of_lt hc0) hc1 hlt
  have hfw2 := getChunk_invariant job.m_firmware hfw job.m_currentOffset job.m_chunkSize
  have hS2 := getChunk_size job.m_firmware job.m_currentOffset job.m_chunkSize
  have hSq : S < 9223372036854775808 := by
    obtain ⟨-, hoff, -, hfile, hq⟩ := hfw
    simp only [FirmwarePackage.size] at hS
    omega
  simp only [Pending.resolve]
  cases answer
  · rw [afterSend_fst_false]
    split
    · exact ⟨⟨hfw2, by rw [← hS]; exact hS2, hc0, hc1, ho0, ho1, hearly⟩, le_refl _⟩
    · exact ⟨⟨hfw2, by rw [← hS]; exact hS2, hc0, hc1, ho0, ho1, by simp⟩, le_refl _⟩
  · rw [afterSend_fst_true]
    have hq : toQint64 (job.m_currentOffset +
        ((job.m_firmware.getChunk job.m_currentOffset job.m_chunkSize).1.length : Int))
        = job.m_currentOffset +
          ((job.m_firmware.getChunk job.m_currentOffset job.m_chunkSize).1.length : Int) :=
      toQint64_of_range (by omega) (by omega)
    simp only [hq]
    refine ⟨⟨hfw2, by rw [← hS]; exact hS2, hc0, hc1, ?_, ?_, ?_⟩, ?_⟩
    · dsimp only; omega
    · dsimp only; omega
    swap
    · dsimp only; omega
    intro hst
    simp only [ne_eq, not_or, not_not] at hg
    rcases hst with hst | hst | hst <;> rw [hg.1] at hst <;> cases hst


/-- A step that does not run the upload keeps firmware, chunk size and offset,
except that the offset, which is 0 then, is set to 0 as the upload starts; and
it enters one of the three early states only from an early state. -/
theorem step_frame (job : UpdateJob) (input : Input)
    (hc : ∀ a, input ≠ .chunkTimeout a) (hr : ∀ a, input ≠ .retryTimeout a) :
    (job.step input).1.m_firmware = job.m_firmware ∧
    (job.step input).1.m_chunkSize = job.m_chunkSize ∧
    ((job.step input).1.m_currentOffset = job.m_currentOffset ∨
      ((job.step input).1.m_currentOffset = 0 ∧ job.m_state = .Preparing)) ∧
    (((job.step input).1.m_state = .Idle ∨ (job.step input).1.m_state = .Connecting ∨
        (job.step input).1.m_state = .Preparing) →
      (job.m_state = .Idle ∨ job.m_state = .Connecting ∨ job.m_state = .Preparing)) := by
  cases input with
  | chunkTimeout a => exact absurd rfl (hc a)
  | retryTimeout a => exact absurd rfl (hr a)
  | logMessage level message => simp [step]
  | start isConnected answer =>
    simp only [step, start]
    split
    · simp [Pending.resolve]
    · rename_i hidle
      simp only [ne_eq, not_not] at hidle
      cases isConnected <;> cases answer <;> simp [Pending.resolve, hidle]
  | cancel isConnected answer =>
    simp only [step, cancel]
    split
    · simp [Pending.resolve]
    · cases isConnected <;> simp [Pending.resolve]
  | connectionStatusChanged status answer =>
    simp only [step, onDeviceConnectionStatusChanged]
    split
    · rename_i hst
      split
      · cases answer <;> simp [Pending.resolve, hst]
      · split <;> simp [Pending.resolve, hst]
    · split
      · simp [Pending.resolve]
      · simp [Pending.resolve]
  | deviceStateChanged state =>
    simp only [step, onDeviceStateChanged]
    split
    · rename_i hst
      simp [hst.1]
    · split
      · simp
      · split <;> simp

/-- Every step keeps the invariant of the job and does not decrease the offset. -/
theorem step_invariant (job : UpdateJob) (S : Int) (h : job.Invariant S) (input : Input) :
    (job.step input).1.Invariant S ∧ job.m_currentOffset ≤ (job.step input).1.m_currentOffset := by
  by_cases hc : ∃ a, input = .chunkTimeout a
  · obtain ⟨a, rfl⟩ := hc
    simp only [step]
    split
    · exact onUploadNextChunk_invariant { job with m_chunkTimer := job.m_chunkTimer.stop } S h a
    · exact ⟨h, le_refl _⟩
  by_cases hr : ∃ a, input = .retryTimeout a
  · obtain ⟨a, rfl⟩ := hr
    simp only [step, onRetryTimeout]
    split
    · exact onUploadNextChunk_invariant { job with m_retryTimer := job.m_retryTimer.stop } S h a
    · exact ⟨h, le_refl _⟩
  obtain ⟨hfw, hcs, hoff, hearly⟩ := step_frame job input
    (fun a h => hc ⟨a, h⟩) (fun a h => hr ⟨a, h⟩)
  obtain ⟨h1, h2, h3, h4, h5, h6, h7⟩ := h
  have hoffset : (job.step input).1.m_currentOffset = job.m_currentOffset := by
    rcases hoff with heq | ⟨hz, hprep⟩
    · exact heq
    · rw [hz, h7 (Or.inr (Or.inr hprep))]
  refine ⟨⟨by rw [hfw]; exact h1, by rw [hfw]; exact h2, by rw [hcs]; exact h3,
    by rw [hcs]; exact h4, by rw [hoffset]; exact h5, by rw [hoffset]; exact h6, ?_⟩,
    by rw [hoffset]⟩
  intro hst
  rw [hoffset]
  exact h7 (hearly hst)

/-- The job just created satisfies the invariant. -/
theorem create_invariant (firmware : FirmwarePackage) (hinv : firmware.Invariant)
    (optimalChunkSize : Int) (hq : optimalChunkSize < 9223372036854775808) :
    (create firmware optimalChunkSize).Invariant firmware.size := by
  refine ⟨hinv, rfl, ?_, ?_, le_refl _, le_of_lt hinv.2.2.1, fun _ => rfl⟩
  · simp only [create]; split <;> omega
  · simp only [create]; split <;> omega

/-- The job after any sequence of inputs satisfies the invariant. -/
theorem run_invariant (job : UpdateJob) (S : Int) (h : job.Invariant S) (inputs : List Input) :
    (job.run inputs).1.Invariant S ∧ job.m_currentOffset ≤ (job.run inputs).1.m_currentOffset := by
  induction inputs generalizing job with
  | nil => exact ⟨h, le_refl _⟩
  | cons input rest ih =>
    obtain ⟨h1, h2⟩ := step_invariant job S h input
    obtain ⟨h3, h4⟩ := ih (job.step input).1 h1
    exact ⟨h3, le_trans h2 h4⟩

/-- A job in a terminal state stays in a terminal state and calls nothing on the
device. -/
theorem step_terminal (job : UpdateJob) (h : job.m_state.isTerminal = true) (input : Input) :
    (job.step input).1.m_state.isTerminal = true ∧
    (∀ e ∈ (job.step input).2, e.isCall = false) := by
  obtain ⟨fw, st, pr, off, cs, rc, mr, rt, ct, pa⟩ := job
  cases st <;> simp only [State.isTerminal] at h <;> try exact absurd h (by decide)
  all_goals
    cases input with
    | start c a => simp [step, start, Pending.resolve, State.isTerminal, Effect.isCall]
    | cancel c a => simp [step, cancel, Pending.resolve, State.isTerminal]
    | connectionStatusChanged status a =>
      simp [step, onDeviceConnectionStatusChanged, Pending.resolve, State.isTerminal,
        Effect.isCall]
    | deviceStateChanged state =>
      cases state <;>
        simp [step, onDeviceStateChanged, State.isTerminal, Effect.isCall, failUpdate, setState,
          DeviceState.toInt, ConnectionStatus.toInt]
    | logMessage level message => simp [step, State.isTerminal, Effect.isCall]
    | chunkTimeout a =>
      simp only [step]
      split <;> simp [onUploadNextChunk, Pending.resolve, State.isTerminal]
    | retryTimeout a =>
      simp only [step]
      split <;> simp [onRetryTimeout, onUploadNextChunk, Pending.resolve, State.isTerminal]

/-- A job in a terminal state calls nothing on the device any more. -/
theorem run_terminal (job : UpdateJob) (h : job.m_state.isTerminal = true)
    (inputs : List Input) :
    (job.run inputs).1.m_state.isTerminal = true ∧
    (∀ e ∈ (job.run inputs).2, e.isCall = false) := by
  induction inputs generalizing job with
  | nil => exact ⟨h, by simp [run]⟩
  | cons input rest ih =>
    obtain ⟨h1, h2⟩ := step_terminal job h input
    obtain ⟨h3, h4⟩ := ih (job.step input).1 h1
    refine ⟨h3, ?_⟩
    intro e he
    simp only [run, List.mem_append] at he
    rcases he with he | he
    · exact h2 e he
    · exact h4 e he

/-- No chunk is offered where nothing is called. -/
theorem offeredChunks_of_no_call (effects : List Effect)
    (h : ∀ e ∈ effects, e.isCall = false) : offeredChunks effects = [] := by
  induction effects with
  | nil => rfl
  | cons e rest ih =>
    have he := h e (List.mem_cons_self _ _)
    have hr := ih (fun x hx => h x (List.mem_cons_of_mem _ hx))
    cases e <;> simp_all [offeredChunks, Effect.isCall]

@[simp] theorem setState_quiet (self : UpdateJob) (s : State) :
    (self.setState s).2.any Effect.isCompleted = false := by
  unfold setState
  split <;> simp [Effect.isCompleted]

@[simp] theorem setProgress_quiet (self : UpdateJob) (p : Int) :
    (self.setProgress p).2.any Effect.isCompleted = false := by
  unfold setProgress
  split <;> simp [Effect.isCompleted]

@[simp] theorem startUpload_quiet (self : UpdateJob) :
    self.startUpload.2.any Effect.isCompleted = false := by
  simp [startUpload, Effect.isCompleted]

/-- A step that emits `completed` ends in a terminal state. -/
theorem step_completed_terminal (job : UpdateJob) (input : Input)
    (h : (job.step input).2.any Effect.isCompleted = true) :
    (job.step input).1.m_state.isTerminal = true := by
  revert h
  cases input with
  | start c a =>
    simp only [step, start]
    split
    · simp [Pending.resolve, Effect.isCompleted]
    · cases c <;> cases a <;>
        simp [Pending.resolve, failUpdate, State.isTerminal, Effect.isCompleted]
  | cancel c a =>
    simp only [step, cancel]
    split
    · simp [Pending.resolve]
    · cases c <;> simp [Pending.resolve, State.isTerminal]
  | connectionStatusChanged status a =>
    simp only [step, onDeviceConnectionStatusChanged]
    split
    · split
      · cases a <;> simp [Pending.resolve, failUpdate, State.isTerminal, Effect.isCompleted]
      · split <;> simp [Pending.resolve, State.isTerminal, Effect.isCompleted]
    · split <;> simp [Pending.resolve, State.isTerminal, Effect.isCompleted]
  | deviceStateChanged state =>
    simp only [step, onDeviceStateChanged]
    split
    · simp [Effect.isCompleted]
    · split
      · simp [State.isTerminal]
      · split <;> simp [State.isTerminal, Effect.isCompleted]
  | logMessage level message => simp [step, Effect.isCompleted]
  | chunkTimeout a =>
    simp only [step]
    split
    · simp only [onUploadNextChunk]
      split
      · simp [Pending.resolve]
      · split
        · cases a <;> simp [Pending.resolve, failUpdate, State.isTerminal, Effect.isCompleted]
        · cases a
          · simp only [Pending.resolve, afterSend, Bool.false_eq_true, ↓reduceIte]
            split <;> simp [State.isTerminal, Effect.isCompleted]
          · simp [Pending.resolve, afterSend, Effect.isCompleted]
    · simp
  | retryTimeout a =>
    simp only [step, onRetryTimeout]
    split
    · simp only [onUploadNextChunk]
      split
      · simp [Pending.resolve]
      · split
        · cases a <;> simp [Pending.resolve, failUpdate, State.isTerminal, Effect.isCompleted]
        · cases a
          · simp only [Pending.resolve, afterSend, Bool.false_eq_true, ↓reduceIte]
            split <;> simp [State.isTerminal, Effect.isCompleted]
          · simp [Pending.resolve, afterSend, Effect.isCompleted]
    · simp

/-- Once `completed` has been emitted the job is in a terminal state. -/
theorem run_completed_terminal (job : UpdateJob) (inputs : List Input)
    (h : (job.run inputs).2.any Effect.isCompleted = true) :
    (job.run inputs).1.m_state.isTerminal = true := by
  induction inputs generalizing job with
  | nil => simp [run] at h
  | cons input rest ih =>
    simp only [run, List.any_append, Bool.or_eq_true] at h ⊢
    rcases h with h | h
    · exact (run_terminal _ (step_completed_terminal job input h) rest).1
    · exact ih _ h

/-- In a terminal state every input other than the device event
`deviceStateChanged(Rebooting)` leaves the state as it is and has log messages
as its only effects; `cancel` and the timer ticks have no effect at all. -/
theorem step_terminal_logs (job : UpdateJob) (h : job.m_state.isTerminal = true)
    (input : Input) (hin : input ≠ .deviceStateChanged .Rebooting) :
    (job.step input).1.m_state = job.m_state ∧
    (job.step input).1.m_progress = job.m_progress ∧
    (∀ e ∈ (job.step input).2, e.isLog = true) ∧
    (((∃ c a, input = .cancel c a) ∨ (∃ a, input = .chunkTimeout a) ∨
      (∃ a, input = .retryTimeout a)) → (job.step input).2 = []) := by
  obtain ⟨fw, st, pr, off, cs, rc, mr, rt, ct, pa⟩ := job
  cases st <;> simp only [State.isTerminal] at h <;> try exact absurd h (by decide)
  all_goals
    cases input with
    | start c a => simp [step, start, Pending.resolve, Effect.isLog]
    | cancel c a => simp [step, cancel, Pending.resolve]
    | connectionStatusChanged status a =>
      simp [step, onDeviceConnectionStatusChanged, Pending.resolve, Effect.isLog]
    | deviceStateChanged state =>
      cases state <;>
        first
        | exact absurd rfl hin
        | simp [step, onDeviceStateChanged, Effect.isLog, DeviceState.toInt,
            ConnectionStatus.toInt]
    | logMessage level message => simp [step, Effect.isLog]
    | chunkTimeout a =>
      simp only [step]
      split <;> simp [onUploadNextChunk, Pending.resolve]
    | retryTimeout a =>
      simp only [step]
      split <;> simp [onRetryTimeout, onUploadNextChunk, Pending.resolve]

end UpdateJob

/-- Reading a chunk leaves the firmware data as it is. -/
theorem getChunk_payload (pkg : FirmwarePackage) (offset n : Int) :
    (pkg.getChunk offset n).2.payload = pkg.payload := by
  unfold getChunk FirmwarePackage.payload
  split
  · rfl
  · simp only [QFile.read_bytes, QFile.seek_bytes]

namespace UpdateJob

/-- The chunk that an uploading job reads is the part of the firmware data at
its offset. -/
theorem uploads_chunk (job : UpdateJob) (P : QByteArray) (offset retries : Int)
    (h : job.Uploads P offset retries) (hlt : offset < P.length) :
    (job.m_firmware.getChunk job.m_currentOffset job.m_chunkSize).1 =
      chunkAt P job.m_chunkSize offset := by
  obtain ⟨⟨hfw, hS, hc0, hc1, ho0, ho1, -⟩, hP, -, -, ho, -⟩ := h
  rw [getChunk_within job.m_firmware hfw _ _ ho0 (le_of_lt hc0) hc1 (by rw [hS, ho]; exact hlt)]
  rw [hP, hS, ho, chunkAt]

theorem chunkAt_length (P : QByteArray) (chunkSize offset : Int) (ho : 0 ≤ offset)
    (hlt : offset < P.length) (hc : 0 ≤ chunkSize) :
    ((chunkAt P chunkSize offset).length : Int) = min chunkSize (P.length - offset) := by
  simp only [chunkAt, List.length_take, List.length_drop]
  omega

end UpdateJob

theorem acceptedChunks_append (a b : List Effect) :
    acceptedChunks (a ++ b) = acceptedChunks a ++ acceptedChunks b := by
  induction a with
  | nil => rfl
  | cons e rest ih =>
    cases e with
    | call c answer => cases c <;> cases answer <;> simp [acceptedChunks, ih]
    | logMessage l m => simp [acceptedChunks, ih]
    | progressChanged p s => simp [acceptedChunks, ih]
    | completed s m => simp [acceptedChunks, ih]

theorem offeredChunks_append (a b : List Effect) :
    offeredChunks (a ++ b) = offeredChunks a ++ offeredChunks b := by
  induction a with
  | nil => rfl
  | cons e rest ih =>
    cases e with
    | call c answer => cases c <;> simp [offeredChunks, ih]
    | logMessage l m => simp [offeredChunks, ih]
    | progressChanged p s => simp [offeredChunks, ih]
    | completed s m => simp [offeredChunks, ih]

namespace UpdateJob

@[simp] theorem setProgress_offered (self : UpdateJob) (p : Int) :
    offeredChunks (self.setProgress p).2 = [] := by
  unfold setProgress
  split <;> simp [offeredChunks]

@[simp] theorem setProgress_accepted (self : UpdateJob) (p : Int) :
    acceptedChunks (self.setProgress p).2 = [] := by
  unfold setProgress
  split <;> simp [acceptedChunks]

@[simp] theorem setState_offered (self : UpdateJob) (s : State) :
    offeredChunks (self.setState s).2 = [] := by
  unfold setState
  split <;> simp [offeredChunks]

@[simp] theorem setState_accepted (self : UpdateJob) (s : State) :
    acceptedChunks (self.setState s).2 = [] := by
  unfold setState
  split <;> simp [acceptedChunks]

/-- What an uploading job does on a tick, in terms of `afterSend`. -/
theorem resolve_sends (job : UpdateJob) (P : QByteArray) (offset retries : Int)
    (h : job.Uploads P offset retries) (hlt : offset < P.length) (answer : Bool) :
    job.onUploadNextChunk.resolve answer =
      ((afterSend (chunkAt P job.m_chunkSize offset)
          { job with
            m_firmware := (job.m_firmware.getChunk job.m_currentOffset job.m_chunkSize).2 }
          answer).1,
       Effect.call (.sendFirmwareChunk (chunkAt P job.m_chunkSize offset) offset) answer ::
         (afterSend (chunkAt P job.m_chunkSize offset)
          { job with
            m_firmware := (job.m_firmware.getChunk job.m_currentOffset job.m_chunkSize).2 }
          answer).2) := by
  have hchunk := uploads_chunk job P offset retries h hlt
  obtain ⟨⟨hfw, hS, hc0, hc1, ho0, ho1, -⟩, hP, hst, hp, ho, hr⟩ := h
  have hg : ¬(job.m_state ≠ .Uploading ∨ job.m_paused = true) := by simp [hst, hp]
  have hdone : ¬(job.m_currentOffset ≥ job.m_firmware.size) := by rw [hS, ho]; omega
  unfold onUploadNextChunk
  rw [if_neg hg, if_neg hdone]
  rw [ho] at hchunk
  simp only [Pending.resolve, ho, hchunk, List.nil_append, List.singleton_append]

/-- An uploading job whose chunk is accepted. -/
theorem resolve_accepted (job : UpdateJob) (P : QByteArray) (offset retries : Int)
    (h : job.Uploads P offset retries) (hlt : offset < P.length) :
    (job.onUploadNextChunk.resolve true).1.Uploads P
      (offset + (chunkAt P job.m_chunkSize offset).length) 0 ∧
    (job.onUploadNextChunk.resolve true).1.m_chunkSize = job.m_chunkSize ∧
    (job.onUploadNextChunk.resolve true).1.m_maxRetries = job.m_maxRetries ∧
    (job.onUploadNextChunk.resolve true).1.m_chunkTimer.active = true ∧
    (job.onUploadNextChunk.resolve true).1.m_retryTimer = job.m_retryTimer ∧
    offeredChunks (job.onUploadNextChunk.resolve true).2 =
      [(offset, chunkAt P job.m_chunkSize offset)] ∧
    acceptedChunks (job.onUploadNextChunk.resolve true).2 =
      [(offset, chunkAt P job.m_chunkSize offset)] ∧
    (job.onUploadNextChunk.resolve true).2.any Effect.isCompleted = false := by
  have hall := h
  have hinv2 := (onUploadNextChunk_invariant job P.length h.1 true).1
  obtain ⟨⟨hfw, hS, hc0, hc1, ho0, ho1, -⟩, hP, hst, hp, ho, hr⟩ := h
  have hlen := chunkAt_length P job.m_chunkSize offset (by omega) hlt (le_of_lt hc0)
  have hq : toQint64 (offset + ((chunkAt P job.m_chunkSize offset).length : Int)) =
      offset + ((chunkAt P job.m_chunkSize offset).length : Int) := by
    have : (P.length : Int) < 9223372036854775808 := by
      obtain ⟨-, hoff, -, hfile, hq⟩ := hfw
      simp only [FirmwarePackage.size] at hS
      omega
    exact toQint64_of_range (by omega) (by omega)
  have e := resolve_sends job P offset retries hall hlt true
  rw [e] at hinv2 ⊢
  rw [afterSend_fst_true] at hinv2 ⊢
  refine ⟨⟨hinv2, ?_, hst, hp, ?_, rfl⟩, rfl, rfl, rfl, rfl, ?_, ?_, ?_⟩
  · dsimp only
    rw [getChunk_payload, hP]
  · dsimp only
    rw [ho, hq]
  · simp [offeredChunks_append, offeredChunks, afterSend]
  · simp [acceptedChunks_append, acceptedChunks, afterSend]
  · simp [afterSend, Effect.isCompleted]

/-- An uploading job whose chunk is rejected while retries are left. -/
theorem resolve_rejected (job : UpdateJob) (P : QByteArray) (offset retries : Int)
    (h : job.Uploads P offset retries) (hlt : offset < P.length)
    (hleft : retries < job.m_maxRetries) :
    (job.onUploadNextChunk.resolve false).1.Uploads P offset (retries + 1) ∧
    (job.onUploadNextChunk.resolve false).1.m_chunkSize = job.m_chunkSize ∧
    (job.onUploadNextChunk.resolve false).1.m_maxRetries = job.m_maxRetries ∧
    (job.onUploadNextChunk.resolve false).1.m_retryTimer.active = true ∧
    (job.onUploadNextChunk.resolve false).1.m_chunkTimer = job.m_chunkTimer ∧
    offeredChunks (job.onUploadNextChunk.resolve false).2 =
      [(offset, chunkAt P job.m_chunkSize offset)] ∧
    acceptedChunks (job.onUploadNextChunk.resolve false).2 = [] ∧
    (job.onUploadNextChunk.resolve false).2.any Effect.isCompleted = false := by
  have hall := h
  have hinv2 := (onUploadNextChunk_invariant job P.length h.1 false).1
  obtain ⟨⟨hfw, hS, hc0, hc1, ho0, ho1, -⟩, hP, hst, hp, ho, hr⟩ := h
  have e := resolve_sends job P offset retries hall hlt false
  have hleft2 : job.m_retryCount < job.m_maxRetries := by rw [hr]; exact hleft
  rw [e] at hinv2 ⊢
  rw [afterSend_fst_false] at hinv2 ⊢
  dsimp only at hinv2 ⊢
  rw [if_pos hleft2] at hinv2 ⊢
  refine ⟨⟨hinv2, ?_, hst, hp, ho, ?_⟩, rfl, rfl, rfl, rfl, ?_, ?_, ?_⟩
  · dsimp only
    rw [getChunk_payload, hP]
  · dsimp only
    rw [hr]
  · simp [offeredChunks_append, offeredChunks, afterSend, hleft2]
  · simp [acceptedChunks_append, acceptedChunks, afterSend, hleft2]
  · simp [afterSend, Effect.isCompleted, hleft2]

/-- An uploading job whose chunk is rejected when no retry is left. -/
theorem resolve_exhausted (job : UpdateJob) (P : QByteArray) (offset retries : Int)
    (h : job.Uploads P offset retries) (hlt : offset < P.length)
    (hnone : ¬retries < job.m_maxRetries) :
    (job.onUploadNextChunk.resolve false).1.m_state = .Failed ∧
    (job.onUploadNextChunk.resolve false).1.m_currentOffset = offset ∧
    (job.onUploadNextChunk.resolve false).1.m_retryCount = retries ∧
    (job.onUploadNextChunk.resolve false).1.m_retryTimer = job.m_retryTimer ∧
    (job.onUploadNextChunk.resolve false).1.m_chunkTimer = job.m_chunkTimer ∧
    offeredChunks (job.onUploadNextChunk.resolve false).2 =
      [(offset, chunkAt P job.m_chunkSize offset)] ∧
    acceptedChunks (job.onUploadNextChunk.resolve false).2 = [] ∧
    (job.onUploadNextChunk.resolve false).2.filter Effect.isCompleted =
      [Effect.completed false "Failed to send firmware chunk after maximum retries"] := by
  have hall := h
  obtain ⟨⟨hfw, hS, hc0, hc1, ho0, ho1, -⟩, hP, hst, hp, ho, hr⟩ := h
  have e := resolve_sends job P offset retries hall hlt false
  have hnone2 : ¬job.m_retryCount < job.m_maxRetries := by rw [hr]; exact hnone
  rw [e]
  rw [afterSend_fst_false]
  dsimp only
  rw [if_neg hnone2]
  refine ⟨rfl, ho, hr, rfl, rfl, ?_, ?_, ?_⟩
  · simp [offeredChunks_append, offeredChunks, afterSend, hnone2, failUpdate]
  · simp [acceptedChunks_append, acceptedChunks, afterSend, hnone2, failUpdate]
  · simp [afterSend, Effect.isCompleted, hnone2, failUpdate, setState, hst]

theorem step_chunkTimeout (job : UpdateJob) (answer : Bool)
    (h : job.m_chunkTimer.active = true) :
    job.step (.chunkTimeout answer) =
      ({ job with m_chunkTimer := job.m_chunkTimer.stop }).onUploadNextChunk.resolve answer := by
  simp [step, h]

theorem step_retryTimeout (job : UpdateJob) (answer : Bool)
    (h : job.m_retryTimer.active = true) :
    job.step (.retryTimeout answer) =
      ({ job with m_retryTimer := job.m_retryTimer.stop }).onUploadNextChunk.resolve answer := by
  simp [step, h, onRetryTimeout]

/-- A chunk that does not reach the end of the firmware data is a full one. -/
theorem chunkAt_full (P : QByteArray) (chunkSize offset : Int) (ho : 0 ≤ offset)
    (hc : 0 ≤ chunkSize) (h : offset + chunkSize ≤ P.length) :
    ((chunkAt P chunkSize offset).length : Int) = chunkSize := by
  simp only [chunkAt, List.length_take, List.length_drop]
  omega

end UpdateJob

theorem filter_completed_of_none (effects : List Effect)
    (h : effects.any Effect.isCompleted = false) : effects.filter Effect.isCompleted = [] := by
  rw [List.filter_eq_nil_iff]
  intro e he hc
  have := List.any_eq_true.mpr ⟨e, he, hc⟩
  rw [h] at this
  cases this

/-! ## The serial device: auxiliary facts -/

theorem uploadPayload_length : uploadPayload.length = 10000 := by
  simp [uploadPayload]

set_option maxRecDepth 100000 in
theorem serialize_longJson_length :
    (FIRMWARE_MAGIC ++ [(longJson uploadDigest).length % 256,
      (longJson uploadDigest).length / 256 % 256, (longJson uploadDigest).length / 65536 % 256,
      (longJson uploadDigest).length / 16777216 % 256] ++ longJson uploadDigest).length = 296 := by
  decide

theorem uploadPackage_payload : uploadPackage.payload = uploadPayload := by
  simp only [FirmwarePackage.payload, uploadPackage, uploadFile, serialize, container]
  have h := serialize_longJson_length
  rw [show (296 : Int).toNat = 296 from rfl, show (10000 : Int).toNat = 10000 from rfl]
  rw [List.drop_left' h]
  exact List.take_of_length_le (by rw [uploadPayload_length])

namespace Sha256

theorem blocks_add (m n : Nat) (bs : List Nat) :
    blocks (m + n) bs = blocks m bs ++ blocks n (bs.drop (64 * m)) := by
  induction m generalizing bs with
  | zero => simp [blocks]
  | succ m ih =>
    rw [show m + 1 + n = (m + n) + 1 by omega]
    simp only [blocks, ih, List.drop_drop, List.cons_append]
    rw [show 64 + 64 * m = 64 * (m + 1) by omega]

/-- The hash value after `size * k` blocks, from the hash values after every
`size` blocks. -/
theorem foldl_blocks_staged (cp : Nat → List Nat) (bs : List Nat) (size k : Nat)
    (h : ∀ i, i < k →
      (blocks size (bs.drop (64 * (size * i)))).foldl compress (cp i) = cp (i + 1)) :
    (blocks (size * k) bs).foldl compress (cp 0) = cp k := by
  induction k with
  | zero => rfl
  | succ k ih =>
    rw [Nat.mul_succ, blocks_add, List.foldl_append,
      ih (fun i hi => h i (Nat.lt_succ_of_lt hi))]
    exact h k (Nat.lt_succ_self k)

theorem pad_uploadPayload :
    pad uploadPayload = uploadPayload ++ 128 :: List.replicate 39 0 ++ beBytes 8 80000 := by
  simp only [pad, uploadPayload_length]

theorem pad_uploadPayload_blocks : (pad uploadPayload).length / 64 = 8 * 19 + 5 := by
  have h8 : (beBytes 8 80000).length = 8 := rfl
  rw [pad_uploadPayload, List.length_append, List.length_append, uploadPayload_length,
    List.length_cons, List.length_replicate, h8]

end Sha256

set_option maxRecDepth 1000000 in
theorem uploadStage_0 : uploadStage 0 (8 * 0) 8 = true := by
  decide!

set_option maxRecDepth 1000000 in
theorem uploadStage_1 : uploadStage 1 (8 * 1) 8 = true := by
  decide!

set_option maxRecDepth 1000000 in
theorem uploadStage_2 : uploadStage 2 (8 * 2) 8 = true := by
  decide!

set_option maxRecDepth 1000000 in
theorem uploadStage_3 : uploadStage 3 (8 * 3) 8 = true := by
  decide!

set_option maxRecDepth 1000000 in
theorem uploadStage_4 : uploadStage 4 (8 * 4) 8 = true := by
  decide!

set_option maxRecDepth 1000000 in
theorem uploadStage_5 : uploadStage 5 (8 * 5) 8 = true := by
  decide!

set_option maxRecDepth 1000000 in
theorem uploadStage_6 : uploadStage 6 (8 * 6) 8 = true := by
  decide!

set_option maxRecDepth 1000000 in
theorem uploadStage_7 : uploadStage 7 (8 * 7) 8 = true := by
  decide!

set_option maxRecDepth 1000000 in
theorem uploadStage_8 : uploadStage 8 (8 * 8) 8 = true := by
  decide!

set_option maxRecDepth 1000000 in
theorem uploadStage_9 : uploadStage 9 (8 * 9) 8 = true := by
  decide!

set_option maxRecDepth 1000000 in
theorem uploadStage_10 : uploadStage 10 (8 * 10) 8 = true := by
  decide!

set_option maxRecDepth 1000000 in
theorem uploadStage_11 : uploadStage 11 (8 * 11) 8 = true := by
  decide!

set_option maxRecDepth 1000000 in
theorem uploadStage_12 : uploadStage 12 (8 * 12) 8 = true := by
  decide!

set_option maxRecDepth 1000000 in
theorem uploadStage_13 : uploadStage 13 (8 * 13) 8 = true := by
  decide!

set_option maxRecDepth 1000000 in
theorem uploadStage_14 : uploadStage 14 (8 * 14) 8 = true := by
  decide!

set_option maxRecDepth 1000000 in
theorem uploadStage_15 : uploadStage 15 (8 * 15) 8 = true := by
  decide!

set_option maxRecDepth 1000000 in
theorem uploadStage_16 : uploadStage 16 (8 * 16) 8 = true := by
  decide!

set_option maxRecDepth 1000000 in
theorem uploadStage_17 : uploadStage 17 (8 * 17) 8 = true := by
  decide!

set_option maxRecDepth 1000000 in
theorem uploadStage_18 : uploadStage 18 (8 * 18) 8 = true := by
  decide!

set_option maxRecDepth 1000000 in
theorem uploadStage_19 : uploadStage 19 (8 * 19) 5 = true := by
  decide!

/-- The hash values of `uploadCheckpoints`, each from the one before it. -/
theorem upload_stages (i : Nat) (h : i < 19) : uploadStage i (8 * i) 8 = true := by
  interval_cases i
  · exact uploadStage_0
  · exact uploadStage_1
  · exact uploadStage_2
  · exact uploadStage_3
  · exact uploadStage_4
  · exact uploadStage_5
  · exact uploadStage_6
  · exact uploadStage_7
  · exact uploadStage_8
  · exact uploadStage_9
  · exact uploadStage_10
  · exact uploadStage_11
  · exact uploadStage_12
  · exact uploadStage_13
  · exact uploadStage_14
  · exact uploadStage_15
  · exact uploadStage_16
  · exact uploadStage_17
  · exact uploadStage_18

theorem Sha256.digestWords_uploadPayload :
    Sha256.digestWords uploadPayload = uploadCheckpoints.getD 20 [] := by
  rw [Sha256.digestWords, Sha256.pad_uploadPayload_blocks, Sha256.pad_uploadPayload,
    Sha256.blocks_add, List.foldl_append]
  rw [show Sha256.H0 = (fun i => uploadCheckpoints.getD i []) 0 from rfl,
    Sha256.foldl_blocks_staged (fun i => uploadCheckpoints.getD i []) _ 8 19
      (fun i hi => of_decide_eq_true (upload_stages i hi))]
  exact of_decide_eq_true uploadStage_19

set_option maxRecDepth 100000 in
/-- The digest of the 10,000 bytes of `uploadPayload`. -/
theorem upload_digest : Sha256.hex uploadPayload = uploadDigest := by
  rw [Sha256.hex, Sha256.digestWords_uploadPayload]
  decide

set_option maxRecDepth 100000 in
/-- The constructor accepts `uploadFile` and builds `uploadPackage` from it. -/
theorem upload_constructed : construct desktop (some uploadFile) = .ok uploadPackage := by
  have hlen : (longJson uploadDigest).length = 285 := by decide
  have hmeta : extractMetadata (sampleObject uploadDigest) [] = sampleMetadata uploadDigest := by
    decide
  have h := construct_accepted desktop 29 1 0 0 (longJson uploadDigest) uploadPayload
    (sampleObject uploadDigest) (by decide) (by decide) (by decide) (by decide)
    (by intro h0; have := congrArg List.length h0; rw [uploadPayload_length] at this; cases this)
    (by rw [hmeta]; exact upload_digest)
  rw [hmeta, hlen, uploadPayload_length] at h
  have hs : uploadFile = container 29 1 0 0 (longJson uploadDigest) uploadPayload := by
    simp only [uploadFile, serialize, hlen]
  rw [hs, h]
  simp only [uploadPackage, hs]
  rfl

/-- `beginUpdate` emits log messages only. -/
theorem SerialDevice.beginUpdate_congr {W : Type} (e1 e2 : Receiver SerialDevice W)
    (h : ∀ level message, e1 (.logMessage level message) = e2 (.logMessage level message))
    (s : SerialDevice × W) :
    SerialDevice.beginUpdate e1 s = SerialDevice.beginUpdate e2 s := by
  simp only [SerialDevice.beginUpdate, SerialDevice.sendCommand, h]

theorem Session.wiring_emit_log (i j : Nat) (level : Int) (message : String) :
    (Session.wiring (i + 1)).emit (.logMessage level message) =
      (Session.wiring (j + 1)).emit (.logMessage level message) := rfl

theorem Session.wiring_perform_beginUpdate (i : Nat) :
    (Session.wiring (i + 2)).perform .beginUpdate = (Session.wiring 2).perform .beginUpdate := by
  funext s
  exact SerialDevice.beginUpdate_congr _ _ (fun l m => Session.wiring_emit_log i 0 l m) s

/-- The slot of the connection status calls `beginUpdate` only. -/
theorem Session.resolve_status_congr (p1 p2 : DeviceCall → Session → Bool × Session)
    (h : p1 .beginUpdate = p2 .beginUpdate) (job : UpdateJob) (status : ConnectionStatus)
    (s : Session) :
    Session.resolve p1 (job.onDeviceConnectionStatusChanged status) s =
      Session.resolve p2 (job.onDeviceConnectionStatusChanged status) s := by
  unfold UpdateJob.onDeviceConnectionStatusChanged
  dsimp only
  split
  · split
    · simp only [Session.resolve, h]
    · split <;> rfl
  · split <;> rfl

theorem Session.wiring_emit (i : Nat) :
    (Session.wiring (i + 3)).emit = (Session.wiring 3).emit := by
  funext signal s
  cases signal with
  | logMessage level message => rfl
  | deviceStateChanged state => rfl
  | connectionStatusChanged status =>
    exact Session.resolve_status_congr _ _
      ((Session.wiring_perform_beginUpdate i).trans rfl) s.2.job status s

theorem Session.wiring_perform (i : Nat) :
    (Session.wiring (i + 4)).perform = (Session.wiring 4).perform := by
  funext call s
  cases call with
  | connect =>
    show SerialDevice.connect (Session.wiring (i + 3)).emit s = _
    rw [Session.wiring_emit i]
    rfl
  | beginUpdate =>
    show SerialDevice.beginUpdate (Session.wiring (i + 3)).emit s = _
    rw [Session.wiring_emit i]
    rfl
  | sendFirmwareChunk data offset =>
    show SerialDevice.sendFirmwareChunk (Session.wiring (i + 3)).emit data offset s = _
    rw [Session.wiring_emit i]
    rfl
  | finalizeUpdate =>
    show SerialDevice.finalizeUpdate (Session.wiring (i + 3)).emit s = _
    rw [Session.wiring_emit i]
    rfl
  | cancelUpdate =>
    show SerialDevice.cancelUpdate (Session.wiring (i + 3)).emit s = _
    rw [Session.wiring_emit i]
    rfl

/-- Calls within calls go four deep at most: the wiring followed to a greater
depth is the wiring followed to the depth of four. -/
theorem Session.wiring_depth (n : Nat) : Session.wiring (n + 4) = Session.wiring 4 := by
  have hp := Session.wiring_perform n
  have he : (Session.wiring (n + 4)).emit = (Session.wiring 4).emit :=
    (Session.wiring_emit (n + 1)).trans (Session.wiring_emit 1).symm
  cases h1 : Session.wiring (n + 4)
  cases h2 : Session.wiring 4
  rw [h1] at hp he
  rw [h2] at hp he
  simp only at hp he
  rw [hp, he]

namespace SerialDevice

theorem sendCommand_buffer {W : Type} (emit : Receiver SerialDevice W)
    (h : ∀ signal s, (emit signal s).1.m_buffer = s.1.m_buffer) (cmd : QByteArray)
    (s : SerialDevice × W) : (sendCommand emit cmd s).2.1.m_buffer = s.1.m_buffer := by
  unfold sendCommand
  split
  · rfl
  · split
    · rfl
    · dsimp only
      split
      · rw [h]
      · rfl

theorem sendNextCommand_buffer {W : Type} (emit : Receiver SerialDevice W)
    (h : ∀ signal s, (emit signal s).1.m_buffer = s.1.m_buffer)
    (s : SerialDevice × W) : (sendNextCommand emit s).1.m_buffer = s.1.m_buffer := by
  unfold sendNextCommand
  split
  · rfl
  · split
    · rfl
    · dsimp only
      split
      · rw [h]
      · rfl

theorem connect_buffer {W : Type} (emit : Receiver SerialDevice W)
    (h : ∀ signal s, (emit signal s).1.m_buffer = s.1.m_buffer)
    (s : SerialDevice × W) : (connect emit s).2.1.m_buffer = s.1.m_buffer := by
  unfold connect
  split
  · rfl
  · dsimp only
    split
    · rw [sendCommand_buffer emit h, h, h, h, h]
    · rw [h, h, h, h]

theorem beginUpdate_buffer {W : Type} (emit : Receiver SerialDevice W)
    (h : ∀ signal s, (emit signal s).1.m_buffer = s.1.m_buffer)
    (s : SerialDevice × W) : (beginUpdate emit s).2.1.m_buffer = s.1.m_buffer := by
  unfold beginUpdate
  split
  · rw [h]
  · dsimp only
    split
    · rw [h, sendCommand_buffer emit h, h]
    · rw [sendCommand_buffer emit h, h]

theorem sendFirmwareChunk_buffer {W : Type} (emit : Receiver SerialDevice W)
    (h : ∀ signal s, (emit signal s).1.m_buffer = s.1.m_buffer) (data : QByteArray)
    (offset : Int) (s : SerialDevice × W) :
    (sendFirmwareChunk emit data offset s).2.1.m_buffer = s.1.m_buffer := by
  unfold sendFirmwareChunk
  split
  · rw [h]
  · dsimp only
    split
    · rw [h, sendCommand_buffer emit h]
    · rw [sendCommand_buffer emit h]

theorem finalizeUpdate_buffer {W : Type} (emit : Receiver SerialDevice W)
    (h : ∀ signal s, (emit signal s).1.m_buffer = s.1.m_buffer)
    (s : SerialDevice × W) : (finalizeUpdate emit s).2.1.m_buffer = s.1.m_buffer := by
  unfold finalizeUpdate
  split
  · rw [h]
  · dsimp only
    split
    · rw [h, sendCommand_buffer emit h, h]
    · rw [sendCommand_buffer emit h, h]

theorem cancelUpdate_buffer {W : Type} (emit : Receiver SerialDevice W)
    (h : ∀ signal s, (emit signal s).1.m_buffer = s.1.m_buffer)
    (s : SerialDevice × W) : (cancelUpdate emit s).2.1.m_buffer = s.1.m_buffer := by
  unfold cancelUpdate
  split
  · rfl
  · dsimp only
    split
    · rw [h, sendCommand_buffer emit h, h]
    · rw [h]
      dsimp only
      rw [sendCommand_buffer emit h, h]

theorem processLine_buffer {W : Type} (emit : Receiver SerialDevice W)
    (h : ∀ signal s, (emit signal s).1.m_buffer = s.1.m_buffer) (line : QByteArray)
    (s : SerialDevice × W) : (processLine emit line s).1.m_buffer = s.1.m_buffer := by
  unfold processLine
  dsimp only
  split
  · split
    · rw [sendNextCommand_buffer emit h]
      dsimp only
      rw [h]
    · dsimp only
      rw [h]
  · split
    · rw [h, h]
    · split
      · rw [h]
        dsimp only
        rw [h]
      · split
        · rw [h, h]
        · rw [h]

/-- The loop of `processResponse` ends by itself within as many turns as the
buffer has bytes: more fuel than that changes nothing. -/
theorem processResponse_fuel {W : Type} (emit : Receiver SerialDevice W)
    (h : ∀ signal s, (emit signal s).1.m_buffer = s.1.m_buffer) (fuel extra : Nat)
    (s : SerialDevice × W) (hlen : s.1.m_buffer.length ≤ fuel) :
    processResponse emit (fuel + extra) s = processResponse emit fuel s ∧
    (processResponse emit fuel s).1.m_buffer.contains 10 = false := by
  induction fuel generalizing s with
  | zero =>
    have hnil : s.1.m_buffer = [] := List.length_eq_zero.mp (Nat.le_zero.mp hlen)
    have hno : s.1.m_buffer.contains 10 = false := by rw [hnil]; rfl
    refine ⟨?_, by simpa [processResponse] using hno⟩
    cases extra with
    | zero => rfl
    | succ k =>
      rw [Nat.zero_add]
      simp only [processResponse, hno, Bool.false_eq_true, ↓reduceIte]
  | succ fuel ih =>
    rw [show fuel + 1 + extra = (fuel + extra) + 1 by omega]
    simp only [processResponse]
    split
    · rename_i hc
      apply ih
      rw [processLine_buffer emit h]
      dsimp only
      have hidx : indexOf s.1.m_buffer 10 < s.1.m_buffer.length := by
        simp only [indexOf]
        apply List.findIdx_lt_length_of_exists
        simp only [List.contains_iff_exists_mem_beq, beq_iff_eq] at hc
        obtain ⟨x, hx, hx10⟩ := hc
        exact ⟨x, hx, by simp [hx10]⟩
      rw [List.length_drop]
      omega
    · rename_i hc
      exact ⟨rfl, by simpa using hc⟩

end SerialDevice

/-- A member function of the job run on the device leaves the read buffer of the
device as it is, if the calls do. -/
theorem Session.resolve_buffer (perform : DeviceCall → Session → Bool × Session)
    (h : ∀ call s, (perform call s).2.1.m_buffer = s.1.m_buffer) (p : UpdateJob.Pending)
    (s : Session) : (Session.resolve perform p s).1.m_buffer = s.1.m_buffer := by
  cases p with
  | done job effects => rfl
  | await job effects call resume =>
    simp only [Session.resolve]
    rw [h]

/-- Neither the calls of the job nor the slots of the job touch the read buffer
of the device. -/
theorem Session.wiring_buffer (n : Nat) :
    (∀ call s, ((Session.wiring n).perform call s).2.1.m_buffer = s.1.m_buffer) ∧
    (∀ signal s, ((Session.wiring n).emit signal s).1.m_buffer = s.1.m_buffer) := by
  induction n with
  | zero => exact ⟨fun _ _ => rfl, fun _ _ => rfl⟩
  | succ n ih =>
    constructor
    · intro call s
      cases call with
      | connect => exact SerialDevice.connect_buffer _ ih.2 s
      | beginUpdate => exact SerialDevice.beginUpdate_buffer _ ih.2 s
      | sendFirmwareChunk data offset =>
        exact SerialDevice.sendFirmwareChunk_buffer _ ih.2 data offset s
      | finalizeUpdate => exact SerialDevice.finalizeUpdate_buffer _ ih.2 s
      | cancelUpdate => exact SerialDevice.cancelUpdate_buffer _ ih.2 s
    · intro signal s
      cases signal with
      | logMessage level message => rfl
      | deviceStateChanged state => rfl
      | connectionStatusChanged status => exact Session.resolve_buffer _ ih.1 _ s

/-- The fuel that `onReadyRead` gives to the loop of `processResponse` is
enough in a session: with more fuel the outcome is the same, and no line is
left in the buffer. -/
theorem Session.onReadyRead_fuel (data : QByteArray) (s : Session) (extra : Nat) :
    SerialDevice.processResponse (Session.wiring Session.depth).emit
        (s.1.m_buffer.length + data.length + extra)
        ({ s.1 with m_buffer := s.1.m_buffer ++ data }, s.2) =
      SerialDevice.onReadyRead (Session.wiring Session.depth).emit data s ∧
    (SerialDevice.onReadyRead (Session.wiring Session.depth).emit data s).1.m_buffer.contains 10
      = false :=
  SerialDevice.processResponse_fuel _ (Session.wiring_buffer Session.depth).2 _ extra _
    (by simp)

/-- A session in which every command written has been answered and no timer of
the job runs is played no further, whatever fuel is left. -/
theorem Session.play_settled (afterBegin : List String) (fuel answered : Nat) (s : Session)
    (h1 : s.1.m_serialPort.written.drop answered = [])
    (h2 : s.2.job.m_chunkTimer.active = false) (h3 : s.2.job.m_retryTimer.active = false) :
    Session.play afterBegin fuel answered s = s := by
  cases fuel with
  | zero => rfl
  | succ fuel => simp [Session.play, h1, h2, h3]

/-! ## The update job: offset, terminal states, completion -/

/-- C11: a job created for a package that satisfies the class invariant, after
any sequence of calls of `start` and `cancel`, device events, timer ticks and
answers of the device, has an offset between 0 and the size of the firmware
data, and no further step decreases the offset. -/
theorem offset_bounded_and_monotone (firmware : FirmwarePackage)
    (hinv : firmware.Invariant) (optimalChunkSize : Int)
    (hq : optimalChunkSize < 9223372036854775808) (inputs : List UpdateJob.Input)
    (next : UpdateJob.Input) :
    0 ≤ ((UpdateJob.create firmware optimalChunkSize).run inputs).1.m_currentOffset ∧
    ((UpdateJob.create firmware optimalChunkSize).run inputs).1.m_currentOffset
      ≤ firmware.size ∧
    ((UpdateJob.create firmware optimalChunkSize).run inputs).1.m_firmware.size
      = firmware.size ∧
    ((UpdateJob.create firmware optimalChunkSize).run inputs).1.m_currentOffset ≤
      (((UpdateJob.create firmware optimalChunkSize).run inputs).1.step next).1.m_currentOffset := by
  have h := (UpdateJob.run_invariant _ _
    (UpdateJob.create_invariant firmware hinv optimalChunkSize hq) inputs).1
  exact ⟨h.2.2.2.2.1, h.2.2.2.2.2.1, h.2.1, (UpdateJob.step_invariant _ _ h next).2⟩

set_option maxRecDepth 100000 in
/-- Instance of C11 on the sample package: after the first chunk of four bytes
the offset is 4, and a rejected chunk leaves it there. -/
theorem offset_bounded_and_monotone_witness :
    samplePackage.Invariant ∧
    ((UpdateJob.create samplePackage 4).run
      [.start true true, .deviceStateChanged .Ready,
       .chunkTimeout true]).1.m_currentOffset = 4 ∧
    (0 : Int) ≤ 4 ∧ (4 : Int) ≤ samplePackage.size ∧
    (4 : Int) ≤ (((UpdateJob.create samplePackage 4).run
      [.start true true, .deviceStateChanged .Ready, .chunkTimeout true]).1.step
        (.chunkTimeout false)).1.m_currentOffset := by
  have h := offset_bounded_and_monotone samplePackage (by decide) 4 (by decide)
    [.start true true, .deviceStateChanged .Ready, .chunkTimeout true] (.chunkTimeout false)
  have e : ((UpdateJob.create samplePackage 4).run
      [.start true true, .deviceStateChanged .Ready,
       .chunkTimeout true]).1.m_currentOffset = 4 := by
    decide
  rw [e] at h
  exact ⟨by decide, e, h.1, h.2.1, h.2.2.2⟩

set_option maxRecDepth 100000 in
/-- C12, evaluated where it fails: the job for the sample package is in
`Complete` when the update has gone through, and in `Canceled` when it is
canceled at once; the device event `deviceStateChanged(Rebooting)` then moves
either job to `Failed`.  Over the serial port, a second line `STATE:REBOOTING`
after the update has gone through does so, and so does a line `STATE:` with a
state that the device does not know. -/
theorem terminal_state_left_on_rebooting :
    ((UpdateJob.create samplePackage 1024).run UpdateJob.smoothInputs).1.m_state = .Complete ∧
    (((UpdateJob.create samplePackage 1024).run UpdateJob.smoothInputs).1.step
      (.deviceStateChanged .Rebooting)).1.m_state = .Failed ∧
    ((UpdateJob.create samplePackage 1024).run [.cancel false false]).1.m_state = .Canceled ∧
    (((UpdateJob.create samplePackage 1024).run [.cancel false false]).1.step
      (.deviceStateChanged .Rebooting)).1.m_state = .Failed ∧
    (Session.update ["READY", "UPDATING"] samplePackage).2.job.m_state = .Complete ∧
    ((Session.update ["READY", "UPDATING"] samplePackage).step
      (.readyRead (ascii "STATE:REBOOTING\n"))).2.job.m_state = .Failed ∧
    ((Session.update ["READY", "UPDATING"] samplePackage).step
      (.readyRead (ascii "STATE:BUSY\n"))).2.job.m_state = .Failed := by
  decide!

set_option maxRecDepth 100000 in
/-- C13, evaluated where it fails: when the serial port does not open, the one
call of `start` makes the job emit `completed` twice, from the slot that the
status `Error` runs inside `connect()` and again when `connect()` has returned
false; and the job whose update has gone through emits `completed` a second
time on the device event `deviceStateChanged(Rebooting)`. -/
theorem completed_emitted_twice :
    ((Session.create "ttyUSB0" deadPort samplePackage).step .start).2.trace.filter
      Effect.isCompleted =
      [Effect.completed false "Failed to connect to device",
       Effect.completed false "Failed to connect to device"] ∧
    ((UpdateJob.create samplePackage 1024).run
      (UpdateJob.smoothInputs ++ [.deviceStateChanged .Rebooting])).2.filter
      Effect.isCompleted =
      [Effect.completed true "Firmware updated successfully",
       Effect.completed false "Device reported an error"] := by
  decide!

set_option maxRecDepth 100000 in
/-- C14 refuted as stated: the job for the sample package has emitted
`completed` when the update has gone through; a log message of the device is
then still passed on, a change of the connection status is still logged, and a
call of `start` still draws a warning. -/
theorem log_emitted_after_completed :
    ((UpdateJob.create samplePackage 1024).run UpdateJob.smoothInputs).2.filter
      Effect.isCompleted = [Effect.completed true "Firmware updated successfully"] ∧
    ((UpdateJob.create samplePackage 1024).run UpdateJob.smoothInputs).2.getLast? =
      some (Effect.completed true "Firmware updated successfully") ∧
    (((UpdateJob.create samplePackage 1024).run UpdateJob.smoothInputs).1.step
      (.logMessage 1 "Device info: bootloader 2.1")).2 =
      [Effect.logMessage 1 "Device info: bootloader 2.1"] ∧
    (((UpdateJob.create samplePackage 1024).run UpdateJob.smoothInputs).1.step
      (.connectionStatusChanged .Disconnected false)).2 =
      [Effect.logMessage 0 "Device connection status: 0"] ∧
    (((UpdateJob.create samplePackage 1024).run UpdateJob.smoothInputs).1.step
      (.start true true)).2 = [Effect.logMessage 2 "Update already in progress"] := by
  decide

/-- C14 as amended: once a job has emitted `completed`, every further input
other than the device event `deviceStateChanged(Rebooting)` leaves its state
and its progress as they are and makes it emit log messages only, neither
`progressChanged` nor `completed`; `cancel` and the timer ticks make it emit
nothing. -/
theorem after_completed_only_logs (job : UpdateJob) (inputs : List UpdateJob.Input)
    (hc : (job.run inputs).2.any Effect.isCompleted = true)
    (input : UpdateJob.Input) (hin : input ≠ .deviceStateChanged .Rebooting) :
    ((job.run inputs).1.step input).1.m_state = (job.run inputs).1.m_state ∧
    ((job.run inputs).1.step input).1.m_progress = (job.run inputs).1.m_progress ∧
    (∀ e ∈ ((job.run inputs).1.step input).2, e.isLog = true) ∧
    (((∃ c a, input = .cancel c a) ∨ (∃ a, input = .chunkTimeout a) ∨
      (∃ a, input = .retryTimeout a)) → ((job.run inputs).1.step input).2 = []) :=
  UpdateJob.step_terminal_logs _ (UpdateJob.run_completed_terminal job inputs hc) input hin

set_option maxRecDepth 100000 in
/-- Instance of C14 as amended: after the update of the sample package has gone
through, the device event `deviceStateChanged(Idle)` is logged and nothing
else. -/
theorem after_completed_only_logs_witness :
    ((UpdateJob.create samplePackage 1024).run UpdateJob.smoothInputs).2.any
      Effect.isCompleted = true ∧
    (((UpdateJob.create samplePackage 1024).run UpdateJob.smoothInputs).1.step
      (.deviceStateChanged .Idle)).1.m_state = .Complete ∧
    (∀ e ∈ (((UpdateJob.create samplePackage 1024).run UpdateJob.smoothInputs).1.step
      (.deviceStateChanged .Idle)).2, e.isLog = true) :=
  ⟨by decide,
   ((after_completed_only_logs (UpdateJob.create samplePackage 1024) UpdateJob.smoothInputs
      (by decide) (.deviceStateChanged .Idle) (by decide)).1).trans (by decide),
   (after_completed_only_logs (UpdateJob.create samplePackage 1024) UpdateJob.smoothInputs
      (by decide) (.deviceStateChanged .Idle) (by decide)).2.2.1⟩

/-! ## The update over the serial port -/

set_option maxRecDepth 1000000 in
/-- C15, evaluated where it fails: the job for the package built from
`uploadFile`, with 10,000 bytes of firmware data, on a serial device, chunk
size 1024, where the device at the other end acknowledges every command and
reports `STATE:READY` after `UPDATE_BEGIN`.  The job starts the upload when the
state `Ready` is reported; the device object is then in the state `Ready`, not
`Updating`, and `sendFirmwareChunk` refuses each of the four attempts at the
offset 0 with the log `Cannot send firmware: device not in update mode`.  No
`CHUNK` command is written, the progress stays 0 and the job ends in `Failed`
with `completed(false, "Failed to send firmware chunk after maximum retries")`.
Nothing is left to happen then; a line `STATE:UPDATING` that arrives afterwards
takes the device object to `Updating` and leaves the job in `Failed`, with no
timer running and no further command written. -/
theorem serial_ready_only_fails :
    construct desktop (some uploadFile) = .ok uploadPackage ∧
    uploadPackage.payload = uploadPayload ∧
    uploadPackage.size = 10000 ∧
    (Session.update ["READY"] uploadPackage).2.job.m_chunkSize = 1024 ∧
    (Session.update ["READY"] uploadPackage).2.job.m_state = .Failed ∧
    (Session.update ["READY"] uploadPackage).2.job.m_progress = 0 ∧
    (Session.update ["READY"] uploadPackage).1.m_state = .Ready ∧
    (Session.update ["READY"] uploadPackage).1.m_serialPort.written =
      [ascii "UPDATE_BEGIN:\n", ascii "INFO:\n"] ∧
    (offeredChunks (Session.update ["READY"] uploadPackage).2.trace).map
      (fun offered => (offered.1, offered.2.length)) =
      [(0, 1024), (0, 1024), (0, 1024), (0, 1024)] ∧
    acceptedChunks (Session.update ["READY"] uploadPackage).2.trace = [] ∧
    (Session.update ["READY"] uploadPackage).2.trace.filter
      (fun e => e = Effect.logMessage 3 "Cannot send firmware: device not in update mode") =
      List.replicate 4 (Effect.logMessage 3 "Cannot send firmware: device not in update mode") ∧
    (Session.update ["READY"] uploadPackage).2.trace.filter Effect.isCompleted =
      [Effect.completed false "Failed to send firmware chunk after maximum retries"] ∧
    (Session.update ["READY"] uploadPackage).2.job.m_chunkTimer.active = false ∧
    (Session.update ["READY"] uploadPackage).2.job.m_retryTimer.active = false ∧
    (Session.update ["READY"] uploadPackage).1.m_waitingForAck = false ∧
    (Session.update ["READY"] uploadPackage).1.m_pendingCommands = [] ∧
    ((Session.update ["READY"] uploadPackage).step
      (.readyRead (ascii "STATE:UPDATING\n"))).1.m_state = .Updating ∧
    ((Session.update ["READY"] uploadPackage).step
      (.readyRead (ascii "STATE:UPDATING\n"))).2.job.m_state = .Failed ∧
    ((Session.update ["READY"] uploadPackage).step
      (.readyRead (ascii "STATE:UPDATING\n"))).1.m_serialPort.written =
      [ascii "UPDATE_BEGIN:\n", ascii "INFO:\n"] ∧
    ((Session.update ["READY"] uploadPackage).step
      (.readyRead (ascii "STATE:UPDATING\n"))).2.job.m_chunkTimer.active = false ∧
    ((Session.update ["READY"] uploadPackage).step
      (.readyRead (ascii "STATE:UPDATING\n"))).2.job.m_retryTimer.active = false :=
  ⟨upload_constructed, uploadPackage_payload, by decide!⟩

set_option maxRecDepth 1000000 in
/-- The same update against a device that reports `STATE:UPDATING` as well,
right after `STATE:READY` and so before the first chunk is due: the job makes
the serial device write ten `CHUNK` commands, each with the four offset bytes
and the chunk of the firmware data at the offsets 0, 1024, ..., 9216, nine of
1024 bytes and one of 784 bytes; the progress reaches 100; the job ends in
`Complete`, and `completed(true, "Firmware updated successfully")` is emitted
once, as the last event.  Nothing is left to happen then: no timer of the job
runs and no command waits for its acknowledgement. -/
theorem serial_update_goes_through :
    chunkCommands (Session.update ["READY", "UPDATING"] uploadPackage).1.m_serialPort.written =
      (List.range 10).map (fun i =>
        SerialDevice.createCommand "CHUNK"
          (SerialDevice.offsetBytes (1024 * i) ++ chunkAt uploadPayload 1024 (1024 * i))) ∧
    (chunkCommands (Session.update ["READY", "UPDATING"]
        uploadPackage).1.m_serialPort.written).map (fun cmd => (cmd.length : Int) - 11) =
      [1024, 1024, 1024, 1024, 1024, 1024, 1024, 1024, 1024, 784] ∧
    (Session.update ["READY", "UPDATING"] uploadPackage).2.job.m_progress = 100 ∧
    Effect.progressChanged 100 "Uploading firmware (100%)" ∈
      (Session.update ["READY", "UPDATING"] uploadPackage).2.trace ∧
    (Session.update ["READY", "UPDATING"] uploadPackage).2.job.m_state = .Complete ∧
    (Session.update ["READY", "UPDATING"] uploadPackage).2.trace.filter Effect.isCompleted =
      [Effect.completed true "Firmware updated successfully"] ∧
    (Session.update ["READY", "UPDATING"] uploadPackage).2.trace.getLast? =
      some (Effect.completed true "Firmware updated successfully") ∧
    (Session.update ["READY", "UPDATING"] uploadPackage).2.job.m_chunkTimer.active = false ∧
    (Session.update ["READY", "UPDATING"] uploadPackage).2.job.m_retryTimer.active = false ∧
    (Session.update ["READY", "UPDATING"] uploadPackage).1.m_waitingForAck = false ∧
    (Session.update ["READY", "UPDATING"] uploadPackage).1.m_pendingCommands = [] := by
  decide!

set_option maxRecDepth 1000000 in
/-- C16 refuted as stated: the serial device is connected and has reported
`STATE:READY` before the job is started; `start` takes the job to `Preparing`
and `UPDATE_BEGIN` is acknowledged, nothing more is delivered, and the job is
still in `Preparing` with `deviceState()` still `Ready`, its timers not
running. -/
theorem ready_device_not_consulted :
    ((Session.create "ttyUSB0" goodPort samplePackage).run
      [.connect, .readyRead (ascii "ACK\nSTATE:READY\n")]).2.job.m_state = .Idle ∧
    ((Session.create "ttyUSB0" goodPort samplePackage).run
      [.connect, .readyRead (ascii "ACK\nSTATE:READY\n")]).1.deviceState = .Ready ∧
    ((Session.create "ttyUSB0" goodPort samplePackage).run
      [.connect, .readyRead (ascii "ACK\nSTATE:READY\n"), .start]).2.job.m_state
        = .Preparing ∧
    ((Session.create "ttyUSB0" goodPort samplePackage).run
      [.connect, .readyRead (ascii "ACK\nSTATE:READY\n"), .start]).1.deviceState = .Ready ∧
    ((Session.create "ttyUSB0" goodPort samplePackage).run
      [.connect, .readyRead (ascii "ACK\nSTATE:READY\n"), .start,
       .readyRead (ascii "ACK\n")]).2.job.m_state = .Preparing ∧
    ((Session.create "ttyUSB0" goodPort samplePackage).run
      [.connect, .readyRead (ascii "ACK\nSTATE:READY\n"), .start,
       .readyRead (ascii "ACK\n")]).1.deviceState = .Ready ∧
    ((Session.create "ttyUSB0" goodPort samplePackage).run
      [.connect, .readyRead (ascii "ACK\nSTATE:READY\n"), .start,
       .readyRead (ascii "ACK\n")]).1.m_waitingForAck = false ∧
    ((Session.create "ttyUSB0" goodPort samplePackage).run
      [.connect, .readyRead (ascii "ACK\nSTATE:READY\n"), .start,
       .readyRead (ascii "ACK\n")]).2.job.m_chunkTimer.active = false ∧
    ((Session.create "ttyUSB0" goodPort samplePackage).run
      [.connect, .readyRead (ascii "ACK\nSTATE:READY\n"), .start,
       .readyRead (ascii "ACK\n")]).2.job.m_retryTimer.active = false := by
  decide!

/-- C16 as amended: a job in `Preparing` goes on to `Uploading` when the device
event `deviceStateChanged(Ready)` is delivered, and on no other input; the
upload then starts at offset 0 with the chunk timer running. -/
theorem preparing_awaits_ready (job : UpdateJob) (h : job.m_state = .Preparing)
    (input : UpdateJob.Input) :
    ((job.step input).1.m_state = .Uploading ↔ input = .deviceStateChanged .Ready) ∧
    (job.step (.deviceStateChanged .Ready)).1.m_currentOffset = 0 ∧
    (job.step (.deviceStateChanged .Ready)).1.m_chunkTimer.active = true := by
  refine ⟨?_, ?_, ?_⟩
  · cases input with
    | start c a => simp [UpdateJob.step, UpdateJob.start, UpdateJob.Pending.resolve, h]
    | cancel c a =>
      cases c <;> simp [UpdateJob.step, UpdateJob.cancel, UpdateJob.Pending.resolve, h]
    | connectionStatusChanged status a =>
      cases status <;>
        simp [UpdateJob.step, UpdateJob.onDeviceConnectionStatusChanged,
          UpdateJob.Pending.resolve, h]
    | deviceStateChanged state =>
      cases state <;>
        simp [UpdateJob.step, UpdateJob.onDeviceStateChanged, h, DeviceState.toInt,
          ConnectionStatus.toInt]
    | logMessage level message => simp [UpdateJob.step, h]
    | chunkTimeout a =>
      simp only [UpdateJob.step]
      split <;> simp [UpdateJob.onUploadNextChunk, UpdateJob.Pending.resolve, h]
    | retryTimeout a =>
      simp only [UpdateJob.step]
      split <;>
        simp [UpdateJob.onRetryTimeout, UpdateJob.onUploadNextChunk,
          UpdateJob.Pending.resolve, h]
  · simp [UpdateJob.step, UpdateJob.onDeviceStateChanged, h]
  · simp [UpdateJob.step, UpdateJob.onDeviceStateChanged, h, QTimer.start]

set_option maxRecDepth 100000 in
/-- Instance of C16 as amended: the job for the sample package, started on a
connected device, waits in `Preparing` and goes on when the device reports
`Ready`. -/
theorem preparing_awaits_ready_witness :
    ((UpdateJob.create samplePackage 1024).run [.start true true]).1.m_state = .Preparing ∧
    (((UpdateJob.create samplePackage 1024).run [.start true true]).1.step
      (.deviceStateChanged .Ready)).1.m_state = .Uploading ∧
    (((UpdateJob.create samplePackage 1024).run [.start true true]).1.step
      (.deviceStateChanged .Ready)).1.m_currentOffset = 0 :=
  ⟨by decide,
   ((preparing_awaits_ready ((UpdateJob.create samplePackage 1024).run [.start true true]).1
      (by decide) (.deviceStateChanged .Ready)).1).mpr rfl,
   (preparing_awaits_ready ((UpdateJob.create samplePackage 1024).run [.start true true]).1
      (by decide) (.deviceStateChanged .Ready)).2.1⟩

/-! ## Cancellation -/

/-- C17: from every state that is not terminal, `cancel` leaves the job in
`Canceled` with both timers stopped, emits `completed(false, "Update canceled")`
once, calls `cancelUpdate` once if the device is connected and not at all
otherwise, and nothing is called on the device, no chunk offered to it, in
whatever follows. -/
theorem cancel_from_running (job : UpdateJob) (h : job.m_state.isTerminal = false)
    (isConnected answer : Bool) (later : List UpdateJob.Input) :
    (job.step (.cancel isConnected answer)).1.m_state = .Canceled ∧
    (job.step (.cancel isConnected answer)).1.m_retryTimer.active = false ∧
    (job.step (.cancel isConnected answer)).1.m_chunkTimer.active = false ∧
    (job.step (.cancel isConnected answer)).2 =
      [Effect.logMessage 1 "Canceling update..."] ++
      (if isConnected then [Effect.call .cancelUpdate answer] else []) ++
      [Effect.progressChanged job.m_progress "Update canceled",
       Effect.logMessage 1 "Update state: Update canceled",
       Effect.completed false "Update canceled"] ∧
    (∀ e ∈ ((job.step (.cancel isConnected answer)).1.run later).2, e.isCall = false) ∧
    offeredChunks ((job.step (.cancel isConnected answer)).1.run later).2 = [] := by
  have hstate : (job.step (.cancel isConnected answer)).1.m_state = .Canceled := by
    obtain ⟨fw, st, pr, off, cs, rc, mr, rt, ct, pa⟩ := job
    cases st <;> simp only [UpdateJob.State.isTerminal] at h <;>
      try exact absurd h (by decide)
    all_goals
      cases isConnected <;>
        simp [UpdateJob.step, UpdateJob.cancel, UpdateJob.Pending.resolve]
  have hnone := (UpdateJob.run_terminal (job.step (.cancel isConnected answer)).1
    (by rw [hstate]; rfl) later).2
  refine ⟨hstate, ?_, ?_, ?_, hnone, UpdateJob.offeredChunks_of_no_call _ hnone⟩
  all_goals
    obtain ⟨fw, st, pr, off, cs, rc, mr, rt, ct, pa⟩ := job
    cases st <;> simp only [UpdateJob.State.isTerminal] at h <;>
      try exact absurd h (by decide)
    all_goals
      cases isConnected <;>
        simp [UpdateJob.step, UpdateJob.cancel, UpdateJob.Pending.resolve, QTimer.stop,
          UpdateJob.setState, UpdateJob.stateStr]

set_option maxRecDepth 100000 in
/-- Instance of C17: the job for the sample package canceled during the upload,
on a connected device. -/
theorem cancel_from_running_witness :
    ((UpdateJob.create samplePackage 4).run
      [.start true true, .deviceStateChanged .Ready, .chunkTimeout true]).1.m_state
        = .Uploading ∧
    ((UpdateJob.create samplePackage 4).run
      [.start true true, .deviceStateChanged .Ready, .chunkTimeout true,
       .cancel true true]).1.m_state = .Canceled ∧
    offeredChunks ((((UpdateJob.create samplePackage 4).run
      [.start true true, .deviceStateChanged .Ready, .chunkTimeout true]).1.step
        (.cancel true true)).1.run [.chunkTimeout true, .retryTimeout true]).2 = [] :=
  ⟨by decide, by decide,
   (cancel_from_running ((UpdateJob.create samplePackage 4).run
      [.start true true, .deviceStateChanged .Ready, .chunkTimeout true]).1 (by decide)
      true true [.chunkTimeout true, .retryTimeout true]).2.2.2.2.2⟩

/-- C18: in a terminal state `cancel` does nothing: the job is as it was, state,
offset, count of retries and progress included, no signal is emitted and
nothing is called on the device. -/
theorem cancel_when_terminal (job : UpdateJob) (h : job.m_state.isTerminal = true)
    (isConnected answer : Bool) :
    job.step (.cancel isConnected answer) = (job, []) := by
  obtain ⟨fw, st, pr, off, cs, rc, mr, rt, ct, pa⟩ := job
  cases st <;> simp only [UpdateJob.State.isTerminal] at h <;>
    try exact absurd h (by decide)
  all_goals simp [UpdateJob.step, UpdateJob.cancel, UpdateJob.Pending.resolve]

set_option maxRecDepth 100000 in
/-- Instance of C18: `cancel` after the update of the sample package has gone
through. -/
theorem cancel_when_terminal_witness :
    ((UpdateJob.create samplePackage 1024).run UpdateJob.smoothInputs).1.m_state
      = .Complete ∧
    ((UpdateJob.create samplePackage 1024).run UpdateJob.smoothInputs).1.step
      (.cancel true true) =
      (((UpdateJob.create samplePackage 1024).run UpdateJob.smoothInputs).1, []) :=
  ⟨by decide, cancel_when_terminal _ (by decide) true true⟩

/-! ## The upload loop -/

/-- C19: on a tick of the chunk timer or of the retry timer, a job that is
uploading, with an offset below the size of the firmware data, offers the device
the chunk that `getChunk` reads at the offset, which is the part of the data
from the offset, a chunk size long at most, and offers it with this offset; if
the device accepts it, the offset grows by the length of the chunk and the count
of retries becomes 0; if not, the offset stays.  So when the third chunk is
rejected twice and then accepted, the count of retries becomes 1, then 2, then
0, and the chunks accepted, with their offsets, are those of the run in which
nothing is rejected. -/
theorem chunk_per_tick_and_retry :
    (∀ (job : UpdateJob) (P : QByteArray) (offset retries : Int) (answer : Bool)
        (input : UpdateJob.Input),
      job.Uploads P offset retries → offset < P.length →
      ((input = .chunkTimeout answer ∧ job.m_chunkTimer.active = true) ∨
        (input = .retryTimeout answer ∧ job.m_retryTimer.active = true)) →
      (job.m_firmware.getChunk job.m_currentOffset job.m_chunkSize).1 =
        chunkAt P job.m_chunkSize offset ∧
      offeredChunks (job.step input).2 = [(offset, chunkAt P job.m_chunkSize offset)] ∧
      (answer = true →
        (job.step input).1.m_currentOffset =
          offset + (chunkAt P job.m_chunkSize offset).length ∧
        (job.step input).1.m_retryCount = 0 ∧
        acceptedChunks (job.step input).2 = [(offset, chunkAt P job.m_chunkSize offset)]) ∧
      (answer = false →
        (job.step input).1.m_currentOffset = offset ∧
        acceptedChunks (job.step input).2 = [])) ∧
    (∀ (job : UpdateJob) (P : QByteArray) (offset : Int),
      job.Uploads P offset 0 → job.m_chunkTimer.active = true → 2 ≤ job.m_maxRetries →
      offset + 2 * job.m_chunkSize < P.length →
      (job.run [.chunkTimeout true, .chunkTimeout true, .chunkTimeout false]).1.m_retryCount
        = 1 ∧
      (job.run [.chunkTimeout true, .chunkTimeout true, .chunkTimeout false,
        .retryTimeout false]).1.m_retryCount = 2 ∧
      (job.run [.chunkTimeout true, .chunkTimeout true, .chunkTimeout false,
        .retryTimeout false, .retryTimeout true]).1.m_retryCount = 0 ∧
      acceptedChunks (job.run [.chunkTimeout true, .chunkTimeout true, .chunkTimeout false,
        .retryTimeout false, .retryTimeout true]).2 =
        [(offset, chunkAt P job.m_chunkSize offset),
         (offset + job.m_chunkSize, chunkAt P job.m_chunkSize (offset + job.m_chunkSize)),
         (offset + job.m_chunkSize + job.m_chunkSize,
          chunkAt P job.m_chunkSize (offset + job.m_chunkSize + job.m_chunkSize))] ∧
      acceptedChunks (job.run [.chunkTimeout true, .chunkTimeout true, .chunkTimeout false,
        .retryTimeout false, .retryTimeout true]).2 =
        acceptedChunks (job.run [.chunkTimeout true, .chunkTimeout true,
          .chunkTimeout true]).2 ∧
      (job.run [.chunkTimeout true, .chunkTimeout true, .chunkTimeout false,
        .retryTimeout false, .retryTimeout true]).1.m_currentOffset =
        (job.run [.chunkTimeout true, .chunkTimeout true,
          .chunkTimeout true]).1.m_currentOffset) := by
  constructor
  · intro job P offset retries answer input hU hlt htick
    have hstep : ∃ fired : UpdateJob, fired.Uploads P offset retries ∧
        fired.m_chunkSize = job.m_chunkSize ∧ fired.m_maxRetries = job.m_maxRetries ∧
        job.step input = fired.onUploadNextChunk.resolve answer := by
      rcases htick with ⟨rfl, h⟩ | ⟨rfl, h⟩
      · exact ⟨{ job with m_chunkTimer := job.m_chunkTimer.stop }, hU, rfl, rfl,
          UpdateJob.step_chunkTimeout job answer h⟩
      · exact ⟨{ job with m_retryTimer := job.m_retryTimer.stop }, hU, rfl, rfl,
          UpdateJob.step_retryTimeout job answer h⟩
    obtain ⟨fired, hF, hcs, hmr, e⟩ := hstep
    rw [e, ← hcs]
    refine ⟨by rw [hcs]; exact UpdateJob.uploads_chunk job P offset retries hU hlt, ?_, ?_, ?_⟩
    · cases answer
      · by_cases hleft : retries < fired.m_maxRetries
        · exact (UpdateJob.resolve_rejected fired P offset retries hF hlt hleft).2.2.2.2.2.1
        · exact (UpdateJob.resolve_exhausted fired P offset retries hF hlt hleft).2.2.2.2.2.1
      · exact (UpdateJob.resolve_accepted fired P offset retries hF hlt).2.2.2.2.2.1
    · intro ha
      subst ha
      have a := UpdateJob.resolve_accepted fired P offset retries hF hlt
      exact ⟨a.1.2.2.2.2.1, a.1.2.2.2.2.2, a.2.2.2.2.2.2.1⟩
    · intro ha
      subst ha
      by_cases hleft : retries < fired.m_maxRetries
      · have a := UpdateJob.resolve_rejected fired P offset retries hF hlt hleft
        exact ⟨a.1.2.2.2.2.1, a.2.2.2.2.2.2.1⟩
      · have a := UpdateJob.resolve_exhausted fired P offset retries hF hlt hleft
        exact ⟨a.2.1, a.2.2.2.2.2.2.1⟩
  · intro job P offset hU hct hmax hroom
    have hc0 : 0 < job.m_chunkSize := hU.1.2.2.1
    have ho0 : 0 ≤ offset := by
      have := hU.1.2.2.2.2.1
      rw [hU.2.2.2.2.1] at this
      exact this
    have hl0 := UpdateJob.chunkAt_full P job.m_chunkSize offset ho0 (le_of_lt hc0) (by omega)
    have hl1 := UpdateJob.chunkAt_full P job.m_chunkSize (offset + job.m_chunkSize) (by omega)
      (le_of_lt hc0) (by omega)
    -- the first chunk
    have a1 := UpdateJob.resolve_accepted { job with m_chunkTimer := job.m_chunkTimer.stop }
      P offset 0 hU (by omega)
    rw [← UpdateJob.step_chunkTimeout job true hct] at a1
    dsimp only at a1
    rw [hl0] at a1
    simp only [UpdateJob.run, List.append_nil, acceptedChunks_append]
    generalize job.step (.chunkTimeout true) = s1 at a1 ⊢
    obtain ⟨hU1, hcs1, hmr1, hct1, -, -, hacc1, -⟩ := a1
    -- the second chunk
    have a2 := UpdateJob.resolve_accepted { s1.1 with m_chunkTimer := s1.1.m_chunkTimer.stop }
      P (offset + job.m_chunkSize) 0 hU1 (by omega)
    rw [← UpdateJob.step_chunkTimeout s1.1 true hct1] at a2
    dsimp only at a2
    rw [hcs1, hl1] at a2
    generalize s1.1.step (.chunkTimeout true) = s2 at a2 ⊢
    obtain ⟨hU2, hcs2, hmr2, hct2, -, -, hacc2, -⟩ := a2
    -- the third chunk, accepted at once
    have a3 := UpdateJob.resolve_accepted { s2.1 with m_chunkTimer := s2.1.m_chunkTimer.stop }
      P (offset + job.m_chunkSize + job.m_chunkSize) 0 hU2 (by omega)
    rw [← UpdateJob.step_chunkTimeout s2.1 true hct2] at a3
    dsimp only at a3
    rw [hcs2] at a3
    -- the third chunk, rejected
    have r3 := UpdateJob.resolve_rejected { s2.1 with m_chunkTimer := s2.1.m_chunkTimer.stop }
      P (offset + job.m_chunkSize + job.m_chunkSize) 0 hU2 (by omega)
      (by dsimp only; rw [hmr2, hmr1]; omega)
    rw [← UpdateJob.step_chunkTimeout s2.1 false hct2] at r3
    dsimp only at r3
    rw [hcs2] at r3
    generalize s2.1.step (.chunkTimeout true) = t3 at a3 ⊢
    generalize s2.1.step (.chunkTimeout false) = s3 at r3 ⊢
    obtain ⟨hU3, hcs3, hmr3, hrt3, -, -, hacc3, -⟩ := r3
    -- rejected again
    have r4 := UpdateJob.resolve_rejected { s3.1 with m_retryTimer := s3.1.m_retryTimer.stop }
      P (offset + job.m_chunkSize + job.m_chunkSize) (0 + 1) hU3 (by omega)
      (by dsimp only; rw [hmr3, hmr2, hmr1]; omega)
    rw [← UpdateJob.step_retryTimeout s3.1 false hrt3] at r4
    dsimp only at r4
    rw [hcs3] at r4
    generalize s3.1.step (.retryTimeout false) = s4 at r4 ⊢
    obtain ⟨hU4, hcs4, hmr4, hrt4, -, -, hacc4, -⟩ := r4
    -- accepted
    have a5 := UpdateJob.resolve_accepted { s4.1 with m_retryTimer := s4.1.m_retryTimer.stop }
      P (offset + job.m_chunkSize + job.m_chunkSize) (0 + 1 + 1) hU4 (by omega)
    rw [← UpdateJob.step_retryTimeout s4.1 true hrt4] at a5
    dsimp only at a5
    rw [hcs4] at a5
    generalize s4.1.step (.retryTimeout true) = s5 at a5 ⊢
    obtain ⟨hU5, -, -, -, -, -, hacc5, -⟩ := a5
    obtain ⟨hT3, -, -, -, -, -, hacct3, -⟩ := a3
    refine ⟨?_, ?_, ?_, ?_, ?_, ?_⟩
    · rw [hU3.2.2.2.2.2]; rfl
    · rw [hU4.2.2.2.2.2]; rfl
    · exact hU5.2.2.2.2.2
    · rw [hacc1, hacc2, hacc3, hacc4, hacc5]; rfl
    · rw [hacc1, hacc2, hacc3, hacc4, hacc5, hacct3]; rfl
    · rw [hU5.2.2.2.2.1, hT3.2.2.2.2.1]

set_option maxRecDepth 100000 in
/-- Instance of C19 on the sample package with chunks of four bytes: the third
chunk, of two bytes, is rejected twice and then accepted. -/
theorem chunk_per_tick_and_retry_witness :
    uploadingJob.Uploads samplePayload 0 0 ∧
    offeredChunks (uploadingJob.step (.chunkTimeout false)).2 = [(0, [222, 173, 190, 239])] ∧
    (uploadingJob.step (.chunkTimeout false)).1.m_currentOffset = 0 ∧
    (uploadingJob.run [.chunkTimeout true, .chunkTimeout true, .chunkTimeout false,
      .retryTimeout false]).1.m_retryCount = 2 ∧
    (uploadingJob.run [.chunkTimeout true, .chunkTimeout true, .chunkTimeout false,
      .retryTimeout false, .retryTimeout true]).1.m_retryCount = 0 ∧
    acceptedChunks (uploadingJob.run [.chunkTimeout true, .chunkTimeout true,
      .chunkTimeout false, .retryTimeout false, .retryTimeout true]).2 =
      [(0, [222, 173, 190, 239]), (4, [1, 2, 3, 4]), (8, [5, 6])] :=
  ⟨by decide,
   ((chunk_per_tick_and_retry.1 uploadingJob samplePayload 0 0 false (.chunkTimeout false)
      (by decide) (by decide) (Or.inl ⟨rfl, by decide⟩)).2.1).trans (by decide),
   ((chunk_per_tick_and_retry.1 uploadingJob samplePayload 0 0 false (.chunkTimeout false)
      (by decide) (by decide) (Or.inl ⟨rfl, by decide⟩)).2.2.2 rfl).1,
   (chunk_per_tick_and_retry.2 uploadingJob samplePayload 0 (by decide) (by decide)
      (by decide) (by decide)).2.1,
   (chunk_per_tick_and_retry.2 uploadingJob samplePayload 0 (by decide) (by decide)
      (by decide) (by decide)).2.2.1,
   ((chunk_per_tick_and_retry.2 uploadingJob samplePayload 0 (by decide) (by decide)
      (by decide) (by decide)).2.2.2.1).trans (by decide)⟩

/-- C20: when the device rejects every chunk, a job that starts to upload
with three retries allowed offers the chunk at its offset four times, the first
attempt and three retries, with the offset and the data the same each time; the
offset does not move; after the fourth rejection the job is in `Failed` and has
emitted `completed(false, "Failed to send firmware chunk after maximum retries")`
once, and it offers nothing in whatever follows. -/
theorem retries_exhausted (job : UpdateJob) (P : QByteArray) (offset : Int)
    (hU : job.Uploads P offset 0) (hlt : offset < P.length)
    (hct : job.m_chunkTimer.active = true) (hmax : job.m_maxRetries = 3)
    (later : List UpdateJob.Input) :
    (job.run [.chunkTimeout false, .retryTimeout false, .retryTimeout false]).1.m_state
      = .Uploading ∧
    (job.run [.chunkTimeout false, .retryTimeout false, .retryTimeout false]).1.m_retryCount
      = 3 ∧
    (job.run [.chunkTimeout false, .retryTimeout false, .retryTimeout false]).2.any
      Effect.isCompleted = false ∧
    offeredChunks (job.run [.chunkTimeout false, .retryTimeout false, .retryTimeout false,
      .retryTimeout false]).2 =
      [(offset, chunkAt P job.m_chunkSize offset), (offset, chunkAt P job.m_chunkSize offset),
       (offset, chunkAt P job.m_chunkSize offset), (offset, chunkAt P job.m_chunkSize offset)] ∧
    acceptedChunks (job.run [.chunkTimeout false, .retryTimeout false, .retryTimeout false,
      .retryTimeout false]).2 = [] ∧
    (job.run [.chunkTimeout false, .retryTimeout false, .retryTimeout false,
      .retryTimeout false]).1.m_state = .Failed ∧
    (job.run [.chunkTimeout false, .retryTimeout false, .retryTimeout false,
      .retryTimeout false]).1.m_currentOffset = offset ∧
    (job.run [.chunkTimeout false, .retryTimeout false, .retryTimeout false,
      .retryTimeout false]).2.filter Effect.isCompleted =
      [Effect.completed false "Failed to send firmware chunk after maximum retries"] ∧
    offeredChunks ((job.run [.chunkTimeout false, .retryTimeout false, .retryTimeout false,
      .retryTimeout false]).1.run later).2 = [] := by
  -- the first attempt
  have r1 := UpdateJob.resolve_rejected { job with m_chunkTimer := job.m_chunkTimer.stop }
    P offset 0 hU hlt (by dsimp only; omega)
  rw [← UpdateJob.step_chunkTimeout job false hct] at r1
  dsimp only at r1
  simp only [UpdateJob.run, List.append_nil, acceptedChunks_append, offeredChunks_append,
    List.filter_append, List.any_append]
  generalize job.step (.chunkTimeout false) = s1 at r1 ⊢
  obtain ⟨hU1, hcs1, hmr1, hrt1, -, hoff1, hacc1, hq1⟩ := r1
  -- the first retry
  have r2 := UpdateJob.resolve_rejected { s1.1 with m_retryTimer := s1.1.m_retryTimer.stop }
    P offset (0 + 1) hU1 hlt (by dsimp only; omega)
  rw [← UpdateJob.step_retryTimeout s1.1 false hrt1] at r2
  dsimp only at r2
  rw [hcs1] at r2
  generalize s1.1.step (.retryTimeout false) = s2 at r2 ⊢
  obtain ⟨hU2, hcs2, hmr2, hrt2, -, hoff2, hacc2, hq2⟩ := r2
  -- the second retry
  have r3 := UpdateJob.resolve_rejected { s2.1 with m_retryTimer := s2.1.m_retryTimer.stop }
    P offset (0 + 1 + 1) hU2 hlt (by dsimp only; omega)
  rw [← UpdateJob.step_retryTimeout s2.1 false hrt2] at r3
  dsimp only at r3
  rw [hcs2] at r3
  generalize s2.1.step (.retryTimeout false) = s3 at r3 ⊢
  obtain ⟨hU3, hcs3, hmr3, hrt3, -, hoff3, hacc3, hq3⟩ := r3
  -- the third retry
  have r4 := UpdateJob.resolve_exhausted { s3.1 with m_retryTimer := s3.1.m_retryTimer.stop }
    P offset (0 + 1 + 1 + 1) hU3 hlt (by dsimp only; omega)
  rw [← UpdateJob.step_retryTimeout s3.1 false hrt3] at r4
  dsimp only at r4
  rw [hcs3] at r4
  generalize s3.1.step (.retryTimeout false) = s4 at r4 ⊢
  obtain ⟨hst4, ho4, -, -, -, hoff4, hacc4, hq4⟩ := r4
  refine ⟨hU3.2.2.1, hU3.2.2.2.2.2, ?_, ?_, ?_, hst4, ho4, ?_, ?_⟩
  · rw [hq1, hq2, hq3]; rfl
  · rw [hoff1, hoff2, hoff3, hoff4]; rfl
  · rw [hacc1, hacc2, hacc3, hacc4]; rfl
  · rw [filter_completed_of_none _ hq1, filter_completed_of_none _ hq2,
      filter_completed_of_none _ hq3, hq4]
    rfl
  · exact UpdateJob.offeredChunks_of_no_call _ (UpdateJob.run_terminal s4.1 (by rw [hst4]; rfl) later).2

set_option maxRecDepth 100000 in
/-- Instance of C20 on the sample package with chunks of four bytes: the chunk at
offset 0 is offered four times. -/
theorem retries_exhausted_witness :
    uploadingJob.Uploads samplePayload 0 0 ∧
    offeredChunks (uploadingJob.run [.chunkTimeout false, .retryTimeout false,
      .retryTimeout false, .retryTimeout false]).2 =
      [(0, [222, 173, 190, 239]), (0, [222, 173, 190, 239]), (0, [222, 173, 190, 239]),
       (0, [222, 173, 190, 239])] ∧
    (uploadingJob.run [.chunkTimeout false, .retryTimeout false, .retryTimeout false,
      .retryTimeout false]).1.m_state = .Failed ∧
    (uploadingJob.run [.chunkTimeout false, .retryTimeout false, .retryTimeout false,
      .retryTimeout false]).1.m_currentOffset = 0 ∧
    (uploadingJob.run [.chunkTimeout false, .retryTimeout false, .retryTimeout false,
      .retryTimeout false]).2.filter Effect.isCompleted =
      [Effect.completed false "Failed to send firmware chunk after maximum retries"] :=
  ⟨by decide,
   ((retries_exhausted uploadingJob samplePayload 0 (by decide) (by decide) (by decide)
      (by decide) []).2.2.2.1).trans (by decide),
   (retries_exhausted uploadingJob samplePayload 0 (by decide) (by decide) (by decide)
      (by decide) []).2.2.2.2.2.1,
   (retries_exhausted uploadingJob samplePayload 0 (by decide) (by decide) (by decide)
      (by decide) []).2.2.2.2.2.2.1,
   (retries_exhausted uploadingJob samplePayload 0 (by decide) (by decide) (by decide)
      (by decide) []).2.2.2.2.2.2.2.1⟩

/-! ## The update job: progress events -/

namespace UpdateJob

/-- A change of state by `setState` is announced by `progressChanged`. -/
theorem setState_announced (self : UpdateJob) (state : State) (h : self.m_state ≠ state) :
    (self.setState state).2 =
      [Effect.progressChanged self.m_progress (stateStr state),
       Effect.logMessage 1 ("Update state: " ++ stateStr state)] := by
  simp [setState, h]

theorem mem_setProgress (self : UpdateJob) (q p : Int) (text : String) :
    Effect.progressChanged p text ∈ (self.setProgress q).2 ↔
      (self.m_progress ≠ q ∧ p = q ∧ text = progressStr self.m_state q) := by
  unfold setProgress
  split
  · rename_i h
    simp [h]
  · rename_i h
    simp only [ne_eq, not_not] at h
    simp [h]

/-- What `onUploadNextChunk` emits and calls leaves the state where it is or
announces the new state. -/
theorem resolve_announces (job : UpdateJob) (answer : Bool)
    (h : (job.onUploadNextChunk.resolve answer).1.m_state ≠ job.m_state) :
    ∃ p, Effect.progressChanged p (stateStr (job.onUploadNextChunk.resolve answer).1.m_state) ∈
      (job.onUploadNextChunk.resolve answer).2 := by
  revert h
  unfold onUploadNextChunk
  split
  · simp [Pending.resolve]
  · rename_i hg
    simp only [ne_eq, not_or, not_not, Bool.not_eq_true] at hg
    split
    · cases answer
      · simp [Pending.resolve, failUpdate, setState, hg.1]
      · simp [Pending.resolve, setState, hg.1]
    · cases answer
      · simp only [Pending.resolve, afterSend, Bool.false_eq_true, ↓reduceIte]
        split
        · simp
        · simp [failUpdate, setState, hg.1]
      · simp [Pending.resolve, afterSend]

/-- Every step that changes the state of the job emits `progressChanged` with
the text of the new state. -/
theorem step_announces (job : UpdateJob) (input : Input)
    (h : (job.step input).1.m_state ≠ job.m_state) :
    ∃ p, Effect.progressChanged p (stateStr (job.step input).1.m_state) ∈
      (job.step input).2 := by
  cases input with
  | chunkTimeout a =>
    revert h
    simp only [step]
    split
    · exact resolve_announces { job with m_chunkTimer := job.m_chunkTimer.stop } a
    · simp
  | retryTimeout a =>
    revert h
    simp only [step, onRetryTimeout]
    split
    · exact resolve_announces { job with m_retryTimer := job.m_retryTimer.stop } a
    · simp
  | logMessage level message => simp [step] at h
  | start c a =>
    obtain ⟨fw, st, pr, off, cs, rc, mr, rt, ct, pa⟩ := job
    revert h
    cases st <;> cases c <;> cases a <;>
      simp [step, start, Pending.resolve, failUpdate, setState, mem_setProgress, stateStr,
        progressStr]
  | cancel c a =>
    obtain ⟨fw, st, pr, off, cs, rc, mr, rt, ct, pa⟩ := job
    revert h
    cases st <;> cases c <;>
      simp [step, cancel, Pending.resolve, setState]
  | connectionStatusChanged status a =>
    obtain ⟨fw, st, pr, off, cs, rc, mr, rt, ct, pa⟩ := job
    revert h
    cases st <;> cases status <;> cases a <;>
      simp [step, onDeviceConnectionStatusChanged, Pending.resolve, failUpdate, setState]
  | deviceStateChanged state =>
    obtain ⟨fw, st, pr, off, cs, rc, mr, rt, ct, pa⟩ := job
    revert h
    cases st <;> cases state <;>
      simp [step, onDeviceStateChanged, failUpdate, completeUpdate, startUpload, setState,
        mem_setProgress, DeviceState.toInt, ConnectionStatus.toInt, stateStr, progressStr]

end UpdateJob

namespace UpdateJob

/-- The `progressChanged` events of an accepted chunk: one with the new
percentage if it differs from the progress of the job, none if it does not. -/
theorem resolve_accepted_progress (job : UpdateJob) (P : QByteArray) (offset retries : Int)
    (h : job.Uploads P offset retries) (hlt : offset < P.length) :
    (job.onUploadNextChunk.resolve true).2.filter Effect.isProgress =
      (if progressOf (offset + (chunkAt P job.m_chunkSize offset).length) P.length
          = job.m_progress then []
       else [Effect.progressChanged
          (progressOf (offset + (chunkAt P job.m_chunkSize offset).length) P.length)
          ("Uploading firmware (" ++
            toString (progressOf (offset + (chunkAt P job.m_chunkSize offset).length) P.length)
            ++ "%)")]) ∧
    (job.onUploadNextChunk.resolve true).1.m_progress =
      progressOf (offset + (chunkAt P job.m_chunkSize offset).length) P.length := by
  have e := resolve_sends job P offset retries h hlt true
  obtain ⟨⟨hfw, hS, hc0, hc1, ho0, ho1, -⟩, hP, hst, hp, ho, hr⟩ := h
  have hlen := chunkAt_length P job.m_chunkSize offset (by omega) hlt (le_of_lt hc0)
  have hq : toQint64 (offset + ((chunkAt P job.m_chunkSize offset).length : Int)) =
      offset + ((chunkAt P job.m_chunkSize offset).length : Int) := by
    have : (P.length : Int) < 9223372036854775808 := by
      obtain ⟨-, hoff, -, hfile, hq⟩ := hfw
      simp only [FirmwarePackage.size] at hS
      omega
    exact toQint64_of_range (by omega) (by omega)
  have hS2 := getChunk_size job.m_firmware job.m_currentOffset job.m_chunkSize
  rw [ho, hS] at hS2
  rw [e]
  simp only [afterSend, ↓reduceIte, ho, hq, hS2, setProgress, hst]
  constructor
  · split
    · rename_i hne
      simp [Effect.isProgress, Effect.isCall, progressStr, Ne.symm hne]
    · rename_i heq
      simp only [ne_eq, not_not] at heq
      simp [Effect.isProgress, heq]
  · split
    · rfl
    · rename_i heq
      simp only [ne_eq, not_not] at heq
      exact heq

end UpdateJob

/-- C24 as amended: every step that changes the state of the job emits
`progressChanged` with the status text of the new state; an accepted chunk
advances the offset by the length of the chunk, sets the progress to the
percentage computed from the new offset, and emits `progressChanged` with that
percentage and the text "Uploading firmware (p%)" once if the percentage
differs from the progress before, and no `progressChanged` if it does not. -/
theorem progress_event_on_change :
    (∀ (job : UpdateJob) (input : UpdateJob.Input),
      (job.step input).1.m_state ≠ job.m_state →
      ∃ p, Effect.progressChanged p (UpdateJob.stateStr (job.step input).1.m_state) ∈
        (job.step input).2) ∧
    (∀ (job : UpdateJob) (P : QByteArray) (offset retries : Int) (input : UpdateJob.Input),
      job.Uploads P offset retries → offset < P.length →
      ((input = .chunkTimeout true ∧ job.m_chunkTimer.active = true) ∨
        (input = .retryTimeout true ∧ job.m_retryTimer.active = true)) →
      (job.step input).1.m_currentOffset = offset + (chunkAt P job.m_chunkSize offset).length ∧
      (job.step input).1.m_progress =
        progressOf (offset + (chunkAt P job.m_chunkSize offset).length) P.length ∧
      (job.step input).2.filter Effect.isProgress =
        (if progressOf (offset + (chunkAt P job.m_chunkSize offset).length) P.length
            = job.m_progress then []
         else [Effect.progressChanged
            (progressOf (offset + (chunkAt P job.m_chunkSize offset).length) P.length)
            ("Uploading firmware (" ++
              toString (progressOf (offset + (chunkAt P job.m_chunkSize offset).length)
                P.length) ++ "%)")])) := by
  refine ⟨UpdateJob.step_announces, ?_⟩
  intro job P offset retries input hU hlt htick
  have hstep : ∃ fired : UpdateJob, fired.Uploads P offset retries ∧
      fired.m_chunkSize = job.m_chunkSize ∧ fired.m_progress = job.m_progress ∧
      job.step input = fired.onUploadNextChunk.resolve true := by
    rcases htick with ⟨rfl, h⟩ | ⟨rfl, h⟩
    · exact ⟨{ job with m_chunkTimer := job.m_chunkTimer.stop }, hU, rfl, rfl,
        UpdateJob.step_chunkTimeout job true h⟩
    · exact ⟨{ job with m_retryTimer := job.m_retryTimer.stop }, hU, rfl, rfl,
        UpdateJob.step_retryTimeout job true h⟩
  obtain ⟨fired, hF, hcs, hpr, e⟩ := hstep
  rw [e, ← hcs, ← hpr]
  exact ⟨(UpdateJob.resolve_accepted fired P offset retries hF hlt).1.2.2.2.2.1,
    (UpdateJob.resolve_accepted_progress fired P offset retries hF hlt).2,
    (UpdateJob.resolve_accepted_progress fired P offset retries hF hlt).1⟩

set_option maxRecDepth 100000 in
/-- Instance of C24 as amended: the uploading job for the sample package
announces its cancellation, and its first chunk, four bytes out of ten, takes
the progress to 40 with one event. -/
theorem progress_event_on_change_witness :
    uploadingJob.Uploads samplePayload 0 0 ∧
    (∃ p, Effect.progressChanged p "Update canceled" ∈
      (uploadingJob.step (.cancel false false)).2) ∧
    (uploadingJob.step (.chunkTimeout true)).2.filter Effect.isProgress =
      [Effect.progressChanged 40 "Uploading firmware (40%)"] :=
  ⟨by decide,
   progress_event_on_change.1 uploadingJob (.cancel false false) (by decide),
   ((progress_event_on_change.2 uploadingJob samplePayload 0 0 (.chunkTimeout true)
      (by decide) (by decide) (Or.inl ⟨rfl, by decide⟩)).2.2).trans (by decide)⟩

/-! ## The update job: disconnection, finalisation, start -/

/-- C21: when the device reports the connection status `Disconnected` while the
job is in `Preparing`, `Uploading` or `Finalizing`, the job goes to `Failed` and
emits `completed(false, "Device disconnected during update")`; the events of the
slot are the log of the status, the log of the failure, the change of state and
the completion, and nothing is called on the device. -/
theorem disconnect_during_update_fails (job : UpdateJob)
    (h : job.m_state = .Preparing ∨ job.m_state = .Uploading ∨ job.m_state = .Finalizing)
    (answer : Bool) :
    (job.step (.connectionStatusChanged .Disconnected answer)).1.m_state = .Failed ∧
    (job.step (.connectionStatusChanged .Disconnected answer)).2 =
      [Effect.logMessage 0 "Device connection status: 0",
       Effect.logMessage 3 "Update failed: Device disconnected during update",
       Effect.progressChanged job.m_progress "Update failed",
       Effect.logMessage 1 "Update state: Update failed",
       Effect.completed false "Device disconnected during update"] := by
  obtain ⟨fw, st, pr, off, cs, rc, mr, rt, ct, pa⟩ := job
  rcases h with h | h | h <;> simp only at h <;> subst h <;>
    simp [UpdateJob.step, UpdateJob.onDeviceConnectionStatusChanged, UpdateJob.Pending.resolve,
      UpdateJob.failUpdate, UpdateJob.setState, UpdateJob.stateStr, ConnectionStatus.toInt] <;>
    decide

set_option maxRecDepth 100000 in
/-- Instance of C21: the job for the sample package loses its device during the
upload. -/
theorem disconnect_during_update_fails_witness :
    uploadingJob.m_state = .Uploading ∧
    (uploadingJob.step (.connectionStatusChanged .Disconnected false)).1.m_state = .Failed ∧
    (uploadingJob.step (.connectionStatusChanged .Disconnected false)).2.filter
      Effect.isCompleted = [Effect.completed false "Device disconnected during update"] :=
  ⟨by decide,
   (disconnect_during_update_fails uploadingJob (Or.inr (Or.inl (by decide))) false).1,
   by rw [(disconnect_during_update_fails uploadingJob (Or.inr (Or.inl (by decide))) false).2]
      decide⟩

/-- C22: on a tick of either timer, a job that is uploading and whose offset has
reached the size of the firmware data goes to `Finalizing` and calls
`finalizeUpdate` once, reading and offering no chunk; if the call is rejected
the job goes to `Failed` with `completed(false, "Failed to finalize update")`;
if it is accepted the job is in `Finalizing` with no timer running, further
ticks call nothing, and the device event `deviceStateChanged(Rebooting)` takes
it to `Complete` with `completed(true, "Firmware updated successfully")`. -/
theorem finalize_when_uploaded (job : UpdateJob) (hst : job.m_state = .Uploading)
    (hp : job.m_paused = false) (hge : job.m_currentOffset ≥ job.m_firmware.size)
    (answer : Bool) (input : UpdateJob.Input)
    (htick : (input = .chunkTimeout answer ∧ job.m_chunkTimer.active = true ∧
        job.m_retryTimer.active = false) ∨
      (input = .retryTimeout answer ∧ job.m_retryTimer.active = true ∧
        job.m_chunkTimer.active = false)) :
    (job.step input).2.filter Effect.isCall = [Effect.call .finalizeUpdate answer] ∧
    (job.step input).1.m_state = (if answer then .Finalizing else .Failed) ∧
    (job.step input).1.m_currentOffset = job.m_currentOffset ∧
    (job.step input).1.m_chunkTimer.active = false ∧
    (job.step input).1.m_retryTimer.active = false ∧
    (job.step input).2.filter Effect.isCompleted =
      (if answer then [] else [Effect.completed false "Failed to finalize update"]) ∧
    (answer = true →
      (∀ again, ((job.step input).1.step (.chunkTimeout again)).2 = [] ∧
        ((job.step input).1.step (.retryTimeout again)).2 = []) ∧
      ((job.step input).1.step (.deviceStateChanged .Rebooting)).1.m_state = .Complete ∧
      ((job.step input).1.step (.deviceStateChanged .Rebooting)).2.filter Effect.isCompleted =
        [Effect.completed true "Firmware updated successfully"]) := by
  obtain ⟨fw, st, pr, off, cs, rc, mr, rt, ct, pa⟩ := job
  simp only at hst hp hge htick
  subst hst hp
  rcases htick with ⟨rfl, h1, h2⟩ | ⟨rfl, h1, h2⟩ <;> cases answer <;>
    simp [UpdateJob.step, UpdateJob.onRetryTimeout, UpdateJob.onUploadNextChunk,
      UpdateJob.Pending.resolve, UpdateJob.failUpdate, UpdateJob.setState,
      UpdateJob.onDeviceStateChanged, UpdateJob.completeUpdate, QTimer.stop,
      Effect.isCall, Effect.isCompleted, h1, h2, hge]

set_option maxRecDepth 100000 in
/-- Instance of C22: the job for the sample package when its three chunks have
been accepted. -/
theorem finalize_when_uploaded_witness :
    uploadedJob.m_state = .Uploading ∧ uploadedJob.m_currentOffset = 10 ∧
    (uploadedJob.step (.chunkTimeout true)).1.m_state = .Finalizing ∧
    (uploadedJob.step (.chunkTimeout true)).2.filter Effect.isCall =
      [Effect.call .finalizeUpdate true] ∧
    ((uploadedJob.step (.chunkTimeout true)).1.step
      (.deviceStateChanged .Rebooting)).1.m_state = .Complete :=
  ⟨by decide, by decide,
   (finalize_when_uploaded uploadedJob (by decide) (by decide) (by decide) true
      (.chunkTimeout true) (Or.inl ⟨rfl, by decide, by decide⟩)).2.1,
   (finalize_when_uploaded uploadedJob (by decide) (by decide) (by decide) true
      (.chunkTimeout true) (Or.inl ⟨rfl, by decide, by decide⟩)).1,
   ((finalize_when_uploaded uploadedJob (by decide) (by decide) (by decide) true
      (.chunkTimeout true) (Or.inl ⟨rfl, by decide, by decide⟩)).2.2.2.2.2.2 rfl).2.1⟩

/-- C25: `start` on a job in `Idle`.  If the device is connected, the one call
on the device is `beginUpdate`, and the job ends in `Preparing`, or in `Failed`
if the call is rejected.  If not, the one call is `connect`, and the job ends in
`Connecting`, or in `Failed` if `connect` returns false.  A job in `Connecting`
calls `beginUpdate` when the connection status `Connected` arrives, and on no
other input, and then ends in `Preparing`, or in `Failed` if the call is
rejected; the connection status `Error` takes it to `Failed` with
`completed(false, "Failed to connect to device")`; apart from these two, from
`cancel` and from the device event `deviceStateChanged(Rebooting)`, every input
leaves it in `Connecting`. -/
theorem start_connects_or_prepares :
    (∀ (job : UpdateJob) (answer : Bool), job.m_state = .Idle →
      (job.step (.start true answer)).2.filter Effect.isCall =
        [Effect.call .beginUpdate answer] ∧
      (job.step (.start true answer)).1.m_state = (if answer then .Preparing else .Failed) ∧
      (job.step (.start false answer)).2.filter Effect.isCall =
        [Effect.call .connect answer] ∧
      (job.step (.start false answer)).1.m_state =
        (if answer then .Connecting else .Failed)) ∧
    (∀ (job : UpdateJob) (answer : Bool) (input : UpdateJob.Input),
      job.m_state = .Connecting →
      (job.step (.connectionStatusChanged .Connected answer)).2.filter Effect.isCall =
        [Effect.call .beginUpdate answer] ∧
      (job.step (.connectionStatusChanged .Connected answer)).1.m_state =
        (if answer then .Preparing else .Failed) ∧
      (job.step (.connectionStatusChanged .Error answer)).2.filter Effect.isCall = [] ∧
      (job.step (.connectionStatusChanged .Error answer)).1.m_state = .Failed ∧
      (job.step (.connectionStatusChanged .Error answer)).2.filter Effect.isCompleted =
        [Effect.completed false "Failed to connect to device"] ∧
      (Effect.call .beginUpdate answer ∈ (job.step input).2 →
        input = .connectionStatusChanged .Connected answer) ∧
      ((∀ a, input ≠ .connectionStatusChanged .Connected a) →
        (∀ a, input ≠ .connectionStatusChanged .Error a) → (∀ c a, input ≠ .cancel c a) →
        input ≠ .deviceStateChanged .Rebooting →
        (job.step input).1.m_state = .Connecting)) := by
  constructor
  · intro job answer h
    obtain ⟨fw, st, pr, off, cs, rc, mr, rt, ct, pa⟩ := job
    simp only at h
    subst h
    cases answer <;>
      simp [UpdateJob.step, UpdateJob.start, UpdateJob.Pending.resolve, UpdateJob.failUpdate,
        UpdateJob.setState, UpdateJob.setProgress, Effect.isCall, List.filter_append] <;>
      split <;> simp [Effect.isCall]
  · intro job answer input h
    obtain ⟨fw, st, pr, off, cs, rc, mr, rt, ct, pa⟩ := job
    simp only at h
    subst h
    refine ⟨?_, ?_, ?_, ?_, ?_, ?_, ?_⟩
    · cases answer <;>
        simp [UpdateJob.step, UpdateJob.onDeviceConnectionStatusChanged,
          UpdateJob.Pending.resolve, UpdateJob.failUpdate, UpdateJob.setState, Effect.isCall]
    · cases answer <;>
        simp [UpdateJob.step, UpdateJob.onDeviceConnectionStatusChanged,
          UpdateJob.Pending.resolve, UpdateJob.failUpdate, UpdateJob.setState]
    · simp [UpdateJob.step, UpdateJob.onDeviceConnectionStatusChanged,
        UpdateJob.Pending.resolve, UpdateJob.failUpdate, UpdateJob.setState, Effect.isCall]
    · simp [UpdateJob.step, UpdateJob.onDeviceConnectionStatusChanged,
        UpdateJob.Pending.resolve, UpdateJob.failUpdate, UpdateJob.setState]
    · simp [UpdateJob.step, UpdateJob.onDeviceConnectionStatusChanged,
        UpdateJob.Pending.resolve, UpdateJob.failUpdate, UpdateJob.setState, Effect.isCompleted]
    · cases input with
      | start c a => simp [UpdateJob.step, UpdateJob.start, UpdateJob.Pending.resolve]
      | cancel c a =>
        cases c <;>
          simp [UpdateJob.step, UpdateJob.cancel, UpdateJob.Pending.resolve,
            UpdateJob.setState]
      | connectionStatusChanged status a =>
        cases status <;> cases a <;>
          simp [UpdateJob.step, UpdateJob.onDeviceConnectionStatusChanged,
            UpdateJob.Pending.resolve, UpdateJob.failUpdate, UpdateJob.setState]
      | deviceStateChanged state =>
        cases state <;>
          simp [UpdateJob.step, UpdateJob.onDeviceStateChanged, UpdateJob.failUpdate,
            UpdateJob.setState, DeviceState.toInt, ConnectionStatus.toInt]
      | logMessage level message => simp [UpdateJob.step]
      | chunkTimeout a =>
        simp only [UpdateJob.step]
        split <;> simp [UpdateJob.onUploadNextChunk, UpdateJob.Pending.resolve]
      | retryTimeout a =>
        simp only [UpdateJob.step]
        split <;>
          simp [UpdateJob.onRetryTimeout, UpdateJob.onUploadNextChunk,
            UpdateJob.Pending.resolve]
    · intro h1 h2 h3 h4
      cases input with
      | start c a => simp [UpdateJob.step, UpdateJob.start, UpdateJob.Pending.resolve]
      | cancel c a => exact absurd rfl (h3 c a)
      | connectionStatusChanged status a =>
        cases status
        · simp [UpdateJob.step, UpdateJob.onDeviceConnectionStatusChanged,
            UpdateJob.Pending.resolve]
        · simp [UpdateJob.step, UpdateJob.onDeviceConnectionStatusChanged,
            UpdateJob.Pending.resolve]
        · exact absurd rfl (h1 a)
        · exact absurd rfl (h2 a)
      | deviceStateChanged state =>
        cases state
        · simp [UpdateJob.step, UpdateJob.onDeviceStateChanged, DeviceState.toInt,
            ConnectionStatus.toInt]
        · simp [UpdateJob.step, UpdateJob.onDeviceStateChanged, DeviceState.toInt,
            ConnectionStatus.toInt]
        · simp [UpdateJob.step, UpdateJob.onDeviceStateChanged, DeviceState.toInt,
            ConnectionStatus.toInt]
        · exact absurd rfl h4
      | logMessage level message => simp [UpdateJob.step]
      | chunkTimeout a =>
        simp only [UpdateJob.step]
        split <;> simp [UpdateJob.onUploadNextChunk, UpdateJob.Pending.resolve]
      | retryTimeout a =>
        simp only [UpdateJob.step]
        split <;>
          simp [UpdateJob.onRetryTimeout, UpdateJob.onUploadNextChunk,
            UpdateJob.Pending.resolve]

set_option maxRecDepth 100000 in
/-- Instance of C25 on the job for the sample package: started on a device that
is not connected it calls `connect` and waits; the status `Connected` makes it
call `beginUpdate`.  On the serial device the status arrives, and `beginUpdate`
is called, while `connect` runs. -/
theorem start_connects_or_prepares_witness :
    ((UpdateJob.create samplePackage 1024).step (.start false true)).1.m_state
      = .Connecting ∧
    ((UpdateJob.create samplePackage 1024).step (.start false true)).2.filter Effect.isCall =
      [Effect.call .connect true] ∧
    ((UpdateJob.create samplePackage 1024).step (.start true true)).1.m_state = .Preparing ∧
    ((UpdateJob.create samplePackage 1024).run
      [.start false true, .connectionStatusChanged .Connected true]).2.filter Effect.isCall =
      [Effect.call .connect true, Effect.call .beginUpdate true] ∧
    ((Session.create "ttyUSB0" goodPort samplePackage).step .start).2.trace.filter
      Effect.isCall = [Effect.call .beginUpdate true, Effect.call .connect true] ∧
    ((Session.create "ttyUSB0" goodPort samplePackage).step .start).2.job.m_state
      = .Preparing :=
  ⟨(start_connects_or_prepares.1 (UpdateJob.create samplePackage 1024) true rfl).2.2.2,
   (start_connects_or_prepares.1 (UpdateJob.create samplePackage 1024) true rfl).2.2.1,
   (start_connects_or_prepares.1 (UpdateJob.create samplePackage 1024) true rfl).2.1,
   by decide, by decide, by decide⟩

/-! ## The update job: the percentage -/

set_option maxRecDepth 1000000 in
/-- C23, evaluated where it fails: the job for the payload of 10,000 bytes with
chunks of 2900 bytes, started on a connected device that reports `Ready`, has
its first chunk accepted; its offset is 2900 and its progress is 28, where
100 * 2900 / 10000 rounded down is 29.  The progress is computed in `double`:
the quotient is rounded to a value below 0.29 and its product with 100 to a value
below 29.  Likewise the offset 29696 of 51200 bytes gives 57, where the floor
is 58. -/
theorem progress_below_floor :
    ((UpdateJob.create uploadPackage 2900).run
      [.start true true, .deviceStateChanged .Ready, .chunkTimeout true]).1.m_currentOffset
      = 2900 ∧
    ((UpdateJob.create uploadPackage 2900).run
      [.start true true, .deviceStateChanged .Ready, .chunkTimeout true]).1.m_progress = 28 ∧
    acceptedChunks ((UpdateJob.create uploadPackage 2900).run
      [.start true true, .deviceStateChanged .Ready, .chunkTimeout true]).2 =
      [(0, chunkAt uploadPayload 2900 0)] ∧
    (100 * 2900 : Int) / uploadPackage.size = 29 ∧
    progressOf 29696 51200 = 57 ∧ (100 * 29696 : Int) / 51200 = 58 ∧
    Double.div (Double.ofNat 29) (Double.ofNat 100) = ⟨5224175567749775, -54⟩ ∧
    Double.mul ⟨5224175567749775, -54⟩ (Double.ofNat 100) = ⟨8162774324609023, -48⟩ := by
  decide!

set_option maxRecDepth 1000000 in
/-- C24 refuted as stated: the job for the payload of 10,000 bytes with chunks
of 64 bytes has its first chunk accepted; the offset advances from 0 to 64, the
percentage stays 0, and the tick emits no `progressChanged`. -/
theorem chunk_without_progress_event :
    ((UpdateJob.create uploadPackage 64).run
      [.start true true, .deviceStateChanged .Ready]).1.m_currentOffset = 0 ∧
    ((UpdateJob.create uploadPackage 64).run
      [.start true true, .deviceStateChanged .Ready, .chunkTimeout true]).1.m_currentOffset
      = 64 ∧
    acceptedChunks (((UpdateJob.create uploadPackage 64).run
      [.start true true, .deviceStateChanged .Ready]).1.step (.chunkTimeout true)).2 =
      [(0, chunkAt uploadPayload 64 0)] ∧
    (((UpdateJob.create uploadPackage 64).run
      [.start true true, .deviceStateChanged .Ready]).1.step (.chunkTimeout true)).2.filter
      Effect.isProgress = [] := by
  decide!

/-! ## The transports: disconnection and timeout -/

/-- C30: `disconnect` on the serial and on the network device, whatever the
state of the device and of its port or socket: afterwards the connection status
is `Disconnected`, the queue and the buffer are empty, no request is in flight,
the timer is stopped and `isConnected` is false; a second call leaves the
device as the first left it. -/
theorem disconnect_idempotent :
    (∀ (W : Type) (emit : Receiver SerialDevice W), (∀ signal s, (emit signal s).1 = s.1) →
      ∀ s : SerialDevice × W,
      (SerialDevice.disconnect emit s).1.m_status = .Disconnected ∧
      (SerialDevice.disconnect emit s).1.m_pendingCommands = [] ∧
      (SerialDevice.disconnect emit s).1.m_buffer = [] ∧
      (SerialDevice.disconnect emit s).1.m_waitingForAck = false ∧
      (SerialDevice.disconnect emit s).1.m_timeoutTimer.active = false ∧
      (SerialDevice.disconnect emit s).1.isConnected = false ∧
      (SerialDevice.disconnect emit (SerialDevice.disconnect emit s)).1 =
        (SerialDevice.disconnect emit s).1) ∧
    (∀ (W : Type) (emit : Receiver NetworkDevice W), (∀ signal s, (emit signal s).1 = s.1) →
      ∀ s : NetworkDevice × W,
      (NetworkDevice.disconnect emit s).1.m_status = .Disconnected ∧
      (NetworkDevice.disconnect emit s).1.m_pendingCommands = [] ∧
      (NetworkDevice.disconnect emit s).1.m_buffer = [] ∧
      (NetworkDevice.disconnect emit s).1.m_waitingForResponse = false ∧
      (NetworkDevice.disconnect emit s).1.m_timeoutTimer.active = false ∧
      (NetworkDevice.disconnect emit s).1.isConnected = false ∧
      (NetworkDevice.disconnect emit (NetworkDevice.disconnect emit s)).1 =
        (NetworkDevice.disconnect emit s).1) := by
  constructor
  · intro W emit hE s
    have e : ∀ t : SerialDevice × W, (SerialDevice.disconnect emit t).1 =
        { t.1 with m_serialPort := { t.1.m_serialPort with isOpen := false },
                   m_buffer := [],
                   m_pendingCommands := [],
                   m_timeoutTimer := t.1.m_timeoutTimer.stop,
                   m_waitingForAck := false,
                   m_status := .Disconnected } := by
      intro t
      simp only [SerialDevice.disconnect, hE]
    simp only [e]
    simp [QTimer.stop, SerialDevice.isConnected]
  · intro W emit hE s
    obtain ⟨⟨addr, port, ⟨st, takes, closes, written, err⟩, status, state, buf, timer, pend,
      wait⟩, w⟩ := s
    cases st <;> cases closes <;>
      simp [NetworkDevice.disconnect, NetworkDevice.onDisconnected,
        QTcpSocket.disconnectFromHost, hE, QTimer.stop, NetworkDevice.isConnected]


/-- Instance of C30 on the devices `busySerial` and `busyNetwork`; the second
call emits its signals again. -/
theorem disconnect_idempotent_witness :
    (SerialDevice.disconnect record (busySerial, [])).1.m_status = .Disconnected ∧
    (SerialDevice.disconnect record (busySerial, [])).1.m_pendingCommands = [] ∧
    (SerialDevice.disconnect record (SerialDevice.disconnect record (busySerial, []))).1 =
      (SerialDevice.disconnect record (busySerial, [])).1 ∧
    (NetworkDevice.disconnect record (busyNetwork, [])).1.m_buffer = [] ∧
    (NetworkDevice.disconnect record (NetworkDevice.disconnect record (busyNetwork, []))).1 =
      (NetworkDevice.disconnect record (busyNetwork, [])).1 ∧
    (NetworkDevice.disconnect record (NetworkDevice.disconnect record (busyNetwork, []))).2 =
      [.logMessage 1 "Device disconnected", .connectionStatusChanged .Disconnected,
       .connectionStatusChanged .Disconnected,
       .logMessage 1 "Disconnected from network device",
       .connectionStatusChanged .Disconnected,
       .logMessage 1 "Disconnected from network device"] :=
  ⟨(disconnect_idempotent.1 _ record (fun _ _ => rfl) (busySerial, [])).1,
   (disconnect_idempotent.1 _ record (fun _ _ => rfl) (busySerial, [])).2.1,
   (disconnect_idempotent.1 _ record (fun _ _ => rfl) (busySerial, [])).2.2.2.2.2.2,
   (disconnect_idempotent.2 _ record (fun _ _ => rfl) (busyNetwork, [])).2.2.1,
   (disconnect_idempotent.2 _ record (fun _ _ => rfl) (busyNetwork, [])).2.2.2.2.2.2,
   by decide⟩

/-- C27: when the timer of a transport fires while a request is in flight, the
port or socket taking what is written to it: one warning of level 2 is emitted;
with an empty queue the device is left with no request in flight, the timer
stopped and nothing written; with a queue of a head and a rest, the head is
written after what was written before, so that the request that timed out is
not written again, the queue is the rest, the head is in flight and the timer
runs anew. -/
theorem timeout_releases_and_drains :
    (∀ w : Wire SerialDevice, w.device.m_timeoutTimer.active = true →
      w.device.m_waitingForAck = true → w.device.m_serialPort.takes = true →
      (SerialDevice.drive w .timeout).signals =
        w.signals ++ [.logMessage 2 "Command timeout"] ∧
      (w.device.m_pendingCommands = [] →
        (SerialDevice.drive w .timeout).device =
          { w.device with m_waitingForAck := false,
                          m_timeoutTimer := w.device.m_timeoutTimer.stop }) ∧
      (∀ head rest, w.device.m_pendingCommands = head :: rest →
        (SerialDevice.drive w .timeout).device =
          { w.device with
              m_serialPort := { w.device.m_serialPort with
                                written := w.device.m_serialPort.written ++ [head] },
              m_pendingCommands := rest,
              m_waitingForAck := true,
              m_timeoutTimer := { active := true, interval := SERIAL_TIMEOUT_MS } })) ∧
    (∀ (env : NetEnv) (w : Wire NetworkDevice), w.device.m_timeoutTimer.active = true →
      w.device.m_waitingForResponse = true → w.device.m_socket.takes = true →
      ∃ after, NetworkDevice.drive env w .timeout = some after ∧
      after.signals = w.signals ++ [.logMessage 2 "Request timeout"] ∧
      (w.device.m_pendingCommands = [] →
        after.device =
          { w.device with m_waitingForResponse := false,
                          m_timeoutTimer := w.device.m_timeoutTimer.stop }) ∧
      (∀ head rest, w.device.m_pendingCommands = head :: rest →
        after.device =
          { w.device with
              m_socket := { w.device.m_socket with
                            written := w.device.m_socket.written ++ [head] },
              m_pendingCommands := rest,
              m_waitingForResponse := true,
              m_timeoutTimer := { active := true, interval := NETWORK_TIMEOUT_MS } })) := by
  constructor
  · intro w ht hw hk
    obtain ⟨⟨name, ⟨isOpen, opens, takes, written, err⟩, status, state, buf, timer, pend,
      wait⟩, signals, accepted⟩ := w
    simp only at ht hw hk
    subst hw hk
    cases pend with
    | nil =>
      simp [SerialDevice.drive, SerialDevice.onTimeout, record, ht]
    | cons head rest =>
      simp [SerialDevice.drive, SerialDevice.onTimeout, SerialDevice.sendNextCommand, record,
        ht, QSerialPort.write, QTimer.start, QTimer.stop]
  · intro env w ht hw hk
    obtain ⟨⟨addr, port, ⟨st, takes, closes, written, err⟩, status, state, buf, timer, pend,
      wait⟩, signals, accepted⟩ := w
    simp only at ht hw hk
    subst hw hk
    cases pend with
    | nil =>
      simp [NetworkDevice.drive, NetworkDevice.onTimeout, record, ht]
    | cons head rest =>
      simp [NetworkDevice.drive, NetworkDevice.onTimeout, NetworkDevice.sendNextRequest,
        record, ht, QTcpSocket.write, QTimer.start, QTimer.stop]

/-- Instance of C27: the timeout of the serial device `busySerial`, which waits
for the acknowledgement of `UPDATE_BEGIN`, sends `UPDATE_END` and keeps
`UPDATE_CANCEL` in the queue. -/
theorem timeout_releases_and_drains_witness :
    (SerialDevice.drive { device := busySerial, signals := [], accepted := [] }
      .timeout).device.m_serialPort.written =
      [ascii "INFO:\n", ascii "UPDATE_BEGIN:\n", ascii "UPDATE_END:\n"] ∧
    (SerialDevice.drive { device := busySerial, signals := [], accepted := [] }
      .timeout).device.m_pendingCommands = [ascii "UPDATE_CANCEL:\n"] ∧
    (SerialDevice.drive { device := busySerial, signals := [], accepted := [] }
      .timeout).signals = [.logMessage 2 "Command timeout"] := by
  have h := (timeout_releases_and_drains.1
    { device := busySerial, signals := [], accepted := [] } rfl rfl rfl)
  have hd := h.2.2 _ _ rfl
  exact ⟨by rw [hd]; rfl, by rw [hd], h.1⟩

/-! ## The network device: the connection attempt -/

theorem NetworkDevice.sendRequest_status {W : Type} (emit : Receiver NetworkDevice W)
    (hE : ∀ signal s, (emit signal s).1 = s.1) (req : QByteArray) (s : NetworkDevice × W) :
    (NetworkDevice.sendRequest emit req s).2.1.m_status = s.1.m_status := by
  unfold NetworkDevice.sendRequest
  split
  · rfl
  · split
    · rfl
    · dsimp only
      split
      · rw [hE]
      · rfl

/-- From `Connecting`, the signal `connected` of the socket takes the status of
the network device to `Connected`, the signal `error` takes it to `Error`, and
a repeated `connect()`, which the socket refuses with an error, takes it to
`Error` as well. -/
theorem NetworkDevice.status_after_socket_signal (W : Type) (env : NetEnv)
    (emit : Receiver NetworkDevice W) (hE : ∀ signal s, (emit signal s).1 = s.1)
    (s : NetworkDevice × W) (errorString : String) :
    (NetworkDevice.socketConnected env emit s).1.m_status = .Connected ∧
    (NetworkDevice.socketError emit errorString s).1.m_status = .Error ∧
    (s.1.m_socket.state = .ConnectingState →
      (NetworkDevice.connect emit s).2.1.m_status = .Error) := by
  refine ⟨?_, ?_, ?_⟩
  · simp only [NetworkDevice.socketConnected, NetworkDevice.onConnected]
    rw [NetworkDevice.sendRequest_status emit hE, hE]
  · simp only [NetworkDevice.socketError, NetworkDevice.onError, hE]
  · intro h
    simp [NetworkDevice.connect, NetworkDevice.onError, QTcpSocket.connectToHost, hE, h]

set_option maxRecDepth 100000 in
/-- C28, evaluated where it fails: `connect` on a network device whose socket
is unconnected returns true, sets the status to `Connecting`, emits it and
starts the timer of 5000 ms.  When that timer fires, `onTimeout` emits the
warning "Request timeout" and nothing else: the status is still `Connecting`,
no status is emitted and no timer is running; the job that called `connect`
stays in `Connecting` and does not complete. -/
theorem connect_timeout_leaves_connecting :
    (NetworkDevice.connect record
      (NetworkDevice.create "192.168.1.100" 8266 freshSocket, [])).1 = true ∧
    (NetworkDevice.connect record
      (NetworkDevice.create "192.168.1.100" 8266 freshSocket, [])).2.1.m_status
      = .Connecting ∧
    (NetworkDevice.connect record
      (NetworkDevice.create "192.168.1.100" 8266 freshSocket, [])).2.1.m_timeoutTimer =
      { active := true, interval := 5000 } ∧
    (NetworkDevice.connect record
      (NetworkDevice.create "192.168.1.100" 8266 freshSocket, [])).2.2 =
      [.logMessage 1 "Connecting to device at 192.168.1.100:8266...",
       .connectionStatusChanged .Connecting] ∧
    (NetworkDevice.onTimeout record
      ({ (NetworkDevice.connect record
            (NetworkDevice.create "192.168.1.100" 8266 freshSocket, [])).2.1 with
          m_timeoutTimer := { active := false, interval := 5000 } }, [])).1.m_status
      = .Connecting ∧
    (NetworkDevice.onTimeout record
      ({ (NetworkDevice.connect record
            (NetworkDevice.create "192.168.1.100" 8266 freshSocket, [])).2.1 with
          m_timeoutTimer := { active := false, interval := 5000 } }, [])).2 =
      [.logMessage 2 "Request timeout"] ∧
    (NetworkDevice.onTimeout record
      ({ (NetworkDevice.connect record
            (NetworkDevice.create "192.168.1.100" 8266 freshSocket, [])).2.1 with
          m_timeoutTimer := { active := false, interval := 5000 } },
       [])).1.m_timeoutTimer.active = false ∧
    ((UpdateJob.create samplePackage 4096).run
      [.start false true,
       .logMessage 1 "Connecting to device at 192.168.1.100:8266...",
       .connectionStatusChanged .Connecting true,
       .logMessage 2 "Request timeout"]).1.m_state = .Connecting ∧
    ((UpdateJob.create samplePackage 4096).run
      [.start false true,
       .logMessage 1 "Connecting to device at 192.168.1.100:8266...",
       .connectionStatusChanged .Connecting true,
       .logMessage 2 "Request timeout"]).2.filter Effect.isCompleted = [] := by
  decide

/-! ## The transports: the order of the requests -/

namespace SerialDevice

theorem sendNextCommand_ordered (s : SerialDevice × List DeviceSignal)
    (accepted : List QByteArray) (hopen : s.1.m_serialPort.isOpen = true)
    (htakes : s.1.m_serialPort.takes = true) (hfree : s.1.m_waitingForAck = false)
    (hall : s.1.m_serialPort.written ++ s.1.m_pendingCommands = accepted) :
    (sendNextCommand record s).1.Ordered accepted := by
  obtain ⟨⟨name, ⟨isOpen, opens, takes, written, err⟩, status, state, buf, timer, pend,
    wait⟩, signals⟩ := s
  simp only at hopen htakes hfree hall
  subst hopen htakes hfree
  cases pend with
  | nil => simpa [sendNextCommand, Ordered] using hall
  | cons head rest =>
    simp [sendNextCommand, Ordered, QSerialPort.write]
    simpa using hall

theorem processLine_ordered (line : QByteArray) (s : SerialDevice × List DeviceSignal)
    (accepted : List QByteArray) (h : s.1.Ordered accepted) :
    (processLine record line s).1.Ordered accepted := by
  obtain ⟨hopen, htakes, hfree, hall⟩ := h
  unfold processLine
  dsimp only
  split
  · split
    · exact sendNextCommand_ordered _ accepted hopen htakes rfl hall
    · rename_i hempty
      simp only [Bool.not_eq_true, Bool.not_eq_false', List.isEmpty_iff, record] at hempty
      exact ⟨hopen, htakes, fun _ => hempty, hall⟩
  · split
    · exact ⟨hopen, htakes, hfree, hall⟩
    · split
      · exact ⟨hopen, htakes, hfree, hall⟩
      · split
        · exact ⟨hopen, htakes, hfree, hall⟩
        · exact ⟨hopen, htakes, hfree, hall⟩

theorem processResponse_ordered (fuel : Nat) (s : SerialDevice × List DeviceSignal)
    (accepted : List QByteArray) (h : s.1.Ordered accepted) :
    (processResponse record fuel s).1.Ordered accepted := by
  induction fuel generalizing s with
  | zero => exact h
  | succ fuel ih =>
    simp only [processResponse]
    split
    · exact ih _ (processLine_ordered _ _ accepted h)
    · exact h

theorem drive_inOrder (w : Wire SerialDevice) (input : WireInput) (h : InOrder w) :
    InOrder (drive w input) := by
  obtain ⟨hopen, htakes, hfree, hall⟩ := h
  cases input with
  | send request =>
    obtain ⟨⟨name, ⟨isOpen, opens, takes, written, err⟩, status, state, buf, timer, pend,
      wait⟩, signals, accepted⟩ := w
    simp only at hopen htakes hfree hall
    subst hopen htakes
    cases wait
    · have hp := hfree rfl
      subst hp
      simp [drive, sendCommand, InOrder, QSerialPort.write]
      simpa using hall
    · simp [drive, sendCommand, InOrder]
      rw [← hall, List.append_assoc]
  | readyRead data =>
    exact processResponse_ordered _ _ w.accepted ⟨hopen, htakes, hfree, hall⟩
  | timeout =>
    simp only [drive]
    split
    · simp only [onTimeout, record]
      split
      · split
        · exact sendNextCommand_ordered _ w.accepted hopen htakes rfl hall
        · rename_i hempty
          simp only [Bool.not_eq_true, Bool.not_eq_false', List.isEmpty_iff] at hempty
          exact ⟨hopen, htakes, fun _ => hempty, hall⟩
      · exact ⟨hopen, htakes, hfree, hall⟩
    · exact ⟨hopen, htakes, hfree, hall⟩

theorem driveAll_inOrder (w : Wire SerialDevice) (inputs : List WireInput) (h : InOrder w) :
    InOrder (driveAll w inputs) := by
  induction inputs generalizing w with
  | nil => exact h
  | cons input rest ih => exact ih _ (drive_inOrder w input h)

end SerialDevice

namespace NetworkDevice

theorem sendNextRequest_ordered (s : NetworkDevice × List DeviceSignal)
    (accepted : List QByteArray) (hopen : s.1.m_socket.state = .ConnectedState)
    (htakes : s.1.m_socket.takes = true) (hfree : s.1.m_waitingForResponse = false)
    (hall : s.1.m_socket.written ++ s.1.m_pendingCommands = accepted) :
    (sendNextRequest record s).1.Ordered accepted := by
  obtain ⟨⟨addr, port, ⟨st, takes, closes, written, err⟩, status, state, buf, timer, pend,
    wait⟩, signals⟩ := s
  simp only at hopen htakes hfree hall
  subst hopen htakes hfree
  cases pend with
  | nil => simpa [sendNextRequest, Ordered] using hall
  | cons head rest =>
    simp [sendNextRequest, Ordered, QTcpSocket.write]
    simpa using hall

/-- Releasing the request in flight and sending the next one keeps the order. -/
theorem release_ordered (s : NetworkDevice × List DeviceSignal) (accepted : List QByteArray)
    (hopen : s.1.m_socket.state = .ConnectedState) (htakes : s.1.m_socket.takes = true)
    (hfree : s.1.m_waitingForResponse = false)
    (hall : s.1.m_socket.written ++ s.1.m_pendingCommands = accepted) :
    (if !s.1.m_pendingCommands.isEmpty then sendNextRequest record s else s).1.Ordered
      accepted := by
  split
  · exact sendNextRequest_ordered s accepted hopen htakes hfree hall
  · rename_i hempty
    simp only [Bool.not_eq_true, Bool.not_eq_false', List.isEmpty_iff] at hempty
    exact ⟨hopen, htakes, fun _ => hempty, hall⟩

theorem handleResponse_ordered (env : NetEnv) (response : JsonObject)
    (s : NetworkDevice × List DeviceSignal) (accepted : List QByteArray)
    (h : s.1.Ordered accepted) :
    (handleResponse env record response s).1.Ordered accepted := by
  obtain ⟨hopen, htakes, hfree, hall⟩ := h
  unfold handleResponse
  split
  · dsimp only
    apply release_ordered
    · split
      · exact hopen
      · split
        · split
          · exact hopen
          · split <;> exact hopen
        · exact hopen
    · split
      · exact htakes
      · split
        · split
          · exact htakes
          · split <;> exact htakes
        · exact htakes
    · split
      · rfl
      · split
        · split
          · rfl
          · split <;> rfl
        · rfl
    · split
      · exact hall
      · split
        · split
          · exact hall
          · split <;> exact hall
        · exact hall
  · dsimp only
    exact release_ordered
      ({ s.1 with m_timeoutTimer := s.1.m_timeoutTimer.stop, m_waitingForResponse := false },
       s.2 ++ [.logMessage 3 ("Request failed: " ++ (response.value "error").toString)])
      accepted hopen htakes rfl hall

theorem turn_ordered (env : NetEnv) (s : NetworkDevice × List DeviceSignal)
    (accepted : List QByteArray) (h : s.1.Ordered accepted) :
    (turn env record s).1.Ordered accepted := by
  have hcut : ({ s.1 with
      m_buffer := remove s.1.m_buffer 0 (toInt (toQuint32 (4 + s.1.messageSize))) }).Ordered
      accepted := ⟨h.1, h.2.1, h.2.2.1, h.2.2.2⟩
  unfold turn handleFrame
  dsimp only
  cases env.fromJson (mid s.1.m_buffer 4 (toInt s.1.messageSize)) with
  | none => exact hcut
  | some doc =>
    cases doc with
    | object response => exact handleResponse_ordered env response _ accepted hcut
    | null => exact hcut
    | bool b => exact hcut
    | number n => exact hcut
    | string t => exact hcut
    | array items => exact hcut

theorem frames_ordered (env : NetEnv) (fuel : Nat)
    (s after : NetworkDevice × List DeviceSignal) (accepted : List QByteArray)
    (h : s.1.Ordered accepted) (hr : processResponse env record fuel s = some after) :
    after.1.Ordered accepted := by
  induction fuel generalizing s with
  | zero =>
    simp only [processResponse] at hr
    split at hr
    · cases hr
      exact h
    · cases hr
  | succ fuel ih =>
    simp only [processResponse] at hr
    split at hr
    · cases hr
      exact h
    · exact ih _ (turn_ordered env s accepted h) hr

theorem drive_keeps_order (env : NetEnv) (w after : Wire NetworkDevice) (input : WireInput)
    (h : InOrder w) (hr : drive env w input = some after) : InOrder after := by
  obtain ⟨hopen, htakes, hfree, hall⟩ := h
  cases input with
  | send request =>
    obtain ⟨⟨addr, port, ⟨st, takes, closes, written, err⟩, status, state, buf, timer, pend,
      wait⟩, signals, accepted⟩ := w
    simp only at hopen htakes hfree hall
    subst hopen htakes
    cases wait
    · have hp := hfree rfl
      subst hp
      simp [drive, sendRequest, QTcpSocket.write, isConnected] at hr
      subst hr
      simp [InOrder]
      simpa using hall
    · simp [drive, sendRequest, isConnected] at hr
      subst hr
      simp [InOrder]
      rw [← hall, List.append_assoc]
  | readyRead data =>
    simp only [drive, Option.map_eq_some'] at hr
    obtain ⟨r, hr1, hr2⟩ := hr
    subst hr2
    exact frames_ordered env _ _ r w.accepted ⟨hopen, htakes, hfree, hall⟩ hr1
  | timeout =>
    simp only [drive] at hr
    split at hr
    · cases hr
      simp only [onTimeout, record]
      split
      · exact release_ordered
          ({ w.device with m_timeoutTimer := w.device.m_timeoutTimer.stop,
                           m_waitingForResponse := false },
           w.signals ++ [.logMessage 2 "Request timeout"])
          w.accepted hopen htakes rfl hall
      · exact ⟨hopen, htakes, hfree, hall⟩
    · cases hr
      exact ⟨hopen, htakes, hfree, hall⟩

theorem driveAll_keeps_order (env : NetEnv) (w after : Wire NetworkDevice)
    (inputs : List WireInput) (h : InOrder w) (hr : driveAll env w inputs = some after) :
    InOrder after := by
  induction inputs generalizing w with
  | nil =>
    simp only [driveAll] at hr
    cases hr
    exact h
  | cons input rest ih =>
    simp only [driveAll] at hr
    split at hr
    · cases hr
    · rename_i next hnext
      exact ih next (drive_keeps_order env w next input h hnext) hr

end NetworkDevice

namespace SerialDevice

theorem sendCommand_written {W : Type} (emit : Receiver SerialDevice W)
    (hE : ∀ signal s, (emit signal s).1 = s.1) (cmd : QByteArray) (s : SerialDevice × W) :
    (sendCommand emit cmd s).2.1.m_serialPort.written = s.1.m_serialPort.written ∨
    (s.1.m_waitingForAck = false ∧
     (sendCommand emit cmd s).2.1.m_serialPort.written = s.1.m_serialPort.written ++ [cmd] ∧
     (sendCommand emit cmd s).2.1.m_waitingForAck = true) := by
  unfold sendCommand
  dsimp only
  split
  · exact Or.inl rfl
  · split
    · exact Or.inl rfl
    · rename_i hw
      simp only [Bool.not_eq_true] at hw
      cases ht : s.1.m_serialPort.takes
      · left
        simp [QSerialPort.write, ht, hE]
      · right
        simp [QSerialPort.write, ht, hw]

theorem sendNextCommand_written {W : Type} (emit : Receiver SerialDevice W)
    (hE : ∀ signal s, (emit signal s).1 = s.1) (s : SerialDevice × W) :
    (sendNextCommand emit s).1.m_serialPort.written = s.1.m_serialPort.written ∨
    (s.1.m_waitingForAck = false ∧
     (∃ cmd rest, s.1.m_pendingCommands = cmd :: rest ∧
       (sendNextCommand emit s).1.m_serialPort.written = s.1.m_serialPort.written ++ [cmd] ∧
       (sendNextCommand emit s).1.m_pendingCommands = rest) ∧
     (sendNextCommand emit s).1.m_waitingForAck = true) := by
  unfold sendNextCommand
  split
  · exact Or.inl rfl
  · rename_i cmd rest hp
    dsimp only
    split
    · exact Or.inl rfl
    · rename_i hw
      simp only [Bool.not_eq_true] at hw
      cases ht : s.1.m_serialPort.takes
      · left
        simp [QSerialPort.write, ht, hE]
      · right
        simp [QSerialPort.write, ht, hw, hp]

end SerialDevice

namespace NetworkDevice

theorem sendRequest_written {W : Type} (emit : Receiver NetworkDevice W)
    (hE : ∀ signal s, (emit signal s).1 = s.1) (req : QByteArray) (s : NetworkDevice × W) :
    (sendRequest emit req s).2.1.m_socket.written = s.1.m_socket.written ∨
    (s.1.m_waitingForResponse = false ∧
     (sendRequest emit req s).2.1.m_socket.written = s.1.m_socket.written ++ [req] ∧
     (sendRequest emit req s).2.1.m_waitingForResponse = true) := by
  unfold sendRequest
  dsimp only
  split
  · exact Or.inl rfl
  · split
    · exact Or.inl rfl
    · rename_i hw
      simp only [Bool.not_eq_true] at hw
      cases ht : s.1.m_socket.takes
      · left
        simp [QTcpSocket.write, ht, hE]
      · right
        simp [QTcpSocket.write, ht, hw]

theorem sendNextRequest_written {W : Type} (emit : Receiver NetworkDevice W)
    (hE : ∀ signal s, (emit signal s).1 = s.1) (s : NetworkDevice × W) :
    (sendNextRequest emit s).1.m_socket.written = s.1.m_socket.written ∨
    (s.1.m_waitingForResponse = false ∧
     (∃ req rest, s.1.m_pendingCommands = req :: rest ∧
       (sendNextRequest emit s).1.m_socket.written = s.1.m_socket.written ++ [req] ∧
       (sendNextRequest emit s).1.m_pendingCommands = rest) ∧
     (sendNextRequest emit s).1.m_waitingForResponse = true) := by
  unfold sendNextRequest
  split
  · exact Or.inl rfl
  · rename_i req rest hp
    dsimp only
    split
    · exact Or.inl rfl
    · rename_i hw
      simp only [Bool.not_eq_true] at hw
      cases ht : s.1.m_socket.takes
      · left
        simp [QTcpSocket.write, ht, hE]
      · right
        simp [QTcpSocket.write, ht, hw, hp]

end NetworkDevice

/-- C26: on a serial port that is open, and on a socket that is connected, each
taking what is written to it, every sequence of requests, incoming data and
timeouts keeps the requests in order: the requests written to the wire followed
by those still in the queue are the accepted requests in the order of their
acceptance, and the queue is empty whenever no request is in flight, so that
then all accepted requests have been written, each once.  A turn of the loop of
the network device keeps the order too, also where the loop does not end.
Each of the four functions that write to the wire either leaves what has been
written as it is, or found no request in flight, wrote one request after those
already written (the one it was given, or the head of the queue, which it
removed) and marked it as in flight. -/
theorem requests_written_in_order :
    (∀ (w : Wire SerialDevice) (inputs : List WireInput), SerialDevice.InOrder w →
      SerialDevice.InOrder (SerialDevice.driveAll w inputs)) ∧
    (∀ (env : NetEnv) (w after : Wire NetworkDevice) (inputs : List WireInput),
      NetworkDevice.InOrder w → NetworkDevice.driveAll env w inputs = some after →
      NetworkDevice.InOrder after) ∧
    (∀ (env : NetEnv) (s : NetworkDevice × List DeviceSignal) (accepted : List QByteArray),
      s.1.Ordered accepted → (NetworkDevice.turn env record s).1.Ordered accepted) ∧
    (∀ (W : Type) (emit : Receiver SerialDevice W), (∀ signal s, (emit signal s).1 = s.1) →
      ∀ (cmd : QByteArray) (s : SerialDevice × W),
      ((SerialDevice.sendCommand emit cmd s).2.1.m_serialPort.written =
          s.1.m_serialPort.written ∨
        (s.1.m_waitingForAck = false ∧
         (SerialDevice.sendCommand emit cmd s).2.1.m_serialPort.written =
           s.1.m_serialPort.written ++ [cmd] ∧
         (SerialDevice.sendCommand emit cmd s).2.1.m_waitingForAck = true)) ∧
      ((SerialDevice.sendNextCommand emit s).1.m_serialPort.written =
          s.1.m_serialPort.written ∨
        (s.1.m_waitingForAck = false ∧
         (∃ head rest, s.1.m_pendingCommands = head :: rest ∧
           (SerialDevice.sendNextCommand emit s).1.m_serialPort.written =
             s.1.m_serialPort.written ++ [head] ∧
           (SerialDevice.sendNextCommand emit s).1.m_pendingCommands = rest) ∧
         (SerialDevice.sendNextCommand emit s).1.m_waitingForAck = true))) ∧
    (∀ (W : Type) (emit : Receiver NetworkDevice W), (∀ signal s, (emit signal s).1 = s.1) →
      ∀ (req : QByteArray) (s : NetworkDevice × W),
      ((NetworkDevice.sendRequest emit req s).2.1.m_socket.written = s.1.m_socket.written ∨
        (s.1.m_waitingForResponse = false ∧
         (NetworkDevice.sendRequest emit req s).2.1.m_socket.written =
           s.1.m_socket.written ++ [req] ∧
         (NetworkDevice.sendRequest emit req s).2.1.m_waitingForResponse = true)) ∧
      ((NetworkDevice.sendNextRequest emit s).1.m_socket.written = s.1.m_socket.written ∨
        (s.1.m_waitingForResponse = false ∧
         (∃ head rest, s.1.m_pendingCommands = head :: rest ∧
           (NetworkDevice.sendNextRequest emit s).1.m_socket.written =
             s.1.m_socket.written ++ [head] ∧
           (NetworkDevice.sendNextRequest emit s).1.m_pendingCommands = rest) ∧
         (NetworkDevice.sendNextRequest emit s).1.m_waitingForResponse = true))) :=
  ⟨fun w inputs h => SerialDevice.driveAll_inOrder w inputs h,
   fun env w after inputs h hr => NetworkDevice.driveAll_keeps_order env w after inputs h hr,
   fun env s accepted h => NetworkDevice.turn_ordered env s accepted h,
   fun _ emit hE cmd s =>
     ⟨SerialDevice.sendCommand_written emit hE cmd s,
      SerialDevice.sendNextCommand_written emit hE s⟩,
   fun _ emit hE req s =>
     ⟨NetworkDevice.sendRequest_written emit hE req s,
      NetworkDevice.sendNextRequest_written emit hE s⟩⟩

/-- Instance of C26: the serial device `busySerial`, given a request, the end
of an acknowledgement, a timeout, a second request and two acknowledgements,
has written its six requests in the order of their acceptance and holds none in
its queue; the network device `busyNetwork`, given a request, the rest of a
response, a timeout, a second request, a frame that is not JSON and a response
that reports an error, has written four of its five requests in the order of
their acceptance and holds the fifth in its queue. -/
theorem requests_written_in_order_witness :
    SerialDevice.InOrder busySerialWire ∧
    SerialDevice.InOrder (SerialDevice.driveAll busySerialWire serialTraffic) ∧
    (SerialDevice.driveAll busySerialWire serialTraffic).device.m_serialPort.written =
      [ascii "INFO:\n", ascii "UPDATE_BEGIN:\n", ascii "UPDATE_END:\n",
       ascii "UPDATE_CANCEL:\n", ascii "X:\n", ascii "Y:\n"] ∧
    (SerialDevice.driveAll busySerialWire serialTraffic).device.m_pendingCommands = [] ∧
    NetworkDevice.InOrder busyNetworkWire ∧
    ∃ after, NetworkDevice.driveAll netDesktop busyNetworkWire networkTraffic = some after ∧
      NetworkDevice.InOrder after ∧
      after.device.m_socket.written =
        [[1, 0, 0, 0, 65], [1, 0, 0, 0, 66], [1, 0, 0, 0, 67], [1, 0, 0, 0, 68]] ∧
      after.device.m_pendingCommands = [[1, 0, 0, 0, 69]] := by
  have hsome : (NetworkDevice.driveAll netDesktop busyNetworkWire networkTraffic).isSome
      = true := by decide
  obtain ⟨after, h⟩ := Option.isSome_iff_exists.mp hsome
  have hw : (NetworkDevice.driveAll netDesktop busyNetworkWire networkTraffic).map
      (fun a => (a.device.m_socket.written, a.device.m_pendingCommands)) =
      some ([[1, 0, 0, 0, 65], [1, 0, 0, 0, 66], [1, 0, 0, 0, 67], [1, 0, 0, 0, 68]],
            [[1, 0, 0, 0, 69]]) := by decide
  rw [h] at hw
  simp only [Option.map_some', Option.some.injEq, Prod.mk.injEq] at hw
  exact ⟨by decide, requests_written_in_order.1 busySerialWire serialTraffic (by decide),
    by decide, by decide, by decide, after, h,
    requests_written_in_order.2.1 netDesktop busyNetworkWire after networkTraffic
      (by decide) h, hw.1, hw.2⟩

/-! ## The network device: frames -/

namespace NetworkDevice

theorem sendNextRequest_buffer (s : NetworkDevice × List DeviceSignal) :
    (sendNextRequest record s).1.m_buffer = s.1.m_buffer := by
  unfold sendNextRequest
  split
  · rfl
  · dsimp only
    split
    · rfl
    · split <;> rfl

/-- Releasing the request in flight and sending the next one keeps the buffer. -/
theorem release_buffer (s : NetworkDevice × List DeviceSignal) :
    (if !s.1.m_pendingCommands.isEmpty then sendNextRequest record s else s).1.m_buffer =
      s.1.m_buffer := by
  split
  · exact sendNextRequest_buffer s
  · rfl

theorem handleResponse_buffer (env : NetEnv) (response : JsonObject)
    (s : NetworkDevice × List DeviceSignal) :
    (handleResponse env record response s).1.m_buffer = s.1.m_buffer := by
  unfold handleResponse
  split
  · dsimp only
    rw [release_buffer]
    split
    · rfl
    · split
      · split
        · rfl
        · split <;> rfl
      · rfl
  · dsimp only
    exact release_buffer
      ({ s.1 with m_timeoutTimer := s.1.m_timeoutTimer.stop, m_waitingForResponse := false },
       s.2 ++ [.logMessage 3 ("Request failed: " ++ (response.value "error").toString)])

theorem handleFrame_buffer (env : NetEnv) (jsonData : QByteArray)
    (s : NetworkDevice × List DeviceSignal) :
    (handleFrame env record jsonData s).1.m_buffer = s.1.m_buffer := by
  unfold handleFrame
  cases env.fromJson jsonData with
  | none => simp only [record]
  | some doc =>
    cases doc with
    | object response => simp only [handleResponse_buffer]
    | null => simp only [record]
    | bool b => simp only [record]
    | number n => simp only [record]
    | string t => simp only [record]
    | array items => simp only [record]

theorem turn_buffer (env : NetEnv) (s : NetworkDevice × List DeviceSignal) :
    (turn env record s).1.m_buffer =
      remove s.1.m_buffer 0 (toInt (toQuint32 (4 + s.1.messageSize))) := by
  unfold turn
  simp only [handleFrame_buffer]

/-- A buffer of four bytes or more whose announced size, four added, is not
positive as an `int` is never taken from: the loop does not end. -/
theorem processResponse_stuck (env : NetEnv) (fuel : Nat)
    (s : NetworkDevice × List DeviceSignal) (h4 : 4 ≤ s.1.m_buffer.length)
    (hneg : toInt (toQuint32 (4 + s.1.messageSize)) ≤ 0) :
    processResponse env record fuel s = none := by
  have hloop : s.1.loopEnds = false := by
    simp only [loopEnds, Bool.or_eq_false_iff, decide_eq_false_iff_not, not_lt]
    exact ⟨h4, by omega⟩
  have hkeep : (turn env record s).1.m_buffer = s.1.m_buffer := by
    rw [turn_buffer]
    simp [remove, hneg]
  induction fuel generalizing s with
  | zero => simp [processResponse, hloop]
  | succ fuel ih =>
    simp only [processResponse, hloop, Bool.false_eq_true, if_false]
    have h4n : 4 ≤ (turn env record s).1.m_buffer.length := by rw [hkeep]; exact h4
    have hnegn : toInt (toQuint32 (4 + (turn env record s).1.messageSize)) ≤ 0 := by
      simp only [messageSize, hkeep]
      exact hneg
    refine ih (turn env record s) h4n hnegn ?_ ?_
    · simp only [loopEnds, Bool.or_eq_false_iff, decide_eq_false_iff_not, not_lt]
      exact ⟨h4n, by omega⟩
    · rw [turn_buffer]
      simp [remove, hnegn]

end NetworkDevice

theorem readLE32_writeLE32 (n : Nat) (rest : QByteArray) (hn : n < 4294967296) :
    readLE32 (writeLE32 n ++ rest) = n := by
  simp only [readLE32, writeLE32, List.cons_append, List.nil_append, List.getD_cons_zero,
    List.getD_cons_succ]
  omega

theorem toInt_frame (n : Nat) (hn : 4 + n < 2147483648) :
    toInt (toQuint32 (4 + n)) = 4 + (n : Int) ∧ toInt n = (n : Int) := by
  simp only [toInt, toQuint32]
  omega

namespace NetworkDevice

theorem processResponse_ended (env : NetEnv) (fuel : Nat)
    (s : NetworkDevice × List DeviceSignal) (h : s.1.loopEnds = true) :
    processResponse env record fuel s = some s := by
  cases fuel <;> simp [processResponse, h]

/-- A buffer that holds a part of a frame of fewer than 2^31 bytes, and not all
of it, ends the loop. -/
theorem loopEnds_of_part (d : NetworkDevice) (json : QByteArray) (k : Nat)
    (hsize : 4 + json.length < 2147483648) (hk : k < 4 + json.length)
    (hb : d.m_buffer = (writeLE32 json.length ++ json).take k) : d.loopEnds = true := by
  have hlen : d.m_buffer.length = k := by
    rw [hb, List.length_take, List.length_append]
    simp only [writeLE32, List.length_cons, List.length_nil]
    omega
  by_cases h4 : k < 4
  · simp [loopEnds, hlen, h4]
  · have hw : (writeLE32 json.length).length = 4 := rfl
    have hb2 : d.m_buffer = writeLE32 json.length ++ json.take (k - 4) := by
      rw [hb, List.take_append_eq_append_take, hw, List.take_of_length_le (by omega)]
    have hm : d.messageSize = json.length := by
      rw [messageSize, hb2]
      exact readLE32_writeLE32 _ _ (by omega)
    simp only [loopEnds, hlen, hm, (toInt_frame json.length hsize).1, Bool.or_eq_true,
      decide_eq_true_eq]
    right
    omega

/-- The turn of the loop on a buffer that holds one frame of fewer than 2^31
bytes: the JSON of the frame is parsed and the buffer is empty. -/
theorem turn_frame (env : NetEnv) (d : NetworkDevice) (signals : List DeviceSignal)
    (json : QByteArray) (hsize : 4 + json.length < 2147483648)
    (hb : d.m_buffer = writeLE32 json.length ++ json) :
    turn env record (d, signals) =
      handleFrame env record json ({ d with m_buffer := [] }, signals) := by
  have hm : d.messageSize = json.length := by
    rw [messageSize, hb]
    exact readLE32_writeLE32 _ _ (by omega)
  have hlen : (writeLE32 json.length ++ json).length = 4 + json.length := by
    simp [writeLE32]
    omega
  have hmid : mid d.m_buffer 4 (toInt d.messageSize) = json := by
    rw [hm, (toInt_frame json.length hsize).2, hb]
    unfold mid
    rw [hlen]
    have e1 : ¬ ((4 : Int) > ((4 + json.length : Nat) : Int)) := by omega
    have e2 : ¬ ((4 : Int) < 0) := by omega
    have e3 : ¬ ((json.length : Int) < 0 ∨
        (json.length : Int) > ((4 + json.length : Nat) : Int) - 4) := by omega
    rw [if_neg e1, if_neg e2, if_neg e3]
    simp [writeLE32]
  have hrem : remove d.m_buffer 0 (toInt (toQuint32 (4 + d.messageSize))) = [] := by
    rw [hm, (toInt_frame json.length hsize).1, hb]
    unfold remove
    rw [hlen]
    have e1 : ¬ ((4 + (json.length : Int)) ≤ 0 ∨ (0 : Int) < 0 ∨
        (0 : Int) ≥ ((4 + json.length : Nat) : Int)) := by omega
    have e2 : (4 + (json.length : Int)) ≥ ((4 + json.length : Nat) : Int) - 0 := by
      omega
    rw [if_neg e1, if_pos e2]
    rfl
  unfold turn
  simp only [hmid, hrem]

end NetworkDevice

/-- A response frame of fewer than 2^31 bytes that arrives in three pieces, the
last of them not empty, at a device whose buffer is empty: after the first and
after the second piece the device is as before but for its buffer, which holds
the bytes received so far; the third piece is followed by one turn of the loop,
in which the JSON of the frame is parsed once and, when it is an object,
handled, and the buffer is empty afterwards. -/
theorem frame_in_three_pieces (env : NetEnv) (d : NetworkDevice)
    (signals : List DeviceSignal) (json p1 p2 p3 : QByteArray)
    (hempty : d.m_buffer = []) (hsize : 4 + json.length < 2147483648)
    (hsplit : p1 ++ p2 ++ p3 = writeLE32 json.length ++ json) (hlast : p3 ≠ []) :
    NetworkDevice.onReadyRead env record p1 (d, signals) =
      some ({ d with m_buffer := p1 }, signals) ∧
    NetworkDevice.onReadyRead env record p2 ({ d with m_buffer := p1 }, signals) =
      some ({ d with m_buffer := p1 ++ p2 }, signals) ∧
    NetworkDevice.onReadyRead env record p3 ({ d with m_buffer := p1 ++ p2 }, signals) =
      some (NetworkDevice.handleFrame env record json (d, signals)) ∧
    (NetworkDevice.handleFrame env record json (d, signals)).1.m_buffer = [] := by
  have hlen : (writeLE32 json.length ++ json).length = 4 + json.length := by
    simp [writeLE32]
    omega
  have hl : p1.length + p2.length + p3.length = 4 + json.length := by
    rw [← hlen, ← hsplit]
    simp only [List.length_append]
  have hp3 : 0 < p3.length := List.length_pos.mpr hlast
  have h1 : p1 = (writeLE32 json.length ++ json).take p1.length := by
    rw [← hsplit, List.append_assoc, List.take_left']
    rfl
  have h2 : p1 ++ p2 = (writeLE32 json.length ++ json).take (p1.length + p2.length) := by
    rw [← hsplit, List.take_left']
    simp
  have hd : ({ d with m_buffer := [] } : NetworkDevice) = d := by
    cases d
    simp only at hempty
    subst hempty
    rfl
  have hbuf : (NetworkDevice.handleFrame env record json (d, signals)).1.m_buffer = [] := by
    rw [NetworkDevice.handleFrame_buffer]
    exact hempty
  refine ⟨?_, ?_, ?_, hbuf⟩
  · unfold NetworkDevice.onReadyRead
    simp only [hempty, List.nil_append]
    exact NetworkDevice.processResponse_ended env _ _
      (NetworkDevice.loopEnds_of_part _ json p1.length hsize (by omega) h1)
  · unfold NetworkDevice.onReadyRead
    exact NetworkDevice.processResponse_ended env _ _
      (NetworkDevice.loopEnds_of_part _ json (p1.length + p2.length) hsize (by omega) h2)
  · unfold NetworkDevice.onReadyRead
    simp only [hsplit]
    have hfuel : (p1 ++ p2).length + p3.length =
        (p1.length + p2.length + p3.length - 1) + 1 := by
      simp only [List.length_append]
      omega
    rw [hfuel]
    have hgo : ({ d with m_buffer := writeLE32 json.length ++ json } :
        NetworkDevice).loopEnds = false := by
      have hm : ({ d with m_buffer := writeLE32 json.length ++ json } :
          NetworkDevice).messageSize = json.length :=
        readLE32_writeLE32 _ _ (by omega)
      simp only [NetworkDevice.loopEnds, hm, (toInt_frame json.length hsize).1, hlen,
        Bool.or_eq_false_iff, decide_eq_false_iff_not, not_lt]
      constructor <;> omega
    simp only [NetworkDevice.processResponse, hgo, Bool.false_eq_true, if_false]
    have ht := NetworkDevice.turn_frame env
      { d with m_buffer := writeLE32 json.length ++ json } signals json hsize rfl
    simp only [hd] at ht
    rw [ht]
    apply NetworkDevice.processResponse_ended
    rw [NetworkDevice.loopEnds, hbuf]
    simp

/-- Instance of the frame in three pieces: the frame of the response with the
status ok, 15 bytes of JSON, in the pieces of 2, 9 and 8 bytes, at the device
`busyNetwork` with an empty buffer, which then sends the head of its queue. -/
theorem frame_in_three_pieces_witness :
    NetworkDevice.onReadyRead netDesktop record [15, 0]
        ({ busyNetwork with m_buffer := [] }, []) =
      some ({ busyNetwork with m_buffer := [15, 0] }, []) ∧
    NetworkDevice.onReadyRead netDesktop record ([0, 0] ++ ascii "\x7b\"sta")
        ({ busyNetwork with m_buffer := [15, 0] }, []) =
      some ({ busyNetwork with m_buffer := [15, 0, 0, 0] ++ ascii "\x7b\"sta" }, []) ∧
    NetworkDevice.onReadyRead netDesktop record (ascii "tus\":\"ok\"\x7d")
        ({ busyNetwork with m_buffer := [15, 0, 0, 0] ++ ascii "\x7b\"sta" }, []) =
      some ({ busyNetwork with
                m_buffer := [],
                m_socket := { goodSocket with written := [[1, 0, 0, 0, 65], [1, 0, 0, 0, 66]] },
                m_pendingCommands := [[1, 0, 0, 0, 67]] }, []) := by
  have h := frame_in_three_pieces netDesktop { busyNetwork with m_buffer := [] } []
    (ascii "\x7b\"status\":\"ok\"\x7d") [15, 0] ([0, 0] ++ ascii "\x7b\"sta") (ascii "tus\":\"ok\"\x7d")
    rfl (by decide) (by decide) (by decide)
  refine ⟨h.1, h.2.1, ?_⟩
  rw [show ([15, 0] : QByteArray) ++ ([0, 0] ++ ascii "\x7b\"sta") =
    [15, 0, 0, 0] ++ ascii "\x7b\"sta" from rfl] at h
  rw [h.2.2.1]
  decide

/-- C29, evaluated where it fails: the four bytes FC FF FF 7F are the header of
a frame of 2^31 - 4 bytes of JSON.  When they arrive as the first piece at a
device with an empty buffer, the size test takes the sum of 4 and the size as a
negative `int`, nothing is removed from the buffer, and the loop of
`processResponse` does not end, whatever the JSON routines do and however many
turns it is given; so `onReadyRead` does not return.  The five bytes
FF FF FF FF 7B begin a frame of 2^32 - 1 bytes; after they have arrived the
buffer holds two of them, and a response that is not JSON has been reported. -/
theorem frame_size_taken_as_negative :
    writeLE32 2147483644 = [252, 255, 255, 127] ∧
    (∀ (env : NetEnv) (fuel : Nat),
      NetworkDevice.processResponse env record fuel
        ({ NetworkDevice.create "192.168.1.100" 8266 goodSocket with
            m_buffer := [252, 255, 255, 127] }, []) = none) ∧
    (∀ env : NetEnv,
      NetworkDevice.onReadyRead env record [252, 255, 255, 127]
        (NetworkDevice.create "192.168.1.100" 8266 goodSocket, []) = none) ∧
    writeLE32 4294967295 ++ [123] = [255, 255, 255, 255, 123] ∧
    NetworkDevice.onReadyRead netDesktop record [255, 255, 255, 255, 123]
        (NetworkDevice.create "192.168.1.100" 8266 goodSocket, []) =
      some ({ NetworkDevice.create "192.168.1.100" 8266 goodSocket with
                m_buffer := [255, 123] },
            [.logMessage 3 "Received invalid JSON response"]) := by
  have hstuck : ∀ (env : NetEnv) (fuel : Nat),
      NetworkDevice.processResponse env record fuel
        ({ NetworkDevice.create "192.168.1.100" 8266 goodSocket with
            m_buffer := [252, 255, 255, 127] }, []) = none :=
    fun env fuel => NetworkDevice.processResponse_stuck env fuel _ (by decide) (by decide)
  exact ⟨by decide, hstuck, fun env => hstuck env _, by decide, by decide⟩

/-! ## The network device: the connection status -/

namespace NetworkDevice

theorem sendNextRequest_status (s : NetworkDevice × List DeviceSignal) :
    (sendNextRequest record s).1.m_status = s.1.m_status := by
  unfold sendNextRequest
  split
  · rfl
  · dsimp only
    split
    · rfl
    · split <;> rfl

/-- Releasing the request in flight and sending the next one keeps the status. -/
theorem release_status (s : NetworkDevice × List DeviceSignal) :
    (if !s.1.m_pendingCommands.isEmpty then sendNextRequest record s else s).1.m_status =
      s.1.m_status := by
  split
  · exact sendNextRequest_status s
  · rfl

theorem handleResponse_status (env : NetEnv) (response : JsonObject)
    (s : NetworkDevice × List DeviceSignal) :
    (handleResponse env record response s).1.m_status = s.1.m_status := by
  unfold handleResponse
  split
  · dsimp only
    rw [release_status]
    split
    · rfl
    · split
      · split
        · rfl
        · split <;> rfl
      · rfl
  · dsimp only
    exact release_status
      ({ s.1 with m_timeoutTimer := s.1.m_timeoutTimer.stop, m_waitingForResponse := false },
       s.2 ++ [.logMessage 3 ("Request failed: " ++ (response.value "error").toString)])

theorem handleFrame_status (env : NetEnv) (jsonData : QByteArray)
    (s : NetworkDevice × List DeviceSignal) :
    (handleFrame env record jsonData s).1.m_status = s.1.m_status := by
  unfold handleFrame
  cases env.fromJson jsonData with
  | none => simp only [record]
  | some doc =>
    cases doc with
    | object response => simp only [handleResponse_status]
    | null => simp only [record]
    | bool b => simp only [record]
    | number n => simp only [record]
    | string t => simp only [record]
    | array items => simp only [record]

theorem turn_status (env : NetEnv) (s : NetworkDevice × List DeviceSignal) :
    (turn env record s).1.m_status = s.1.m_status := by
  have h : ∀ j rest : QByteArray,
      (handleFrame env record j ({ s.1 with m_buffer := rest }, s.2)).1.m_status =
        s.1.m_status := by
    intro j rest
    rw [handleFrame_status]
  unfold turn
  dsimp only
  apply h

theorem processResponse_status (env : NetEnv) (fuel : Nat)
    (s after : NetworkDevice × List DeviceSignal)
    (hr : processResponse env record fuel s = some after) :
    after.1.m_status = s.1.m_status := by
  induction fuel generalizing s with
  | zero =>
    simp only [processResponse] at hr
    split at hr
    · cases hr
      rfl
    · cases hr
  | succ fuel ih =>
    simp only [processResponse] at hr
    split at hr
    · cases hr
      rfl
    · rw [ih _ hr, turn_status]

/-- A request, incoming data and the timeout of the timer leave the connection
status of the network device as it is. -/
theorem drive_status (env : NetEnv) (w after : Wire NetworkDevice) (input : WireInput)
    (hr : drive env w input = some after) : after.device.m_status = w.device.m_status := by
  cases input with
  | send request =>
    simp only [drive, Option.some.injEq] at hr
    subst hr
    exact sendRequest_status record (fun _ _ => rfl) request _
  | readyRead data =>
    simp only [drive, Option.map_eq_some'] at hr
    obtain ⟨r, hr1, hr2⟩ := hr
    subst hr2
    exact processResponse_status env _ _ r hr1
  | timeout =>
    simp only [drive] at hr
    split at hr
    · cases hr
      simp only [onTimeout, record]
      split
      · exact release_status
          ({ w.device with m_timeoutTimer := w.device.m_timeoutTimer.stop,
                           m_waitingForResponse := false },
           w.signals ++ [.logMessage 2 "Request timeout"])
      · rfl
    · cases hr
      rfl

end NetworkDevice

/-! ## The update job: the device state `Rebooting` -/

/-- C38: the device event `deviceStateChanged(Rebooting)` at a job in any state
other than `Finalizing` runs `failUpdate`: the job ends in `Failed`, and the
events are the log of the device state, the log of the failure, the change of
state if the job was not in `Failed` already, and
`completed(false, "Device reported an error")`.  The branch is taken because
`Rebooting` has the value 3 of the connection status `Error`.  The device
states `Idle`, `Ready` and `Updating` never reach it: the job emits no
`completed`, and keeps its state unless it was in `Preparing` and the device is
`Ready`, when the upload starts. -/
theorem rebooting_runs_failUpdate :
    (∀ job : UpdateJob, job.m_state ≠ .Finalizing →
      (job.step (.deviceStateChanged .Rebooting)).1.m_state = .Failed ∧
      (job.step (.deviceStateChanged .Rebooting)).2 =
        [Effect.logMessage 0 "Device state: 3",
         Effect.logMessage 3 "Update failed: Device reported an error"] ++
        (if job.m_state = .Failed then []
         else [Effect.progressChanged job.m_progress "Update failed",
               Effect.logMessage 1 "Update state: Update failed"]) ++
        [Effect.completed false "Device reported an error"]) ∧
    DeviceState.Rebooting.toInt = ConnectionStatus.Error.toInt ∧
    (∀ (job : UpdateJob) (state : DeviceState), state ≠ .Rebooting →
      (job.step (.deviceStateChanged state)).2.filter Effect.isCompleted = [] ∧
      ((job.step (.deviceStateChanged state)).1.m_state = job.m_state ∨
        (job.m_state = .Preparing ∧ state = .Ready ∧
          (job.step (.deviceStateChanged state)).1.m_state = .Uploading))) := by
  refine ⟨?_, rfl, ?_⟩
  · intro job h
    by_cases hf : job.m_state = .Failed
    · simp [UpdateJob.step, UpdateJob.onDeviceStateChanged, UpdateJob.failUpdate,
        UpdateJob.setState, hf, DeviceState.toInt, ConnectionStatus.toInt]
      rfl
    · simp [UpdateJob.step, UpdateJob.onDeviceStateChanged, UpdateJob.failUpdate,
        UpdateJob.setState, hf, h, DeviceState.toInt, ConnectionStatus.toInt,
        UpdateJob.stateStr]
      rfl
  · intro job state hs
    cases state with
    | Rebooting => exact absurd rfl hs
    | Idle =>
      simp [UpdateJob.step, UpdateJob.onDeviceStateChanged, DeviceState.toInt,
        ConnectionStatus.toInt, Effect.isCompleted]
    | Updating =>
      simp [UpdateJob.step, UpdateJob.onDeviceStateChanged, DeviceState.toInt,
        ConnectionStatus.toInt, Effect.isCompleted]
    | Ready =>
      by_cases hp : job.m_state = .Preparing
      · simp [UpdateJob.step, UpdateJob.onDeviceStateChanged, DeviceState.toInt,
          ConnectionStatus.toInt, Effect.isCompleted, hp, UpdateJob.startUpload,
          UpdateJob.setState, UpdateJob.setProgress]
        split <;> simp [Effect.isCompleted]
      · simp [UpdateJob.step, UpdateJob.onDeviceStateChanged, DeviceState.toInt,
          ConnectionStatus.toInt, Effect.isCompleted, hp]

set_option maxRecDepth 100000 in
/-- Instance of C38: the job that is uploading the sample package fails when
the device reports `Rebooting`, and so does the job that has not been
started. -/
theorem rebooting_runs_failUpdate_witness :
    uploadingJob.m_state = .Uploading ∧
    (uploadingJob.step (.deviceStateChanged .Rebooting)).1.m_state = .Failed ∧
    ((UpdateJob.create samplePackage 4).step (.deviceStateChanged .Rebooting)).1.m_state
      = .Failed ∧
    (uploadingJob.step (.deviceStateChanged .Rebooting)).2.filter Effect.isCompleted =
      [Effect.completed false "Device reported an error"] :=
  ⟨by decide,
   (rebooting_runs_failUpdate.1 uploadingJob (by decide)).1,
   (rebooting_runs_failUpdate.1 (UpdateJob.create samplePackage 4) (by decide)).1,
   by rw [(rebooting_runs_failUpdate.1 uploadingJob (by decide)).2]; decide⟩

/-! ## The transports: chunks and the end of the update need `Updating` -/

/-- C37: on the serial and on the network device, `sendFirmwareChunk` and
`finalizeUpdate` called when the device is not connected or its device state is
not `Updating` return false and leave the device as it is: nothing is written
and nothing is put in the queue; the one signal is the error log.  On a
connected device in `Updating` whose port or socket takes what is written to
it, both return true. -/
theorem chunk_and_finalize_need_updating :
    (∀ (W : Type) (emit : Receiver SerialDevice W), (∀ signal s, (emit signal s).1 = s.1) →
      ∀ (data : QByteArray) (offset : Int) (s : SerialDevice × W),
      (s.1.isConnected = false ∨ s.1.m_state ≠ .Updating →
        SerialDevice.sendFirmwareChunk emit data offset s =
          (false, emit (.logMessage 3 "Cannot send firmware: device not in update mode") s) ∧
        (SerialDevice.sendFirmwareChunk emit data offset s).2.1 = s.1 ∧
        SerialDevice.finalizeUpdate emit s =
          (false, emit (.logMessage 3 "Cannot finalize update: device not in update mode") s) ∧
        (SerialDevice.finalizeUpdate emit s).2.1 = s.1) ∧
      (s.1.isConnected = true → s.1.m_state = .Updating → s.1.m_serialPort.takes = true →
        (SerialDevice.sendFirmwareChunk emit data offset s).1 = true ∧
        (SerialDevice.finalizeUpdate emit s).1 = true)) ∧
    (∀ (W : Type) (env : NetEnv) (emit : Receiver NetworkDevice W),
      (∀ signal s, (emit signal s).1 = s.1) →
      ∀ (data : QByteArray) (offset : Int) (s : NetworkDevice × W),
      (s.1.isConnected = false ∨ s.1.m_state ≠ .Updating →
        NetworkDevice.sendFirmwareChunk env emit data offset s =
          (false, emit (.logMessage 3 "Cannot send firmware: device not in update mode") s) ∧
        (NetworkDevice.sendFirmwareChunk env emit data offset s).2.1 = s.1 ∧
        NetworkDevice.finalizeUpdate env emit s =
          (false, emit (.logMessage 3 "Cannot finalize update: device not in update mode") s) ∧
        (NetworkDevice.finalizeUpdate env emit s).2.1 = s.1) ∧
      (s.1.isConnected = true → s.1.m_state = .Updating → s.1.m_socket.takes = true →
        (NetworkDevice.sendFirmwareChunk env emit data offset s).1 = true ∧
        (NetworkDevice.finalizeUpdate env emit s).1 = true)) := by
  constructor
  · intro W emit hE data offset s
    constructor
    · intro h
      have hc : (!s.1.isConnected) = true ∨ s.1.m_state ≠ .Updating := by
        rcases h with h | h
        · exact Or.inl (by simp [h])
        · exact Or.inr h
      simp only [SerialDevice.sendFirmwareChunk, SerialDevice.finalizeUpdate, if_pos hc, hE,
        and_self]
    · intro hcon hst htakes
      have hopen : s.1.m_serialPort.isOpen = true := hcon
      cases hw : s.1.m_waitingForAck <;>
        simp [SerialDevice.sendFirmwareChunk, SerialDevice.finalizeUpdate,
          SerialDevice.sendCommand, SerialDevice.isConnected, QSerialPort.write, hopen, hst,
          htakes, hw, hE]
  · intro W env emit hE data offset s
    constructor
    · intro h
      have hc : (!s.1.isConnected) = true ∨ s.1.m_state ≠ .Updating := by
        rcases h with h | h
        · exact Or.inl (by simp [h])
        · exact Or.inr h
      simp only [NetworkDevice.sendFirmwareChunk, NetworkDevice.finalizeUpdate, if_pos hc, hE,
        and_self]
    · intro hcon hst htakes
      have hopen : s.1.m_socket.state = .ConnectedState := by
        simpa [NetworkDevice.isConnected] using hcon
      cases hw : s.1.m_waitingForResponse <;>
        simp [NetworkDevice.sendFirmwareChunk, NetworkDevice.finalizeUpdate,
          NetworkDevice.sendRequest, NetworkDevice.isConnected, QTcpSocket.write, hopen, hst,
          htakes, hw, hE]

/-- Instance of C37: the devices `busySerial` and `busyNetwork` are connected
and in the device state `Idle`; a chunk and the end of the update are refused
and the devices are as before. -/
theorem chunk_and_finalize_need_updating_witness :
    busySerial.isConnected = true ∧ busySerial.m_state = .Idle ∧
    SerialDevice.sendFirmwareChunk record [1, 2, 3] 0 (busySerial, []) =
      (false, busySerial,
        [.logMessage 3 "Cannot send firmware: device not in update mode"]) ∧
    NetworkDevice.finalizeUpdate netDesktop record (busyNetwork, []) =
      (false, busyNetwork,
        [.logMessage 3 "Cannot finalize update: device not in update mode"]) :=
  ⟨by decide, by decide,
   ((chunk_and_finalize_need_updating.1 _ record (fun _ _ => rfl) [1, 2, 3] 0
      (busySerial, [])).1 (Or.inr (by decide))).1,
   ((chunk_and_finalize_need_updating.2 _ netDesktop record (fun _ _ => rfl) [] 0
      (busyNetwork, [])).1 (Or.inr (by decide))).2.2.1⟩

/-! ## The serial device: the chunk command -/

/-- The low byte of an integer in two's complement, by its bits. -/
theorem land_255 (z : Int) : Int.land z 255 = z % 256 := by
  cases z with
  | ofNat m =>
    show ((m &&& 255 : Nat) : Int) = (m : Int) % 256
    have h := Nat.and_pow_two_sub_one_eq_mod m 8
    norm_num at h
    rw [h]
    norm_cast
  | negSucc m =>
    show ((Nat.ldiff 255 m : Nat) : Int) = Int.negSucc m % 256
    have h1 : Nat.ldiff 255 m = 255 - m % 256 := by
      have e : (256 : Nat) = 2 ^ 8 := by norm_num
      have e2 : (255 : Nat) = 2 ^ 8 - 1 := by norm_num
      have hlt : m % 2 ^ 8 < 2 ^ 8 := Nat.mod_lt _ (by norm_num)
      have e3 : 255 - m % 256 = 2 ^ 8 - (m % 2 ^ 8 + 1) := by omega
      rw [e3]
      apply Nat.eq_of_testBit_eq
      intro i
      rw [Nat.testBit_ldiff, e2, Nat.testBit_two_pow_sub_one, Nat.testBit_two_pow_sub_succ hlt,
        Nat.testBit_mod_two_pow]
      by_cases hi : i < 8 <;> simp [hi]
    rw [h1, Int.emod_negSucc]
    simp only [Int.subNatNat_eq_coe]
    have := Nat.mod_lt m (show 0 < 256 by norm_num)
    norm_num
    omega

/-- C32: the request that `sendFirmwareChunk` of the serial device builds is
`CHUNK:`, the four bytes of the offset in little-endian order, byte i being
`(offset >> 8i) & 0xFF`, the bytes of the data, and one line feed, for every
data and every offset; on an open port in the device state `Updating` that
takes what is written to it, this request is what is written to the port when
no command is in flight, and what is added at the end of the queue when one
is. -/
theorem chunk_request_encoding :
    (∀ (data : QByteArray) (offset : Int),
      SerialDevice.createCommand "CHUNK" (SerialDevice.offsetBytes offset ++ data) =
        chunkRequest data offset) ∧
    (∀ (data : QByteArray) (offset : Int) (s : SerialDevice × List DeviceSignal),
      s.1.isConnected = true → s.1.m_state = .Updating → s.1.m_serialPort.takes = true →
      (SerialDevice.sendFirmwareChunk record data offset s).1 = true ∧
      (s.1.m_waitingForAck = false →
        (SerialDevice.sendFirmwareChunk record data offset s).2.1.m_serialPort.written =
          s.1.m_serialPort.written ++ [chunkRequest data offset] ∧
        (SerialDevice.sendFirmwareChunk record data offset s).2.1.m_pendingCommands =
          s.1.m_pendingCommands) ∧
      (s.1.m_waitingForAck = true →
        (SerialDevice.sendFirmwareChunk record data offset s).2.1.m_serialPort.written =
          s.1.m_serialPort.written ∧
        (SerialDevice.sendFirmwareChunk record data offset s).2.1.m_pendingCommands =
          s.1.m_pendingCommands ++ [chunkRequest data offset])) := by
  have hreq : ∀ (data : QByteArray) (offset : Int),
      SerialDevice.createCommand "CHUNK" (SerialDevice.offsetBytes offset ++ data) =
        chunkRequest data offset := by
    intro data offset
    have hb : ∀ i : Nat,
        Int.land (Int.shiftRight offset (8 * i)) 255 = offset / 2 ^ (8 * i) % 256 := by
      intro i
      rw [land_255]
      show offset >>> (8 * i) % 256 = _
      rw [Int.shiftRight_eq_div_pow]
      norm_cast
    have h0 := hb 0
    have h1 := hb 1
    have h2 := hb 2
    have h3 := hb 3
    norm_num at h0 h1 h2 h3
    simp [chunkRequest, SerialDevice.createCommand, SerialDevice.offsetBytes,
      List.range, List.range.loop, ascii]
    exact ⟨congrArg Int.toNat h0.symm, congrArg Int.toNat h1.symm, congrArg Int.toNat h2.symm,
      congrArg Int.toNat h3.symm⟩
  refine ⟨hreq, ?_⟩
  intro data offset s hcon hst htakes
  have hopen : s.1.m_serialPort.isOpen = true := hcon
  rw [← hreq]
  refine ⟨?_, ?_, ?_⟩
  · cases hw : s.1.m_waitingForAck <;>
      simp [SerialDevice.sendFirmwareChunk, SerialDevice.sendCommand, SerialDevice.isConnected,
        QSerialPort.write, hopen, hst, htakes, hw, record]
  · intro hw
    simp [SerialDevice.sendFirmwareChunk, SerialDevice.sendCommand, SerialDevice.isConnected,
      QSerialPort.write, hopen, hst, htakes, hw, record]
  · intro hw
    simp [SerialDevice.sendFirmwareChunk, SerialDevice.sendCommand, SerialDevice.isConnected,
      QSerialPort.write, hopen, hst, htakes, hw, record]

set_option maxRecDepth 100000 in
/-- Instance of C32: the chunk DE AD at the offset 258 is sent as `CHUNK:`, the
bytes 02 01 00 00, the two bytes of the chunk and a line feed, and it is what
the serial device `updatingSerial` writes to its port. -/
theorem chunk_request_encoding_witness :
    chunkRequest [222, 173] 258 = [67, 72, 85, 78, 75, 58, 2, 1, 0, 0, 222, 173, 10] ∧
    (SerialDevice.sendFirmwareChunk record [222, 173] 258
      (updatingSerial, [])).2.1.m_serialPort.written =
      [[67, 72, 85, 78, 75, 58, 2, 1, 0, 0, 222, 173, 10]] :=
  have e : chunkRequest [222, 173] 258 = [67, 72, 85, 78, 75, 58, 2, 1, 0, 0, 222, 173, 10] :=
    (chunk_request_encoding.1 [222, 173] 258).symm.trans (by decide)
  ⟨e, ((chunk_request_encoding.2 [222, 173] 258 (updatingSerial, []) (by decide) (by decide)
      (by decide)).2.1 (by decide)).1.trans (by rw [e]; rfl)⟩

/-! ## The network device: the request frame -/

/-- C33: the request that `createRequest` builds for a command and a binary
tail is the four bytes of N in little-endian order, the compact JSON of the
header object and the tail, where N is the length of the header JSON plus the
length of the tail, a `quint32`, as it is for byte arrays of Qt; so the request
has 4 + N bytes, its first four bytes read as N, and N bytes follow them.  The
header object has the member `command`, and the member `data_size` with the
length of the tail exactly when the tail is not empty. -/
theorem request_frame_layout (env : NetEnv) (cmd : String) (data : QByteArray)
    (hN : (env.toJsonCompact (requestHeader cmd data)).length + data.length < 4294967296) :
    NetworkDevice.createRequest env cmd data =
      writeLE32 ((env.toJsonCompact (requestHeader cmd data)).length + data.length) ++
        env.toJsonCompact (requestHeader cmd data) ++ data ∧
    (NetworkDevice.createRequest env cmd data).length =
      4 + ((env.toJsonCompact (requestHeader cmd data)).length + data.length) ∧
    readLE32 (NetworkDevice.createRequest env cmd data) =
      (env.toJsonCompact (requestHeader cmd data)).length + data.length ∧
    (NetworkDevice.createRequest env cmd data).drop 4 =
      env.toJsonCompact (requestHeader cmd data) ++ data := by
  have hobj : (if (!data.isEmpty) = true then
        JsonObject.insert (JsonObject.insert [] "command" (JsonValue.string cmd)) "data_size"
          (JsonValue.number data.length)
      else JsonObject.insert [] "command" (JsonValue.string cmd)) =
      requestHeader cmd data := by
    unfold requestHeader
    have hk : keyLt "data_size" "command" = false := by decide
    have hne : ¬ ("data_size" = "command") := by decide
    cases data with
    | nil => simp [JsonObject.insert]
    | cons b rest => simp [JsonObject.insert, hk, hne]
  have hcr : NetworkDevice.createRequest env cmd data =
      writeLE32 ((env.toJsonCompact (requestHeader cmd data)).length + data.length) ++
        env.toJsonCompact (requestHeader cmd data) ++ data := by
    unfold NetworkDevice.createRequest
    simp only [hobj]
    rw [toQuint32, Nat.mod_eq_of_lt hN]
    cases data <;> simp
  refine ⟨hcr, ?_, ?_, ?_⟩
  · rw [hcr]
    simp only [List.length_append, writeLE32, List.length_cons, List.length_nil]
    omega
  · rw [hcr, List.append_assoc]
    exact readLE32_writeLE32 _ _ hN
  · rw [hcr, List.append_assoc]
    rfl

set_option maxRecDepth 100000 in
/-- Instance of C33 with the reference JSON writer: the request for the command
`update` with the tail `abc` has the header of 34 bytes with the members
`command` and `data_size`, announces 37 bytes and has 41; the request for the
command `info` without a tail announces the 18 bytes of its header. -/
theorem request_frame_layout_witness :
    NetworkDevice.createRequest netDesktop "update" (ascii "abc") =
      [37, 0, 0, 0] ++ ascii "\x7b\"command\":\"update\",\"data_size\":3\x7dabc" ∧
    (NetworkDevice.createRequest netDesktop "update" (ascii "abc")).length = 41 ∧
    NetworkDevice.createRequest netDesktop "info" [] =
      [18, 0, 0, 0] ++ ascii "\x7b\"command\":\"info\"\x7d" :=
  ⟨(request_frame_layout netDesktop "update" (ascii "abc") (by decide)).1.trans (by decide),
   (request_frame_layout netDesktop "update" (ascii "abc") (by decide)).2.1.trans (by decide),
   (request_frame_layout netDesktop "info" [] (by decide)).1.trans (by decide)⟩

/-! ## The transports: malformed frames -/

theorem indexOf_line (line rest : QByteArray) (h : 10 ∉ line) :
    indexOf (line ++ 10 :: rest) 10 = line.length ∧ (line ++ 10 :: rest).contains 10 = true := by
  constructor
  · induction line with
    | nil => simp [indexOf, List.findIdx_cons]
    | cons b tail ih =>
      have hb : b ≠ 10 := fun e => h (by simp [e])
      have ht : 10 ∉ tail := fun e => h (List.mem_cons_of_mem _ e)
      have := ih ht
      simp only [indexOf] at this ⊢
      simp [List.findIdx_cons, hb, this]
  · simp

namespace SerialDevice

/-- A line that begins with none of the four prefixes is answered by the log of
the line and by nothing else. -/
theorem processLine_unknown (line : QByteArray) (s : SerialDevice × List DeviceSignal)
    (h1 : startsWith line (ascii "ACK") = false) (h2 : startsWith line (ascii "INFO:") = false)
    (h3 : startsWith line (ascii "STATE:") = false)
    (h4 : startsWith line (ascii "ERROR:") = false) :
    processLine record line s =
      (s.1, s.2 ++ [.logMessage 0 ("Serial response: " ++ fromUtf8 line)]) := by
  simp [processLine, h1, h2, h3, h4, record]

end SerialDevice

namespace NetworkDevice

/-- The turn of the loop on a buffer that begins with a frame of fewer than 2^31
bytes: the JSON of the frame is parsed and the frame is taken from the
buffer. -/
theorem turn_first_frame (env : NetEnv) (d : NetworkDevice) (signals : List DeviceSignal)
    (body rest : QByteArray) (hsize : 4 + body.length < 2147483648)
    (hb : d.m_buffer = writeLE32 body.length ++ body ++ rest) :
    d.loopEnds = false ∧
    turn env record (d, signals) =
      handleFrame env record body ({ d with m_buffer := rest }, signals) := by
  have hm : d.messageSize = body.length := by
    rw [messageSize, hb, List.append_assoc]
    exact readLE32_writeLE32 _ _ (by omega)
  have hlen : (writeLE32 body.length ++ body ++ rest).length =
      4 + body.length + rest.length := by
    simp [writeLE32]
    omega
  have hmid : mid d.m_buffer 4 (toInt d.messageSize) = body := by
    rw [hm, (toInt_frame body.length hsize).2, hb]
    unfold mid
    rw [hlen]
    have e1 : ¬ ((4 : Int) > ((4 + body.length + rest.length : Nat) : Int)) := by omega
    have e2 : ¬ ((4 : Int) < 0) := by omega
    have e3 : ¬ ((body.length : Int) < 0 ∨
        (body.length : Int) > ((4 + body.length + rest.length : Nat) : Int) - 4) := by omega
    rw [if_neg e1, if_neg e2, if_neg e3]
    simp [writeLE32]
  have hrem : remove d.m_buffer 0 (toInt (toQuint32 (4 + d.messageSize))) = rest := by
    rw [hm, (toInt_frame body.length hsize).1, hb]
    unfold remove
    rw [hlen]
    have e1 : ¬ ((4 + (body.length : Int)) ≤ 0 ∨ (0 : Int) < 0 ∨
        (0 : Int) ≥ ((4 + body.length + rest.length : Nat) : Int)) := by omega
    rw [if_neg e1]
    have hdrop : (writeLE32 body.length ++ body ++ rest).drop (4 + body.length) = rest := by
      have : (writeLE32 body.length ++ body).length = 4 + body.length := by
        simp [writeLE32]
        omega
      rw [← this, List.drop_left]
    split
    · rename_i hge
      have hr : rest = [] := by
        apply List.eq_nil_of_length_eq_zero
        omega
      subst hr
      rfl
    · have e : ((0 : Int) + (4 + (body.length : Int))).toNat = 4 + body.length := by omega
      rw [e, hdrop]
      rfl
  constructor
  · simp only [loopEnds, hm, (toInt_frame body.length hsize).1, hb, hlen,
      Bool.or_eq_false_iff, decide_eq_false_iff_not, not_lt]
    constructor <;> omega
  · unfold turn
    simp only [hmid, hrem]

end NetworkDevice

/-- C31 refuted as stated: the serial device that reads the line `BOGUS`, which
begins with none of the prefixes, emits the log of level 0 that it emits for
every line, and no log of level 3. -/
theorem unknown_serial_line_not_reported :
    startsWith (ascii "BOGUS") (ascii "ACK") = false ∧
    startsWith (ascii "BOGUS") (ascii "INFO:") = false ∧
    startsWith (ascii "BOGUS") (ascii "STATE:") = false ∧
    startsWith (ascii "BOGUS") (ascii "ERROR:") = false ∧
    SerialDevice.onReadyRead record (ascii "BOGUS\n") (updatingSerial, []) =
      (updatingSerial, [.logMessage 0 "Serial response: BOGUS"]) := by
  decide

/-- C31 as amended: a frame at the head of the buffer of the network device
whose body, of fewer than 2^31 - 4 bytes, is not a JSON object is taken from
the buffer and answered by the one log of level 3; a line at the head of the
buffer of the serial device that, trimmed, begins with none of the four
prefixes is taken from the buffer and answered by the log of level 0 that
every line gets, and by no log of level 3.  In both cases the device is
otherwise as before, with its connection status, its device state, its queue
and its request in flight, and the loop goes on with what follows in the
buffer. -/
theorem malformed_frame_discarded :
    (∀ (env : NetEnv) (d : NetworkDevice) (signals : List DeviceSignal)
      (body rest : QByteArray) (fuel : Nat),
      d.m_buffer = writeLE32 body.length ++ body ++ rest → 4 + body.length < 2147483648 →
      (∀ response, env.fromJson body ≠ some (JsonValue.object response)) →
      NetworkDevice.processResponse env record (fuel + 1) (d, signals) =
        NetworkDevice.processResponse env record fuel
          ({ d with m_buffer := rest },
           signals ++ [.logMessage 3 "Received invalid JSON response"])) ∧
    (∀ (d : SerialDevice) (signals : List DeviceSignal) (line rest : QByteArray) (fuel : Nat),
      d.m_buffer = line ++ 10 :: rest → 10 ∉ line →
      startsWith (trimmed line) (ascii "ACK") = false →
      startsWith (trimmed line) (ascii "INFO:") = false →
      startsWith (trimmed line) (ascii "STATE:") = false →
      startsWith (trimmed line) (ascii "ERROR:") = false →
      SerialDevice.processResponse record (fuel + 1) (d, signals) =
        SerialDevice.processResponse record fuel
          ({ d with m_buffer := rest },
           signals ++ [.logMessage 0 ("Serial response: " ++ fromUtf8 (trimmed line))])) := by
  constructor
  · intro env d signals body rest fuel hb hsize hbad
    obtain ⟨hgo, hturn⟩ := NetworkDevice.turn_first_frame env d signals body rest hsize hb
    simp only [NetworkDevice.processResponse, hgo, Bool.false_eq_true, if_false, hturn]
    congr 1
    unfold NetworkDevice.handleFrame
    cases hj : env.fromJson body with
    | none => rfl
    | some doc =>
      cases doc with
      | object response => exact absurd hj (hbad response)
      | null => rfl
      | bool b => rfl
      | number n => rfl
      | string t => rfl
      | array items => rfl
  · intro d signals line rest fuel hb hline h1 h2 h3 h4
    obtain ⟨hidx, hcont⟩ := indexOf_line line rest hline
    simp only [SerialDevice.processResponse, hb, hcont, if_true, hidx, List.take_left',
      List.drop_left', List.take_append_of_le_length (le_refl _), List.take_length]
    rw [SerialDevice.processLine_unknown _ _ h1 h2 h3 h4]
    congr 2
    simp

set_option maxRecDepth 100000 in
/-- Instance of C31 as amended: the network device `busyNetwork` with a frame of
the five bytes `hello` and the frame of a response with the status ok in its
buffer reports the first, handles the second and sends the head of its queue;
the serial device `busySerial` with the lines `BOGUS` and `ACK` in its buffer
logs both and sends the head of its queue. -/
theorem malformed_frame_discarded_witness :
    NetworkDevice.processResponse netDesktop record 2
        ({ busyNetwork with
            m_buffer := writeLE32 5 ++ ascii "hello" ++
              ([15, 0, 0, 0] ++ ascii "\x7b\"status\":\"ok\"\x7d") }, []) =
      some ({ busyNetwork with
                m_buffer := [],
                m_socket := { goodSocket with written := [[1, 0, 0, 0, 65], [1, 0, 0, 0, 66]] },
                m_pendingCommands := [[1, 0, 0, 0, 67]] },
            [.logMessage 3 "Received invalid JSON response"]) ∧
    SerialDevice.processResponse record 2
        ({ busySerial with m_buffer := ascii "BOGUS" ++ 10 :: ascii "ACK\n" }, []) =
      ({ busySerial with
          m_buffer := [],
          m_serialPort := { busySerial.m_serialPort with
            written := [ascii "INFO:\n", ascii "UPDATE_BEGIN:\n", ascii "UPDATE_END:\n"] },
          m_pendingCommands := [ascii "UPDATE_CANCEL:\n"] },
       [.logMessage 0 "Serial response: BOGUS", .logMessage 0 "Serial response: ACK"]) := by
  have hn : (netDesktop.fromJson (ascii "hello")).isNone = true := by decide
  constructor
  · rw [malformed_frame_discarded.1 netDesktop _ [] (ascii "hello")
      ([15, 0, 0, 0] ++ ascii "\x7b\"status\":\"ok\"\x7d") 1 rfl (by decide)
      (fun response h => by rw [h] at hn; exact absurd hn (by simp))]
    decide
  · rw [malformed_frame_discarded.2 _ [] (ascii "BOGUS") (ascii "ACK\n") 1 rfl (by decide)
      (by decide) (by decide) (by decide) (by decide)]
    decide

/-! ## The package: all chunks -/

/-- Consecutive pieces of a list, each of `c` elements, make up its beginning. -/
theorem flatten_pieces (P : QByteArray) (c : Nat) (n i : Nat) :
    ((List.range n).map fun k => (P.drop ((i + k) * c)).take c).flatten =
      (P.drop (i * c)).take (n * c) := by
  induction n with
  | zero => simp
  | succ n ih =>
    rw [List.range_succ, List.map_append, List.flatten_append, ih]
    simp only [List.map_cons, List.map_nil, List.flatten_cons, List.flatten_nil,
      List.append_nil]
    have e : (P.drop ((i + n) * c)) = (P.drop (i * c)).drop (n * c) := by
      rw [List.drop_drop]
      congr 1
      ring
    rw [e, Nat.succ_mul, List.take_add]

/-- The chunks read one after the other from a package whose offsets all lie
within the firmware data are the consecutive pieces of it. -/
theorem chunkSequence_eq (pkg : FirmwarePackage) (hinv : pkg.Invariant) (c : Nat) (hc : 0 < c)
    (hcq : (c : Int) < 9223372036854775808) (n i : Nat)
    (hin : n = 0 ∨ ((i + n - 1) * c : Nat) < pkg.payload.length) :
    chunkSequence pkg c n i =
      (List.range n).map fun k => (pkg.payload.drop ((i + k) * c)).take c := by
  induction n generalizing pkg i with
  | zero => rfl
  | succ n ih =>
    have hlen := payload_length pkg hinv
    have hlast : (i + (n + 1) - 1) * c < pkg.payload.length := by
      rcases hin with h | h
      · omega
      · exact h
    have hi : i * c < pkg.payload.length := by
      have : i * c ≤ (i + (n + 1) - 1) * c := Nat.mul_le_mul_right _ (by omega)
      omega
    have hchunk : (pkg.getChunk ((i : Int) * c) c).1 = (pkg.payload.drop (i * c)).take c := by
      rw [getChunk_within pkg hinv _ _ (by positivity) (by omega) hcq (by rw [← hlen]; exact_mod_cast hi)]
      have e1 : ((i : Int) * (c : Int)).toNat = i * c := by
        rw [← Nat.cast_mul]; exact Int.toNat_natCast _
      rw [e1]
      rw [List.take_eq_take]
      simp only [List.length_drop]
      have e2 : ((i * c : Nat) : Int) = (i : Int) * c := by push_cast; rfl
      omega
    rw [chunkSequence, hchunk, List.range_succ_eq_map, List.map_cons, List.map_map]
    rw [ih (pkg.getChunk ((i : Int) * c) c).2 (getChunk_invariant pkg hinv _ _) (i + 1)
      (by
        rw [getChunk_payload]
        by_cases hn : n = 0
        · exact Or.inl hn
        · right
          have : i + 1 + n - 1 = i + (n + 1) - 1 := by omega
          rw [this]
          exact hlast)]
    rw [getChunk_payload]
    simp only [Nat.add_zero, List.cons.injEq, true_and]
    apply List.map_congr_left
    intro k _
    simp only [Function.comp]
    have : i + 1 + k = i + (k + 1) := by omega
    rw [this]

set_option maxRecDepth 100000 in
/-- C36 refuted as stated: for the sample package, whose firmware data has ten
bytes, and the chunk size 2^63 - 1, `chunkCount` is 0, the sum of size and chunk
size leaving the range of `qint64`; so there is no chunk to concatenate, while
`getChunk(0, c)` is the whole of the data. -/
theorem no_chunks_for_huge_chunk_size :
    samplePackage.Invariant ∧
    samplePackage.chunkCount 9223372036854775807 = 0 ∧
    allChunks samplePackage 9223372036854775807 = [] ∧
    samplePackage.payload = samplePayload ∧
    (samplePackage.getChunk 0 9223372036854775807).1 = samplePayload := by
  decide

/-- C36 as amended: for a package with firmware data P of S bytes and a chunk
size c that is positive, with S + c within `qint64` and the ceiling of S / c
within `int`, the chunks `getChunk(i * c, c)` for i from 0 to
`chunkCount(c) - 1`, read one after the other, are as many as that ceiling,
none of them is empty, all but the last have c bytes, the last has
S - (chunkCount(c) - 1) * c bytes, and their concatenation is P. -/
theorem chunks_cover_payload (pkg : FirmwarePackage) (hinv : pkg.Invariant) (c : Int)
    (hc : 0 < c) (hsum : pkg.size + c ≤ 9223372036854775807)
    (hceil : ⌈(pkg.size : ℚ) / (c : ℚ)⌉ ≤ 2147483647) :
    (allChunks pkg c).flatten = pkg.payload ∧
    ((allChunks pkg c).length : Int) = pkg.chunkCount c ∧
    pkg.chunkCount c = ⌈(pkg.size : ℚ) / (c : ℚ)⌉ ∧
    (∀ chunk ∈ allChunks pkg c, chunk ≠ []) ∧
    (allChunks pkg c).map (fun chunk => (chunk.length : Int)) =
      List.replicate ((pkg.chunkCount c).toNat - 1) c ++
        [pkg.size - (pkg.chunkCount c - 1) * c] := by
  have hcount := (chunkCount_ceiling pkg hinv c).2 hc hsum hceil
  have hlen := payload_length pkg hinv
  have hS : 0 < pkg.size := hinv.2.2.1
  rw [ceil_div_eq _ _ hc] at hcount
  lift c to ℕ using le_of_lt hc with c
  have hc' : 0 < c := by exact_mod_cast hc
  obtain ⟨hP, hP0⟩ : (pkg.payload.length : Int) = pkg.size ∧ 0 < pkg.payload.length :=
    ⟨hlen, by omega⟩
  have hn : (pkg.chunkCount c).toNat = (pkg.payload.length + c - 1) / c := by
    rw [hcount, ← hP]
    have : ((pkg.payload.length : Int) + (c : Int) - 1) =
        ((pkg.payload.length + c - 1 : Nat) : Int) := by omega
    rw [this, ← Int.natCast_div, Int.toNat_natCast]
  have hcc : pkg.chunkCount c = ((pkg.payload.length + c - 1) / c : Nat) := by
    rw [← hn]
    have : 0 ≤ pkg.chunkCount c := by
      rw [hcount]
      exact Int.ediv_nonneg (by omega) (by omega)
    omega
  generalize hne : (pkg.payload.length + c - 1) / c = n at hn hcc
  have h1 : n * c ≤ pkg.payload.length + c - 1 := by
    rw [← hne]; exact Nat.div_mul_le_self _ _
  have h2 : pkg.payload.length + c - 1 < c * (n + 1) := by
    rw [← hne]; exact Nat.lt_mul_div_succ _ hc'
  have hn1 : 1 ≤ n := by
    rw [← hne]
    exact (Nat.one_le_div_iff hc').mpr (by omega)
  have h3 : (n - 1) * c + c = n * c := by
    rw [← Nat.succ_mul]
    congr 1
    omega
  have h4 : c * (n + 1) = n * c + c := by ring
  have hcover : pkg.payload.length ≤ n * c := by omega
  have hbelow : (n - 1) * c < pkg.payload.length := by omega
  have hall : allChunks pkg c =
      (List.range n).map fun k => (pkg.payload.drop ((0 + k) * c)).take c := by
    rw [allChunks, hn]
    exact chunkSequence_eq pkg hinv c hc' (by omega) n 0
      (Or.inr (by simpa using hbelow))
  have hklen : ∀ k, k < n →
      ((pkg.payload.drop ((0 + k) * c)).take c).length =
        if k < n - 1 then c else pkg.payload.length - (n - 1) * c := by
    intro k hk
    rw [List.length_take, List.length_drop, Nat.zero_add]
    by_cases hk1 : k < n - 1
    · rw [if_pos hk1]
      have : (k + 1) * c ≤ (n - 1) * c := Nat.mul_le_mul_right _ (by omega)
      have e : (k + 1) * c = k * c + c := by ring
      omega
    · rw [if_neg hk1]
      have : k = n - 1 := by omega
      subst this
      omega
  refine ⟨?_, ?_, ?_, ?_, ?_⟩
  · rw [hall, flatten_pieces, Nat.zero_mul, List.drop_zero]
    exact List.take_of_length_le hcover
  · rw [hall, hcc]
    simp
  · rw [hcount, ceil_div_eq _ _ (by exact_mod_cast hc')]
  · intro chunk hmem
    rw [hall, List.mem_map] at hmem
    obtain ⟨k, hk, rfl⟩ := hmem
    rw [List.mem_range] at hk
    intro hnil
    have hl := hklen k hk
    rw [hnil] at hl
    simp only [List.length_nil] at hl
    split at hl <;> omega
  · rw [hall, hn, hcc, List.map_map]
    have hr : List.range n = List.range (n - 1) ++ [n - 1] := by
      rw [← List.range_succ]
      congr 1
      omega
    rw [hr, List.map_append]
    congr 1
    · rw [List.eq_replicate_iff]
      refine ⟨by simp, ?_⟩
      intro x hx
      rw [List.mem_map] at hx
      obtain ⟨k, hk, rfl⟩ := hx
      rw [List.mem_range] at hk
      simp only [Function.comp]
      rw [hklen k (by omega), if_pos hk]
    · simp only [List.map_cons, List.map_nil, Function.comp, List.cons.injEq, and_true]
      rw [hklen (n - 1) (by omega), if_neg (by omega), ← hP]
      have e : (((n : Nat) : Int) - 1) * (c : Int) = (((n - 1) * c : Nat) : Int) := by
        push_cast
        rw [Nat.cast_sub hn1]
        simp
      rw [e]
      omega

set_option maxRecDepth 100000 in
/-- Instance of C36 as amended on the sample package: chunks of four bytes are
three, of four, four and two bytes, and make up the ten bytes of the data. -/
theorem chunks_cover_payload_witness :
    allChunks samplePackage 4 = [[222, 173, 190, 239], [1, 2, 3, 4], [5, 6]] ∧
    (allChunks samplePackage 4).flatten = samplePackage.payload ∧
    (allChunks samplePackage 4).map (fun chunk => (chunk.length : Int)) = [4, 4, 2] :=
  ⟨by decide,
   (chunks_cover_payload samplePackage (by decide) 4 (by decide) (by decide)
     (by rw [ceil_div_eq _ _ (by decide)]; decide)).1,
   (chunks_cover_payload samplePackage (by decide) 4 (by decide) (by decide)
     (by rw [ceil_div_eq _ _ (by decide)]; decide)).2.2.2.2.trans (by decide)⟩

/-! ## The update job: the chunks accepted -/

theorem contiguous_append (start : Int) (a b : List (Int × QByteArray)) :
    contiguous start (a ++ b) =
      (contiguous start a && contiguous (start + ((a.map Prod.snd).flatten.length : Nat)) b) := by
  induction a generalizing start with
  | nil => simp [contiguous]
  | cons x rest ih =>
    obtain ⟨o, c⟩ := x
    have e : start + ((((o, c) :: rest).map Prod.snd).flatten.length : Nat) =
        start + c.length + ((rest.map Prod.snd).flatten.length : Nat) := by
      simp only [List.map_cons, List.flatten_cons, List.length_append]
      push_cast
      ring
    rw [e]
    show (decide (o = start) && contiguous (start + c.length) (rest ++ b)) =
      ((decide (o = start) && contiguous (start + c.length) rest) &&
        contiguous (start + c.length + ((rest.map Prod.snd).flatten.length : Nat)) b)
    rw [ih, Bool.and_assoc]

namespace UpdateJob

/-- The firmware data stays the same through `onUploadNextChunk`. -/
theorem onUploadNextChunk_payload (job : UpdateJob) (answer : Bool) :
    (job.onUploadNextChunk.resolve answer).1.m_firmware.payload = job.m_firmware.payload := by
  unfold onUploadNextChunk
  split
  · rfl
  · split
    · cases answer <;> simp [Pending.resolve]
    · cases answer
      · simp only [Pending.resolve, afterSend_fst_false]
        split <;> exact getChunk_payload _ _ _
      · simp only [Pending.resolve, afterSend_fst_true]
        exact getChunk_payload _ _ _

/-- The chunks accepted stay in step with the job through `onUploadNextChunk`. -/
theorem onUploadNextChunk_sent (job : UpdateJob) (P : QByteArray)
    (sent : List (Int × QByteArray)) (h : job.Sent P sent) (answer : Bool) :
    (job.onUploadNextChunk.resolve answer).1.Sent P
      (sent ++ acceptedChunks (job.onUploadNextChunk.resolve answer).2) := by
  obtain ⟨hinv, hP, hcont, hflat, hfin⟩ := h
  have hinv2 := (onUploadNextChunk_invariant job P.length hinv answer).1
  have hP2 : (job.onUploadNextChunk.resolve answer).1.m_firmware.payload = P := by
    rw [onUploadNextChunk_payload, hP]
  refine ⟨hinv2, hP2, ?_⟩
  by_cases hg : job.m_state ≠ .Uploading ∨ job.m_paused = true
  · have e : job.onUploadNextChunk.resolve answer = (job, []) := by
      simp only [onUploadNextChunk, if_pos hg, Pending.resolve]
    rw [e]
    simp only [acceptedChunks, List.append_nil]
    exact ⟨hcont, hflat, hfin⟩
  simp only [ne_eq, not_or, not_not] at hg
  obtain ⟨hst, hpa⟩ := hg
  have hpa' : job.m_paused = false := by simpa using hpa
  obtain ⟨hfw, hS, hc0, hc1, ho0, ho1, hearly⟩ := hinv
  by_cases hdone : job.m_currentOffset ≥ job.m_firmware.size
  · have hoff : job.m_currentOffset = P.length := by omega
    have e1 : (job.onUploadNextChunk.resolve answer).1.m_currentOffset = job.m_currentOffset := by
      cases answer <;>
        simp [onUploadNextChunk, hst, hpa', hdone, Pending.resolve]
    have e2 : acceptedChunks (job.onUploadNextChunk.resolve answer).2 = [] := by
      cases answer <;>
        simp [onUploadNextChunk, hst, hpa', hdone, Pending.resolve, acceptedChunks_append,
          acceptedChunks, failUpdate]
    rw [e1, e2, List.append_nil]
    exact ⟨hcont, hflat, fun _ => hoff⟩
  · have hlt : job.m_currentOffset < P.length := by omega
    have hU : job.Uploads P job.m_currentOffset job.m_retryCount :=
      ⟨⟨hfw, hS, hc0, hc1, ho0, ho1, hearly⟩, hP, hst, hpa', rfl, rfl⟩
    cases answer
    · have e : acceptedChunks (job.onUploadNextChunk.resolve false).2 = [] ∧
          (job.onUploadNextChunk.resolve false).1.m_currentOffset = job.m_currentOffset ∧
          ((job.onUploadNextChunk.resolve false).1.m_state = .Uploading ∨
            (job.onUploadNextChunk.resolve false).1.m_state = .Failed) := by
        by_cases hleft : job.m_retryCount < job.m_maxRetries
        · have r := resolve_rejected job P _ _ hU hlt hleft
          exact ⟨r.2.2.2.2.2.2.1, r.1.2.2.2.2.1, Or.inl r.1.2.2.1⟩
        · have r := resolve_exhausted job P _ _ hU hlt hleft
          exact ⟨r.2.2.2.2.2.2.1, r.2.1, Or.inr r.1⟩
      rw [e.1, e.2.1, List.append_nil]
      refine ⟨hcont, hflat, ?_⟩
      intro hs
      rcases e.2.2 with h1 | h1 <;> rcases hs with h2 | h2 <;> rw [h1] at h2 <;> cases h2
    · have r := resolve_accepted job P _ _ hU hlt
      have hnew : (job.onUploadNextChunk.resolve true).1.m_currentOffset =
          job.m_currentOffset + (chunkAt P job.m_chunkSize job.m_currentOffset).length :=
        r.1.2.2.2.2.1
      have hstate : (job.onUploadNextChunk.resolve true).1.m_state = .Uploading := r.1.2.2.1
      rw [r.2.2.2.2.2.2.1, hnew]
      have hlenflat : ((sent.map Prod.snd).flatten.length : Int) = job.m_currentOffset := by
        rw [hflat, List.length_take]
        omega
      refine ⟨?_, ?_, ?_⟩
      · rw [contiguous_append, hcont]
        simp only [contiguous, Bool.true_and, Bool.and_true, decide_eq_true_eq]
        omega
      · rw [List.map_append, List.flatten_append, hflat]
        simp only [List.map_cons, List.map_nil, List.flatten_cons, List.flatten_nil,
          List.append_nil]
        have hk : (chunkAt P job.m_chunkSize job.m_currentOffset).length =
            (min (job.m_currentOffset + job.m_chunkSize) P.length - job.m_currentOffset).toNat := by
          simp only [chunkAt, List.length_take, List.length_drop]
          omega
        have e : (job.m_currentOffset +
            ((chunkAt P job.m_chunkSize job.m_currentOffset).length : Int)).toNat =
            job.m_currentOffset.toNat +
              (min (job.m_currentOffset + job.m_chunkSize) P.length -
                job.m_currentOffset).toNat := by
          rw [hk]
          omega
        rw [e, List.take_add]
        rfl
      · intro hs
        rcases hs with h2 | h2 <;> rw [hstate] at h2 <;> cases h2

end UpdateJob

namespace UpdateJob

/-- A step that does not run the upload has no chunk accepted, and enters
`Finalizing` and `Complete` only from `Finalizing`. -/
theorem step_quiet (job : UpdateJob) (input : Input)
    (hc : ∀ a, input ≠ .chunkTimeout a) (hr : ∀ a, input ≠ .retryTimeout a) :
    acceptedChunks (job.step input).2 = [] ∧
    ((job.step input).1.m_state = .Finalizing → job.m_state = .Finalizing) ∧
    ((job.step input).1.m_state = .Complete →
      job.m_state = .Finalizing ∨ job.m_state = .Complete) := by
  cases input with
  | chunkTimeout a => exact absurd rfl (hc a)
  | retryTimeout a => exact absurd rfl (hr a)
  | logMessage level message =>
    simp only [step, acceptedChunks, true_and]
    exact ⟨fun h => h, fun h => Or.inr h⟩
  | start isConnected answer =>
    simp only [step, start]
    split
    · simp only [Pending.resolve, acceptedChunks, true_and]
      exact ⟨fun h => h, fun h => Or.inr h⟩
    · cases isConnected <;> cases answer <;>
        simp [Pending.resolve, acceptedChunks, acceptedChunks_append, failUpdate]
  | cancel isConnected answer =>
    simp only [step, cancel]
    split
    · rename_i hterm
      simp only [Pending.resolve, acceptedChunks, true_and]
      exact ⟨fun h => h, fun h => Or.inr h⟩
    · cases isConnected <;>
        simp [Pending.resolve, acceptedChunks, acceptedChunks_append]
  | connectionStatusChanged status answer =>
    simp only [step, onDeviceConnectionStatusChanged]
    split
    · rename_i hst
      split
      · cases answer <;>
          simp [Pending.resolve, acceptedChunks, acceptedChunks_append, failUpdate]
      · split <;>
          simp [Pending.resolve, acceptedChunks, acceptedChunks_append, failUpdate, hst]
    · split
      · simp [Pending.resolve, acceptedChunks, acceptedChunks_append, failUpdate]
      · simp only [Pending.resolve, acceptedChunks, true_and]
        exact ⟨fun h => h, fun h => Or.inr h⟩
  | deviceStateChanged state =>
    simp only [step, onDeviceStateChanged]
    split
    · simp [acceptedChunks, acceptedChunks_append, startUpload]
    · split
      · rename_i hfin
        simp [acceptedChunks, acceptedChunks_append, completeUpdate, hfin.1]
      · split
        · simp [acceptedChunks, acceptedChunks_append, failUpdate]
        · simp only [acceptedChunks, true_and]
          exact ⟨fun h => h, fun h => Or.inr h⟩

/-- The chunks accepted stay in step with the job through every step. -/
theorem step_sent (job : UpdateJob) (P : QByteArray) (sent : List (Int × QByteArray))
    (h : job.Sent P sent) (input : Input) :
    (job.step input).1.Sent P (sent ++ acceptedChunks (job.step input).2) := by
  have hstop : ∀ t : QTimer, ∀ j : UpdateJob,
      j.Sent P sent → ({ j with m_chunkTimer := t } : UpdateJob).Sent P sent ∧
        ({ j with m_retryTimer := t } : UpdateJob).Sent P sent :=
    fun t j hj => ⟨hj, hj⟩
  by_cases hc : ∃ a, input = .chunkTimeout a
  · obtain ⟨a, rfl⟩ := hc
    simp only [step]
    split
    · exact onUploadNextChunk_sent _ P sent (hstop _ job h).1 a
    · simpa [acceptedChunks] using h
  by_cases hr : ∃ a, input = .retryTimeout a
  · obtain ⟨a, rfl⟩ := hr
    simp only [step]
    split
    · exact onUploadNextChunk_sent _ P sent (hstop _ job h).2 a
    · simpa [acceptedChunks] using h
  have hc' : ∀ a, input ≠ .chunkTimeout a := fun a e => hc ⟨a, e⟩
  have hr' : ∀ a, input ≠ .retryTimeout a := fun a e => hr ⟨a, e⟩
  obtain ⟨hq1, hq2, hq3⟩ := step_quiet job input hc' hr'
  obtain ⟨hf1, -, hf3, -⟩ := step_frame job input hc' hr'
  obtain ⟨hinv, hP, hcont, hflat, hfin⟩ := h
  have hoff : (job.step input).1.m_currentOffset = job.m_currentOffset := by
    rcases hf3 with e | ⟨e, hprep⟩
    · exact e
    · rw [e, hinv.2.2.2.2.2.2 (Or.inr (Or.inr hprep))]
  rw [hq1, List.append_nil]
  refine ⟨(step_invariant job P.length hinv input).1, by rw [hf1]; exact hP, hcont,
    by rw [hoff]; exact hflat, ?_⟩
  intro hs
  rw [hoff]
  rcases hs with hs | hs
  · exact hfin (Or.inl (hq2 hs))
  · exact hfin (hq3 hs)

/-- The chunks accepted stay in step with the job through every sequence of
inputs. -/
theorem run_sent (job : UpdateJob) (P : QByteArray) (sent : List (Int × QByteArray))
    (h : job.Sent P sent) (inputs : List Input) :
    (job.run inputs).1.Sent P (sent ++ acceptedChunks (job.run inputs).2) := by
  induction inputs generalizing job sent with
  | nil => simpa [run, acceptedChunks] using h
  | cons input rest ih =>
    have h1 := ih (job.step input).1 _ (step_sent job P sent h input)
    simp only [run, acceptedChunks_append]
    rw [← List.append_assoc]
    exact h1

end UpdateJob

/-- C35: for a job created for a package that satisfies the class invariant,
after any sequence of calls of `start` and `cancel`, device events, timer ticks
and answers of the device: the chunks that the device has accepted, in order,
were sent with the offsets 0, the length of the first, the sum of the lengths
of the first two, and so on; their concatenation is the firmware data below the
offset of the job, and their lengths add up to that offset; and when the job is
in `Finalizing` or `Complete` the concatenation is the whole of the firmware
data. -/
theorem accepted_chunks_make_up_payload (firmware : FirmwarePackage)
    (hinv : firmware.Invariant) (optimalChunkSize : Int)
    (hq : optimalChunkSize < 9223372036854775808) (inputs : List UpdateJob.Input) :
    contiguous 0 (acceptedChunks ((UpdateJob.create firmware optimalChunkSize).run inputs).2)
      = true ∧
    ((acceptedChunks ((UpdateJob.create firmware optimalChunkSize).run inputs).2).map
        Prod.snd).flatten =
      firmware.payload.take
        ((UpdateJob.create firmware optimalChunkSize).run inputs).1.m_currentOffset.toNat ∧
    ((((acceptedChunks ((UpdateJob.create firmware optimalChunkSize).run inputs).2).map
        Prod.snd).flatten.length : Nat) : Int) =
      ((UpdateJob.create firmware optimalChunkSize).run inputs).1.m_currentOffset ∧
    ((((UpdateJob.create firmware optimalChunkSize).run inputs).1.m_state = .Finalizing ∨
        ((UpdateJob.create firmware optimalChunkSize).run inputs).1.m_state = .Complete) →
      ((acceptedChunks ((UpdateJob.create firmware optimalChunkSize).run inputs).2).map
        Prod.snd).flatten = firmware.payload) := by
  have hlen := payload_length firmware hinv
  have h0 : (UpdateJob.create firmware optimalChunkSize).Sent firmware.payload [] := by
    refine ⟨?_, rfl, rfl, ?_, ?_⟩
    · rw [hlen]
      exact UpdateJob.create_invariant firmware hinv optimalChunkSize hq
    · simp [UpdateJob.create]
    · intro hs
      rcases hs with hs | hs <;> simp [UpdateJob.create] at hs
  have h := UpdateJob.run_sent _ _ _ h0 inputs
  rw [List.nil_append] at h
  obtain ⟨hI, -, hcont, hflat, hfin⟩ := h
  refine ⟨hcont, hflat, ?_, ?_⟩
  · rw [hflat, List.length_take]
    have h1 := hI.2.2.2.2.1
    have h2 := hI.2.2.2.2.2.1
    omega
  · intro hs
    rw [hflat, hfin hs]
    simp

set_option maxRecDepth 100000 in
/-- Instance of C35 on the sample package with chunks of four bytes: after two
accepted chunks, a rejected one and a third accepted one the job is in
`Finalizing`, and the three chunks were sent at the offsets 0, 4 and 8 and make
up the ten bytes of the data. -/
theorem accepted_chunks_make_up_payload_witness :
    samplePackage.Invariant ∧
    acceptedChunks ((UpdateJob.create samplePackage 4).run
      [.start true true, .deviceStateChanged .Ready, .chunkTimeout true, .chunkTimeout true,
       .chunkTimeout false, .retryTimeout true, .chunkTimeout true]).2 =
      [(0, [222, 173, 190, 239]), (4, [1, 2, 3, 4]), (8, [5, 6])] ∧
    ((UpdateJob.create samplePackage 4).run
      [.start true true, .deviceStateChanged .Ready, .chunkTimeout true, .chunkTimeout true,
       .chunkTimeout false, .retryTimeout true, .chunkTimeout true]).1.m_state = .Finalizing ∧
    ((acceptedChunks ((UpdateJob.create samplePackage 4).run
      [.start true true, .deviceStateChanged .Ready, .chunkTimeout true, .chunkTimeout true,
       .chunkTimeout false, .retryTimeout true, .chunkTimeout true]).2).map
        Prod.snd).flatten = samplePackage.payload :=
  ⟨by decide, by decide, by decide,
   (accepted_chunks_make_up_payload samplePackage (by decide) 4 (by decide)
      [.start true true, .deviceStateChanged .Ready, .chunkTimeout true, .chunkTimeout true,
       .chunkTimeout false, .retryTimeout true, .chunkTimeout true]).2.2.2
      (Or.inl (by decide))⟩

/-! ## The orchestrator -/

namespace FlashUpCore

/-- Loading a firmware file leaves the devices and the active jobs as they
are, and emits log messages only. -/
theorem loadFirmware_frame (env : Env) (disk : Option QByteArray) (filePath : String)
    (s : FlashUpCore × List CoreSignal) :
    (loadFirmware env disk filePath s).2.1.m_devices = s.1.m_devices ∧
    (loadFirmware env disk filePath s).2.1.m_activeJobs = s.1.m_activeJobs ∧
    (loadFirmware env disk filePath s).2.2.filter CoreSignal.isComplete =
      s.2.filter CoreSignal.isComplete := by
  unfold loadFirmware
  cases construct env disk <;> simp [emit, CoreSignal.isComplete]

/-- An orchestrator that knows no device and has no active job starts no job:
`updateFirmware` returns false and leaves it without device and without job. -/
theorem updateFirmware_unknown (env : Env) (disk : Option QByteArray)
    (deviceId firmwarePath : String)
    (cancelConnected cancelAnswer startConnected startAnswer : Bool)
    (s : FlashUpCore × List CoreSignal) (hd : s.1.m_devices = []) (hj : s.1.m_activeJobs = []) :
    (updateFirmware env disk deviceId firmwarePath cancelConnected cancelAnswer startConnected
      startAnswer s).1 = false ∧
    (updateFirmware env disk deviceId firmwarePath cancelConnected cancelAnswer startConnected
      startAnswer s).2.1.m_devices = [] ∧
    (updateFirmware env disk deviceId firmwarePath cancelConnected cancelAnswer startConnected
      startAnswer s).2.1.m_activeJobs = [] ∧
    (updateFirmware env disk deviceId firmwarePath cancelConnected cancelAnswer startConnected
      startAnswer s).2.2.filter CoreSignal.isComplete = s.2.filter CoreSignal.isComplete := by
  obtain ⟨h1, h2, h3⟩ := loadFirmware_frame env disk firmwarePath s
  have hc : s.1.m_activeJobs.contains deviceId = false := by rw [hj]; rfl
  unfold updateFirmware
  simp only [hc, Bool.false_eq_true, if_false]
  by_cases hp : firmwarePath = ""
  · simp only [hp, ne_eq, not_true_eq_false, if_false, false_and]
    cases hfw : s.1.m_currentFirmware with
    | none => simp [emit, hd, hj, CoreSignal.isComplete]
    | some firmware => simp [emit, hd, hj, QMapOf.find, CoreSignal.isComplete]
  · simp only [ne_eq, hp, not_false_eq_true, if_true, true_and]
    split
    · simp [emit, h1, h2, h3, hd, hj, CoreSignal.isComplete]
    · cases hfw : (loadFirmware env disk firmwarePath s).2.1.m_currentFirmware with
      | none => simp [emit, h1, h2, h3, hd, hj, CoreSignal.isComplete]
      | some firmware =>
        simp [emit, h1, h2, h3, hd, hj, QMapOf.find, CoreSignal.isComplete]

/-- Every step of an orchestrator that knows no device and has no active job
leaves it so. -/
theorem step_empty (env : Env) (s : FlashUpCore × List CoreSignal) (input : Input)
    (hd : s.1.m_devices = []) (hj : s.1.m_activeJobs = []) :
    (step env s input).1.m_devices = [] ∧ (step env s input).1.m_activeJobs = [] ∧
    (step env s input).2.filter CoreSignal.isComplete = s.2.filter CoreSignal.isComplete := by
  cases input with
  | discoverDevices => simp [step, discoverDevices, emit, hj, CoreSignal.isComplete]
  | loadFirmware filePath disk =>
    obtain ⟨h1, h2, h3⟩ := loadFirmware_frame env disk filePath s
    exact ⟨by rw [step, h1, hd], by rw [step, h2, hj], by rw [step, h3]⟩
  | updateFirmware deviceId firmwarePath disk a b c d =>
    exact (updateFirmware_unknown env disk deviceId firmwarePath a b c d s hd hj).2
  | cancelUpdate deviceId isConnected answer =>
    simp [step, cancelUpdate, hj, QMapOf.find, emit, hd, CoreSignal.isComplete]
  | jobEvent deviceId input =>
    simp [step, deliver, hj, QMapOf.find, hd]

theorem run_empty (env : Env) (s : FlashUpCore × List CoreSignal) (inputs : List Input)
    (hd : s.1.m_devices = []) (hj : s.1.m_activeJobs = []) :
    (run env s inputs).1.m_devices = [] ∧ (run env s inputs).1.m_activeJobs = [] ∧
    (run env s inputs).2.filter CoreSignal.isComplete = s.2.filter CoreSignal.isComplete := by
  induction inputs generalizing s with
  | nil => exact ⟨hd, hj, rfl⟩
  | cons input rest ih =>
    obtain ⟨h1, h2, h3⟩ := step_empty env s input hd hj
    obtain ⟨h4, h5, h6⟩ := ih (step env s input) h1 h2
    exact ⟨h4, h5, h6.trans h3⟩

end FlashUpCore

set_option maxRecDepth 100000 in
/-- C39: after any sequence of calls of `discoverDevices`, `loadFirmware`,
`updateFirmware` and `cancelUpdate` and of events for jobs, the orchestrator
knows no device and has no active job: `availableDevices()` is empty, no
`updateComplete` has been emitted, and `updateFirmware` returns false for every
device id, firmware path and file, leaving the orchestrator without a job.
`discoverDevices` announces two devices and counts none; `updateFirmware` with
the sample file for the first of them returns false with the log
`Unknown device: usb:ttyUSB0`. -/
theorem no_device_is_ever_known :
    (∀ (env : Env) (inputs : List FlashUpCore.Input),
      (FlashUpCore.run env (FlashUpCore.create, []) inputs).1.m_devices = [] ∧
      (FlashUpCore.run env (FlashUpCore.create, []) inputs).1.availableDevices = [] ∧
      (FlashUpCore.run env (FlashUpCore.create, []) inputs).1.m_activeJobs = [] ∧
      (FlashUpCore.run env (FlashUpCore.create, []) inputs).2.filter CoreSignal.isComplete
        = [] ∧
      ∀ (disk : Option QByteArray) (deviceId firmwarePath : String)
        (cancelConnected cancelAnswer startConnected startAnswer : Bool),
        (FlashUpCore.updateFirmware env disk deviceId firmwarePath cancelConnected
          cancelAnswer startConnected startAnswer
          (FlashUpCore.run env (FlashUpCore.create, []) inputs)).1 = false ∧
        (FlashUpCore.updateFirmware env disk deviceId firmwarePath cancelConnected
          cancelAnswer startConnected startAnswer
          (FlashUpCore.run env (FlashUpCore.create, []) inputs)).2.1.m_activeJobs = []) ∧
    (FlashUpCore.discoverDevices (FlashUpCore.create, [])).2 =
      [.logMessage 1 "Starting device discovery...",
       .deviceDiscovered "usb:ttyUSB0" FlashUpCore.usbDevInfo,
       .deviceDiscovered "net:192.168.1.100" FlashUpCore.wifiDevInfo,
       .logMessage 1 "Found 0 devices"] ∧
    FlashUpCore.updateFirmware desktop (some sampleFile) "usb:ttyUSB0" "blinky.fw" false false
        true true (FlashUpCore.discoverDevices (FlashUpCore.create, [])) =
      (false,
       { FlashUpCore.create with m_currentFirmware := some samplePackage },
       [.logMessage 1 "Starting device discovery...",
        .deviceDiscovered "usb:ttyUSB0" FlashUpCore.usbDevInfo,
        .deviceDiscovered "net:192.168.1.100" FlashUpCore.wifiDevInfo,
        .logMessage 1 "Found 0 devices",
        .logMessage 1 "Loading firmware from blinky.fw",
        .logMessage 1 "Loaded firmware: blinky v1.0.2",
        .logMessage 3 "Unknown device: usb:ttyUSB0"]) := by
  refine ⟨?_, by decide, ?_⟩
  · intro env inputs
    obtain ⟨h1, h2, h3⟩ := FlashUpCore.run_empty env (FlashUpCore.create, []) inputs rfl rfl
    refine ⟨h1, by rw [FlashUpCore.availableDevices, h1]; rfl, h2, by rw [h3]; rfl, ?_⟩
    intro disk deviceId firmwarePath a b c d
    have h := FlashUpCore.updateFirmware_unknown env disk deviceId firmwarePath a b c d _ h1 h2
    exact ⟨h.1, h.2.2.1⟩
  · have hc : construct desktop (some sampleFile) = .ok samplePackage := sample_constructed
    simp only [FlashUpCore.updateFirmware, FlashUpCore.loadFirmware, hc]
    decide

/-- C40: `loadFirmware` returns a boolean for every path and every file.  When
the constructor of the package fails, with whichever of its errors, the result
is false, no firmware is loaded afterwards, whatever was loaded before, so that
`firmwareInfo()` is the empty map, and the error is logged at level 3; when the
constructor succeeds the result is true, the package is the loaded firmware and
`firmwareInfo()` is its metadata. -/
theorem load_firmware_never_throws (env : Env) (disk : Option QByteArray) (filePath : String)
    (s : FlashUpCore × List CoreSignal) :
    (∀ e, construct env disk = .error e →
      (FlashUpCore.loadFirmware env disk filePath s).1 = false ∧
      (FlashUpCore.loadFirmware env disk filePath s).2.1.m_currentFirmware = none ∧
      (FlashUpCore.loadFirmware env disk filePath s).2.1.firmwareInfo = [] ∧
      (FlashUpCore.loadFirmware env disk filePath s).2.2 =
        s.2 ++ [.logMessage 1 ("Loading firmware from " ++ filePath),
                .logMessage 3 ("Failed to load firmware: " ++ e.what)]) ∧
    (∀ firmware, construct env disk = .ok firmware →
      (FlashUpCore.loadFirmware env disk filePath s).1 = true ∧
      (FlashUpCore.loadFirmware env disk filePath s).2.1.m_currentFirmware = some firmware ∧
      (FlashUpCore.loadFirmware env disk filePath s).2.1.firmwareInfo = firmware.metadata) ∧
    (FlashUpCore.loadFirmware env disk filePath s).2.1.m_devices = s.1.m_devices ∧
    (FlashUpCore.loadFirmware env disk filePath s).2.1.m_activeJobs = s.1.m_activeJobs := by
  refine ⟨?_, ?_, (FlashUpCore.loadFirmware_frame env disk filePath s).1,
    (FlashUpCore.loadFirmware_frame env disk filePath s).2.1⟩
  · intro e he
    simp [FlashUpCore.loadFirmware, he, FlashUpCore.emit, FlashUpCore.firmwareInfo]
  · intro firmware hf
    simp [FlashUpCore.loadFirmware, hf, FlashUpCore.emit, FlashUpCore.firmwareInfo]

set_option maxRecDepth 100000 in
/-- Instance of C40: the sample file is loaded and `firmwareInfo()` is its
metadata; a file of three bytes loaded after it is refused and leaves no
firmware loaded. -/
theorem load_firmware_never_throws_witness :
    (FlashUpCore.loadFirmware desktop (some sampleFile) "blinky.fw"
      (FlashUpCore.create, [])).1 = true ∧
    (FlashUpCore.loadFirmware desktop (some sampleFile) "blinky.fw"
      (FlashUpCore.create, [])).2.1.firmwareInfo = samplePackage.metadata ∧
    (FlashUpCore.loadFirmware desktop (some [1, 2, 3]) "notes.txt"
      (FlashUpCore.loadFirmware desktop (some sampleFile) "blinky.fw"
        (FlashUpCore.create, [])).2).1 = false ∧
    (FlashUpCore.loadFirmware desktop (some [1, 2, 3]) "notes.txt"
      (FlashUpCore.loadFirmware desktop (some sampleFile) "blinky.fw"
        (FlashUpCore.create, [])).2).2.1.firmwareInfo = [] :=
  ⟨((load_firmware_never_throws desktop (some sampleFile) "blinky.fw"
      (FlashUpCore.create, [])).2.1 samplePackage sample_constructed).1,
   ((load_firmware_never_throws desktop (some sampleFile) "blinky.fw"
      (FlashUpCore.create, [])).2.1 samplePackage sample_constructed).2.2,
   ((load_firmware_never_throws desktop (some [1, 2, 3]) "notes.txt" _).1
      .InvalidFormat (by decide)).1,
   ((load_firmware_never_throws desktop (some [1, 2, 3]) "notes.txt" _).1
      .InvalidFormat (by decide)).2.2.1⟩

namespace FlashUpCore

/-- The slots pass on every signal of the job as one signal of the
orchestrator, in order, and leave devices and firmware as they are. -/
theorem forwardAll_signals (deviceId : String) (s : FlashUpCore × List CoreSignal)
    (effects : List Effect) :
    (forwardAll deviceId s effects).2 = s.2 ++ effects.filterMap (forwarded deviceId) ∧
    (forwardAll deviceId s effects).1.m_devices = s.1.m_devices ∧
    (forwardAll deviceId s effects).1.m_currentFirmware = s.1.m_currentFirmware := by
  induction effects generalizing s with
  | nil => simp [forwardAll]
  | cons e rest ih =>
    have h := ih (forward deviceId s e)
    simp only [forwardAll, List.foldl_cons] at h ⊢
    rw [h.1, h.2.1, h.2.2]
    cases e <;> simp [forward, forwarded, emit]

/-- The `updateComplete` signals that the slots emit are those that answer the
`completed` signals of the job, one for each. -/
theorem forwardAll_complete (deviceId : String) (s : FlashUpCore × List CoreSignal)
    (effects : List Effect) :
    (forwardAll deviceId s effects).2.filter CoreSignal.isComplete =
      s.2.filter CoreSignal.isComplete ++
        (effects.filter Effect.isCompleted).filterMap (forwarded deviceId) := by
  rw [(forwardAll_signals deviceId s effects).1, List.filter_append]
  congr 1
  induction effects with
  | nil => rfl
  | cons e rest ih =>
    cases e <;>
      simp [forwarded, CoreSignal.isComplete, Effect.isCompleted, ih, List.filterMap_cons]

/-- The `completed` signals of `cancel()` on a job that is not in a terminal
state. -/
theorem cancel_completed (job : UpdateJob) (isConnected answer : Bool)
    (h : job.m_state.isTerminal = false) :
    ((job.cancel isConnected).resolve answer).2.filter Effect.isCompleted =
      [Effect.completed false "Update canceled"] := by
  have hne : ¬(job.m_state = .Complete ∨ job.m_state = .Failed ∨ job.m_state = .Canceled) := by
    intro hs
    rcases hs with hs | hs | hs <;> rw [hs] at h <;> cases h
  cases isConnected <;>
    simp [UpdateJob.cancel, hne, UpdateJob.Pending.resolve, UpdateJob.setState,
      Effect.isCompleted]
  all_goals split <;> simp [Effect.isCompleted]

/-- For every orchestrator that has an active job in a state that is not
terminal for a device, `cancelUpdate` for the device returns true, leaves the
device without an active job, and emits two `updateComplete` signals: the one
that answers the `completed` signal of the job and one of its own. -/
theorem cancelUpdate_active (deviceId : String) (isConnected answer : Bool)
    (s : FlashUpCore × List CoreSignal) (job : UpdateJob)
    (hjob : s.1.m_activeJobs.find deviceId = some (some job))
    (hrun : job.m_state.isTerminal = false) :
    (cancelUpdate deviceId isConnected answer s).1 = true ∧
    (cancelUpdate deviceId isConnected answer s).2.2.filter CoreSignal.isComplete =
      s.2.filter CoreSignal.isComplete ++
        [.updateComplete deviceId false "Update canceled",
         .updateComplete deviceId false "Update canceled by user"] := by
  simp only [cancelUpdate, hjob, ran, emit, true_and]
  rw [List.filter_append, forwardAll_complete, cancel_completed job isConnected answer hrun]
  simp [CoreSignal.isComplete, forwarded, List.filter_append]

/-- An event for the active job of a device: the `updateComplete` signals that
the orchestrator emits are those that answer the `completed` signals of the
job, one for each. -/
theorem deliver_complete (deviceId : String) (input : UpdateJob.Input)
    (s : FlashUpCore × List CoreSignal) (job : UpdateJob)
    (hjob : s.1.m_activeJobs.find deviceId = some (some job)) :
    (deliver deviceId input s).2.filter CoreSignal.isComplete =
      s.2.filter CoreSignal.isComplete ++
        ((job.step input).2.filter Effect.isCompleted).filterMap (forwarded deviceId) := by
  simp only [deliver, hjob, ran]
  rw [forwardAll_complete]

end FlashUpCore

end Flash
